import Mathlib

/-!
# ff-engine: the DirectX 12 device manager (`source/ff.dx12/source/globals.cpp`)

A shallow embedding of the file-static globals of `globals.cpp` and of the
functions that act on them.  The globals become one record, `Globals`; every
function of the source becomes a function on that record.  Calls into the
operating system (DXGI, D3D12) read their answers from the objects they are
made on (`Factory`, `Adapter`, `Device`) or from `Env`.  Everything observable
that the code does (log lines, failed assertions, calls of device-child
callbacks, registry changes, released resources) is appended to
`Globals.trace`.
-/

namespace ff

/-! ## Faults -/

/-- Ways in which running the model can stop without a result. -/
inductive Fault where
  /-- A null pointer was dereferenced (undefined behaviour in the source). -/
  | null_deref
  /-- The recursion budget of the model was used up. -/
  | out_of_fuel
  /-- The end iterator of a container was dereferenced (undefined behaviour in the source). -/
  | end_deref
  deriving DecidableEq, Repr

/-! ## HRESULT -/

/-- The Windows `S_OK`. -/
def S_OK : Int := 0

/-- The Windows `FAILED(hr)` test: the sign bit of the HRESULT is set. -/
def FAILED (hr : Int) : Bool := decide (hr < 0)

/-- The Windows `SUCCEEDED(hr)` test. -/
def SUCCEEDED (hr : Int) : Bool := decide (0 ≤ hr)

/-! ## Platform objects -/

/-- The `DXGI_QUERY_VIDEO_MEMORY_INFO` record (the two members the source reads). -/
structure DXGI_QUERY_VIDEO_MEMORY_INFO where
  Budget : Nat
  CurrentUsage : Nat
  deriving DecidableEq, Repr

/-- An `ID3D12Device1`, described by what the source asks of it. -/
structure Device where
  /-- Result of `GetDeviceRemovedReason()`. -/
  removed_reason : Int
  /-- Result of `GetAdapterLuid()`. -/
  adapter_luid : Nat
  /-- Whether `As(&device5)` (query for `ID3D12Device5`) succeeds. -/
  device5 : Bool
  /-- Result of `GetNodeCount()`. -/
  node_count : Nat
  deriving DecidableEq, Repr

/-- The `DXGI_ADAPTER_DESC` record (the three members the source reads). -/
structure DXGI_ADAPTER_DESC where
  Description : String
  VendorId : Nat
  DeviceId : Nat
  deriving DecidableEq, Repr

/-- An `IDXGIAdapter`, described by what the source asks of it. -/
structure Adapter where
  luid : Nat
  /-- Result of `GetDesc`, when it succeeds. -/
  desc : Option DXGI_ADAPTER_DESC
  /-- Result of `D3D12CreateDevice(adapter, feature_level, ..)` per feature level. -/
  create_device : Nat → Option Device
  /-- Whether `As(&adapter3)` (query for `IDXGIAdapter3`) succeeds. -/
  adapter3 : Bool
  /-- Result of `ff::dxgi::get_video_memory_info(adapter)`. -/
  video_memory_info : DXGI_QUERY_VIDEO_MEMORY_INFO
  /-- Result of `RegisterVideoMemoryBudgetChangeNotificationEvent`: the cookie on success. -/
  register_budget_event : Option Nat

/-- An `IDXGIFactory2`, described by what the source asks of it. -/
structure Factory where
  /-- Result of `IsCurrent()`. -/
  is_current : Bool
  /-- Whether `As(&factory4)` for `IDXGIFactory4` succeeds. -/
  factory4 : Bool
  /-- Whether `As(&factory6)` for `IDXGIFactory6` succeeds. -/
  factory6 : Bool
  /-- The adapters `EnumAdapterByGpuPreference(i, HIGH_PERFORMANCE, ..)` yields for `i = 0, 1, ..`. -/
  adapters_by_gpu_preference : List Adapter
  /-- The adapters `EnumAdapters(i, ..)` yields for `i = 0, 1, ..`. -/
  adapters : List Adapter
  /-- Result of `EnumWarpAdapter`. -/
  warp_adapter : Option Adapter
  /-- Result of `EnumAdapterByLuid`. -/
  adapter_by_luid : Nat → Option Adapter
  /-- Result of `ff::dxgi::get_adapters_hash(factory)`. -/
  adapters_hash : Nat
  /-- Result of `ff::dxgi::get_outputs_hash(factory, adapter)`. -/
  outputs_hash : Option Adapter → Nat

/-- A `ff::win_handle` holding an event. -/
structure win_handle where
  /-- Result of `ff::is_event_set`. -/
  is_set : Bool
  deriving DecidableEq, Repr

/-- What the platform answers to calls that are made on no object. -/
structure Env where
  /-- Result of `ff::dxgi::create_factory()`. -/
  create_factory : Option Factory
  /-- Result of `ff::win_handle::create_event()`; `none` is a null handle, which is what the
  call returns when `CreateEventEx` fails. -/
  create_event : Option win_handle

/-! ## Fences, queues, resources -/

/-- A `ff::dx12::resource`, by identity. -/
abbrev resource := Nat

/-- Modelled from the spec: `ff::dx12::fence_values` (fence_values.h is not among the
sources), a snapshot of one awaited value per fence. -/
structure fence_values where
  /-- Pairs `(fence, value)`. -/
  values : List (Nat × Nat)
  deriving DecidableEq, Repr

/-- Modelled from the spec: `fence_values::complete()` (fence_values.h is not among the
sources): "a FenceValues is complete iff every queue's recorded value has been reached".
`completed f` is the completion counter of fence `f`. -/
def fence_values.complete (fv : fence_values) (completed : Nat → Nat) : Bool :=
  fv.values.all (fun p => decide (p.2 ≤ completed p.1))

/-- Modelled from the spec: a `ff::dx12::queue` (queue.h is not among the sources), with the
fence it owns and the last fence value it submitted. -/
structure queue where
  fence : Nat
  last_submitted : Nat
  deriving DecidableEq, Repr

/-- Modelled from the spec: `ff::dx12::queues` (queues.h is not among the sources): the
direct, copy and compute queues. -/
structure queues where
  direct : queue
  copy : queue
  compute : queue
  deriving DecidableEq, Repr

/-- The D3D12 descriptor heap types, `D3D12_DESCRIPTOR_HEAP_TYPE_*`. -/
inductive D3D12_DESCRIPTOR_HEAP_TYPE where
  | CBV_SRV_UAV
  | SAMPLER
  | RTV
  | DSV
  deriving DecidableEq, Repr

/-- The `ff::dx12::heap::usage_t` values the source uses. -/
inductive usage_t where
  | upload
  | readback
  | gpu_buffers
  | gpu_textures
  | gpu_targets
  deriving DecidableEq, Repr

/-- A `ff::dx12::mem_allocator_ring`, by its constructor arguments. -/
structure mem_allocator_ring where
  initial_size : Nat
  usage : usage_t
  deriving DecidableEq, Repr

/-- A `ff::dx12::mem_allocator`, by its constructor arguments. -/
structure mem_allocator where
  initial_size : Nat
  max_size : Nat
  usage : usage_t
  deriving DecidableEq, Repr

/-- A `ff::dx12::cpu_descriptor_allocator`, by its constructor arguments. -/
structure cpu_descriptor_allocator where
  type : D3D12_DESCRIPTOR_HEAP_TYPE
  bucket_size : Nat
  deriving DecidableEq, Repr

/-- A `ff::dx12::gpu_descriptor_allocator`, by its constructor arguments. -/
structure gpu_descriptor_allocator where
  type : D3D12_DESCRIPTOR_HEAP_TYPE
  pinned_size : Nat
  ring_size : Nat
  deriving DecidableEq, Repr

/-! ## Trace -/

/-- The categories of `ff::log::type` the source writes to. -/
inductive log_type where
  | dx12
  | dx12_residency
  deriving DecidableEq, Repr

/-- What the code observably does, in order. -/
inductive Event where
  /-- A call of `ff::log::write`. -/
  | log (type : log_type) (message : String)
  /-- A failed `assert`, `assert_ret_val`, `assert_hr_ret_val`, `debug_fail_msg` or
  `write_debug_fail`. -/
  | assert_failed
  /-- The call `child->before_reset(allocator)`. -/
  | before_reset (child : Nat)
  /-- The call `child->reset(reset_data)`. -/
  | reset (child : Nat) (reset_data : Nat)
  /-- The value `child->reset(..)` returned. -/
  | reset_returned (child : Nat) (result : Bool)
  /-- The call `child->after_reset()`. -/
  | after_reset (child : Nat)
  /-- The value `child->after_reset()` returned. -/
  | after_reset_returned (child : Nat) (result : Bool)
  /-- A call of `ff::dx12::add_device_child`. -/
  | add_device_child (child : Nat) (reset_priority : Int)
  /-- A call of `ff::dx12::remove_device_child`. -/
  | remove_device_child (child : Nat)
  /-- A kept-alive resource is let go: popped by `flush_keep_alive`, or not taken by
  `keep_alive_resource`.  `complete` is what `fv.complete()` answers at that moment. -/
  | release (r : resource) (fv : fence_values) (complete : Bool)
  /-- The call `UnregisterVideoMemoryBudgetChangeNotification(cookie)`. -/
  | unregister_budget_event (cookie : Nat)
  /-- The call `destroy_d3d(for_reset)`: the device is torn down. -/
  | destroy_d3d (for_reset : Bool)
  /-- The value `init_d3d(for_reset)` returned: the device was or was not recreated. -/
  | init_d3d (for_reset : Bool) (result : Bool)
  /-- The call `direct_queue().begin_event(gpu_event::render_frame)`. -/
  | begin_event
  /-- The call `dxgi_host().on_frame_started(commands)`. -/
  | on_frame_started (commands : Nat)
  /-- The call `frame_complete_signal.notify(frame_count)`. -/
  | frame_complete_signal (frame_count : Nat)
  /-- The call `direct_queue().end_event()`. -/
  | end_event
  /-- The call `dxgi_host().on_frame_complete()`. -/
  | on_frame_complete
  /-- The call `device5->RemoveDevice()`. -/
  | remove_device
  deriving DecidableEq, Repr

/-! ## The globals -/

/-- One element of `sorted_children` in `reset_device`: the local struct `device_child_t`. -/
structure device_child_t where
  /-- The child pointer; `none` is `nullptr`. -/
  child : Option Nat
  /-- The pointer `before_reset` returned; `0` is `nullptr`. -/
  reset_data : Nat
  deriving DecidableEq, Repr

/-- The file-static variables of `globals.cpp`, the function-static `resetting` of
`reset_device`, the fence counters of the GPU, and the trace. -/
structure Globals where
  -- DX12 globals
  device : Option Device
  adapter : Option Adapter
  factory : Option Factory
  /-- The pointer `::host_functions`, by identity. -/
  host_functions : Option Nat
  feature_level : Nat
  adapters_hash : Nat
  outputs_hash : Nat
  -- Device children
  /-- The intrusive list from `first_device_child` to `last_device_child`. -/
  device_children : List Nat
  /-- The member `device_child_reset_priority_` of each child. -/
  device_child_reset_priority_ : Nat → Int
  /-- The handlers connected to `removed_device_child_signal`, latest first.  The only handler
  the source connects is the lambda of `reset_device`, which captures that call's
  `sorted_children` by reference: each handler is given as the vector it captured. -/
  removed_device_child_signal : List (List device_child_t)
  -- Frame data
  /-- The pointer `::frame_commands`, by identity. -/
  frame_commands : Option Nat
  frame_count : Nat
  -- GPU memory residency
  video_memory_change_event : Option win_handle
  video_memory_change_event_cookie : Nat
  video_memory_info : DXGI_QUERY_VIDEO_MEMORY_INFO
  /-- The residency fence, by its name. -/
  residency_fence : Option String
  -- Resource keep alive until unused by GPU
  keep_alive_resources : List (resource × fence_values)
  /-- The draw device, by identity. -/
  draw_device : Option Nat
  /-- The object cache, by identity. -/
  object_cache : Option Nat
  queues : Option queues
  cpu_descriptor_allocators : D3D12_DESCRIPTOR_HEAP_TYPE → Option cpu_descriptor_allocator
  gpu_descriptor_allocators : D3D12_DESCRIPTOR_HEAP_TYPE → Option gpu_descriptor_allocator
  upload_allocator : Option mem_allocator_ring
  readback_allocator : Option mem_allocator_ring
  dynamic_buffer_allocator : Option mem_allocator_ring
  static_buffer_allocator : Option mem_allocator
  texture_allocator : Option mem_allocator
  target_allocator : Option mem_allocator
  /-- The function-static `resetting` of `reset_device`. -/
  resetting : Bool
  /-- The completion counter of each fence. -/
  fence_completed : Nat → Nat
  env : Env
  trace : List Event

/-- Append one event to the trace. -/
def Globals.emit (g : Globals) (e : Event) : Globals :=
  { g with trace := g.trace ++ [e] }

/-- A debug `assert(cond)`: a failed one is put on the trace, and the code goes on. -/
def debug_assert (cond : Bool) (g : Globals) : Globals :=
  if cond then g else g.emit .assert_failed

/-! ## Keep-alive list -/

/-- The loop of `flush_keep_alive` on the list: pop the front entry while it is complete. -/
def flush_keep_alive.loop (completed : Nat → Nat) :
    List (resource × fence_values) → List (resource × fence_values)
  | [] => []
  | entry :: rest =>
    if entry.2.complete completed then flush_keep_alive.loop completed rest
    else entry :: rest

/-- The release events of the entries the loop of `flush_keep_alive` pops, in order. -/
def flush_keep_alive.popped (completed : Nat → Nat) :
    List (resource × fence_values) → List Event
  | [] => []
  | entry :: rest =>
    if entry.2.complete completed then
      Event.release entry.1 entry.2 (entry.2.complete completed) ::
        flush_keep_alive.popped completed rest
    else []

/-- The static `flush_keep_alive()`. -/
def flush_keep_alive (g : Globals) : Globals :=
  { g with
    keep_alive_resources := flush_keep_alive.loop g.fence_completed g.keep_alive_resources
    trace := g.trace ++ flush_keep_alive.popped g.fence_completed g.keep_alive_resources }

/-- The function `ff::dx12::keep_alive_resource(resource, fence_values)`. -/
def keep_alive_resource (r : resource) (fv : fence_values) (g : Globals) : Globals :=
  if !fv.complete g.fence_completed then
    { g with keep_alive_resources := g.keep_alive_resources ++ [(r, fv)] }
  else
    g.emit (Event.release r fv (fv.complete g.fence_completed))

/-- Modelled from the spec: `queue::wait_for_idle()` (queue.h is not among the sources),
which "blocks calling thread until the queue's fence reaches the last submitted value". -/
def queue.wait_for_idle (q : queue) (completed : Nat → Nat) : Nat → Nat :=
  fun f => if f = q.fence then max (completed f) q.last_submitted else completed f

/-- Modelled from the spec: `queues::wait_for_idle()` (queues.h is not among the sources):
every queue is waited for. -/
def queues.wait_for_idle (qs : queues) (completed : Nat → Nat) : Nat → Nat :=
  qs.compute.wait_for_idle (qs.copy.wait_for_idle (qs.direct.wait_for_idle completed))

/-- The function `ff::dx12::wait_for_idle()`. -/
def wait_for_idle (g : Globals) : Except Fault Globals :=
  match g.queues with
  | none => .error .null_deref
  | some qs => .ok (flush_keep_alive { g with fence_completed := qs.wait_for_idle g.fence_completed })

/-- Modelled from the spec: `queue::new_commands()` (queue.h is not among the sources): a new
command-recording context of the queue, named here by the fence of the queue. -/
def queue.new_commands (q : queue) : Nat :=
  q.fence

/-! ## Device creation and teardown -/

/-- The static `adapter_name(adapter)`: the description, or `""` after a failed assertion. -/
def adapter_name (a : Adapter) (g : Globals) : String × Globals :=
  match a.desc with
  | some desc => (desc.Description, g)
  | none => ("", g.emit .assert_failed)

/-- The enumeration loop of `create_dx12_device` (lines 80-92): log each adapter and collect
it; the result is the collected vector, `found_warp`, and the globals (for the log). -/
def create_dx12_device.enumerate :
    List Adapter → List Adapter → Bool → Globals → List Adapter × Bool × Globals
  | [], adapters, found_warp, g => (adapters, found_warp, g)
  | adapter :: more, adapters, found_warp, g =>
    let name := adapter_name adapter g
    let g := name.2.emit (.log .dx12 ("Adapter[" ++ toString adapters.length ++ "] = " ++ name.1))
    let found_warp :=
      match adapter.desc with
      | some desc => if desc.VendorId = 0x1414 ∧ desc.DeviceId = 0x008c then true else found_warp
      | none => found_warp
    create_dx12_device.enumerate more (adapters ++ [adapter]) found_warp g

/-- The block of `create_dx12_device` that adds the WARP adapter (lines 94-98).  The
`factory4` of the source is a `ComPtr<IDXGIFactory6>`, so it is non-null exactly when the
factory is an `IDXGIFactory6`. -/
def create_dx12_device.add_warp (factory : Factory) (found : List Adapter × Bool × Globals) :
    List Adapter × Globals :=
  if !found.2.1 && factory.factory6 then
    match factory.warp_adapter with
    | some adapter =>
      let name := adapter_name adapter found.2.2
      (found.1 ++ [adapter],
       name.2.emit (.log .dx12 ("Adapter[" ++ toString found.1.length ++ "] = " ++ name.1)))
    | none => (found.1, found.2.2)
  else (found.1, found.2.2)

/-- The creation loop of `create_dx12_device` (lines 101-113): the first adapter, from index
`i` on, on which `D3D12CreateDevice` succeeds. -/
def create_dx12_device.create (feature_level : Nat) :
    List Adapter → Nat → Globals → Option Device × Globals
  | [], _, g =>
    (none, (g.emit (.log .dx12 "D3D12CreateDevice failed")).emit .assert_failed)
  | adapter :: more, i, g =>
    match adapter.create_device feature_level with
    | some device =>
      (some device, g.emit (.log .dx12 ("D3D12CreateDevice succeeded, adapter index=" ++
        toString i ++ ", node count=" ++ toString device.node_count)))
    | none => create_dx12_device.create feature_level more (i + 1) g

/-- The static `create_dx12_device()`. -/
def create_dx12_device (g : Globals) : Except Fault (Option Device × Globals) :=
  match g.factory with
  | none => .error .null_deref
  | some factory =>
    let found := create_dx12_device.enumerate
      (if factory.factory6 then factory.adapters_by_gpu_preference else factory.adapters)
      [] false g
    let adapters := create_dx12_device.add_warp factory found
    .ok (create_dx12_device.create g.feature_level adapters.1 0 adapters.2)

/-- The static `update_video_memory_info()`.  `ff::dxgi::get_video_memory_info` is not among
the sources: it is read from the adapter, and is the zero record for a null adapter. -/
def update_video_memory_info (g : Globals) : Globals :=
  if g.video_memory_change_event.isNone ∨ g.video_memory_change_event = some ⟨true⟩ then
    let info : DXGI_QUERY_VIDEO_MEMORY_INFO :=
      match g.adapter with
      | some a => a.video_memory_info
      | none => ⟨0, 0⟩
    let g := { g with video_memory_info := info }
    let g :=
      match g.video_memory_change_event with
      | some _ => { g with video_memory_change_event := some ⟨false⟩ }
      | none => g
    g.emit (.log .dx12_residency ("Video memory budget:" ++ toString info.Budget ++
      " bytes, Usage:" ++ toString info.CurrentUsage ++ " bytes"))
  else g

/-- The static `init_dxgi()`. -/
def init_dxgi (g : Globals) : Bool × Globals :=
  let g := { g with factory := g.env.create_factory }
  match g.factory with
  | none => (false, g.emit .assert_failed)
  | some factory => (true, { g with adapters_hash := factory.adapters_hash })

/-- The static `destroy_dxgi()`. -/
def destroy_dxgi (g : Globals) : Globals :=
  { g with adapters_hash := 0, factory := none }

/-- The block `if (!for_reset) { .. }` of `init_d3d` (lines 240-260): the allocators, the
queues, the object cache, the draw device and the residency fence are created. -/
def init_d3d.create_objects (g : Globals) : Globals :=
  let one_meg := 1024 * 1024
  { g with
    upload_allocator := some ⟨one_meg, .upload⟩
    readback_allocator := some ⟨one_meg, .readback⟩
    dynamic_buffer_allocator := some ⟨one_meg, .gpu_buffers⟩
    static_buffer_allocator := some ⟨one_meg, one_meg * 8, .gpu_buffers⟩
    texture_allocator := some ⟨one_meg * 4, one_meg * 32, .gpu_textures⟩
    target_allocator := some ⟨one_meg * 16, one_meg * 128, .gpu_targets⟩
    cpu_descriptor_allocators := fun t =>
      match t with
      | .CBV_SRV_UAV => some ⟨.CBV_SRV_UAV, 256⟩
      | .SAMPLER => some ⟨.SAMPLER, 32⟩
      | .RTV => some ⟨.RTV, 32⟩
      | .DSV => some ⟨.DSV, 32⟩
    gpu_descriptor_allocators := fun t =>
      match t with
      | .CBV_SRV_UAV => some ⟨.CBV_SRV_UAV, 256, 7936⟩
      | .SAMPLER => some ⟨.SAMPLER, 128, 1920⟩
      | .RTV => g.gpu_descriptor_allocators .RTV
      | .DSV => g.gpu_descriptor_allocators .DSV
    queues := some ⟨⟨0, 0⟩, ⟨1, 0⟩, ⟨2, 0⟩⟩
    object_cache := some 0
    draw_device := some 0
    residency_fence := some "Memory residency fence" }

/-- The member function `win_handle::close()` (win_handle.cpp, lines 101-135), called on
`::video_memory_change_event`.  A null handle takes the `else` branch, which leaves it null.
A handle that is not null is an event that `win_handle::create_event()` made, of type
`handle_type::event`: `close()` looks it up in `dupe_event_count` and dereferences what `find`
yields.  No function of win_handle.cpp gives a handle its first entry in that map (the only
insertion, the `try_emplace` of `duplicate`, runs for a source handle that has an entry; see
`win_handle.map_stays_empty`), so `find` yields `end()`, as `win_handle.close` has it for a
handle that is not a key of the map. -/
def video_memory_change_event.close (g : Globals) : Except Fault Globals :=
  match g.video_memory_change_event with
  | none => .ok g
  | some _ => .error .end_deref

/-- The block "Video memory for residency" of `init_d3d` and what follows it (lines 227-262),
for the adapter that was found.  The move assignment of line 232 closes the handle that
`::video_memory_change_event` held before it takes the new one. -/
def init_d3d.video_memory (for_reset : Bool) (adapter : Adapter) (g : Globals) :
    Except Fault (Bool × Globals) :=
  if !adapter.adapter3 then .ok (false, g.emit .assert_failed) else
  let g := update_video_memory_info g
  let event := g.env.create_event
  match video_memory_change_event.close g with
  | .error e => .error e
  | .ok g =>
  let g := { g with video_memory_change_event := event }
  match adapter.register_budget_event with
  | some cookie =>
    let g := { g with video_memory_change_event_cookie := cookie }
    .ok (true, if !for_reset then init_d3d.create_objects g else g)
  | none =>
    match video_memory_change_event.close g with
    | .error e => .error e
    | .ok g =>
      let g := { g with video_memory_change_event_cookie := 0 }
      .ok (true, if !for_reset then init_d3d.create_objects g else g)

/-- The block "Find the physical adapter for the logical device" of `init_d3d` and what
follows it (lines 215-262), for the device that was created. -/
def init_d3d.find_adapter (for_reset : Bool) (device : Device) (g : Globals) :
    Except Fault (Bool × Globals) :=
  match g.factory with
  | none => .error .null_deref
  | some factory =>
    if !factory.factory4 then .ok (false, g.emit .assert_failed) else
    let g := debug_assert (!g.adapter.isSome) g
    match factory.adapter_by_luid device.adapter_luid with
    | none => .ok (false, g.emit .assert_failed)
    | some adapter =>
      let g := { g with adapter := some adapter }
      let g := { g with outputs_hash := factory.outputs_hash g.adapter }
      let name := adapter_name adapter g
      init_d3d.video_memory for_reset adapter
        (name.2.emit (.log .dx12 ("Final adapter: " ++ name.1)))

/-- The body of the static `init_d3d(for_reset)`.  The two blocks guarded by
`DEBUG && IsDebuggerPresent()` only configure the debug layer and the info queue and are
left out. -/
def init_d3d.body (for_reset : Bool) (g : Globals) : Except Fault (Bool × Globals) :=
  -- Create the logical device
  match create_dx12_device (debug_assert (!g.device.isSome) g) with
  | .error e => .error e
  | .ok (none, g) => .ok (false, { g with device := none }.emit .assert_failed)
  | .ok (some device, g) => init_d3d.find_adapter for_reset device { g with device := some device }

/-- The static `init_d3d(for_reset)`: its body, and the returned value put on the trace. -/
def init_d3d (for_reset : Bool) (g : Globals) : Except Fault (Bool × Globals) :=
  match init_d3d.body for_reset g with
  | .error e => .error e
  | .ok (result, g) => .ok (result, g.emit (.init_d3d for_reset result))

/-- The block `if (!for_reset) { .. }` of `destroy_d3d` (lines 271-294). -/
def destroy_d3d.reset_objects (g : Globals) : Globals :=
  { g with
    draw_device := none
    cpu_descriptor_allocators := fun _ => none
    gpu_descriptor_allocators := fun _ => none
    upload_allocator := none
    readback_allocator := none
    dynamic_buffer_allocator := none
    static_buffer_allocator := none
    texture_allocator := none
    target_allocator := none
    queues := none
    object_cache := none
    residency_fence := none }

/-- The block `if (::video_memory_change_event) { .. }` of `destroy_d3d` (lines 296-307). -/
def destroy_d3d.unregister (g : Globals) : Except Fault Globals :=
  if g.video_memory_change_event.isSome then
    match g.adapter with
    | none => .error .null_deref
    | some adapter =>
      let g :=
        if adapter.adapter3 then
          g.emit (.unregister_budget_event g.video_memory_change_event_cookie)
        else g
      video_memory_change_event.close { g with
        video_memory_change_event_cookie := 0
        video_memory_info := ⟨0, 0⟩ }
  else .ok g

/-- The static `destroy_d3d(for_reset)`. -/
def destroy_d3d (for_reset : Bool) (g : Globals) : Except Fault Globals :=
  match wait_for_idle (debug_assert (!g.frame_commands.isSome) (g.emit (.destroy_d3d for_reset))) with
  | .error e => .error e
  | .ok g =>
    match destroy_d3d.unregister (if !for_reset then destroy_d3d.reset_objects g else g) with
    | .error e => .error e
    | .ok g => .ok { g with outputs_hash := 0, adapter := none, device := none }

/-- The function `ff::dx12::init_globals(host_functions, feature_level)`. -/
def init_globals (host_functions : Nat) (feature_level : Nat) (g : Globals) :
    Except Fault (Bool × Globals) :=
  let g := { g with host_functions := some host_functions, feature_level := feature_level }
  match init_dxgi g with
  | (false, g) => .ok (false, g.emit .assert_failed)
  | (true, g) =>
  match init_d3d false g with
  | .error e => .error e
  | .ok (false, g) => .ok (false, g.emit .assert_failed)
  | .ok (true, g) => .ok (true, g)

/-- The function `ff::dx12::destroy_globals()`. -/
def destroy_globals (g : Globals) : Except Fault Globals :=
  match destroy_d3d false g with
  | .error e => .error e
  | .ok g =>
  let g := destroy_dxgi g
  .ok { g with feature_level := 0, host_functions := none }

/-! ## Frames -/

/-- The function `ff::dx12::frame_started()`.  `direct_queue()` dereferences `::queues` and
`ff::dxgi_host()` dereferences `::host_functions`. -/
def frame_started (g : Globals) : Except Fault Globals :=
  let g := update_video_memory_info
    (flush_keep_alive (debug_assert (!g.frame_commands.isSome) g))
  match g.queues with
  | none => .error .null_deref
  | some qs =>
    let g := g.emit .begin_event
    let g := { g with frame_commands := some qs.direct.new_commands }
    match g.host_functions with
    | none => .error .null_deref
    | some _ => .ok (g.emit (.on_frame_started qs.direct.new_commands))

/-- The function `ff::dx12::frame_count()`. -/
def frame_count (g : Globals) : Nat :=
  g.frame_count

/-- The function `ff::dx12::device_valid()`, which dereferences `::device`. -/
def device_valid (g : Globals) : Except Fault Bool :=
  match g.device with
  | none => .error .null_deref
  | some device => .ok (decide (device.removed_reason = S_OK))

/-- The code `DXGI_ERROR_DEVICE_REMOVED` (`0x887A0005`) as a signed 32-bit `HRESULT`. -/
def DXGI_ERROR_DEVICE_REMOVED : Int := -2005270523

/-- The call `device5->RemoveDevice()`: from then on `GetDeviceRemovedReason()` of the device
answers `DXGI_ERROR_DEVICE_REMOVED`. -/
def Device.RemoveDevice (device : Device) : Device :=
  { device with removed_reason := DXGI_ERROR_DEVICE_REMOVED }

/-- The function `ff::dx12::device_fatal_error(reason)`.  `::device.As(&device5)` and
`device_valid()` dereference `::device`. -/
def device_fatal_error (reason : String) (g : Globals) : Except Fault Globals :=
  match g.device with
  | none => .error .null_deref
  | some device =>
    if device.device5 then
      let g := g.emit (.log .dx12 ("Removing DX12 device after fatal error: " ++ reason))
      match device_valid g with
      | .error e => .error e
      | .ok true => .ok { g.emit .remove_device with device := some device.RemoveDevice }
      | .ok false => .ok g
    else
      .ok ((g.emit (.log .dx12 ("DX12 device does not support removal" ++ reason))).emit
        .assert_failed)

/-! ## Device children -/

/-- Modelled from the spec: `ff::intrusive_list::add_back(first, last, child)` (the
intrusive list is not among the sources): the child becomes the last element. -/
def intrusive_list.add_back (list : List Nat) (child : Nat) : List Nat :=
  list ++ [child]

/-- Modelled from the spec: `ff::intrusive_list::remove(first, last, child)` (the intrusive
list is not among the sources): the child is unlinked. -/
def intrusive_list.remove (list : List Nat) (child : Nat) : List Nat :=
  list.erase child

/-- The function `ff::dx12::add_device_child(child, reset_priority)`. -/
def add_device_child (child : Nat) (reset_priority : Int) (g : Globals) : Globals :=
  let g := g.emit (.add_device_child child reset_priority)
  let g := { g with
    device_child_reset_priority_ := Function.update g.device_child_reset_priority_ child reset_priority }
  { g with device_children := intrusive_list.add_back g.device_children child }

/-- The lambda that `reset_device` connects to `removed_device_child_signal`, on the
`sorted_children` it captured: the first slot holding `child` is set to null. -/
def reset_device.removed_handler (child : Nat) : List device_child_t → List device_child_t
  | [] => []
  | i :: more =>
    if i.child = some child then { i with child := none } :: more
    else i :: reset_device.removed_handler child more

/-- The function `ff::dx12::remove_device_child(child)`.  `ff::signal::notify` is not among
the sources: it calls every connected handler. -/
def remove_device_child (child : Nat) (g : Globals) : Globals :=
  let g := g.emit (.remove_device_child child)
  let g := { g with device_children := intrusive_list.remove g.device_children child }
  { g with removed_device_child_signal :=
      g.removed_device_child_signal.map (reset_device.removed_handler child) }

/-- What the code of a device child's callback can do to the globals. -/
inductive Action where
  | add_device_child (child : Nat) (reset_priority : Int)
  | remove_device_child (child : Nat)
  | reset_device (force : Bool)

/-- The virtual callbacks of a `ff::dxgi::device_child_base`.  Each one sees the globals as
they are when it is called, does a list of actions on them, and returns a value. -/
structure device_child_base where
  /-- The method `before_reset(allocator)`: the actions, and the pointer returned. -/
  before_reset : Globals → List Action × Nat
  /-- The method `reset(reset_data)`: the actions, and the value returned. -/
  reset : Nat → Globals → List Action × Bool
  /-- The method `after_reset()`: the actions, and the value returned. -/
  after_reset : Globals → List Action × Bool

/-- The `operator<` of the local struct `device_child_t`.  It reads the priority through the
child pointer, which is never null where the source sorts. -/
def device_child_t.lt (g : Globals) (a other : device_child_t) : Bool :=
  match a.child, other.child with
  | some c, some o => decide (g.device_child_reset_priority_ c < g.device_child_reset_priority_ o)
  | _, _ => false

/-- The C++ `std::stable_sort(first, last)` under a "less than" `lt`: the elements in
ascending order, equivalent elements in their original order. -/
def stable_sort {α : Type} (lt : α → α → Bool) (l : List α) : List α :=
  l.insertionSort (fun a b => lt b a = false)

/-- The local `sorted_children` of the `reset_device` call that connected last. -/
def sorted_children (g : Globals) : List device_child_t :=
  g.removed_device_child_signal.headD []

/-- Assign to element `i` of the local `sorted_children`. -/
def set_sorted_child (i : Nat) (f : device_child_t → device_child_t) (g : Globals) : Globals :=
  { g with removed_device_child_signal :=
      match g.removed_device_child_signal with
      | [] => []
      | v :: more => v.modify f i :: more }

/-- Run one action of a callback; `nested` is what a call of `reset_device` does. -/
def run_action (nested : Bool → Globals → Except Fault (Bool × Globals)) :
    Action → Globals → Except Fault Globals
  | .add_device_child child reset_priority, g => .ok (add_device_child child reset_priority g)
  | .remove_device_child child, g => .ok (remove_device_child child g)
  | .reset_device force, g =>
    match nested force g with
    | .error e => .error e
    | .ok (_, g) => .ok g

/-- Run the actions of a callback in order. -/
def run_actions (nested : Bool → Globals → Except Fault (Bool × Globals)) :
    List Action → Globals → Except Fault Globals
  | [], g => .ok g
  | a :: more, g =>
    match run_action nested a g with
    | .error e => .error e
    | .ok g => run_actions nested more g

/-- The first loop of `reset_device` (lines 444-450), over the indices it visits. -/
def reset_device.before_reset_loop (C : Nat → device_child_base)
    (nested : Bool → Globals → Except Fault (Bool × Globals)) :
    List Nat → Globals → Except Fault Globals
  | [], g => .ok g
  | i :: more, g =>
    match (sorted_children g)[i]? with
    | some ⟨some child, _⟩ =>
      let g := g.emit (.before_reset child)
      let call := (C child).before_reset g
      match run_actions nested call.1 g with
      | .error e => .error e
      | .ok g =>
        reset_device.before_reset_loop C nested more
          (set_sorted_child i (fun s => { s with reset_data := call.2 }) g)
    | _ => reset_device.before_reset_loop C nested more g

/-- The second loop of `reset_device` (lines 452-462), over the indices it visits. -/
def reset_device.reset_loop (C : Nat → device_child_base)
    (nested : Bool → Globals → Except Fault (Bool × Globals)) :
    List Nat → Bool → Globals → Except Fault (Bool × Globals)
  | [], status, g => .ok (status, g)
  | i :: more, status, g =>
    match (sorted_children g)[i]? with
    | some ⟨some child, reset_data⟩ =>
      let g := g.emit (.reset child reset_data)
      let call := (C child).reset reset_data g
      match run_actions nested call.1 g with
      | .error e => .error e
      | .ok g =>
        let g := g.emit (.reset_returned child call.2)
        let status := if call.2 then status else false
        let g :=
          if call.2 then g
          else set_sorted_child i (fun s => { s with child := none }) (g.emit .assert_failed)
        reset_device.reset_loop C nested more status
          (set_sorted_child i (fun s => { s with reset_data := 0 }) g)
    | _ =>
      reset_device.reset_loop C nested more status
        (set_sorted_child i (fun s => { s with reset_data := 0 }) g)

/-- The third loop of `reset_device` (lines 464-472), over the indices it visits. -/
def reset_device.after_reset_loop (C : Nat → device_child_base)
    (nested : Bool → Globals → Except Fault (Bool × Globals)) :
    List Nat → Bool → Globals → Except Fault (Bool × Globals)
  | [], status, g => .ok (status, g)
  | i :: more, status, g =>
    match (sorted_children g)[i]? with
    | some ⟨some child, _⟩ =>
      let g := g.emit (.after_reset child)
      let call := (C child).after_reset g
      match run_actions nested call.1 g with
      | .error e => .error e
      | .ok g =>
        let g := g.emit (.after_reset_returned child call.2)
        let status := if call.2 then status else false
        let g :=
          if call.2 then g
          else set_sorted_child i (fun s => { s with child := none }) (g.emit .assert_failed)
        reset_device.after_reset_loop C nested more status g
    | _ => reset_device.after_reset_loop C nested more status g

/-- The walk over the device children in `reset_device` (lines 400-472): the snapshot of the
registry, the sort, the connection to the removal signal, and the three loops; at the end
the connection is dropped. -/
def reset_device.walk (C : Nat → device_child_base)
    (nested : Bool → Globals → Except Fault (Bool × Globals))
    (g : Globals) : Except Fault (Bool × Globals) :=
  let sorted := stable_sort (device_child_t.lt g)
    (g.device_children.map (fun i => device_child_t.mk (some i) 0))
  match reset_device.before_reset_loop C nested (List.range sorted.length).reverse
      { g with removed_device_child_signal := sorted :: g.removed_device_child_signal } with
  | .error e => .error e
  | .ok g =>
  match reset_device.reset_loop C nested (List.range sorted.length) true g with
  | .error e => .error e
  | .ok (status, g) =>
  match reset_device.after_reset_loop C nested (List.range sorted.length) status g with
  | .error e => .error e
  | .ok (status, g) =>
    .ok (status, { g with removed_device_child_signal := g.removed_device_child_signal.tail })

/-- The block `if (force) { .. }` of `reset_device` (lines 384-473) and its `return status`.
The `end_scope_action` clears `resetting` on every way out that comes after it. -/
def reset_device.forced (C : Nat → device_child_base)
    (nested : Bool → Globals → Except Fault (Bool × Globals))
    (g : Globals) : Except Fault (Bool × Globals) :=
  if (g.emit (.log .dx12 "Recreating DX12 device")).resetting then
    .ok (false, (g.emit (.log .dx12 "Recreating DX12 device")).emit .assert_failed)
  else
  match destroy_d3d true { g.emit (.log .dx12 "Recreating DX12 device") with resetting := true } with
  | .error e => .error e
  | .ok g =>
  match init_d3d true g with
  | .error e => .error e
  | .ok (false, g) => .ok (false, { g.emit .assert_failed with resetting := false })
  | .ok (true, g) =>
  match reset_device.walk C nested g with
  | .error e => .error e
  | .ok (status, g) => .ok (status, { g with resetting := false })

/-- The part of `reset_device` from the device-removed check on (lines 376-476). -/
def reset_device.check_removed (C : Nat → device_child_base)
    (nested : Bool → Globals → Except Fault (Bool × Globals))
    (force : Bool) (g : Globals) : Except Fault (Bool × Globals) :=
  if force then reset_device.forced C nested g else
  match g.device with
  | none => .error .null_deref
  | some device =>
    if FAILED device.removed_reason then
      reset_device.forced C nested (g.emit (.log .dx12 "DX12 device was reset/removed"))
    else .ok (true, g)

/-- The body of `ff::dx12::reset_device(force)`; `nested` is what a call of
`reset_device` from a device child's callback does. -/
def reset_device.body (C : Nat → device_child_base)
    (nested : Bool → Globals → Except Fault (Bool × Globals))
    (force : Bool) (g : Globals) : Except Fault (Bool × Globals) :=
  match g.factory with
  | none => .error .null_deref
  | some factory =>
    if !factory.is_current then
      let g := { g with factory := g.env.create_factory }
      match g.factory with
      | none => .ok (false, g.emit .assert_failed)
      | some factory =>
        if !force && (g.adapters_hash != factory.adapters_hash ||
            g.outputs_hash != factory.outputs_hash g.adapter) then
          reset_device.check_removed C nested true
            (g.emit (.log .dx12 "DXGI adapters or outputs changed"))
        else reset_device.check_removed C nested force g
    else reset_device.check_removed C nested force g

/-- The function `ff::dx12::reset_device(force)`, for device children `C`.  A call made from
inside a callback runs with one unit of `fuel` less. -/
def reset_device (C : Nat → device_child_base) :
    Nat → Bool → Globals → Except Fault (Bool × Globals)
  | 0, _, _ => .error .out_of_fuel
  | fuel + 1, force, g => reset_device.body C (reset_device C fuel) force g

/-! ## Reading traces -/

/-- A call of a device-child callback. -/
inductive Callback where
  | before_reset (child : Nat)
  | reset (child : Nat)
  | after_reset (child : Nat)
  deriving DecidableEq, Repr

/-- The callback call an event stands for, if it is one. -/
def Event.callback : Event → Option Callback
  | .before_reset c => some (.before_reset c)
  | .reset c _ => some (.reset c)
  | .after_reset c => some (.after_reset c)
  | _ => none

/-- The callback calls of a trace, in order. -/
def callbacks (t : List Event) : List Callback :=
  t.filterMap Event.callback

/-- The child a callback is called on. -/
def Callback.child : Callback → Nat
  | .before_reset c => c
  | .reset c => c
  | .after_reset c => c

/-- The child whose removal an event records, if it is one. -/
def Event.removed : Event → Option Nat
  | .remove_device_child c => some c
  | _ => none

/-- The child whose failed `reset` or `after_reset` an event records, if it is one. -/
def Event.failed : Event → Option Nat
  | .reset_returned c false => some c
  | .after_reset_returned c false => some c
  | _ => none

/-- The three phases of the reset protocol. -/
inductive Phase where
  | before
  | reset
  | after
  deriving DecidableEq, Repr

/-- The phases in protocol order. -/
def Phase.rank : Phase → Nat
  | .before => 0
  | .reset => 1
  | .after => 2

/-- The phase of a callback call. -/
def Callback.phase : Callback → Phase
  | .before_reset _ => .before
  | .reset _ => .reset
  | .after_reset _ => .after

/-- The phase whose loop puts an event on the trace (a call or a returned value). -/
def Event.phase : Event → Option Phase
  | .before_reset _ => some .before
  | .reset _ _ => some .reset
  | .reset_returned _ _ => some .reset
  | .after_reset _ => some .after
  | .after_reset_returned _ _ => some .after
  | _ => none

/-- The events that the actions of a callback put on the trace. -/
def Event.is_action : Event → Bool
  | .log _ _ => true
  | .assert_failed => true
  | .add_device_child _ _ => true
  | .remove_device_child _ => true
  | _ => false

/-- The events that `reset_device` puts on the trace before it walks the children, apart
from the returned value of `init_d3d`. -/
def Event.is_setup : Event → Bool
  | .log _ _ => true
  | .assert_failed => true
  | .release _ _ _ => true
  | .unregister_budget_event _ => true
  | .destroy_d3d _ => true
  | _ => false

/-- The event of a callback call in a phase, on `child` with `reset_data`. -/
def Phase.call : Phase → Nat → Nat → Event
  | .before, child, _ => .before_reset child
  | .reset, child, reset_data => .reset child reset_data
  | .after, child, _ => .after_reset child

/-- The events that follow the return of a callback in a phase. -/
def Phase.returned : Phase → Nat → Bool → List Event
  | .before, _, _ => []
  | .reset, child, true => [.reset_returned child true]
  | .reset, child, false => [.reset_returned child false, .assert_failed]
  | .after, child, true => [.after_reset_returned child true]
  | .after, child, false => [.after_reset_returned child false, .assert_failed]

/-- The child pointers of `sorted_children`, after the removal handler ran for `child`. -/
def null_child (child : Nat) : List (Option Nat) → List (Option Nat)
  | [] => []
  | x :: xs => if x = some child then none :: xs else x :: null_child child xs

/-- The child pointers of `sorted_children`, after the removal handler ran for every removal
recorded in a trace. -/
def apply_removals : List Event → List (Option Nat) → List (Option Nat)
  | [], v => v
  | e :: t, v =>
    match e.removed with
    | some c => apply_removals t (null_child c v)
    | none => apply_removals t v

/-- The traces one loop of `reset_device` can leave: `Run ph is v s t v' s'` says that the loop
of phase `ph`, visiting the indices `is` with child pointers `v` and status `s`, puts `t` on
the trace and ends with child pointers `v'` and status `s'`. -/
inductive Run (ph : Phase) :
    List Nat → List (Option Nat) → Bool → List Event → List (Option Nat) → Bool → Prop where
  | nil (v : List (Option Nat)) (s : Bool) : Run ph [] v s [] v s
  | skip (i : Nat) (is : List Nat) (v : List (Option Nat)) (s : Bool) (t : List Event)
      (v' : List (Option Nat)) (s' : Bool) :
      (∀ c, v[i]? ≠ some (some c)) → Run ph is v s t v' s' → Run ph (i :: is) v s t v' s'
  | call (i : Nat) (is : List Nat) (v : List (Option Nat)) (s : Bool) (c d : Nat)
      (a : List Event) (b : Bool) (t : List Event) (v' : List (Option Nat)) (s' : Bool) :
      v[i]? = some (some c) → (∀ e ∈ a, e.is_action = true) → (ph = .before → b = true) →
      Run ph is (if b then apply_removals a v else (apply_removals a v).set i none)
        (s && b) t v' s' →
      Run ph (i :: is) v s (ph.call c d :: (a ++ (ph.returned c b ++ t))) v' s'

/-! ## Sample data -/

/-- A device that has not been removed. -/
def sample_device : Device :=
  { removed_reason := S_OK, adapter_luid := 1, device5 := true, node_count := 1 }

/-- A hardware adapter on which device creation succeeds.  It is the adapter of a platform
that creates no event (`sample_env`): the registration of the null event handle fails. -/
def sample_adapter : Adapter :=
  { luid := 1
    desc := some { Description := "GPU", VendorId := 0x10de, DeviceId := 1 }
    create_device := fun _ => some sample_device
    adapter3 := true
    video_memory_info := { Budget := 1000, CurrentUsage := 10 }
    register_budget_event := none }

/-- A current factory that enumerates `sample_adapter`. -/
def sample_factory : Factory :=
  { is_current := true
    factory4 := true
    factory6 := true
    adapters_by_gpu_preference := [sample_adapter]
    adapters := [sample_adapter]
    warp_adapter := none
    adapter_by_luid := fun luid => if luid = 1 then some sample_adapter else none
    adapters_hash := 11
    outputs_hash := fun _ => 22 }

/-- A platform on which `create_factory` yields `sample_factory` and `CreateEventEx` fails:
`create_event()` returns a null handle, so no budget event is ever registered and
`destroy_d3d` closes no event handle. -/
def sample_env : Env :=
  { create_factory := some sample_factory, create_event := none }

/-- The globals before `init_globals`: everything null or zero. -/
def zero_globals (env : Env) : Globals :=
  { device := none, adapter := none, factory := none, host_functions := none
    feature_level := 0, adapters_hash := 0, outputs_hash := 0
    device_children := [], device_child_reset_priority_ := fun _ => 0
    removed_device_child_signal := []
    frame_commands := none, frame_count := 0
    video_memory_change_event := none, video_memory_change_event_cookie := 0
    video_memory_info := ⟨0, 0⟩, residency_fence := none
    keep_alive_resources := []
    draw_device := none, object_cache := none, queues := none
    cpu_descriptor_allocators := fun _ => none
    gpu_descriptor_allocators := fun _ => none
    upload_allocator := none, readback_allocator := none, dynamic_buffer_allocator := none
    static_buffer_allocator := none, texture_allocator := none, target_allocator := none
    resetting := false
    fence_completed := fun _ => 0
    env := env
    trace := [] }

/-- The globals as `init_globals` leaves them on the sample platform, with an empty trace. -/
def sample_globals : Globals :=
  match init_globals 1 0xc000 (zero_globals sample_env) with
  | .ok (_, g) => { g with trace := [] }
  | .error _ => zero_globals sample_env

/-- A device child whose callbacks do nothing and succeed. -/
def quiet_child : device_child_base :=
  { before_reset := fun _ => ([], 1)
    reset := fun _ _ => ([], true)
    after_reset := fun _ => ([], true) }

/-- The sample globals with children 1, 2, 3 registered with reset priorities 10, 5, 20, and
an empty trace. -/
def three_children : Globals :=
  { add_device_child 3 20 (add_device_child 2 5 (add_device_child 1 10 sample_globals)) with
    trace := [] }

/-- What `reset_device(true)` returns for `three_children` with quiet children. -/
def quiet_run : Bool × Globals :=
  match reset_device (fun _ => quiet_child) 2 true three_children with
  | .ok r => r
  | .error _ => (false, three_children)

/-- Children that unregister during a reset: child 1 unregisters child 2 from its
`before_reset`, and child 3 unregisters itself from its `reset`. -/
def unregistering_children : Nat → device_child_base
  | 1 => { quiet_child with before_reset := fun _ => ([.remove_device_child 2], 1) }
  | 3 => { quiet_child with reset := fun _ _ => ([.remove_device_child 3], true) }
  | _ => quiet_child

/-- What `reset_device(true)` returns for `three_children` with `unregistering_children`. -/
def unregistering_run : Bool × Globals :=
  match reset_device unregistering_children 2 true three_children with
  | .ok r => r
  | .error _ => (false, three_children)

/-- Children that fail during a reset: the `reset` of child 2 and the `after_reset` of child
1 return false. -/
def failing_children : Nat → device_child_base
  | 1 => { quiet_child with after_reset := fun _ => ([], false) }
  | 2 => { quiet_child with reset := fun _ _ => ([], false) }
  | _ => quiet_child

/-- What `reset_device(true)` returns for `three_children` with `failing_children`. -/
def failing_run : Bool × Globals :=
  match reset_device failing_children 2 true three_children with
  | .ok r => r
  | .error _ => (false, three_children)

/-! ## Sequences of keep-alive calls -/

/-- The calls that touch the keep-alive list, and the progress of the GPU between them. -/
inductive KeepAliveOp where
  /-- A call `keep_alive_resource(r, fv)`. -/
  | keep_alive_resource (r : resource) (fv : fence_values)
  /-- A call `frame_started()`. -/
  | frame_started
  /-- A call `wait_for_idle()`. -/
  | wait_for_idle
  /-- The GPU completes work: the counter of each fence `f` grows by `advance f`. -/
  | gpu_progress (advance : Nat → Nat)

/-- Run one keep-alive call. -/
def KeepAliveOp.run : KeepAliveOp → Globals → Except Fault Globals
  | .keep_alive_resource r fv, g => .ok (ff.keep_alive_resource r fv g)
  | .frame_started, g => ff.frame_started g
  | .wait_for_idle, g => ff.wait_for_idle g
  | .gpu_progress advance, g =>
    .ok { g with fence_completed := fun f => g.fence_completed f + advance f }

/-- Run a sequence of keep-alive calls. -/
def run_ops : List KeepAliveOp → Globals → Except Fault Globals
  | [], g => .ok g
  | op :: more, g =>
    match op.run g with
    | .error e => .error e
    | .ok g => run_ops more g

/-- The resources handed to `keep_alive_resource` in a sequence of calls, in order. -/
def handed : List KeepAliveOp → List (resource × fence_values)
  | [] => []
  | .keep_alive_resource r fv :: more => (r, fv) :: handed more
  | _ :: more => handed more

/-- The resources a trace records as released, in order. -/
def released : List Event → List (resource × fence_values)
  | [] => []
  | .release r fv _ :: more => (r, fv) :: released more
  | _ :: more => released more

/-- The release events of a trace at a moment when the fence values did not report complete. -/
def released_early : List Event → List (resource × fence_values)
  | [] => []
  | .release r fv false :: more => (r, fv) :: released_early more
  | _ :: more => released_early more

/-! ## Predicates used to state the properties -/

/-- The callback call of a phase on a child. -/
def Phase.callback : Phase → Nat → Callback
  | .before, c => .before_reset c
  | .reset, c => .reset c
  | .after, c => .after_reset c

/-- The log lines and failed assertions. -/
def Event.is_note : Event → Bool
  | .log _ _ => true
  | .assert_failed => true
  | _ => false

/-- No child sits in two slots. -/
def SlotsNodup (v : List (Option Nat)) : Prop :=
  ∀ (i j c : Nat), v[i]? = some (some c) → v[j]? = some (some c) → i = j

/-- The slots `v'` hold what `v` holds, except that some were set to null. -/
def Nulls (v v' : List (Option Nat)) : Prop :=
  ∀ (i c : Nat), v'[i]? = some (some c) → v[i]? = some (some c)

/-- If the earlier event `e` records the removal of a child, the later event `e'` is not a
callback call on that child. -/
def NoCallAfterRemove (e e' : Event) : Prop :=
  ∀ c, e.removed = some c → ∀ cb, e'.callback = some cb → cb.child ≠ c

/-- Once the `reset` or the `after_reset` of a child returned false (event `e`), no callback
is called on that child (event `e'`). -/
def NoCallAfterFailure (e e' : Event) : Prop :=
  ∀ c, e.failed = some c → ∀ cb, e'.callback = some cb → cb.child ≠ c

/-- The child pointers of the local `sorted_children`. -/
def slots (g : Globals) : List (Option Nat) :=
  (sorted_children g).map (fun s => s.child)

/-- From `g` to `g'` the registry, the priorities, the connected handlers, the re-entrancy
flag, the platform and the factory are the same, and the trace grew by events that satisfy
`P`. -/
def Grows (P : Event → Bool) (g g' : Globals) : Prop :=
  g'.device_children = g.device_children ∧
  g'.device_child_reset_priority_ = g.device_child_reset_priority_ ∧
  g'.removed_device_child_signal = g.removed_device_child_signal ∧
  g'.resetting = g.resetting ∧
  g'.env = g.env ∧
  g'.factory = g.factory ∧
  ∃ t, g'.trace = g.trace ++ t ∧ ∀ e ∈ t, P e = true

/-- What the actions of a callback can do while `reset_device` walks the children: the
re-entrancy flag, the platform and the device stay, the trace grows by action events `t`, and
the child pointers of `sorted_children` are those after the removals recorded in `t`. -/
def Acts (g g' : Globals) : Prop :=
  g'.resetting = g.resetting ∧ g'.env = g.env ∧ g'.device = g.device ∧
  ∃ t, g'.trace = g.trace ++ t ∧ (∀ e ∈ t, e.is_action = true) ∧
    slots g' = apply_removals t (slots g)

/-- One loop of `reset_device` from `g` to `g'`: the trace grows by a trace of that loop. -/
def Walks (ph : Phase) (is : List Nat) (s s' : Bool) (g g' : Globals) : Prop :=
  g'.resetting = g.resetting ∧ g'.env = g.env ∧ g'.device = g.device ∧
  ∃ t, g'.trace = g.trace ++ t ∧ Run ph is (slots g) s t (slots g') s'

/-- A call of `reset_device` made while the re-entrancy flag is set changes nothing but the
factory, and puts only log lines and failed assertions on the trace. -/
def NestedQuiet (nested : Bool → Globals → Except Fault (Bool × Globals)) : Prop :=
  ∀ force g b g', g.resetting = true → nested force g = .ok (b, g') →
    g'.resetting = true ∧ g'.env = g.env ∧ g'.device = g.device ∧
    g'.removed_device_child_signal = g.removed_device_child_signal ∧
    ∃ t, g'.trace = g.trace ++ t ∧ ∀ e ∈ t, e.is_note = true

/-- The state in which callbacks run during a reset, when nothing is null: the re-entrancy
flag is set, there is a device, and there is a factory that is current or can be replaced. -/
def Walking (g : Globals) : Prop :=
  g.resetting = true ∧ g.device.isSome = true ∧
  ∃ f, g.factory = some f ∧ (f.is_current = true ∨ g.env.create_factory.isSome = true)

/-- A call of `reset_device` made in a `Walking` state returns, in a `Walking` state. -/
def NestedTotal (nested : Bool → Globals → Except Fault (Bool × Globals)) : Prop :=
  ∀ force g, Walking g → ∃ b g', nested force g = .ok (b, g') ∧ Walking g'

/-- The child pointers of `sorted_children` right after `reset_device` sorted its snapshot of
the registry. -/
def snapshot (g : Globals) : List (Option Nat) :=
  (stable_sort (device_child_t.lt g)
    (g.device_children.map (fun i => device_child_t.mk (some i) 0))).map (fun s => s.child)

/-- The registry in ascending order of reset priority, children of equal priority in
registration order. -/
def sorted_registry (g : Globals) : List Nat :=
  g.device_children.insertionSort
    (fun a b => g.device_child_reset_priority_ a ≤ g.device_child_reset_priority_ b)

/-- The traces the walk of `reset_device` over the child pointers `v` can leave, with the
status it ends with: a trace of the `before_reset` loop, which visits the slots from last to
first, then one of the `reset` loop and one of the `after_reset` loop, which visit them from
first to last. -/
def WalkTrace (v : List (Option Nat)) (t : List Event) (status : Bool) : Prop :=
  ∃ tb tr ta v1 v2 v3 s2, t = tb ++ (tr ++ ta) ∧
    Run .before (List.range v.length).reverse v true tb v1 true ∧
    Run .reset (List.range v.length) v1 true tr v2 s2 ∧
    Run .after (List.range v.length) v2 s2 ta v3 status

/-- The trace `t` of a `reset_device` call, started in `g`, that got to walk the children:
events of the setup, the successful return of `init_d3d(true)`, and a trace of the walk over
the snapshot of the registry of `g`. -/
def ResetTrace (g : Globals) (t : List Event) (status : Bool) : Prop :=
  ∃ pre w, t = pre ++ Event.init_d3d true true :: w ∧ (∀ e ∈ pre, e.is_setup = true) ∧
    WalkTrace (snapshot g) w status

/-- The first reason for `reset_device(false)` to force a reset, in the words of the spec: the
DXGI factory is stale, and the adapters hash or the outputs hash recomputed on the new
factory differs from the cached value. -/
def topology_changed (g : Globals) : Bool :=
  match g.factory, g.env.create_factory with
  | some factory, some new_factory =>
    !factory.is_current && (g.adapters_hash != new_factory.adapters_hash ||
      g.outputs_hash != new_factory.outputs_hash g.adapter)
  | _, _ => false

/-- The DXGI factory can be used: it is current, or it is stale and
`ff::dxgi::create_factory()` yields a new one. -/
def factory_usable (g : Globals) : Bool :=
  match g.factory with
  | some factory => factory.is_current || g.env.create_factory.isSome
  | none => false

/-- The second reason for `reset_device(false)` to force a reset, in the words of the spec: the
device-removed-reason query reports a failure. -/
def device_removed (g : Globals) : Bool :=
  match g.device with
  | some device => FAILED device.removed_reason
  | none => false

/-- The log line that opens the forced-reset path of `reset_device`. -/
def recreating : Event :=
  .log .dx12 "Recreating DX12 device"

/-- The sample globals, with a reset under way. -/
def resetting_globals : Globals :=
  { three_children with resetting := true }

/-- The sample globals with a stale factory, on a platform that cannot create a new one. -/
def stale_globals : Globals :=
  { three_children with
    factory := some { sample_factory with is_current := false }
    env := { create_factory := none, create_event := none } }

/-- The sample globals with a stale factory, on a platform whose new factory reports another
adapters hash. -/
def changed_globals : Globals :=
  { three_children with
    factory := some { sample_factory with is_current := false }
    env := { create_factory := some { sample_factory with adapters_hash := 12 }
             create_event := none } }

/-- A sequence of keep-alive calls: resource 1 is handed in with fence values that are not
complete, resource 2 with fence values that are; a frame starts; the GPU completes five units
of work on every fence; `wait_for_idle` is called. -/
def sample_ops : List KeepAliveOp :=
  [.keep_alive_resource 1 ⟨[(0, 5)]⟩, .keep_alive_resource 2 ⟨[(0, 0)]⟩, .frame_started,
   .gpu_progress (fun _ => 5), .wait_for_idle]

/-- The globals after `sample_ops`, run on the sample globals. -/
def sample_ops_run : Globals :=
  match run_ops sample_ops sample_globals with
  | .ok g => g
  | .error _ => sample_globals

/-! ## Completing a frame -/

/-- The part of `frame_complete` up to and including the call of the host's
`on_frame_complete()` (lines 598-604).  `frame_count` is a `size_t`: the increment wraps at
`2 ^ 64`.
`direct_queue()` dereferences `::queues` and `ff::dxgi_host()` dereferences
`::host_functions`. -/
def frame_complete.notify (g : Globals) : Except Fault Globals :=
  let g := debug_assert g.frame_commands.isSome g
  let g := { g with frame_commands := none }
  let g := { g with frame_count := (g.frame_count + 1) % 2 ^ 64 }
  let g := g.emit (.frame_complete_signal g.frame_count)
  match g.queues with
  | none => .error .null_deref
  | some _ =>
    let g := g.emit .end_event
    match g.host_functions with
    | none => .error .null_deref
    | some _ => .ok (g.emit .on_frame_complete)

/-- The function `ff::dx12::frame_complete()`, for device children `C`; `fuel` is the fuel of
the call of `reset_device`.  The host's `on_frame_complete()` is taken to do nothing to the
globals here; `frame_complete.hosted` runs the actions of a host that does. -/
def frame_complete (C : Nat → device_child_base) (fuel : Nat) (g : Globals) :
    Except Fault Globals :=
  match frame_complete.notify g with
  | .error e => .error e
  | .ok g =>
    match device_valid g with
    | .error e => .error e
    | .ok true => .ok g
    | .ok false =>
      match reset_device C fuel true g with
      | .error e => .error e
      | .ok r => .ok r.2

/-- Run `n` frames: `frame_started()` then `frame_complete()`, `n` times. -/
def run_frames (C : Nat → device_child_base) (fuel : Nat) : Nat → Globals → Except Fault Globals
  | 0, g => .ok g
  | n + 1, g =>
    match frame_started g with
    | .error e => .error e
    | .ok g =>
      match frame_complete C fuel g with
      | .error e => .error e
      | .ok g => run_frames C fuel n g

/-- The values a trace records as published on `frame_complete_signal`, in order. -/
def notified : List Event → List Nat
  | [] => []
  | .frame_complete_signal n :: more => n :: notified more
  | _ :: more => notified more

/-- The values published on `frame_complete_signal` so far, in order. -/
def published (g : Globals) : List Nat :=
  notified g.trace

/-! ## The host's callback -/

/-- Modelled from the spec: a call that the code of the host's `on_frame_complete()` makes
into `globals.cpp` (the struct `ff::dxgi::host_functions` is not among the sources). -/
inductive HostAction where
  /-- A call `device_fatal_error(reason)`. -/
  | device_fatal_error (reason : String)
  /-- A call `keep_alive_resource(r, fv)`. -/
  | keep_alive_resource (r : resource) (fv : fence_values)
  deriving DecidableEq, Repr

/-- Modelled from the spec: the callback `on_frame_complete` of `ff::dxgi::host_functions`
(not among the sources).  It sees the globals as they are when it is called and does a list
of actions on them. -/
structure dxgi.host_functions where
  on_frame_complete : Globals → List HostAction

/-- Run one action of the host's callback. -/
def run_host_action : HostAction → Globals → Except Fault Globals
  | .device_fatal_error reason, g => device_fatal_error reason g
  | .keep_alive_resource r fv, g => .ok (keep_alive_resource r fv g)

/-- Run the actions of the host's callback in order. -/
def run_host_actions : List HostAction → Globals → Except Fault Globals
  | [], g => .ok g
  | a :: more, g =>
    match run_host_action a g with
    | .error e => .error e
    | .ok g => run_host_actions more g

/-- The function `ff::dx12::frame_complete()` with the code of the host's callback made
explicit: the actions of `host.on_frame_complete` run where the source calls
`ff::dxgi_host().on_frame_complete()` (line 604), before `device_valid()` is asked.
`frame_complete` is this function for a host whose callback does nothing to the globals. -/
def frame_complete.hosted (host : dxgi.host_functions) (C : Nat → device_child_base)
    (fuel : Nat) (g : Globals) : Except Fault Globals :=
  match frame_complete.notify g with
  | .error e => .error e
  | .ok g =>
    match run_host_actions (host.on_frame_complete g) g with
    | .error e => .error e
    | .ok g =>
      match device_valid g with
      | .error e => .error e
      | .ok true => .ok g
      | .ok false =>
        match reset_device C fuel true g with
        | .error e => .error e
        | .ok r => .ok r.2

/-- What the actions of the host's callback leave alone: there is still a device, the
factory, the platform, the queues and the budget event are the same, and the trace grew. -/
def HostKeeps (g g' : Globals) : Prop :=
  g'.device.isSome = true ∧ g'.factory = g.factory ∧ g'.env = g.env ∧ g'.queues = g.queues ∧
    g'.video_memory_change_event = g.video_memory_change_event ∧ ∃ t, g'.trace = g.trace ++ t

/-! ## Calls of the functions of `globals.cpp` -/

/-- A call of one of the functions of `globals.cpp` that act on the globals. -/
inductive Call where
  | init_globals (host_functions : Nat) (feature_level : Nat)
  | destroy_globals
  | add_device_child (child : Nat) (reset_priority : Int)
  | remove_device_child (child : Nat)
  | reset_device (force : Bool)
  | device_fatal_error (reason : String)
  | frame_started
  | frame_complete
  | wait_for_idle
  | keep_alive_resource (r : resource) (fv : fence_values)
  deriving DecidableEq, Repr

/-- Run one call, for device children `C`; `fuel` is the fuel of a call of `reset_device`. -/
def Call.run (C : Nat → device_child_base) (fuel : Nat) : Call → Globals → Except Fault Globals
  | .init_globals host_functions feature_level, g =>
    match ff.init_globals host_functions feature_level g with
    | .error e => .error e
    | .ok r => .ok r.2
  | .destroy_globals, g => ff.destroy_globals g
  | .add_device_child child reset_priority, g => .ok (ff.add_device_child child reset_priority g)
  | .remove_device_child child, g => .ok (ff.remove_device_child child g)
  | .reset_device force, g =>
    match ff.reset_device C fuel force g with
    | .error e => .error e
    | .ok r => .ok r.2
  | .device_fatal_error reason, g => ff.device_fatal_error reason g
  | .frame_started, g => ff.frame_started g
  | .frame_complete, g => ff.frame_complete C fuel g
  | .wait_for_idle, g => ff.wait_for_idle g
  | .keep_alive_resource r fv, g => .ok (ff.keep_alive_resource r fv g)

/-- Run a sequence of calls in order. -/
def run_calls (C : Nat → device_child_base) (fuel : Nat) :
    List Call → Globals → Except Fault Globals
  | [], g => .ok g
  | c :: more, g =>
    match c.run C fuel g with
    | .error e => .error e
    | .ok g => run_calls C fuel more g

/-! ## Which globals a function leaves alone -/

/-- The globals that neither the teardown and recreation of the device for a reset nor any
device child callback assigns: the host functions, the feature level, the adapters hash, the
frame data, the residency fence, the draw device, the object cache, the queues, the descriptor
allocators and the memory allocators. -/
def steady (g : Globals) :=
  (g.host_functions, g.feature_level, g.adapters_hash, g.frame_commands, g.frame_count,
   g.residency_fence, g.draw_device, g.object_cache, g.queues,
   g.cpu_descriptor_allocators, g.gpu_descriptor_allocators,
   g.upload_allocator, g.readback_allocator, g.dynamic_buffer_allocator,
   g.static_buffer_allocator, g.texture_allocator, g.target_allocator, g.env)

/-- The globals of the registry of device children and of `reset_device` itself. -/
def registry (g : Globals) :=
  (g.factory, g.device_children, g.device_child_reset_priority_, g.removed_device_child_signal,
   g.resetting)

/-! ## Candidate adapters -/

/-- The vector `adapters` of `create_dx12_device` when its creation loop starts: the
enumerated adapters, and the WARP adapter where the code adds it. -/
def create_dx12_device.candidates (factory : Factory) (g : Globals) : List Adapter :=
  (create_dx12_device.add_warp factory (create_dx12_device.enumerate
    (if factory.factory6 then factory.adapters_by_gpu_preference else factory.adapters)
    [] false g)).1

/-- The test of `create_dx12_device` for the WARP adapter (line 87): the description can be
read and names vendor `0x1414`, device `0x008c`. -/
def Adapter.is_warp (a : Adapter) : Bool :=
  match a.desc with
  | some desc => decide (desc.VendorId = 0x1414 ∧ desc.DeviceId = 0x008c)
  | none => false

/-! ## Sequences of registry calls -/

/-- The calls that touch the registry of device children. -/
inductive RegistryOp where
  /-- A call `add_device_child(child, reset_priority)`. -/
  | add_device_child (child : Nat) (reset_priority : Int)
  /-- A call `remove_device_child(child)`. -/
  | remove_device_child (child : Nat)
  deriving DecidableEq, Repr

/-- Run one registry call. -/
def RegistryOp.run : RegistryOp → Globals → Globals
  | .add_device_child child reset_priority, g => ff.add_device_child child reset_priority g
  | .remove_device_child child, g => ff.remove_device_child child g

/-- Run a sequence of registry calls. -/
def run_registry_ops : List RegistryOp → Globals → Globals
  | [], g => g
  | op :: more, g => run_registry_ops more (op.run g)

/-- The live children after a sequence of calls, in order of registration, as the
specification describes them: a registration puts the child last, an unregistration takes it
out.  `live` are the children live before the sequence. -/
def live_children : List Nat → List RegistryOp → List Nat
  | live, [] => live
  | live, .add_device_child child _ :: more => live_children (live ++ [child]) more
  | live, .remove_device_child child :: more =>
    live_children (live.filter (fun c => c != child)) more

/-- A sequence of calls in which a child is added only while it is not live and removed only
while it is live. -/
def well_formed : List Nat → List RegistryOp → Bool
  | _, [] => true
  | live, .add_device_child child _ :: more =>
    !live.contains child && well_formed (live ++ [child]) more
  | live, .remove_device_child child :: more =>
    live.contains child && well_formed (live.filter (fun c => c != child)) more

/-- The reset priority given to a child at its latest registration in a sequence of calls, or
`before` where the sequence does not register it. -/
def given_priority (child : Nat) : Int → List RegistryOp → Int
  | before, [] => before
  | before, .add_device_child c reset_priority :: more =>
    given_priority child (if c = child then reset_priority else before) more
  | before, .remove_device_child _ :: more => given_priority child before more

/-! ## Sample data for frames -/

/-- The sample globals with work submitted on two queues and two kept-alive resources that
wait for it. -/
def busy_globals : Globals :=
  { sample_globals with
    queues := some ⟨⟨0, 5⟩, ⟨1, 3⟩, ⟨2, 0⟩⟩
    keep_alive_resources := [(7, ⟨[(0, 5)]⟩), (8, ⟨[(0, 4), (1, 3)]⟩)] }

/-- The sample globals with three children, a frame open and the device removed. -/
def removed_globals : Globals :=
  { three_children with
    device := some sample_device.RemoveDevice
    frame_commands := some 0 }

/-- A host whose `on_frame_complete()` does nothing to the globals. -/
def quiet_host : dxgi.host_functions :=
  { on_frame_complete := fun _ => [] }

/-- A host whose `on_frame_complete()` reports a fatal error of the device. -/
def fatal_host : dxgi.host_functions :=
  { on_frame_complete := fun _ => [.device_fatal_error "lost"] }

/-- The sample globals with three children and a frame open; the device is valid. -/
def open_globals : Globals :=
  { three_children with frame_commands := some 0 }

/-- What `frame_complete()` leaves of `open_globals` with quiet children and `fatal_host`. -/
def fatal_run : Globals :=
  match frame_complete.hosted fatal_host (fun _ => quiet_child) 2 open_globals with
  | .ok g => g
  | .error _ => open_globals

/-- Calls that a program makes while a frame is open, none of them `frame_complete()`. -/
def sample_calls : List Call :=
  [.keep_alive_resource 1 ⟨[(0, 5)]⟩, .wait_for_idle, .add_device_child 9 1,
   .reset_device true, .device_fatal_error "lost", .remove_device_child 9]

/-- What `frame_complete()` leaves of `removed_globals` with quiet children. -/
def removed_run : Globals :=
  match frame_complete (fun _ => quiet_child) 2 removed_globals with
  | .ok g => g
  | .error _ => removed_globals

/-- The sample globals after three frames. -/
def three_frames : Globals :=
  match run_frames (fun _ => quiet_child) 2 3 sample_globals with
  | .ok g => g
  | .error _ => sample_globals

/-! ## Device objects and sample platforms -/

/-- The globals with `t` appended to the trace. -/
def Globals.logged (g : Globals) (t : List Event) : Globals :=
  { g with trace := g.trace ++ t }

/-- The objects that `init_d3d(false)` creates and `destroy_d3d(false)` resets: the draw
device, the descriptor allocators, the memory allocators, the queues, the object cache and the
residency fence. -/
def device_objects (g : Globals) :=
  (g.draw_device, g.cpu_descriptor_allocators, g.gpu_descriptor_allocators,
   g.upload_allocator, g.readback_allocator, g.dynamic_buffer_allocator,
   g.static_buffer_allocator, g.texture_allocator, g.target_allocator,
   g.queues, g.object_cache, g.residency_fence)

/-- The device that the sample WARP adapter creates. -/
def sample_warp_device : Device :=
  { removed_reason := S_OK, adapter_luid := 2, device5 := true, node_count := 1 }

/-- A WARP adapter (vendor `0x1414`, device `0x008c`) on which device creation succeeds. -/
def sample_warp : Adapter :=
  { luid := 2
    desc := some { Description := "Microsoft Basic Render Driver", VendorId := 0x1414,
                   DeviceId := 0x008c }
    create_device := fun _ => some sample_warp_device
    adapter3 := true
    video_memory_info := { Budget := 500, CurrentUsage := 5 }
    register_budget_event := some 8 }

/-- A factory whose enumeration lists the WARP adapter before the hardware adapter. -/
def warp_first_factory : Factory :=
  { sample_factory with
    adapters_by_gpu_preference := [sample_warp, sample_adapter]
    adapters := [sample_warp, sample_adapter]
    adapter_by_luid := fun luid =>
      if luid = 1 then some sample_adapter else if luid = 2 then some sample_warp else none }

/-- The globals before `init_d3d`, with `warp_first_factory`. -/
def warp_first_globals : Globals :=
  { zero_globals { create_factory := some warp_first_factory, create_event := some ⟨false⟩ } with
    factory := some warp_first_factory
    feature_level := 0xc000 }

/-- A factory that enumerates no adapter and has no WARP adapter. -/
def no_adapter_factory : Factory :=
  { sample_factory with adapters_by_gpu_preference := [], adapters := [] }

/-- A platform whose factory is `no_adapter_factory`. -/
def no_adapter_env : Env :=
  { create_factory := some no_adapter_factory, create_event := some ⟨false⟩ }

/-- The globals before `init_d3d`, with `no_adapter_factory`. -/
def no_adapter_globals : Globals :=
  { zero_globals no_adapter_env with
    factory := some no_adapter_factory
    feature_level := 0xc000 }

/-- The sample globals with a device that supports `RemoveDevice` and was removed. -/
def lost_globals : Globals :=
  { sample_globals with device := some sample_device.RemoveDevice }

/-- What `destroy_d3d(true)` leaves of `busy_globals`. -/
def cycle_torn : Globals :=
  match destroy_d3d true busy_globals with
  | .ok g => g
  | .error _ => busy_globals

/-- What `init_d3d(true)` makes of `cycle_torn`. -/
def cycle_done : Globals :=
  match init_d3d true cycle_torn with
  | .ok r => r.2
  | .error _ => cycle_torn

/-- A sequence of registry calls: children 1 and 2 are registered, child 1 is unregistered,
child 3 is registered, and child 1 is registered again with another priority. -/
def sample_registry_ops : List RegistryOp :=
  [.add_device_child 1 10, .add_device_child 2 5, .remove_device_child 1,
   .add_device_child 3 20, .add_device_child 1 7]

/-! ## The registry along a trace -/

/-- The registry after the `add_device_child` and `remove_device_child` calls that a trace
records, started from the registry `list`. -/
def replay : List Event → List Nat → List Nat
  | [], list => list
  | .add_device_child child _ :: t, list => replay t (intrusive_list.add_back list child)
  | .remove_device_child child :: t, list => replay t (intrusive_list.remove list child)
  | _ :: t, list => replay t list

/-- The events that record a call of `add_device_child` or `remove_device_child`. -/
def Event.is_registry : Event → Bool
  | .add_device_child _ _ => true
  | .remove_device_child _ => true
  | _ => false

/-- From `g` to `g'` the trace grew, and the registry changed as the registry calls that
the new part of the trace records say. -/
def Replays (g g' : Globals) : Prop :=
  ∃ t, g'.trace = g.trace ++ t ∧ g'.device_children = replay t g.device_children

/-- The sample globals with three children and a factory on whose adapters no device can be
created: a reset of these tears the device down and fails to recreate it. -/
def unlucky_globals : Globals :=
  { three_children with factory := some no_adapter_factory }

/-- What `reset_device(true)` returns for `unlucky_globals` with quiet children. -/
def unlucky_run : Bool × Globals :=
  match reset_device (fun _ => quiet_child) 2 true unlucky_globals with
  | .ok r => r
  | .error _ => (true, unlucky_globals)

/-- What a second `reset_device(true)` returns after `unlucky_run`. -/
def unlucky_rerun : Bool × Globals :=
  match reset_device (fun _ => quiet_child) 2 true unlucky_run.2 with
  | .ok r => r
  | .error _ => (true, unlucky_run.2)

/-- Children of which child 1 calls `reset_device(false)` and then `reset_device(true)` from
its `reset`. -/
def reentrant_children : Nat → device_child_base
  | 1 => { quiet_child with reset := fun _ _ => ([.reset_device false, .reset_device true], true) }
  | _ => quiet_child

/-- What `reset_device(true)` returns for `three_children` with `reentrant_children`. -/
def reentrant_run : Bool × Globals :=
  match reset_device reentrant_children 3 true three_children with
  | .ok r => r
  | .error _ => (false, three_children)

/-- The child that a callback call or the returned value of a callback is about. -/
def Event.subject : Event → Option Nat
  | .before_reset c => some c
  | .reset c _ => some c
  | .reset_returned c _ => some c
  | .after_reset c => some c
  | .after_reset_returned c _ => some c
  | _ => none

/-- The callback calls of a whole walk over the children `l`, none skipped: `before_reset`
from last to first, then `reset` and `after_reset` from first to last. -/
def full_walk (l : List Nat) : List Callback :=
  l.reverse.map Callback.before_reset ++ (l.map Callback.reset ++ l.map Callback.after_reset)

/-- What a second `reset_device(true)` returns after `failing_run`. -/
def failing_rerun : Bool × Globals :=
  match reset_device failing_children 2 true failing_run.2 with
  | .ok r => r
  | .error _ => failing_run

/-- The sample globals with children 1, 2, 3, 4 registered with reset priorities 5, 7, 5, 5. -/
def four_children : Globals :=
  { add_device_child 4 5 (add_device_child 3 5 (add_device_child 2 7
      (add_device_child 1 5 sample_globals))) with trace := [] }

/-- What `reset_device(true)` returns for `four_children` with quiet children. -/
def four_run : Bool × Globals :=
  match reset_device (fun _ => quiet_child) 2 true four_children with
  | .ok r => r
  | .error _ => (false, four_children)

/-- What `reset_device(false)` returns for `changed_globals` with quiet children. -/
def changed_run : Bool × Globals :=
  match reset_device (fun _ => quiet_child) 2 false changed_globals with
  | .ok r => r
  | .error _ => (false, changed_globals)

/-- The globals of `changed_run` later on: the factory in use has become stale again, and the
platform's new factory reports the same adapters and outputs as the one in use. -/
def changed_later : Globals :=
  { changed_run.2 with
    factory := changed_run.2.factory.map (fun f => { f with is_current := false })
    env := { changed_run.2.env with create_factory := changed_run.2.factory }
    trace := [] }

/-- What `reset_device(false)` returns for `changed_later` with quiet children. -/
def changed_later_run : Bool × Globals :=
  match reset_device (fun _ => quiet_child) 2 false changed_later with
  | .ok r => r
  | .error _ => (false, changed_later)

/-! ## Window sizes (`window.h`) -/

/-- A `ff::point_t<T>` for an integer type `T`; the coordinates are taken as mathematical
integers (point.h is not among the sources). -/
structure point_t where
  x : Int
  y : Int
  deriving DecidableEq, Repr

/-- A `ff::rect_t<T>` for an integer type `T`, with its constructor
`rect_t(left, top, right, bottom)` (rect.h is not among the sources). -/
structure rect_t where
  left : Int
  top : Int
  right : Int
  bottom : Int
  deriving DecidableEq, Repr

/-- The Windows display orientation `DMDO_DEFAULT`. -/
def DMDO_DEFAULT : Int := 0

/-- The Windows display orientation `DMDO_90`. -/
def DMDO_90 : Int := 1

/-- The Windows display orientation `DMDO_180`. -/
def DMDO_180 : Int := 2

/-- The Windows display orientation `DMDO_270`. -/
def DMDO_270 : Int := 3

/-- The struct `ff::window_size`; `logical_pixel_size` is given as `cast<T>()` makes it, and
`dpi_scale`, which the rectangle functions do not read, is left out. -/
structure window_size where
  logical_pixel_size : point_t
  rotation : Int
  deriving DecidableEq, Repr

/-- The function `window_size::logical_to_physical_rect`. -/
def window_size.logical_to_physical_rect (this : window_size) (rect : rect_t) : rect_t :=
  let size := this.logical_pixel_size
  if this.rotation = DMDO_90 then
    ⟨rect.top, size.x - rect.right, rect.bottom, size.x - rect.left⟩
  else if this.rotation = DMDO_180 then
    ⟨size.x - rect.right, size.y - rect.bottom, size.x - rect.left, size.y - rect.top⟩
  else if this.rotation = DMDO_270 then
    ⟨size.y - rect.bottom, rect.left, size.y - rect.top, rect.right⟩
  else rect

/-- The function `window_size::physical_to_logical_rect`. -/
def window_size.physical_to_logical_rect (this : window_size) (rect : rect_t) : rect_t :=
  let size := this.logical_pixel_size
  if this.rotation = DMDO_90 then
    ⟨size.y - rect.bottom, rect.left, size.y - rect.top, rect.right⟩
  else if this.rotation = DMDO_180 then
    ⟨size.x - rect.right, size.y - rect.bottom, size.x - rect.left, size.y - rect.top⟩
  else if this.rotation = DMDO_270 then
    ⟨rect.top, size.x - rect.right, rect.bottom, size.x - rect.left⟩
  else rect

/-! ## Event handles (`win_handle.cpp`) -/

/-- The enum `win_handle::handle_type`. -/
inductive handle_type where
  | unknown
  | event
  deriving DecidableEq, Repr

/-- The Windows `INVALID_HANDLE_VALUE`, as a 64-bit handle value; `0` is `nullptr`. -/
def INVALID_HANDLE_VALUE : Nat := 2 ^ 64 - 1

/-- The file-static variables of `win_handle.cpp`, the `int`s that the `shared_ptr<int>`
values of `dupe_event_count` point to (a `shared_ptr` is given by the identity of its `int`),
and the handles passed to `CloseHandle` so far. -/
structure win_handle.statics where
  event_pool : List Nat
  /-- The map `dupe_event_count`, as its key-value pairs. -/
  dupe_event_count : List (Nat × Nat)
  /-- The value of each shared `int`. -/
  counts : Nat → Int
  closed : List Nat

/-- The data members of a `ff::win_handle`. -/
structure win_handle.members where
  handle : Nat
  type : handle_type
  deriving DecidableEq, Repr

/-- The constructor `win_handle(handle, type)`. -/
def win_handle.members.new (handle : Nat) (type : handle_type) : win_handle.members :=
  ⟨if handle ≠ INVALID_HANDLE_VALUE then handle else 0, type⟩

/-- The static `win_handle::close(HANDLE& handle)`: the handle afterwards, and the statics. -/
def win_handle.close_handle (handle : Nat) (s : win_handle.statics) :
    Nat × win_handle.statics :=
  if handle ≠ 0 ∧ handle ≠ INVALID_HANDLE_VALUE then
    (0, { s with closed := s.closed ++ [handle] })
  else (handle, s)

/-- The member function `win_handle::close()`.  `find` yields `end()` for a handle that is
not a key of `dupe_event_count`, and `*i->second` then dereferences `end()`. -/
def win_handle.close (this : win_handle.members) (s : win_handle.statics) :
    Except Fault (win_handle.members × win_handle.statics) :=
  if this.handle ≠ 0 ∧ this.type = .event then
    match s.dupe_event_count.lookup this.handle with
    | none => .error .end_deref
    | some count =>
      let s := { s with counts := Function.update s.counts count (s.counts count - 1) }
      if s.counts count = (0 : Int) then
        .ok (⟨0, .unknown⟩, { s with event_pool := s.event_pool ++ [this.handle] })
      else
        let s := { s with dupe_event_count :=
          (s.dupe_event_count.eraseP (fun entry => entry.1 == this.handle)) }
        .ok (⟨0, .unknown⟩, (win_handle.close_handle this.handle s).2)
  else
    let closed := win_handle.close_handle this.handle s
    .ok (⟨closed.1, .unknown⟩, closed.2)

/-- The function `win_handle::create_event(initial_set)`; `created` is the handle that
`CreateEventEx` returns when it is called (`0` when it fails).  `SetEvent` and `ResetEvent`
do not touch the statics. -/
def win_handle.create_event (created : Nat) (s : win_handle.statics) :
    Except Fault (win_handle.members × win_handle.statics) :=
  match s.event_pool.getLast? with
  | some handle =>
    let s := { s with event_pool := s.event_pool.dropLast }
    match s.dupe_event_count.lookup handle with
    | none => .error .end_deref
    | some count =>
      let s := { s with counts := Function.update s.counts count (s.counts count + 1) }
      .ok (win_handle.members.new (if handle ≠ 0 then handle else created) .event, s)
  | none => .ok (win_handle.members.new created .event, s)

/-- The static `win_handle::duplicate(handle)`; `duplicated` is the handle that
`DuplicateHandle` yields when it is called (`0` when it fails). -/
def win_handle.duplicate (handle duplicated : Nat) (s : win_handle.statics) :
    win_handle.members × win_handle.statics :=
  let new_handle := if handle ≠ 0 then duplicated else 0
  if new_handle ≠ 0 then
    match s.dupe_event_count.lookup handle with
    | some count =>
      let s := { s with counts := Function.update s.counts count (s.counts count + 1) }
      let s :=
        match s.dupe_event_count.lookup new_handle with
        | some _ => s
        | none => { s with dupe_event_count := s.dupe_event_count ++ [(new_handle, count)] }
      (win_handle.members.new new_handle .event, s)
    | none => (win_handle.members.new new_handle .unknown, s)
  else (win_handle.members.new new_handle .unknown, s)

/-- The statics when the program starts: the pool and the map are empty. -/
def win_handle.statics.initial : win_handle.statics :=
  { event_pool := [], dupe_event_count := [], counts := fun _ => 0, closed := [] }

/-! ## Signal connections (`signal.cpp`) -/

/-- The connections and the signal entries of a program: the member `entry` of each
`signal_connection` and the member `connection` of each `entry_t` (signal.h is not among the
sources), both by identity; `none` is `nullptr`. -/
structure signal_heap where
  entry : Nat → Option Nat
  connection : Nat → Option Nat

/-- The function `signal_connection::connect(entry)`. -/
def signal_connection.connect (this : Nat) (entry : Option Nat) (h : signal_heap) :
    signal_heap :=
  let h :=
    match h.entry this with
    | some old => { h with connection := Function.update h.connection old none }
    | none => h
  let h := { h with entry := Function.update h.entry this entry }
  match h.entry this with
  | some e => { h with connection := Function.update h.connection e (some this) }
  | none => h

/-- The function `signal_connection::disconnect()`. -/
def signal_connection.disconnect (this : Nat) (h : signal_heap) : signal_heap :=
  signal_connection.connect this none h

/-- The move assignment `signal_connection::operator=(signal_connection&& other)`. -/
def signal_connection.assign (this other : Nat) (h : signal_heap) : signal_heap :=
  if this ≠ other then
    let h := signal_connection.connect this (h.entry other) h
    { h with entry := Function.update h.entry other none }
  else h

/-- The conversion `signal_connection::operator bool()`. -/
def signal_connection.to_bool (this : Nat) (h : signal_heap) : Bool :=
  (h.entry this).isSome

/-- A connection holds an entry exactly when the entry's connection pointer refers to it. -/
def signal_heap.consistent (h : signal_heap) : Prop :=
  ∀ c e, h.entry c = some e ↔ h.connection e = some c

/-- A heap with connection 1 on entry 10 and connection 2 on entry 20. -/
def sample_signal_heap : signal_heap :=
  { entry := fun c => if c = 1 then some 10 else if c = 2 then some 20 else none
    connection := fun e => if e = 10 then some 1 else if e = 20 then some 2 else none }

/-! ## Vertex layouts (`vertex.cpp`) -/

/-- The `DXGI_FORMAT` values that the layouts use. -/
inductive DXGI_FORMAT where
  | R32G32B32A32_FLOAT
  | R32G32B32_FLOAT
  | R32G32_FLOAT
  | R32_FLOAT
  | R32_UINT
  deriving DecidableEq, Repr

/-- The number of bytes of one element of a format: 32 bits for each component. -/
def DXGI_FORMAT.byte_size : DXGI_FORMAT → Nat
  | .R32G32B32A32_FLOAT => 16
  | .R32G32B32_FLOAT => 12
  | .R32G32_FLOAT => 8
  | .R32_FLOAT => 4
  | .R32_UINT => 4

/-- The struct `D3D12_INPUT_ELEMENT_DESC`; every element of the four layouts has the slot
class `D3D12_INPUT_CLASSIFICATION_PER_VERTEX_DATA`, which is left out. -/
structure D3D12_INPUT_ELEMENT_DESC where
  SemanticName : String
  SemanticIndex : Nat
  Format : DXGI_FORMAT
  InputSlot : Nat
  AlignedByteOffset : Nat
  InstanceDataStepRate : Nat
  deriving DecidableEq, Repr

/-- The array of `ff::dx12::vertex::line_geometry::layout()`. -/
def dx12.vertex.line_geometry.layout : List D3D12_INPUT_ELEMENT_DESC :=
  [⟨"POSITION", 0, .R32G32_FLOAT, 0, 0, 0⟩,
   ⟨"POSITION", 1, .R32G32_FLOAT, 0, 8, 0⟩,
   ⟨"POSITION", 2, .R32G32_FLOAT, 0, 16, 0⟩,
   ⟨"POSITION", 3, .R32G32_FLOAT, 0, 24, 0⟩,
   ⟨"COLOR", 0, .R32G32B32A32_FLOAT, 0, 32, 0⟩,
   ⟨"COLOR", 1, .R32G32B32A32_FLOAT, 0, 48, 0⟩,
   ⟨"THICK", 0, .R32_FLOAT, 0, 64, 0⟩,
   ⟨"THICK", 1, .R32_FLOAT, 0, 68, 0⟩,
   ⟨"DEPTH", 0, .R32_FLOAT, 0, 72, 0⟩,
   ⟨"MATRIX", 0, .R32_UINT, 0, 76, 0⟩]

/-- The array of `ff::dx12::vertex::circle_geometry::layout()`. -/
def dx12.vertex.circle_geometry.layout : List D3D12_INPUT_ELEMENT_DESC :=
  [⟨"POSITION", 0, .R32G32B32_FLOAT, 0, 0, 0⟩,
   ⟨"COLOR", 0, .R32G32B32A32_FLOAT, 0, 12, 0⟩,
   ⟨"COLOR", 1, .R32G32B32A32_FLOAT, 0, 28, 0⟩,
   ⟨"RADIUS", 0, .R32G32_FLOAT, 0, 44, 0⟩,
   ⟨"THICK", 0, .R32G32_FLOAT, 0, 48, 0⟩,
   ⟨"MATRIX", 0, .R32_UINT, 0, 52, 0⟩]

/-- The array of `ff::dx12::vertex::triangle_geometry::layout()`. -/
def dx12.vertex.triangle_geometry.layout : List D3D12_INPUT_ELEMENT_DESC :=
  [⟨"POSITION", 0, .R32G32_FLOAT, 0, 0, 0⟩,
   ⟨"POSITION", 1, .R32G32_FLOAT, 0, 8, 0⟩,
   ⟨"POSITION", 2, .R32G32_FLOAT, 0, 16, 0⟩,
   ⟨"COLOR", 0, .R32G32B32A32_FLOAT, 0, 24, 0⟩,
   ⟨"COLOR", 1, .R32G32B32A32_FLOAT, 0, 40, 0⟩,
   ⟨"COLOR", 2, .R32G32B32A32_FLOAT, 0, 56, 0⟩,
   ⟨"DEPTH", 0, .R32_FLOAT, 0, 72, 0⟩,
   ⟨"MATRIX", 0, .R32_UINT, 0, 76, 0⟩]

/-- The array of `ff::dx12::vertex::sprite_geometry::layout()`. -/
def dx12.vertex.sprite_geometry.layout : List D3D12_INPUT_ELEMENT_DESC :=
  [⟨"RECT", 0, .R32G32B32A32_FLOAT, 0, 0, 0⟩,
   ⟨"TEXCOORD", 0, .R32G32B32A32_FLOAT, 0, 16, 0⟩,
   ⟨"COLOR", 0, .R32G32B32A32_FLOAT, 0, 32, 0⟩,
   ⟨"SCALE", 0, .R32G32_FLOAT, 0, 48, 0⟩,
   ⟨"POSITION", 0, .R32G32B32_FLOAT, 0, 56, 0⟩,
   ⟨"ROTATE", 0, .R32_FLOAT, 0, 68, 0⟩,
   ⟨"TEXINDEX", 0, .R32_UINT, 0, 72, 0⟩,
   ⟨"MATRIX", 0, .R32_UINT, 0, 76, 0⟩]

/-- The elements are packed from `offset` on: each one starts where the one before it
ends. -/
def packed : Nat → List D3D12_INPUT_ELEMENT_DESC → Bool
  | _, [] => true
  | offset, element :: more =>
    decide (element.AlignedByteOffset = offset) &&
      packed (offset + element.Format.byte_size) more

/-- The pairs of neighbouring elements of a layout whose byte ranges overlap. -/
def overlaps : List D3D12_INPUT_ELEMENT_DESC → List (String × String)
  | a :: b :: more =>
    (if b.AlignedByteOffset < a.AlignedByteOffset + a.Format.byte_size
      then [(a.SemanticName, b.SemanticName)] else []) ++ overlaps (b :: more)
  | _ => []

/-! # Theorems -/

/-! ## Child pointers of `sorted_children` -/

theorem Nulls.refl_nulls (v : List (Option Nat)) : Nulls v v := fun _ _ h => h

theorem Nulls.then_nulls {v v' v'' : List (Option Nat)} (h : Nulls v v') (h' : Nulls v' v'') :
    Nulls v v'' := fun i c hc => h i c (h' i c hc)

theorem SlotsNodup.of_nulls {v v' : List (Option Nat)} (hv : SlotsNodup v) (h : Nulls v v') :
    SlotsNodup v' := fun i j c hi hj => hv i j c (h i c hi) (h j c hj)

theorem nulls_set_none (v : List (Option Nat)) (i : Nat) : Nulls v (v.set i none) := by
  intro j c h
  rw [List.getElem?_set] at h
  split at h
  · split at h <;> simp at h
  · exact h

theorem getElem?_set_none_ne {v : List (Option Nat)} {i j : Nat} {c : Nat} (hij : i ≠ j)
    (h : v[j]? = some (some c)) : (v.set i none)[j]? = some (some c) := by
  rw [List.getElem?_set]
  simp [hij, h]

theorem getElem?_null_child_of (c : Nat) : ∀ (v : List (Option Nat)) (i c' : Nat),
    (null_child c v)[i]? = some (some c') → v[i]? = some (some c')
  | [], i, c', h => by simp [null_child] at h
  | x :: xs, i, c', h => by
    unfold null_child at h
    split at h
    · cases i with
      | zero => simp at h
      | succ n => simpa using h
    · cases i with
      | zero => simpa using h
      | succ n =>
        simp only [List.getElem?_cons_succ] at h ⊢
        exact getElem?_null_child_of c xs n c' h

theorem nulls_null_child (c : Nat) (v : List (Option Nat)) : Nulls v (null_child c v) :=
  fun i c' h => getElem?_null_child_of c v i c' h

theorem getElem?_null_child_ne (c : Nat) : ∀ (v : List (Option Nat)) (i c' : Nat),
    v[i]? = some (some c') → c' ≠ c → (null_child c v)[i]? = some (some c')
  | [], i, c', h, _ => by simp at h
  | x :: xs, i, c', h, hne => by
    unfold null_child
    split
    · rename_i hx
      cases i with
      | zero =>
        simp only [List.getElem?_cons_zero, Option.some.injEq] at h
        rw [hx] at h
        exact absurd (Option.some.inj h).symm hne
      | succ n => simpa using h
    · cases i with
      | zero => simpa using h
      | succ n =>
        simp only [List.getElem?_cons_succ] at h ⊢
        exact getElem?_null_child_ne c xs n c' h hne

theorem getElem?_null_child_self (c : Nat) : ∀ (v : List (Option Nat)), SlotsNodup v →
    ∀ i : Nat, (null_child c v)[i]? ≠ some (some c)
  | [], _, i => by simp [null_child]
  | x :: xs, hv, i => by
    unfold null_child
    split
    · rename_i hx
      cases i with
      | zero => simp
      | succ n =>
        intro h
        have h0 : (x :: xs)[0]? = some (some c) := by simp [hx]
        have h1 : (x :: xs)[n + 1]? = some (some c) := by simpa using h
        have := hv 0 (n + 1) c h0 h1
        omega
    · rename_i hx
      cases i with
      | zero => simpa using hx
      | succ n =>
        simp only [List.getElem?_cons_succ]
        apply getElem?_null_child_self c xs
        intro i j c' hi hj
        have := hv (i + 1) (j + 1) c' (by simpa using hi) (by simpa using hj)
        omega

theorem nulls_apply_removals : ∀ (t : List Event) (v : List (Option Nat)),
    Nulls v (apply_removals t v)
  | [], v => Nulls.refl_nulls v
  | e :: t, v => by
    unfold apply_removals
    split
    · exact (nulls_null_child _ v).then_nulls (nulls_apply_removals t _)
    · exact nulls_apply_removals t v

theorem apply_removals_removed : ∀ (t : List Event) (v : List (Option Nat)), SlotsNodup v →
    ∀ e ∈ t, ∀ c, e.removed = some c → ∀ i : Nat, (apply_removals t v)[i]? ≠ some (some c)
  | [], _, _, e, he, _, _, _ => by simp at he
  | e0 :: t, v, hv, e, he, c, hc, i => by
    rcases List.mem_cons.1 he with rfl | he
    · unfold apply_removals
      rw [hc]
      intro h
      exact getElem?_null_child_self c v hv i (nulls_apply_removals t _ i c h)
    · unfold apply_removals
      split
      · exact apply_removals_removed t _ (hv.of_nulls (nulls_null_child _ v)) e he c hc i
      · exact apply_removals_removed t v hv e he c hc i

theorem apply_removals_kept : ∀ (t : List Event) (v : List (Option Nat)) (i c : Nat),
    v[i]? = some (some c) →
    (apply_removals t v)[i]? = some (some c) ∨ ∃ e ∈ t, e.removed = some c
  | [], _, _, _, h => Or.inl h
  | e0 :: t, v, i, c, h => by
    unfold apply_removals
    split
    · rename_i c0 hc0
      by_cases hcc : c = c0
      · right
        exact ⟨e0, List.mem_cons_self _ _, by rw [hc0, hcc]⟩
      · rcases apply_removals_kept t _ i c (getElem?_null_child_ne c0 v i c h hcc) with h' | ⟨e, he, hc⟩
        · exact Or.inl h'
        · exact Or.inr ⟨e, List.mem_cons_of_mem _ he, hc⟩
    · rcases apply_removals_kept t v i c h with h' | ⟨e, he, hc⟩
      · exact Or.inl h'
      · exact Or.inr ⟨e, List.mem_cons_of_mem _ he, hc⟩

theorem apply_removals_none : ∀ (t : List Event) (v : List (Option Nat)),
    (∀ e ∈ t, e.removed = none) → apply_removals t v = v
  | [], _, _ => rfl
  | e0 :: t, v, h => by
    unfold apply_removals
    rw [h e0 (List.mem_cons_self _ _)]
    exact apply_removals_none t v (fun e he => h e (List.mem_cons_of_mem _ he))

theorem length_null_child (c : Nat) : ∀ v : List (Option Nat), (null_child c v).length = v.length
  | [] => rfl
  | x :: xs => by
    unfold null_child
    split
    · simp
    · simp [length_null_child c xs]

theorem length_apply_removals : ∀ (t : List Event) (v : List (Option Nat)),
    (apply_removals t v).length = v.length
  | [], _ => rfl
  | e0 :: t, v => by
    unfold apply_removals
    split
    · rw [length_apply_removals t, length_null_child]
    · exact length_apply_removals t v

/-! ## Traces of one loop -/

theorem Event.phase_of_is_action {e : Event} (h : e.is_action = true) : e.phase = none := by
  cases e <;> simp [Event.is_action] at h <;> rfl

theorem Event.callback_of_is_action {e : Event} (h : e.is_action = true) : e.callback = none := by
  cases e <;> simp [Event.is_action] at h <;> rfl

theorem Event.failed_of_is_action {e : Event} (h : e.is_action = true) : e.failed = none := by
  cases e <;> simp [Event.is_action] at h <;> rfl

theorem Phase.callback_call (ph : Phase) (c d : Nat) :
    (ph.call c d).callback = some (ph.callback c) := by
  cases ph <;> rfl

theorem Phase.phase_call (ph : Phase) (c d : Nat) : (ph.call c d).phase = some ph := by
  cases ph <;> rfl

theorem Phase.removed_call (ph : Phase) (c d : Nat) : (ph.call c d).removed = none := by
  cases ph <;> rfl

theorem Phase.failed_call (ph : Phase) (c d : Nat) : (ph.call c d).failed = none := by
  cases ph <;> rfl

theorem Phase.child_callback (ph : Phase) (c : Nat) : (ph.callback c).child = c := by
  cases ph <;> rfl

theorem Phase.phase_callback (ph : Phase) (c : Nat) : (ph.callback c).phase = ph := by
  cases ph <;> rfl

theorem Phase.returned_spec (ph : Phase) (c : Nat) (b : Bool) :
    ∀ e ∈ ph.returned c b, e.callback = none ∧ e.removed = none ∧
      (e.phase = none ∨ e.phase = some ph) ∧ (b = true → e.failed = none) := by
  intro e he
  cases ph <;> cases b <;> simp [Phase.returned] at he <;>
    (try rcases he with rfl | rfl) <;>
    simp [Event.callback, Event.removed, Event.phase, Event.failed]

theorem Phase.returned_failed (ph : Phase) (c : Nat) (h : ph ≠ .before) :
    ∃ e ∈ ph.returned c false, e.failed = some c := by
  cases ph
  · exact absurd rfl h
  · exact ⟨_, List.mem_cons_self _ _, rfl⟩
  · exact ⟨_, List.mem_cons_self _ _, rfl⟩

theorem Run.only_nulls {ph : Phase} {is : List Nat} {v v' : List (Option Nat)} {s s' : Bool}
    {t : List Event} (h : Run ph is v s t v' s') : Nulls v v' := by
  induction h with
  | nil v s => exact Nulls.refl_nulls v
  | skip i is v s t v' s' _ _ ih => exact ih
  | call i is v s c d a b t v' s' hi ha hb _ ih =>
    refine Nulls.then_nulls ?_ ih
    split
    · exact nulls_apply_removals a v
    · exact (nulls_apply_removals a v).then_nulls (nulls_set_none _ i)

theorem Run.phase_events {ph : Phase} {is : List Nat} {v v' : List (Option Nat)} {s s' : Bool}
    {t : List Event} (h : Run ph is v s t v' s') :
    ∀ e ∈ t, e.phase = none ∨ e.phase = some ph := by
  induction h with
  | nil v s => intro e he; simp at he
  | skip i is v s t v' s' _ _ ih => exact ih
  | call i is v s c d a b t v' s' hi ha hb _ ih =>
    intro e he
    simp only [List.mem_cons, List.mem_append] at he
    rcases he with rfl | he | he | he
    · exact Or.inr (ph.phase_call c d)
    · exact Or.inl (Event.phase_of_is_action (ha e he))
    · exact (ph.returned_spec c b e he).2.2.1
    · exact ih e he

theorem Run.call_mem {ph : Phase} {is : List Nat} {v v' : List (Option Nat)} {s s' : Bool}
    {t : List Event} (h : Run ph is v s t v' s') :
    ∀ e ∈ t, ∀ cb, e.callback = some cb → ∃ i : Nat, v[i]? = some (some cb.child) := by
  induction h with
  | nil v s => intro e he; simp at he
  | skip i is v s t v' s' _ _ ih => exact ih
  | call i is v s c d a b t v' s' hi ha hb _ ih =>
    intro e he cb hcb
    simp only [List.mem_cons, List.mem_append] at he
    rcases he with rfl | he | he | he
    · rw [ph.callback_call] at hcb
      cases hcb
      exact ⟨i, by rw [ph.child_callback]; exact hi⟩
    · rw [Event.callback_of_is_action (ha e he)] at hcb
      cases hcb
    · rw [(ph.returned_spec c b e he).1] at hcb
      cases hcb
    · obtain ⟨j, hj⟩ := ih e he cb hcb
      refine ⟨j, ?_⟩
      split at hj
      · exact nulls_apply_removals a v j _ hj
      · exact nulls_apply_removals a v j _ (nulls_set_none _ i j _ hj)

theorem Run.removed_gone {ph : Phase} {is : List Nat} {v v' : List (Option Nat)} {s s' : Bool}
    {t : List Event} (h : Run ph is v s t v' s') (hv : SlotsNodup v) :
    ∀ e ∈ t, ∀ c, e.removed = some c → ∀ i : Nat, v'[i]? ≠ some (some c) := by
  induction h with
  | nil v s => intro e he; simp at he
  | skip i is v s t v' s' _ _ ih => exact ih hv
  | call i is v s c d a b t v' s' hi ha hb hrun ih =>
    intro e he c' hc' j hj
    have hmid : Nulls v (if b then apply_removals a v else (apply_removals a v).set i none) := by
      split
      · exact nulls_apply_removals a v
      · exact (nulls_apply_removals a v).then_nulls (nulls_set_none _ i)
    simp only [List.mem_cons, List.mem_append] at he
    rcases he with rfl | he | he | he
    · rw [ph.removed_call] at hc'
      cases hc'
    · have h1 := hrun.only_nulls j c' hj
      have h2 : (apply_removals a v)[j]? = some (some c') := by
        split at h1
        · exact h1
        · exact nulls_set_none _ i j _ h1
      exact apply_removals_removed a v hv e he c' hc' j h2
    · rw [(ph.returned_spec c b e he).2.1] at hc'
      cases hc'
    · exact ih (hv.of_nulls hmid) e he c' hc' j hj

theorem Run.no_call_after_remove_run {ph : Phase} {is : List Nat} {v v' : List (Option Nat)}
    {s s' : Bool} {t : List Event} (h : Run ph is v s t v' s') (hv : SlotsNodup v) :
    t.Pairwise NoCallAfterRemove := by
  induction h with
  | nil v s => exact List.Pairwise.nil
  | skip i is v s t v' s' _ _ ih => exact ih hv
  | call i is v s c d a b t v' s' hi ha hb hrun ih =>
    have hmid : Nulls v (if b then apply_removals a v else (apply_removals a v).set i none) := by
      split
      · exact nulls_apply_removals a v
      · exact (nulls_apply_removals a v).then_nulls (nulls_set_none _ i)
    rw [List.pairwise_cons]
    refine ⟨?_, ?_⟩
    · intro e' _ c' hc'
      rw [ph.removed_call] at hc'
      cases hc'
    · rw [List.pairwise_append]
      refine ⟨?_, ?_, ?_⟩
      · refine List.Pairwise.imp_of_mem ?_ (List.pairwise_of_forall (R := fun _ _ => True) (fun _ _ => trivial))
        intro e e' _ he' _ c' _ cb hcb
        rw [Event.callback_of_is_action (ha e' he')] at hcb
        cases hcb
      · rw [List.pairwise_append]
        refine ⟨?_, ih (hv.of_nulls hmid), ?_⟩
        · refine List.Pairwise.imp_of_mem ?_ (List.pairwise_of_forall (R := fun _ _ => True) (fun _ _ => trivial))
          intro e e' he _ _ c' hc'
          rw [(ph.returned_spec c b e he).2.1] at hc'
          cases hc'
        · intro e he e' _ c' hc'
          rw [(ph.returned_spec c b e he).2.1] at hc'
          cases hc'
      · intro e he e' he' c' hc' cb hcb hcc
        rcases List.mem_append.1 he' with he' | he'
        · rw [(ph.returned_spec c b e' he').1] at hcb
          cases hcb
        · obtain ⟨j, hj⟩ := hrun.call_mem e' he' cb hcb
          rw [hcc] at hj
          have h2 : (apply_removals a v)[j]? = some (some c') := by
            split at hj
            · exact hj
            · exact nulls_set_none _ i j _ hj
          exact apply_removals_removed a v hv e he c' hc' j h2

theorem Run.called_or_removed {ph : Phase} {is : List Nat} {v v' : List (Option Nat)}
    {s s' : Bool} {t : List Event} (h : Run ph is v s t v' s') :
    ∀ i ∈ is, ∀ c, v[i]? = some (some c) →
      (∃ e ∈ t, e.callback = some (ph.callback c)) ∨ (∃ e ∈ t, e.removed = some c) := by
  induction h with
  | nil v s => intro i hi; simp at hi
  | skip i0 is v s t v' s' hskip _ ih =>
    intro i hi c hc
    rcases List.mem_cons.1 hi with rfl | hi
    · exact absurd hc (hskip c)
    · exact ih i hi c hc
  | call i0 is v s c0 d a b t v' s' hi0 ha hb hrun ih =>
    intro i hi c hc
    by_cases hii : i = i0
    · subst hii
      rw [hi0] at hc
      cases hc
      exact Or.inl ⟨_, List.mem_cons_self _ _, ph.callback_call c0 d⟩
    · have hi' : i ∈ is := by
        rcases List.mem_cons.1 hi with h | h
        · exact absurd h hii
        · exact h
      rcases apply_removals_kept a v i c hc with hk | ⟨e, he, hr⟩
      · have hmid : (if b then apply_removals a v else (apply_removals a v).set i0 none)[i]?
            = some (some c) := by
          split
          · exact hk
          · exact getElem?_set_none_ne (Ne.symm hii) hk
        rcases ih i hi' c hmid with ⟨e, he, h⟩ | ⟨e, he, h⟩
        · exact Or.inl ⟨e, by simp [he], h⟩
        · exact Or.inr ⟨e, by simp [he], h⟩
      · exact Or.inr ⟨e, by simp [he], hr⟩

theorem Run.kept {ph : Phase} {is : List Nat} {v v' : List (Option Nat)}
    {s s' : Bool} {t : List Event} (h : Run ph is v s t v' s') :
    ∀ (i c : Nat), v[i]? = some (some c) →
      v'[i]? = some (some c) ∨ (∃ e ∈ t, e.removed = some c) ∨ (∃ e ∈ t, e.failed = some c) := by
  induction h with
  | nil v s => intro i c hc; exact Or.inl hc
  | skip i0 is v s t v' s' _ _ ih => exact ih
  | call i0 is v s c0 d a b t v' s' hi0 ha hb hrun ih =>
    intro i c hc
    rcases apply_removals_kept a v i c hc with hk | ⟨e, he, hr⟩
    · by_cases hfail : b = false ∧ i = i0
      · obtain ⟨hbf, hii⟩ := hfail
        subst hii
        rw [hi0] at hc
        cases hc
        have hph : ph ≠ .before := fun hp => by
          rw [hb hp] at hbf
          cases hbf
        obtain ⟨e, he, hf⟩ := ph.returned_failed c0 hph
        rw [← hbf] at he
        exact Or.inr (Or.inr ⟨e, by simp [he], hf⟩)
      · have hmid : (if b then apply_removals a v else (apply_removals a v).set i0 none)[i]?
            = some (some c) := by
          split
          · exact hk
          · rename_i hbt
            have hbf : b = false := by simpa using hbt
            refine getElem?_set_none_ne ?_ hk
            intro h
            exact hfail ⟨hbf, h.symm⟩
        rcases ih i c hmid with h | ⟨e, he, h⟩ | ⟨e, he, h⟩
        · exact Or.inl h
        · exact Or.inr (Or.inl ⟨e, by simp [he], h⟩)
        · exact Or.inr (Or.inr ⟨e, by simp [he], h⟩)
    · exact Or.inr (Or.inl ⟨e, by simp [he], hr⟩)

theorem Run.status {ph : Phase} {is : List Nat} {v v' : List (Option Nat)}
    {s s' : Bool} {t : List Event} (h : Run ph is v s t v' s') :
    s' = true ↔ s = true ∧ ∀ e ∈ t, e.failed = none := by
  induction h with
  | nil v s => simp
  | skip i0 is v s t v' s' _ _ ih => exact ih
  | call i0 is v s c0 d a b t v' s' hi0 ha hb hrun ih =>
    rw [ih]
    constructor
    · rintro ⟨hsb, ht⟩
      have hs : s = true := by
        cases s
        · simp at hsb
        · rfl
      have hbt : b = true := by
        cases b
        · simp at hsb
        · rfl
      refine ⟨hs, ?_⟩
      intro e he
      simp only [List.mem_cons, List.mem_append] at he
      rcases he with rfl | he | he | he
      · exact ph.failed_call c0 d
      · exact Event.failed_of_is_action (ha e he)
      · exact (ph.returned_spec c0 b e he).2.2.2 hbt
      · exact ht e he
    · rintro ⟨hs, ht⟩
      have hbt : b = true := by
        cases hbb : b
        · exfalso
          have hph : ph ≠ .before := fun hp => by
            rw [hb hp] at hbb
            cases hbb
          obtain ⟨e, he, hf⟩ := ph.returned_failed c0 hph
          rw [← hbb] at he
          have := ht e (by simp [he])
          rw [hf] at this
          cases this
        · rfl
      refine ⟨by simp [hs, hbt], ?_⟩
      intro e he
      exact ht e (by simp [he])

theorem Run.quiet_run {ph : Phase} {is : List Nat} {v v' : List (Option Nat)}
    {s s' : Bool} {t : List Event} (h : Run ph is v s t v' s')
    (hr : ∀ e ∈ t, e.removed = none) (hf : ∀ e ∈ t, e.failed = none) :
    v' = v ∧ callbacks t = is.filterMap (fun i => (v[i]?.getD none).map ph.callback) := by
  induction h with
  | nil v s => exact ⟨rfl, rfl⟩
  | skip i0 is v s t v' s' hskip _ ih =>
    obtain ⟨h1, h2⟩ := ih hr hf
    refine ⟨h1, ?_⟩
    rw [h2]
    have : (v[i0]?.getD none).map ph.callback = none := by
      rcases hv : v[i0]? with _ | _ | c
      · rfl
      · rfl
      · exact absurd hv (hskip c)
    rw [List.filterMap_cons]
    simp only [this]
  | call i0 is v s c0 d a b t v' s' hi0 ha hb hrun ih =>
    have hbt : b = true := by
      cases hbb : b
      · exfalso
        have hph : ph ≠ .before := fun hp => by
          rw [hb hp] at hbb
          cases hbb
        obtain ⟨e, he, hf'⟩ := ph.returned_failed c0 hph
        rw [← hbb] at he
        have := hf e (by simp [he])
        rw [hf'] at this
        cases this
      · rfl
    subst hbt
    have hra : ∀ e ∈ a, e.removed = none := fun e he => hr e (by simp [he])
    have hmid : apply_removals a v = v := apply_removals_none a v hra
    simp only [if_true, hmid] at ih
    obtain ⟨h1, h2⟩ := ih (fun e he => hr e (by simp [he])) (fun e he => hf e (by simp [he]))
    refine ⟨h1, ?_⟩
    have hca : callbacks a = [] := by
      unfold callbacks
      rw [List.filterMap_eq_nil_iff]
      intro e he
      exact Event.callback_of_is_action (ha e he)
    have hcr : callbacks (ph.returned c0 true) = [] := by
      unfold callbacks
      rw [List.filterMap_eq_nil_iff]
      intro e he
      exact (ph.returned_spec c0 true e he).1
    have hsplit : callbacks (ph.call c0 d :: (a ++ (ph.returned c0 true ++ t)))
        = ph.callback c0 :: callbacks t := by
      have : callbacks (a ++ (ph.returned c0 true ++ t)) = callbacks t := by
        unfold callbacks at hca hcr ⊢
        rw [List.filterMap_append, List.filterMap_append, hca, hcr]
        rfl
      unfold callbacks at this ⊢
      rw [List.filterMap_cons, ph.callback_call, this]
    have hthis : (v[i0]?.getD none).map ph.callback = some (ph.callback c0) := by
      rw [hi0]
      rfl
    rw [hsplit, h2, List.filterMap_cons]
    simp only [hthis]

/-! ## What the setup of a reset leaves alone -/

theorem Grows.refl_grows (P : Event → Bool) (g : Globals) : Grows P g g :=
  ⟨rfl, rfl, rfl, rfl, rfl, rfl, [], by simp, by simp⟩

theorem Grows.then_grows {P : Event → Bool} {g g' g'' : Globals} (h : Grows P g g')
    (h' : Grows P g' g'') : Grows P g g'' := by
  obtain ⟨h1, h2, h3, h4, h5, h6, t, ht, hP⟩ := h
  obtain ⟨h1', h2', h3', h4', h5', h6', t', ht', hP'⟩ := h'
  refine ⟨h1'.trans h1, h2'.trans h2, h3'.trans h3, h4'.trans h4, h5'.trans h5, h6'.trans h6,
    t ++ t', ?_, ?_⟩
  · rw [ht', ht, List.append_assoc]
  · intro e he
    rcases List.mem_append.1 he with he | he
    · exact hP e he
    · exact hP' e he

theorem Grows.mono {P Q : Event → Bool} {g g' : Globals} (hPQ : ∀ e, P e = true → Q e = true)
    (h : Grows P g g') : Grows Q g g' := by
  obtain ⟨h1, h2, h3, h4, h5, h6, t, ht, hP⟩ := h
  exact ⟨h1, h2, h3, h4, h5, h6, t, ht, fun e he => hPQ e (hP e he)⟩

theorem Grows.emit {P : Event → Bool} (g : Globals) (e : Event) (he : P e = true) :
    Grows P g (g.emit e) :=
  ⟨rfl, rfl, rfl, rfl, rfl, rfl, [e], rfl, by simpa using he⟩

/-- A change of fields other than the ones `Grows` names. -/
theorem Grows.same {P : Event → Bool} {g g' : Globals}
    (h1 : g'.device_children = g.device_children)
    (h2 : g'.device_child_reset_priority_ = g.device_child_reset_priority_)
    (h3 : g'.removed_device_child_signal = g.removed_device_child_signal)
    (h4 : g'.resetting = g.resetting) (h5 : g'.env = g.env) (h6 : g'.factory = g.factory)
    (h7 : g'.trace = g.trace) : Grows P g g' :=
  ⟨h1, h2, h3, h4, h5, h6, [], by simpa using h7, by simp⟩

theorem flush_keep_alive.popped_release (completed : Nat → Nat) :
    ∀ (l : List (resource × fence_values)), ∀ e ∈ flush_keep_alive.popped completed l,
      ∃ r fv, e = .release r fv true ∧ fv.complete completed = true ∧ (r, fv) ∈ l
  | [], e, he => by simp [flush_keep_alive.popped] at he
  | entry :: rest, e, he => by
    unfold flush_keep_alive.popped at he
    split at he
    · rename_i hc
      rcases List.mem_cons.1 he with rfl | he
      · exact ⟨entry.1, entry.2, by rw [hc], hc, List.mem_cons_self _ _⟩
      · obtain ⟨r, fv, h1, h2, h3⟩ := flush_keep_alive.popped_release completed rest e he
        exact ⟨r, fv, h1, h2, List.mem_cons_of_mem _ h3⟩
    · simp at he

theorem grows_flush_keep_alive (g : Globals) : Grows Event.is_setup g (flush_keep_alive g) := by
  refine ⟨rfl, rfl, rfl, rfl, rfl, rfl, _, rfl, ?_⟩
  intro e he
  obtain ⟨r, fv, h, _⟩ := flush_keep_alive.popped_release _ _ e he
  rw [h]
  rfl

theorem grows_wait_for_idle {g g' : Globals} (h : wait_for_idle g = .ok g') :
    Grows Event.is_setup g g' := by
  unfold wait_for_idle at h
  split at h
  · cases h
  · cases h
    exact Grows.then_grows (Grows.same rfl rfl rfl rfl rfl rfl rfl) (grows_flush_keep_alive _)

theorem grows_debug_assert (cond : Bool) (g : Globals) :
    Grows Event.is_setup g (debug_assert cond g) := by
  unfold debug_assert
  split
  · exact Grows.refl_grows _ _
  · exact Grows.emit g .assert_failed rfl

/-! ## Closing the budget event -/

theorem event_close_ok {g g' : Globals} (h : video_memory_change_event.close g = .ok g') :
    g' = g ∧ g.video_memory_change_event = none := by
  unfold video_memory_change_event.close at h
  split at h
  · rename_i he
    cases h
    exact ⟨rfl, he⟩
  · cases h

theorem event_close_none {g : Globals} (h : g.video_memory_change_event = none) :
    video_memory_change_event.close g = .ok g := by
  unfold video_memory_change_event.close
  rw [h]

/-- The block of `destroy_d3d` that unregisters the budget event returns only when there is
no event, and then it does nothing. -/
theorem unregister_ok {g g' : Globals} (h : destroy_d3d.unregister g = .ok g') :
    g' = g ∧ g.video_memory_change_event = none := by
  unfold destroy_d3d.unregister at h
  split at h
  · rename_i hs
    split at h
    · cases h
    · rename_i adapter _
      exfalso
      obtain ⟨_, he⟩ := event_close_ok h
      have e : (if adapter.adapter3 = true then
          g.emit (.unregister_budget_event g.video_memory_change_event_cookie)
          else g).video_memory_change_event = g.video_memory_change_event := by
        split <;> rfl
      have he2 : (if adapter.adapter3 = true then
          g.emit (.unregister_budget_event g.video_memory_change_event_cookie)
          else g).video_memory_change_event = none := he
      rw [e] at he2
      rw [he2] at hs
      cases hs
  · rename_i hs
    cases h
    exact ⟨rfl, by simpa using hs⟩

theorem unregister_total (g : Globals) (hev : g.video_memory_change_event = none) :
    destroy_d3d.unregister g = .ok g := by
  unfold destroy_d3d.unregister
  rw [hev]
  rfl

/-! ## Functions that only write to the trace -/

theorem Globals.logged_nil (g : Globals) : g.logged [] = g := by
  cases g
  simp [Globals.logged]

theorem Globals.logged_logged (g : Globals) (t t' : List Event) :
    (g.logged t).logged t' = g.logged (t ++ t') := by
  simp [Globals.logged, List.append_assoc]

theorem Globals.emit_eq_logged (g : Globals) (e : Event) : g.emit e = g.logged [e] := rfl

theorem logged_debug_assert (cond : Bool) (g : Globals) :
    ∃ t, debug_assert cond g = g.logged t := by
  unfold debug_assert
  split
  · exact ⟨[], (Globals.logged_nil g).symm⟩
  · exact ⟨[_], rfl⟩

theorem logged_adapter_name (a : Adapter) (g : Globals) :
    ∃ t, (adapter_name a g).2 = g.logged t := by
  unfold adapter_name
  split
  · exact ⟨[], (Globals.logged_nil g).symm⟩
  · exact ⟨[_], rfl⟩

theorem logged_enumerate : ∀ (l adapters : List Adapter) (found_warp : Bool) (g : Globals),
    ∃ t, (create_dx12_device.enumerate l adapters found_warp g).2.2 = g.logged t
  | [], _, _, g => ⟨[], (Globals.logged_nil g).symm⟩
  | adapter :: more, adapters, found_warp, g => by
    unfold create_dx12_device.enumerate
    simp only []
    obtain ⟨t1, h1⟩ := logged_adapter_name adapter g
    obtain ⟨t2, h2⟩ := logged_enumerate more (adapters ++ [adapter])
      (match adapter.desc with
        | some desc => if desc.VendorId = 0x1414 ∧ desc.DeviceId = 0x008c then true else found_warp
        | none => found_warp)
      ((adapter_name adapter g).2.emit (.log .dx12 ("Adapter[" ++ toString adapters.length ++
        "] = " ++ (adapter_name adapter g).1)))
    rw [h2, h1, Globals.emit_eq_logged, Globals.logged_logged, Globals.logged_logged]
    exact ⟨_, rfl⟩

theorem logged_add_warp (factory : Factory) (found : List Adapter × Bool × Globals) :
    ∃ t, (create_dx12_device.add_warp factory found).2 = found.2.2.logged t := by
  unfold create_dx12_device.add_warp
  split
  · split
    · rename_i adapter _
      obtain ⟨t1, h1⟩ := logged_adapter_name adapter found.2.2
      simp only []
      rw [h1, Globals.emit_eq_logged, Globals.logged_logged]
      exact ⟨_, rfl⟩
    · exact ⟨[], (Globals.logged_nil _).symm⟩
  · exact ⟨[], (Globals.logged_nil _).symm⟩

theorem logged_create (feature_level : Nat) : ∀ (l : List Adapter) (i : Nat) (g : Globals),
    ∃ t, (create_dx12_device.create feature_level l i g).2 = g.logged t
  | [], _, g => ⟨[.log .dx12 "D3D12CreateDevice failed", .assert_failed],
      by simp [create_dx12_device.create, Globals.logged, Globals.emit]⟩
  | adapter :: more, i, g => by
    unfold create_dx12_device.create
    split
    · exact ⟨[_], rfl⟩
    · exact logged_create feature_level more (i + 1) g

theorem logged_create_dx12_device {g g' : Globals} {d : Option Device}
    (h : create_dx12_device g = .ok (d, g')) : ∃ t, g' = g.logged t := by
  unfold create_dx12_device at h
  split at h
  · cases h
  · rename_i factory hf
    simp only [Except.ok.injEq] at h
    have h2 := congrArg Prod.snd h
    simp only at h2
    rw [← h2]
    obtain ⟨t1, h1⟩ := logged_enumerate
      (if factory.factory6 then factory.adapters_by_gpu_preference else factory.adapters)
      [] false g
    obtain ⟨t2, h2⟩ := logged_add_warp factory (create_dx12_device.enumerate
      (if factory.factory6 then factory.adapters_by_gpu_preference else factory.adapters)
      [] false g)
    obtain ⟨t3, h3⟩ := logged_create g.feature_level (create_dx12_device.add_warp factory
      (create_dx12_device.enumerate
        (if factory.factory6 then factory.adapters_by_gpu_preference else factory.adapters)
        [] false g)).1 0 (create_dx12_device.add_warp factory
      (create_dx12_device.enumerate
        (if factory.factory6 then factory.adapters_by_gpu_preference else factory.adapters)
        [] false g)).2
    rw [h3, h2, h1, Globals.logged_logged, Globals.logged_logged]
    exact ⟨_, rfl⟩

theorem grows_unregister {g g' : Globals} (h : destroy_d3d.unregister g = .ok g') :
    Grows Event.is_setup g g' := by
  obtain ⟨e, _⟩ := unregister_ok h
  rw [e]
  exact Grows.refl_grows _ _

theorem grows_destroy_d3d {for_reset : Bool} {g g' : Globals}
    (h : destroy_d3d for_reset g = .ok g') : Grows Event.is_setup g g' := by
  unfold destroy_d3d at h
  split at h
  · cases h
  · rename_i g1 hw
    split at h
    · cases h
    · rename_i g2 hu
      cases h
      have e1 : Grows Event.is_setup g (g.emit (.destroy_d3d for_reset)) := Grows.emit g _ rfl
      have e2 := grows_debug_assert (!g.frame_commands.isSome) (g.emit (.destroy_d3d for_reset))
      have e3 := grows_wait_for_idle hw
      have e4 : Grows Event.is_setup g1
          (if (!for_reset) = true then destroy_d3d.reset_objects g1 else g1) := by
        split
        · exact Grows.same rfl rfl rfl rfl rfl rfl rfl
        · exact Grows.refl_grows _ _
      have e5 := grows_unregister hu
      exact e1.then_grows (e2.then_grows (e3.then_grows (e4.then_grows (e5.then_grows
        (Grows.same rfl rfl rfl rfl rfl rfl rfl)))))

theorem grows_adapter_name (a : Adapter) (g : Globals) :
    Grows Event.is_setup g (adapter_name a g).2 := by
  unfold adapter_name
  split
  · exact Grows.refl_grows _ _
  · exact Grows.emit g .assert_failed rfl

theorem grows_adapter_name_log (a : Adapter) (g : Globals) (f : String → String) :
    Grows Event.is_setup g ((adapter_name a g).2.emit (.log .dx12 (f (adapter_name a g).1))) :=
  (grows_adapter_name a g).then_grows (Grows.emit _ _ rfl)

theorem grows_enumerate : ∀ (l adapters : List Adapter) (found_warp : Bool) (g : Globals),
    Grows Event.is_setup g (create_dx12_device.enumerate l adapters found_warp g).2.2
  | [], _, _, g => Grows.refl_grows _ g
  | adapter :: more, adapters, found_warp, g => by
    unfold create_dx12_device.enumerate
    exact (grows_adapter_name_log adapter g _).then_grows (grows_enumerate more _ _ _)

theorem grows_add_warp (factory : Factory) (found : List Adapter × Bool × Globals) :
    Grows Event.is_setup found.2.2 (create_dx12_device.add_warp factory found).2 := by
  unfold create_dx12_device.add_warp
  split
  · split
    · exact grows_adapter_name_log _ _ _
    · exact Grows.refl_grows _ _
  · exact Grows.refl_grows _ _

theorem grows_create (feature_level : Nat) : ∀ (l : List Adapter) (i : Nat) (g : Globals),
    Grows Event.is_setup g (create_dx12_device.create feature_level l i g).2
  | [], _, g =>
    (Grows.emit g (.log .dx12 "D3D12CreateDevice failed") rfl).then_grows (Grows.emit _ .assert_failed rfl)
  | adapter :: more, i, g => by
    unfold create_dx12_device.create
    split
    · exact Grows.emit g _ rfl
    · exact grows_create feature_level more (i + 1) g

theorem grows_create_dx12_device {g g' : Globals} {d : Option Device}
    (h : create_dx12_device g = .ok (d, g')) : Grows Event.is_setup g g' := by
  unfold create_dx12_device at h
  split at h
  · cases h
  · rename_i factory hf
    simp only [Except.ok.injEq] at h
    have h2 := congrArg Prod.snd h
    simp only at h2
    rw [← h2]
    exact (grows_enumerate _ _ _ _).then_grows ((grows_add_warp _ _).then_grows (grows_create _ _ _ _))

theorem grows_update_video_memory_info (g : Globals) :
    Grows Event.is_setup g (update_video_memory_info g) := by
  unfold update_video_memory_info
  split
  · refine Grows.then_grows ?_ (Grows.emit _ (.log _ _) rfl)
    simp only []
    split
    · exact Grows.same rfl rfl rfl rfl rfl rfl rfl
    · exact Grows.same rfl rfl rfl rfl rfl rfl rfl
  · exact Grows.refl_grows _ _

theorem event_update_video_memory_info (g : Globals)
    (hev : g.video_memory_change_event = none) :
    (update_video_memory_info g).video_memory_change_event = none := by
  simp [update_video_memory_info, hev, Globals.emit]

/-- What a returning "Video memory for residency" block has done: either the adapter is no
`IDXGIAdapter3`, or no event was held before, the event is the created one (which is null when
the registration failed) and the cookie is the registered one, or zero. -/
theorem video_memory_ok {for_reset : Bool} {adapter : Adapter} {g g' : Globals} {b : Bool}
    (h : init_d3d.video_memory for_reset adapter g = .ok (b, g')) :
    (adapter.adapter3 = false ∧ b = false ∧ g' = g.emit .assert_failed) ∨
    (adapter.adapter3 = true ∧ b = true ∧
      (update_video_memory_info g).video_memory_change_event = none ∧
      (adapter.register_budget_event = none →
        (update_video_memory_info g).env.create_event = none) ∧
      g' = (if (!for_reset) = true then init_d3d.create_objects
          { update_video_memory_info g with
            video_memory_change_event := (update_video_memory_info g).env.create_event
            video_memory_change_event_cookie := adapter.register_budget_event.getD 0 }
        else
          { update_video_memory_info g with
            video_memory_change_event := (update_video_memory_info g).env.create_event
            video_memory_change_event_cookie := adapter.register_budget_event.getD 0 })) := by
  unfold init_d3d.video_memory at h
  split at h
  · rename_i h3
    cases h
    exact Or.inl ⟨by simpa using h3, rfl, rfl⟩
  · rename_i h3
    simp only [] at h
    split at h
    · cases h
    · rename_i g1 hc
      obtain ⟨e1, he1⟩ := event_close_ok hc
      subst e1
      split at h
      · rename_i cookie hr
        cases h
        refine Or.inr ⟨by simpa using h3, rfl, he1, ?_, ?_⟩
        · intro hn
          rw [hn] at hr
          cases hr
        · rw [hr]
          rfl
      · rename_i hr
        split at h
        · cases h
        · rename_i g2 hc2
          obtain ⟨e2, he2⟩ := event_close_ok hc2
          subst e2
          cases h
          refine Or.inr ⟨by simpa using h3, rfl, he1, fun _ => he2, ?_⟩
          have he3 : (update_video_memory_info g).env.create_event = none := he2
          rw [hr, he3]
          rfl

theorem video_memory_total (for_reset : Bool) (adapter : Adapter) (g : Globals)
    (hev : g.video_memory_change_event = none) (hce : g.env.create_event = none) :
    ∃ b g', init_d3d.video_memory for_reset adapter g = .ok (b, g') := by
  have h1 := event_update_video_memory_info g hev
  have h2 : (update_video_memory_info g).env.create_event = none := by
    rw [(grows_update_video_memory_info g).2.2.2.2.1, hce]
  unfold init_d3d.video_memory
  split
  · exact ⟨_, _, rfl⟩
  · simp only []
    rw [event_close_none h1]
    simp only []
    split
    · exact ⟨_, _, rfl⟩
    · rw [event_close_none (by exact h2)]
      exact ⟨_, _, rfl⟩

theorem grows_video_memory {for_reset : Bool} {adapter : Adapter} {g g' : Globals} {b : Bool}
    (h : init_d3d.video_memory for_reset adapter g = .ok (b, g')) :
    Grows Event.is_setup g g' := by
  rcases video_memory_ok h with ⟨_, _, e⟩ | ⟨_, _, _, _, e⟩
  · rw [e]
    exact Grows.emit g .assert_failed rfl
  · rw [e]
    refine (grows_update_video_memory_info g).then_grows ?_
    split
    · exact Grows.same rfl rfl rfl rfl rfl rfl rfl
    · exact Grows.same rfl rfl rfl rfl rfl rfl rfl

theorem device_update_video_memory_info (g : Globals) :
    (update_video_memory_info g).device = g.device := by
  unfold update_video_memory_info
  split
  · simp only [Globals.emit]
    split <;> rfl
  · rfl

theorem device_video_memory {for_reset : Bool} {adapter : Adapter} {g g' : Globals} {b : Bool}
    (h : init_d3d.video_memory for_reset adapter g = .ok (b, g')) :
    g'.device = g.device := by
  rcases video_memory_ok h with ⟨_, _, e⟩ | ⟨_, _, _, _, e⟩
  · rw [e]
    rfl
  · rw [e]
    split
    · exact device_update_video_memory_info g
    · exact device_update_video_memory_info g

theorem device_adapter_name (a : Adapter) (g : Globals) : (adapter_name a g).2.device = g.device := by
  unfold adapter_name
  split <;> rfl

theorem device_debug_assert (cond : Bool) (g : Globals) :
    (debug_assert cond g).device = g.device := by
  unfold debug_assert
  split <;> rfl

theorem grows_find_adapter {for_reset : Bool} {device : Device} {g g' : Globals} {r : Bool}
    (h : init_d3d.find_adapter for_reset device g = .ok (r, g')) :
    Grows Event.is_setup g g' ∧ g'.device = g.device ∧ g.factory.isSome = true := by
  unfold init_d3d.find_adapter at h
  split at h
  · cases h
  · rename_i factory hf
    split at h
    · cases h
      exact ⟨Grows.emit g .assert_failed rfl, rfl, by simp [hf]⟩
    · split at h
      · cases h
        exact ⟨(grows_debug_assert (!g.adapter.isSome) g).then_grows (Grows.emit _ .assert_failed rfl),
          device_debug_assert _ _, by simp [hf]⟩
      · rename_i adapter _
        refine ⟨?_, ?_, by simp [hf]⟩
        · refine (grows_debug_assert (!g.adapter.isSome) g).then_grows
            (Grows.then_grows ?_ (grows_video_memory h))
          exact Grows.then_grows (Grows.same rfl rfl rfl rfl rfl rfl rfl)
            (grows_adapter_name_log adapter _ _)
        · rw [device_video_memory h]
          simp only [Globals.emit]
          rw [device_adapter_name]
          exact device_debug_assert _ _

theorem grows_init_d3d_body {for_reset : Bool} {g g' : Globals} {r : Bool}
    (h : init_d3d.body for_reset g = .ok (r, g')) :
    Grows Event.is_setup g g' ∧ (r = true → g'.device.isSome = true) ∧
      g.factory.isSome = true := by
  unfold init_d3d.body at h
  split at h
  · cases h
  · rename_i g1 hc
    cases h
    have hg := grows_create_dx12_device hc
    refine ⟨(grows_debug_assert (!g.device.isSome) g).then_grows (hg.then_grows
      ((Grows.same rfl rfl rfl rfl rfl rfl rfl).then_grows (Grows.emit _ .assert_failed rfl))),
      by simp, ?_⟩
    unfold create_dx12_device at hc
    split at hc
    · cases hc
    · rename_i hf
      have : (debug_assert (!g.device.isSome) g).factory = g.factory :=
        (grows_debug_assert (!g.device.isSome) g).2.2.2.2.2.1
      rw [this] at hf
      simp [hf]
  · rename_i device g1 hc
    have hg := grows_create_dx12_device hc
    obtain ⟨h1, h2, h3⟩ := grows_find_adapter h
    refine ⟨(grows_debug_assert (!g.device.isSome) g).then_grows (hg.then_grows
      ((Grows.same rfl rfl rfl rfl rfl rfl rfl).then_grows h1)), ?_, ?_⟩
    · intro _
      rw [h2]
      rfl
    · have e1 : g1.factory = g.factory :=
        (hg.2.2.2.2.2.1).trans (grows_debug_assert (!g.device.isSome) g).2.2.2.2.2.1
      rw [← e1]
      exact h3

theorem init_d3d_spec {for_reset : Bool} {g g' : Globals} {r : Bool}
    (h : init_d3d for_reset g = .ok (r, g')) :
    ∃ g1, Grows Event.is_setup g g1 ∧ g' = g1.emit (.init_d3d for_reset r) ∧
      (r = true → g1.device.isSome = true) ∧ g.factory.isSome = true := by
  unfold init_d3d at h
  split at h
  · cases h
  · rename_i r1 g1 hb
    cases h
    obtain ⟨h1, h2, h3⟩ := grows_init_d3d_body hb
    exact ⟨g1, h1, rfl, h2, h3⟩

theorem find_adapter_total (for_reset : Bool) (device : Device) (g : Globals)
    (hf : g.factory.isSome = true) (hev : g.video_memory_change_event = none)
    (hce : g.env.create_event = none) :
    ∃ r g', init_d3d.find_adapter for_reset device g = .ok (r, g') := by
  obtain ⟨factory, hf⟩ := Option.isSome_iff_exists.1 hf
  unfold init_d3d.find_adapter
  rw [hf]
  simp only []
  split
  · exact ⟨_, _, rfl⟩
  · split
    · exact ⟨_, _, rfl⟩
    · rename_i adapter _
      obtain ⟨t1, h1⟩ := logged_debug_assert (!g.adapter.isSome) g
      rw [h1]
      obtain ⟨t2, h2⟩ := logged_adapter_name adapter
        { { g.logged t1 with adapter := some adapter } with
          outputs_hash := factory.outputs_hash (some adapter) }
      rw [h2]
      exact video_memory_total for_reset adapter _ hev hce

theorem init_d3d_body_total (for_reset : Bool) (g : Globals) (hf : g.factory.isSome = true)
    (hev : g.video_memory_change_event = none) (hce : g.env.create_event = none) :
    ∃ r g', init_d3d.body for_reset g = .ok (r, g') := by
  obtain ⟨factory, hf'⟩ := Option.isSome_iff_exists.1 hf
  have hd : (debug_assert (!g.device.isSome) g).factory = some factory := by
    rw [(grows_debug_assert (!g.device.isSome) g).2.2.2.2.2.1, hf']
  have hc : ∃ d g1, create_dx12_device (debug_assert (!g.device.isSome) g) = .ok (d, g1) := by
    unfold create_dx12_device
    rw [hd]
    exact ⟨_, _, rfl⟩
  obtain ⟨d, g1, hc⟩ := hc
  have hg1 : g1.factory = some factory := by
    rw [(grows_create_dx12_device hc).2.2.2.2.2.1, hd]
  obtain ⟨t1, h1⟩ := logged_debug_assert (!g.device.isSome) g
  obtain ⟨t2, h2⟩ := logged_create_dx12_device hc
  rw [h1] at h2
  unfold init_d3d.body
  rw [hc]
  cases d with
  | none => exact ⟨_, _, rfl⟩
  | some device =>
    simp only []
    exact find_adapter_total for_reset device _ (by simp [hg1]) (by rw [h2]; exact hev)
      (by rw [h2]; exact hce)

theorem init_d3d_total (for_reset : Bool) (g : Globals) (hf : g.factory.isSome = true)
    (hev : g.video_memory_change_event = none) (hce : g.env.create_event = none) :
    ∃ r g', init_d3d for_reset g = .ok (r, g') := by
  obtain ⟨r, g', h⟩ := init_d3d_body_total for_reset g hf hev hce
  unfold init_d3d
  rw [h]
  exact ⟨_, _, rfl⟩

/-! ## Actions of callbacks -/

theorem map_child_removed_handler (c : Nat) : ∀ v : List device_child_t,
    (reset_device.removed_handler c v).map (fun s => s.child) =
      null_child c (v.map (fun s => s.child))
  | [] => rfl
  | i :: more => by
    unfold reset_device.removed_handler
    simp only [List.map_cons, null_child]
    split
    · rfl
    · rw [List.map_cons, map_child_removed_handler c more]

theorem slots_remove_device_child (c : Nat) (g : Globals) :
    slots (remove_device_child c g) = null_child c (slots g) := by
  unfold slots sorted_children remove_device_child
  simp only [Globals.emit]
  cases g.removed_device_child_signal with
  | nil => rfl
  | cons v more =>
    simp only [List.map_cons, List.headD_cons]
    exact map_child_removed_handler c v

theorem apply_removals_append : ∀ (t t' : List Event) (v : List (Option Nat)),
    apply_removals (t ++ t') v = apply_removals t' (apply_removals t v)
  | [], _, _ => rfl
  | e :: t, t', v => by
    simp only [List.cons_append, apply_removals]
    split
    · exact apply_removals_append t t' _
    · exact apply_removals_append t t' v

theorem Acts.refl_acts (g : Globals) : Acts g g :=
  ⟨rfl, rfl, rfl, [], by simp, by simp, rfl⟩

theorem Acts.then_acts {g g' g'' : Globals} (h : Acts g g') (h' : Acts g' g'') : Acts g g'' := by
  obtain ⟨h1, h2, h3, t, ht, ha, hs⟩ := h
  obtain ⟨h1', h2', h3', t', ht', ha', hs'⟩ := h'
  refine ⟨h1'.trans h1, h2'.trans h2, h3'.trans h3, t ++ t', ?_, ?_, ?_⟩
  · rw [ht', ht, List.append_assoc]
  · intro e he
    rcases List.mem_append.1 he with he | he
    · exact ha e he
    · exact ha' e he
  · rw [hs', hs, apply_removals_append]

theorem Event.removed_of_is_note {e : Event} (h : e.is_note = true) : e.removed = none := by
  cases e <;> simp [Event.is_note] at h <;> rfl

theorem Event.is_action_of_is_note {e : Event} (h : e.is_note = true) : e.is_action = true := by
  cases e <;> simp [Event.is_note] at h <;> rfl

theorem Event.is_setup_of_is_note {e : Event} (h : e.is_note = true) : e.is_setup = true := by
  cases e <;> simp [Event.is_note] at h <;> rfl

theorem acts_run_action {nested : Bool → Globals → Except Fault (Bool × Globals)}
    (hn : NestedQuiet nested) {a : Action} {g g' : Globals} (hg : g.resetting = true)
    (h : run_action nested a g = .ok g') : Acts g g' := by
  cases a with
  | add_device_child child reset_priority =>
    simp only [run_action, Except.ok.injEq] at h
    subst h
    exact ⟨rfl, rfl, rfl, [.add_device_child child reset_priority], rfl, by simp [Event.is_action],
      rfl⟩
  | remove_device_child child =>
    simp only [run_action, Except.ok.injEq] at h
    subst h
    refine ⟨rfl, rfl, rfl, [.remove_device_child child], rfl, by simp [Event.is_action], ?_⟩
    rw [slots_remove_device_child]
    rfl
  | reset_device force =>
    simp only [run_action] at h
    split at h
    · cases h
    · rename_i b g1 hr
      cases h
      obtain ⟨h1, h2, h3, h4, t, ht, hnote⟩ := hn force g b g' hg hr
      refine ⟨h1.trans hg.symm, h2, h3, t, ht, fun e he => Event.is_action_of_is_note (hnote e he),
        ?_⟩
      rw [apply_removals_none t _ (fun e he => Event.removed_of_is_note (hnote e he))]
      unfold slots sorted_children
      rw [h4]

theorem acts_run_actions {nested : Bool → Globals → Except Fault (Bool × Globals)}
    (hn : NestedQuiet nested) : ∀ (l : List Action) (g g' : Globals), g.resetting = true →
    run_actions nested l g = .ok g' → Acts g g'
  | [], g, g', _, h => by
    simp only [run_actions, Except.ok.injEq] at h
    subst h
    exact Acts.refl_acts g
  | a :: more, g, g', hg, h => by
    unfold run_actions at h
    split at h
    · cases h
    · rename_i g1 h1
      have e1 := acts_run_action hn hg h1
      exact e1.then_acts (acts_run_actions hn more g1 g' (e1.1.trans hg) h)

theorem walking_run_action {nested : Bool → Globals → Except Fault (Bool × Globals)}
    (hn : NestedTotal nested) (a : Action) (g : Globals) (hg : Walking g) :
    ∃ g', run_action nested a g = .ok g' ∧ Walking g' := by
  cases a with
  | add_device_child child reset_priority => exact ⟨_, rfl, hg⟩
  | remove_device_child child => exact ⟨_, rfl, hg⟩
  | reset_device force =>
    obtain ⟨b, g', h, hw⟩ := hn force g hg
    refine ⟨g', ?_, hw⟩
    simp only [run_action, h]

theorem walking_run_actions {nested : Bool → Globals → Except Fault (Bool × Globals)}
    (hn : NestedTotal nested) : ∀ (l : List Action) (g : Globals), Walking g →
    ∃ g', run_actions nested l g = .ok g' ∧ Walking g'
  | [], g, hg => ⟨g, rfl, hg⟩
  | a :: more, g, hg => by
    obtain ⟨g1, h1, hw1⟩ := walking_run_action hn a g hg
    obtain ⟨g2, h2, hw2⟩ := walking_run_actions hn more g1 hw1
    refine ⟨g2, ?_, hw2⟩
    unfold run_actions
    rw [h1]
    exact h2

/-! ## The loops of `reset_device` -/

theorem getElem?_slots (g : Globals) (i : Nat) :
    (slots g)[i]? = ((sorted_children g)[i]?).map (fun s => s.child) := by
  unfold slots
  rw [List.getElem?_map]

theorem map_child_modify_keep (f : device_child_t → device_child_t)
    (hf : ∀ s, (f s).child = s.child) (i : Nat) (v : List device_child_t) :
    (v.modify f i).map (fun s => s.child) = v.map (fun s => s.child) := by
  apply List.ext_getElem?
  intro j
  rw [List.getElem?_map, List.getElem?_map, List.getElem?_modify]
  cases v[j]? with
  | none => rfl
  | some a =>
    simp only [Option.map_eq_map, Option.map_some']
    split <;> simp [hf]

theorem map_child_modify_null (f : device_child_t → device_child_t)
    (hf : ∀ s, (f s).child = none) (i : Nat) (v : List device_child_t) :
    (v.modify f i).map (fun s => s.child) = (v.map (fun s => s.child)).set i none := by
  apply List.ext_getElem?
  intro j
  rw [List.getElem?_map, List.getElem?_modify, List.getElem?_set, List.getElem?_map]
  cases hj : v[j]? with
  | none =>
    have : ¬ j < v.length := by
      intro h
      rw [List.getElem?_eq_getElem h] at hj
      cases hj
    by_cases hij : i = j
    · subst hij
      simp [this]
    · simp [hij]
  | some a =>
    have : j < v.length := by
      by_contra h
      rw [List.getElem?_eq_none (by omega)] at hj
      cases hj
    by_cases hij : i = j
    · subst hij
      simp [this, hf]
    · simp [hij]

theorem slots_set_sorted_child_keep (f : device_child_t → device_child_t)
    (hf : ∀ s, (f s).child = s.child) (i : Nat) (g : Globals) :
    slots (set_sorted_child i f g) = slots g := by
  unfold slots sorted_children set_sorted_child
  cases g.removed_device_child_signal with
  | nil => rfl
  | cons v more => exact map_child_modify_keep f hf i v

theorem slots_set_sorted_child_null (f : device_child_t → device_child_t)
    (hf : ∀ s, (f s).child = none) (i : Nat) (g : Globals) :
    slots (set_sorted_child i f g) = (slots g).set i none := by
  unfold slots sorted_children set_sorted_child
  cases g.removed_device_child_signal with
  | nil => rfl
  | cons v more => exact map_child_modify_null f hf i v

theorem not_slot_of_skip {g : Globals} {i : Nat}
    (hskip : ∀ (child reset_data : Nat),
      (sorted_children g)[i]? = some ⟨some child, reset_data⟩ → False) :
    ∀ c, (slots g)[i]? ≠ some (some c) := by
  intro c hc
  rw [getElem?_slots] at hc
  cases hs : (sorted_children g)[i]? with
  | none => rw [hs] at hc; cases hc
  | some s =>
    rw [hs] at hc
    simp only [Option.map_some', Option.some.injEq] at hc
    cases s with
    | mk child rd =>
      simp only at hc
      subst hc
      exact hskip c rd hs

theorem walks_before_reset_loop (C : Nat → device_child_base)
    {nested : Bool → Globals → Except Fault (Bool × Globals)} (hn : NestedQuiet nested) :
    ∀ (is : List Nat) (g g' : Globals), g.resetting = true →
      reset_device.before_reset_loop C nested is g = .ok g' → Walks .before is true true g g'
  | [], g, g', _, h => by
    simp only [reset_device.before_reset_loop, Except.ok.injEq] at h
    subst h
    exact ⟨rfl, rfl, rfl, [], by simp, Run.nil _ _⟩
  | i :: more, g, g', hg, h => by
    unfold reset_device.before_reset_loop at h
    split at h
    · rename_i child rd hi
      simp only [] at h
      split at h
      · cases h
      · rename_i g2 hra
        obtain ⟨a1, a2, a3, a, hta, haa, hsa⟩ :=
          acts_run_actions hn _ (g.emit (.before_reset child)) g2 hg hra
        have hg2 : g2.resetting = true := a1.trans hg
        obtain ⟨w1, w2, w3, t, ht, hrun⟩ :=
          walks_before_reset_loop C hn more (set_sorted_child i _ g2) g' hg2 h
        refine ⟨w1.trans a1, w2.trans a2, w3.trans a3,
          Phase.before.call child 0 :: (a ++ (Phase.before.returned child true ++ t)), ?_, ?_⟩
        · rw [ht]
          show g2.trace ++ t = _
          rw [hta]
          simp [Globals.emit, Phase.call, Phase.returned]
        · refine Run.call i more (slots g) true child 0 a true t (slots g') true ?_ haa
            (fun _ => rfl) ?_
          · rw [getElem?_slots, hi]
            rfl
          · rw [slots_set_sorted_child_keep, hsa] at hrun
            · exact hrun
            · intro s
              rfl
    · rename_i hskip
      obtain ⟨w1, w2, w3, t, ht, hrun⟩ := walks_before_reset_loop C hn more g g' hg h
      exact ⟨w1, w2, w3, t, ht, Run.skip i more _ _ t _ _ (not_slot_of_skip hskip) hrun⟩

theorem walks_reset_loop (C : Nat → device_child_base)
    {nested : Bool → Globals → Except Fault (Bool × Globals)} (hn : NestedQuiet nested) :
    ∀ (is : List Nat) (s s' : Bool) (g g' : Globals), g.resetting = true →
      reset_device.reset_loop C nested is s g = .ok (s', g') → Walks .reset is s s' g g'
  | [], s, s', g, g', _, h => by
    simp only [reset_device.reset_loop, Except.ok.injEq, Prod.mk.injEq] at h
    obtain ⟨h1, h2⟩ := h
    subst h1 h2
    exact ⟨rfl, rfl, rfl, [], by simp, Run.nil _ _⟩
  | i :: more, s, s', g, g', hg, h => by
    unfold reset_device.reset_loop at h
    split at h
    · rename_i child rd hi
      simp only [] at h
      split at h
      · cases h
      · rename_i g2 hra
        obtain ⟨a1, a2, a3, a, hta, haa, hsa⟩ :=
          acts_run_actions hn _ (g.emit (.reset child rd)) g2 hg hra
        have hg2 : g2.resetting = true := a1.trans hg
        have hslot : (slots g)[i]? = some (some child) := by
          rw [getElem?_slots, hi]
          rfl
        cases hb : ((C child).reset rd (g.emit (.reset child rd))).2
        · simp only [hb, Bool.false_eq_true, if_false] at h
          obtain ⟨w1, w2, w3, t, ht, hrun⟩ :=
            walks_reset_loop C hn more false s' (set_sorted_child i _ (set_sorted_child i _
              ((g2.emit (.reset_returned child false)).emit .assert_failed))) g' hg2 h
          refine ⟨w1.trans a1, w2.trans a2, w3.trans a3,
            Phase.reset.call child rd :: (a ++ (Phase.reset.returned child false ++ t)), ?_, ?_⟩
          · rw [ht]
            show (g2.trace ++ [Event.reset_returned child false] ++ [Event.assert_failed]) ++ t = _
            rw [hta]
            simp [Globals.emit, Phase.call, Phase.returned]
          · refine Run.call i more (slots g) s child rd a false t (slots g') s' hslot haa
              (fun hp => by cases hp) ?_
            rw [slots_set_sorted_child_keep, slots_set_sorted_child_null] at hrun
            · simp only [Bool.and_false, Bool.false_eq_true, if_false]
              have : slots ((g2.emit (.reset_returned child false)).emit .assert_failed)
                  = apply_removals a (slots g) := hsa
              rw [this] at hrun
              exact hrun
            · intro s
              rfl
            · intro s
              rfl
        · simp only [hb, if_true] at h
          obtain ⟨w1, w2, w3, t, ht, hrun⟩ :=
            walks_reset_loop C hn more s s' (set_sorted_child i _
              (g2.emit (.reset_returned child true))) g' hg2 h
          refine ⟨w1.trans a1, w2.trans a2, w3.trans a3,
            Phase.reset.call child rd :: (a ++ (Phase.reset.returned child true ++ t)), ?_, ?_⟩
          · rw [ht]
            show (g2.trace ++ [Event.reset_returned child true]) ++ t = _
            rw [hta]
            simp [Globals.emit, Phase.call, Phase.returned]
          · refine Run.call i more (slots g) s child rd a true t (slots g') s' hslot haa
              (fun _ => rfl) ?_
            rw [slots_set_sorted_child_keep] at hrun
            · simp only [Bool.and_true, if_true]
              have : slots (g2.emit (.reset_returned child true))
                  = apply_removals a (slots g) := hsa
              rw [this] at hrun
              exact hrun
            · intro s
              rfl
    · rename_i hskip
      obtain ⟨w1, w2, w3, t, ht, hrun⟩ :=
        walks_reset_loop C hn more s s' (set_sorted_child i _ g) g' hg h
      refine ⟨w1, w2, w3, t, ht, Run.skip i more _ _ t _ _ (not_slot_of_skip hskip) ?_⟩
      rw [slots_set_sorted_child_keep] at hrun
      · exact hrun
      · intro s
        rfl

theorem walks_after_reset_loop (C : Nat → device_child_base)
    {nested : Bool → Globals → Except Fault (Bool × Globals)} (hn : NestedQuiet nested) :
    ∀ (is : List Nat) (s s' : Bool) (g g' : Globals), g.resetting = true →
      reset_device.after_reset_loop C nested is s g = .ok (s', g') → Walks .after is s s' g g'
  | [], s, s', g, g', _, h => by
    simp only [reset_device.after_reset_loop, Except.ok.injEq, Prod.mk.injEq] at h
    obtain ⟨h1, h2⟩ := h
    subst h1 h2
    exact ⟨rfl, rfl, rfl, [], by simp, Run.nil _ _⟩
  | i :: more, s, s', g, g', hg, h => by
    unfold reset_device.after_reset_loop at h
    split at h
    · rename_i child rd hi
      simp only [] at h
      split at h
      · cases h
      · rename_i g2 hra
        obtain ⟨a1, a2, a3, a, hta, haa, hsa⟩ :=
          acts_run_actions hn _ (g.emit (.after_reset child)) g2 hg hra
        have hg2 : g2.resetting = true := a1.trans hg
        have hslot : (slots g)[i]? = some (some child) := by
          rw [getElem?_slots, hi]
          rfl
        cases hb : ((C child).after_reset (g.emit (.after_reset child))).2
        · simp only [hb, Bool.false_eq_true, if_false] at h
          obtain ⟨w1, w2, w3, t, ht, hrun⟩ :=
            walks_after_reset_loop C hn more false s' (set_sorted_child i _
              ((g2.emit (.after_reset_returned child false)).emit .assert_failed)) g' hg2 h
          refine ⟨w1.trans a1, w2.trans a2, w3.trans a3,
            Phase.after.call child 0 :: (a ++ (Phase.after.returned child false ++ t)), ?_, ?_⟩
          · rw [ht]
            show (g2.trace ++ [Event.after_reset_returned child false] ++ [Event.assert_failed])
              ++ t = _
            rw [hta]
            simp [Globals.emit, Phase.call, Phase.returned]
          · refine Run.call i more (slots g) s child 0 a false t (slots g') s' hslot haa
              (fun hp => by cases hp) ?_
            rw [slots_set_sorted_child_null] at hrun
            · simp only [Bool.and_false, Bool.false_eq_true, if_false]
              have : slots ((g2.emit (.after_reset_returned child false)).emit .assert_failed)
                  = apply_removals a (slots g) := hsa
              rw [this] at hrun
              exact hrun
            · intro s
              rfl
        · simp only [hb, if_true] at h
          obtain ⟨w1, w2, w3, t, ht, hrun⟩ :=
            walks_after_reset_loop C hn more s s'
              (g2.emit (.after_reset_returned child true)) g' hg2 h
          refine ⟨w1.trans a1, w2.trans a2, w3.trans a3,
            Phase.after.call child 0 :: (a ++ (Phase.after.returned child true ++ t)), ?_, ?_⟩
          · rw [ht]
            show (g2.trace ++ [Event.after_reset_returned child true]) ++ t = _
            rw [hta]
            simp [Globals.emit, Phase.call, Phase.returned]
          · refine Run.call i more (slots g) s child 0 a true t (slots g') s' hslot haa
              (fun _ => rfl) ?_
            simp only [Bool.and_true, if_true]
            have : slots (g2.emit (.after_reset_returned child true))
                = apply_removals a (slots g) := hsa
            rw [this] at hrun
            exact hrun
    · rename_i hskip
      obtain ⟨w1, w2, w3, t, ht, hrun⟩ := walks_after_reset_loop C hn more s s' g g' hg h
      exact ⟨w1, w2, w3, t, ht, Run.skip i more _ _ t _ _ (not_slot_of_skip hskip) hrun⟩

/-! ## A call of `reset_device` while another one is resetting -/

theorem forced_guarded (C : Nat → device_child_base)
    (nested : Bool → Globals → Except Fault (Bool × Globals)) (g : Globals)
    (hg : g.resetting = true) :
    reset_device.forced C nested g =
      .ok (false, (g.emit (.log .dx12 "Recreating DX12 device")).emit .assert_failed) := by
  unfold reset_device.forced
  have : (g.emit (.log .dx12 "Recreating DX12 device")).resetting = true := hg
  rw [if_pos this]

theorem check_removed_guarded (C : Nat → device_child_base)
    (nested : Bool → Globals → Except Fault (Bool × Globals)) (force : Bool) (g : Globals)
    (hg : g.resetting = true) (b : Bool) (g' : Globals)
    (h : reset_device.check_removed C nested force g = .ok (b, g')) :
    ∃ t, g' = { g with trace := g.trace ++ t } ∧ (∀ e ∈ t, e.is_note = true) ∧
      (b = true → force = false ∧ t = [] ∧
        ∃ device, g.device = some device ∧ FAILED device.removed_reason = false) := by
  unfold reset_device.check_removed at h
  split at h
  · rw [forced_guarded C nested g hg] at h
    cases h
    exact ⟨[.log .dx12 "Recreating DX12 device", .assert_failed],
      by simp [Globals.emit], by simp [Event.is_note], by simp⟩
  · split at h
    · cases h
    · split at h
      · rw [forced_guarded C nested _ (by exact hg)] at h
        cases h
        exact ⟨[.log .dx12 "DX12 device was reset/removed",
          .log .dx12 "Recreating DX12 device", .assert_failed],
          by simp [Globals.emit], by simp [Event.is_note], by simp⟩
      · rename_i hforce _ device hd hfail
        cases h
        exact ⟨[], by simp, by simp, fun _ => ⟨by simpa using hforce, rfl, device, hd,
          by simpa using hfail⟩⟩

/-- What a call of `reset_device` leaves when it is made while the re-entrancy flag is set:
only the factory and the trace can differ, and the trace grew by log lines and failed
assertions. -/
theorem body_guarded (C : Nat → device_child_base)
    (nested : Bool → Globals → Except Fault (Bool × Globals)) (force : Bool) (g : Globals)
    (hg : g.resetting = true) (b : Bool) (g' : Globals)
    (h : reset_device.body C nested force g = .ok (b, g')) :
    ∃ f t, g' = { g with factory := f, trace := g.trace ++ t } ∧
      (f = g.factory ∨ f = g.env.create_factory) ∧ ∀ e ∈ t, e.is_note = true := by
  unfold reset_device.body at h
  split at h
  · cases h
  · rename_i factory hf
    split at h
    · simp only [] at h
      split at h
      · cases h
        exact ⟨g.env.create_factory, [.assert_failed], by simp [Globals.emit], Or.inr rfl,
          by simp [Event.is_note]⟩
      · split at h
        · obtain ⟨t, h1, hn, _⟩ := check_removed_guarded C nested _ _ (by exact hg) b g' h
          refine ⟨g.env.create_factory, .log .dx12 "DXGI adapters or outputs changed" :: t, ?_,
            Or.inr rfl, ?_⟩
          · rw [h1]
            simp [Globals.emit]
          · intro e he
            rcases List.mem_cons.1 he with rfl | he
            · rfl
            · exact hn e he
        · obtain ⟨t, h1, hn, _⟩ := check_removed_guarded C nested _ _ (by exact hg) b g' h
          exact ⟨g.env.create_factory, t, h1, Or.inr rfl, hn⟩
    · obtain ⟨t, h1, hn, _⟩ := check_removed_guarded C nested _ _ hg b g' h
      refine ⟨g.factory, t, ?_, Or.inl rfl, hn⟩
      rw [h1]

theorem nested_quiet_reset_device (C : Nat → device_child_base) :
    ∀ fuel, NestedQuiet (reset_device C fuel)
  | 0 => by
    intro force g b g' _ h
    cases h
  | fuel + 1 => by
    intro force g b g' hg h
    obtain ⟨f, t, h1, _, hn⟩ := body_guarded C (reset_device C fuel) force g hg b g' h
    subst h1
    exact ⟨hg, rfl, rfl, rfl, t, rfl, hn⟩

/-! ## The trace of a whole reset -/

theorem snapshot_congr {g g' : Globals} (h1 : g'.device_children = g.device_children)
    (h2 : g'.device_child_reset_priority_ = g.device_child_reset_priority_) :
    snapshot g' = snapshot g := by
  have : device_child_t.lt g' = device_child_t.lt g := by
    funext a b
    unfold device_child_t.lt
    rw [h2]
  unfold snapshot
  rw [h1, this]

theorem walk_trace (C : Nat → device_child_base)
    {nested : Bool → Globals → Except Fault (Bool × Globals)} (hn : NestedQuiet nested)
    {g g' : Globals} {status : Bool} (hg : g.resetting = true)
    (h : reset_device.walk C nested g = .ok (status, g')) :
    g'.resetting = true ∧ g'.env = g.env ∧ g'.device = g.device ∧
      ∃ w, g'.trace = g.trace ++ w ∧ WalkTrace (snapshot g) w status := by
  unfold reset_device.walk at h
  simp only [] at h
  split at h
  · cases h
  · rename_i g1 h1
    split at h
    · cases h
    · rename_i s2 g2 h2
      split at h
      · cases h
      · rename_i s3 g3 h3
        cases h
        obtain ⟨b1, b2, b3, tb, htb, hrb⟩ := walks_before_reset_loop C hn _ _ g1 (by exact hg) h1
        have hg1 : g1.resetting = true := b1.trans hg
        obtain ⟨r1, r2, r3, tr, htr, hrr⟩ := walks_reset_loop C hn _ true s2 g1 g2 hg1 h2
        have hg2 : g2.resetting = true := r1.trans hg1
        obtain ⟨a1, a2, a3, ta, hta, hra⟩ := walks_after_reset_loop C hn _ s2 status g2 g3 hg2 h3
        refine ⟨a1.trans hg2, a2.trans (r2.trans b2), a3.trans (r3.trans b3), tb ++ (tr ++ ta), ?_, ?_⟩
        · show g3.trace = _
          rw [hta, htr, htb]
          simp
        · have hlen : (snapshot g).length = (stable_sort (device_child_t.lt g)
              (g.device_children.map (fun i => device_child_t.mk (some i) 0))).length := by
            unfold snapshot
            rw [List.length_map]
          refine ⟨tb, tr, ta, slots g1, slots g2, slots g3, s2, rfl, ?_, ?_, ?_⟩
          · rw [hlen]
            exact hrb
          · rw [hlen]
            exact hrr
          · rw [hlen]
            exact hra

theorem Event.init_ne_of_is_setup {e : Event} (h : e.is_setup = true) :
    e ≠ Event.init_d3d true true ∧ e.callback = none := by
  refine ⟨?_, ?_⟩
  · intro he
    rw [he] at h
    cases h
  · cases e <;> simp [Event.is_setup] at h <;> rfl

theorem Event.quiet_of_is_setup {e : Event} (h : e.is_setup = true) :
    e ≠ Event.init_d3d true true ∧ e.callback = none ∧ e.failed = none := by
  cases e <;> simp [Event.is_setup] at h <;> simp [Event.callback, Event.failed]

theorem forced_trace (C : Nat → device_child_base)
    {nested : Bool → Globals → Except Fault (Bool × Globals)} (hn : NestedQuiet nested)
    {g g' : Globals} {status : Bool}
    (h : reset_device.forced C nested g = .ok (status, g')) :
    ∃ t, g'.trace = g.trace ++ t ∧
      ((∀ e ∈ t, e ≠ Event.init_d3d true true ∧ e.callback = none ∧ e.failed = none) ∨ ResetTrace g t status) := by
  unfold reset_device.forced at h
  split at h
  · cases h
    refine ⟨[.log .dx12 "Recreating DX12 device", .assert_failed], by simp [Globals.emit],
      Or.inl ?_⟩
    intro e he
    simp only [List.mem_cons, List.mem_singleton, List.not_mem_nil, or_false] at he
    rcases he with rfl | rfl <;> simp [Event.callback, Event.failed]
  · split at h
    · cases h
    · rename_i g1 hd
      obtain ⟨d1, d2, d3, d4, d5, d6, td, htd, hsd⟩ := grows_destroy_d3d hd
      split at h
      · cases h
      · rename_i g2 hi
        cases h
        obtain ⟨g3, ⟨i1, i2, i3, i4, i5, i6, ti, hti, hsi⟩, hg3, _⟩ := init_d3d_spec hi
        subst hg3
        refine ⟨.log .dx12 "Recreating DX12 device" ::
          (td ++ (ti ++ [.init_d3d true false, .assert_failed])), ?_, Or.inl ?_⟩
        · show g3.trace ++ [Event.init_d3d true false] ++ [Event.assert_failed] = _
          rw [hti, htd]
          simp [Globals.emit]
        · intro e he
          simp only [List.mem_cons, List.mem_append, List.mem_singleton, List.not_mem_nil,
            or_false] at he
          rcases he with rfl | he | he | rfl | rfl
          · simp [Event.callback, Event.failed]
          · exact Event.quiet_of_is_setup (hsd e he)
          · exact Event.quiet_of_is_setup (hsi e he)
          · simp [Event.callback, Event.failed]
          · simp [Event.callback, Event.failed]
      · rename_i g2 hi
        obtain ⟨g3, ⟨i1, i2, i3, i4, i5, i6, ti, hti, hsi⟩, hg3, _⟩ := init_d3d_spec hi
        subst hg3
        split at h
        · cases h
        · rename_i s4 g4 hw
          cases h
          have hres : (g3.emit (.init_d3d true true)).resetting = true :=
            i4.trans d4
          obtain ⟨w1, _, _, w, htw, hww⟩ := walk_trace C hn hres hw
          refine ⟨(.log .dx12 "Recreating DX12 device" :: (td ++ ti)) ++
            .init_d3d true true :: w, ?_, Or.inr
            ⟨.log .dx12 "Recreating DX12 device" :: (td ++ ti), w, rfl, ?_, ?_⟩⟩
          · show g4.trace = _
            rw [htw]
            show g3.trace ++ [Event.init_d3d true true] ++ w = _
            rw [hti, htd]
            simp [Globals.emit]
          · intro e he
            simp only [List.mem_cons, List.mem_append] at he
            rcases he with rfl | he | he
            · rfl
            · exact hsd e he
            · exact hsi e he
          · have : snapshot (g3.emit (.init_d3d true true)) = snapshot g :=
              snapshot_congr (g := g) (i1.trans d1) (i2.trans d2)
            rw [← this]
            exact hww

theorem ResetTrace.cons_setup {g g1 : Globals} {t : List Event} {status : Bool} (e : Event)
    (he : e.is_setup = true) (hs : snapshot g1 = snapshot g) (h : ResetTrace g1 t status) :
    ResetTrace g (e :: t) status := by
  obtain ⟨pre, w, ht, hpre, hw⟩ := h
  refine ⟨e :: pre, w, by rw [ht]; rfl, ?_, by rw [← hs]; exact hw⟩
  intro e' he'
  rcases List.mem_cons.1 he' with rfl | he'
  · exact he
  · exact hpre e' he'

theorem check_removed_trace (C : Nat → device_child_base)
    {nested : Bool → Globals → Except Fault (Bool × Globals)} (hn : NestedQuiet nested)
    {force : Bool} {g g' : Globals} {status : Bool}
    (h : reset_device.check_removed C nested force g = .ok (status, g')) :
    ∃ t, g'.trace = g.trace ++ t ∧
      ((∀ e ∈ t, e ≠ Event.init_d3d true true ∧ e.callback = none ∧ e.failed = none) ∨ ResetTrace g t status) := by
  unfold reset_device.check_removed at h
  split at h
  · exact forced_trace C hn h
  · split at h
    · cases h
    · split at h
      · obtain ⟨t, ht, hc⟩ := forced_trace C hn h
        refine ⟨.log .dx12 "DX12 device was reset/removed" :: t, ?_, ?_⟩
        · rw [ht]
          simp [Globals.emit]
        · rcases hc with hc | hc
          · left
            intro e he
            rcases List.mem_cons.1 he with rfl | he
            · simp [Event.callback, Event.failed]
            · exact hc e he
          · exact Or.inr (ResetTrace.cons_setup _ rfl rfl hc)
      · cases h
        exact ⟨[], by simp, Or.inl (by simp)⟩

theorem body_trace (C : Nat → device_child_base)
    {nested : Bool → Globals → Except Fault (Bool × Globals)} (hn : NestedQuiet nested)
    {force : Bool} {g g' : Globals} {status : Bool}
    (h : reset_device.body C nested force g = .ok (status, g')) :
    ∃ t, g'.trace = g.trace ++ t ∧
      ((∀ e ∈ t, e ≠ Event.init_d3d true true ∧ e.callback = none ∧ e.failed = none) ∨ ResetTrace g t status) := by
  unfold reset_device.body at h
  split at h
  · cases h
  · split at h
    · simp only [] at h
      split at h
      · cases h
        refine ⟨[.assert_failed], by simp [Globals.emit], Or.inl ?_⟩
        intro e he
        simp only [List.mem_singleton] at he
        subst he
        simp [Event.callback, Event.failed]
      · split at h
        · obtain ⟨t, ht, hc⟩ := check_removed_trace C hn h
          refine ⟨.log .dx12 "DXGI adapters or outputs changed" :: t, ?_, ?_⟩
          · rw [ht]
            simp [Globals.emit]
          · rcases hc with hc | hc
            · left
              intro e he
              rcases List.mem_cons.1 he with rfl | he
              · simp [Event.callback, Event.failed]
              · exact hc e he
            · exact Or.inr (ResetTrace.cons_setup _ rfl rfl hc)
        · obtain ⟨t, ht, hc⟩ := check_removed_trace C hn h
          refine ⟨t, ht, ?_⟩
          rcases hc with hc | hc
          · exact Or.inl hc
          · right
            obtain ⟨pre, w, h1, h2, h3⟩ := hc
            exact ⟨pre, w, h1, h2, h3⟩
    · exact check_removed_trace C hn h

/-- The trace of any `reset_device` call that returns: either `init_d3d(true)` did not return
true in it and no callback was called, or the call walked the children. -/
theorem reset_device_trace (C : Nat → device_child_base) (fuel : Nat) (force : Bool)
    {g g' : Globals} {status : Bool} {t : List Event}
    (h : reset_device C fuel force g = .ok (status, g')) (ht : g'.trace = g.trace ++ t) :
    (∀ e ∈ t, e ≠ Event.init_d3d true true ∧ e.callback = none) ∨ ResetTrace g t status := by
  cases fuel with
  | zero => cases h
  | succ fuel =>
    obtain ⟨t', ht', hc⟩ := body_trace C (nested_quiet_reset_device C fuel) h
    have : t' = t := List.append_cancel_left (ht'.symm.trans ht)
    subst this
    rcases hc with hc | hc
    · exact Or.inl (fun e he => ⟨(hc e he).1, (hc e he).2.1⟩)
    · exact Or.inr hc

/-- A `reset_device` call in which the `reset` or the `after_reset` of a child returned false
has recreated the device. -/
theorem init_of_failed (C : Nat → device_child_base) (fuel : Nat) (force : Bool)
    {g g' : Globals} {status : Bool} {t : List Event}
    (h : reset_device C fuel force g = .ok (status, g')) (ht : g'.trace = g.trace ++ t)
    (e : Event) (he : e ∈ t) (c : Nat) (hf : e.failed = some c) :
    Event.init_d3d true true ∈ t := by
  cases fuel with
  | zero => cases h
  | succ fuel =>
    obtain ⟨t', ht', hc⟩ := body_trace C (nested_quiet_reset_device C fuel) h
    have : t' = t := List.append_cancel_left (ht'.symm.trans ht)
    subst this
    rcases hc with hc | ⟨pre, w, hw, _, _⟩
    · rw [(hc e he).2.2] at hf
      cases hf
    · rw [hw]
      simp

/-! ## The snapshot of the registry -/

theorem snapshot_eq (g : Globals) : snapshot g = (sorted_registry g).map some := by
  unfold snapshot sorted_registry stable_sort
  rw [← List.map_insertionSort (fun a b => g.device_child_reset_priority_ a ≤
    g.device_child_reset_priority_ b) (fun a b => device_child_t.lt g b a = false)
    (fun i => device_child_t.mk (some i) 0)]
  · rw [List.map_map]
    rfl
  · intro a _ b _
    simp [device_child_t.lt]

theorem sorted_registry_perm (g : Globals) : (sorted_registry g).Perm g.device_children :=
  List.perm_insertionSort _ _

theorem sorted_registry_sorted (g : Globals) :
    (sorted_registry g).Sorted
      (fun a b => g.device_child_reset_priority_ a ≤ g.device_child_reset_priority_ b) := by
  haveI : IsTotal Nat (fun a b => g.device_child_reset_priority_ a ≤
      g.device_child_reset_priority_ b) := ⟨fun a b => le_total _ _⟩
  haveI : IsTrans Nat (fun a b => g.device_child_reset_priority_ a ≤
      g.device_child_reset_priority_ b) := ⟨fun a b c h1 h2 => le_trans h1 h2⟩
  exact List.sorted_insertionSort _ _

theorem slotsNodup_map_some {l : List Nat} (h : l.Nodup) : SlotsNodup (l.map some) := by
  intro i j c hi hj
  rw [List.getElem?_map] at hi hj
  cases hli : l[i]? with
  | none => rw [hli] at hi; cases hi
  | some a =>
    cases hlj : l[j]? with
    | none => rw [hlj] at hj; cases hj
    | some b =>
      rw [hli] at hi
      rw [hlj] at hj
      simp only [Option.map_some', Option.some.injEq] at hi hj
      subst hi
      subst hj
      obtain ⟨hi', hai⟩ := List.getElem?_eq_some_iff.1 hli
      obtain ⟨hj', haj⟩ := List.getElem?_eq_some_iff.1 hlj
      exact (List.Nodup.getElem_inj_iff h).1 (hai.trans haj.symm)

theorem slotsNodup_snapshot {g : Globals} (h : g.device_children.Nodup) :
    SlotsNodup (snapshot g) := by
  rw [snapshot_eq]
  exact slotsNodup_map_some ((sorted_registry_perm g).nodup_iff.2 h)

theorem mem_snapshot {g : Globals} {c : Nat} (h : c ∈ g.device_children) :
    ∃ i, i ∈ List.range (snapshot g).length ∧ (snapshot g)[i]? = some (some c) := by
  have hc : c ∈ sorted_registry g := (sorted_registry_perm g).mem_iff.2 h
  obtain ⟨i, hi, hci⟩ := List.getElem_of_mem hc
  refine ⟨i, ?_, ?_⟩
  · rw [snapshot_eq, List.length_map]
    exact List.mem_range.2 hi
  · rw [snapshot_eq, List.getElem?_map, List.getElem?_eq_getElem hi, hci]
    rfl

theorem filterMap_range_map_some (f : Nat → Callback) (l : List Nat) :
    (List.range (l.map some).length).filterMap (fun i => ((l.map some)[i]?.getD none).map f)
      = l.map f := by
  apply List.ext_getElem?
  intro i
  have hfm : (List.range (l.map some).length).filterMap
      (fun i => ((l.map some)[i]?.getD none).map f)
      = (List.range l.length).map (fun i => f (l.getD i 0)) := by
    rw [List.length_map]
    have h1 : (List.range l.length).map (fun i => f (l.getD i 0))
        = (List.range l.length).filterMap (some ∘ (fun i => f (l.getD i 0))) := by
      rw [List.filterMap_eq_map]
    rw [h1]
    apply List.filterMap_congr
    intro j hj
    have hj' : j < l.length := List.mem_range.1 hj
    rw [List.getElem?_map, List.getElem?_eq_getElem hj']
    simp [List.getD_eq_getElem?_getD, List.getElem?_eq_getElem hj']
  rw [hfm]
  by_cases hi : i < l.length
  · simp [List.getElem?_eq_getElem hi, hi, List.getD_eq_getElem?_getD]
  · have hi' : l.length ≤ i := not_lt.1 hi
    simp [List.getElem?_eq_none hi', hi']

/-! ## Properties of the trace of a walk -/

theorem Event.callback_phase {e : Event} {cb : Callback} (h : e.callback = some cb) :
    e.phase = some cb.phase := by
  cases e <;> simp [Event.callback] at h <;> subst h <;> rfl

theorem Event.removed_of_is_setup {e : Event} (h : e.is_setup = true) : e.removed = none := by
  cases e <;> simp [Event.is_setup] at h <;> rfl

theorem Event.failed_of_is_setup {e : Event} (h : e.is_setup = true) : e.failed = none := by
  cases e <;> simp [Event.is_setup] at h <;> rfl

theorem Event.phase_of_failed {e : Event} {c : Nat} (h : e.failed = some c) :
    (e = .reset_returned c false ∧ e.phase = some .reset) ∨
      (e = .after_reset_returned c false ∧ e.phase = some .after) := by
  cases e <;> simp [Event.failed] at h
  · rename_i c' b
    cases b <;> simp [Event.failed] at h
    subst h
    exact Or.inl ⟨rfl, rfl⟩
  · rename_i c' b
    cases b <;> simp [Event.failed] at h
    subst h
    exact Or.inr ⟨rfl, rfl⟩

theorem Event.eq_of_callback_before {e : Event} {c : Nat}
    (h : e.callback = some (.before_reset c)) : e = .before_reset c := by
  cases e <;> simp [Event.callback] at h
  subst h
  rfl

theorem Event.eq_of_callback_reset {e : Event} {c : Nat}
    (h : e.callback = some (.reset c)) : ∃ d, e = .reset c d := by
  cases e <;> simp [Event.callback] at h
  subst h
  exact ⟨_, rfl⟩

theorem Event.eq_of_callback_after {e : Event} {c : Nat}
    (h : e.callback = some (.after_reset c)) : e = .after_reset c := by
  cases e <;> simp [Event.callback] at h
  subst h
  rfl

theorem callbacks_append (t t' : List Event) : callbacks (t ++ t') = callbacks t ++ callbacks t' := by
  unfold callbacks
  rw [List.filterMap_append]

theorem callbacks_eq_nil {t : List Event} (h : ∀ e ∈ t, e.callback = none) : callbacks t = [] := by
  unfold callbacks
  rw [List.filterMap_eq_nil_iff]
  exact h

theorem Run.phase_callbacks {ph : Phase} {is : List Nat} {v v' : List (Option Nat)} {s s' : Bool}
    {t : List Event} (h : Run ph is v s t v' s') : ∀ cb ∈ callbacks t, cb.phase = ph := by
  intro cb hcb
  unfold callbacks at hcb
  obtain ⟨e, he, hec⟩ := List.mem_filterMap.1 hcb
  have h1 := Event.callback_phase hec
  rcases h.phase_events e he with h2 | h2
  · rw [h2] at h1
    cases h1
  · rw [h2] at h1
    exact (Option.some.inj h1).symm

theorem Run.failed_before {is : List Nat} {v v' : List (Option Nat)} {s s' : Bool}
    {t : List Event} (h : Run .before is v s t v' s') : ∀ e ∈ t, e.failed = none := by
  intro e he
  cases hf : e.failed with
  | none => rfl
  | some c =>
    exfalso
    rcases h.phase_events e he with h2 | h2 <;>
      rcases Event.phase_of_failed hf with ⟨_, h3⟩ | ⟨_, h3⟩ <;>
      rw [h2] at h3 <;> cases h3

theorem pairwise_of_const_rank {l : List Callback} {ph : Phase} (h : ∀ cb ∈ l, cb.phase = ph) :
    l.Pairwise (fun a b => a.phase.rank ≤ b.phase.rank) := by
  refine List.Pairwise.imp_of_mem ?_
    (List.pairwise_of_forall (R := fun _ _ => True) (fun _ _ => trivial))
  intro a b ha hb _
  rw [h a ha, h b hb]

theorem WalkTrace.phases {v : List (Option Nat)} {w : List Event} {status : Bool}
    (h : WalkTrace v w status) :
    (callbacks w).Pairwise (fun a b => a.phase.rank ≤ b.phase.rank) := by
  obtain ⟨tb, tr, ta, v1, v2, v3, s2, hw, hb, hr, ha⟩ := h
  subst hw
  rw [callbacks_append, callbacks_append, List.pairwise_append]
  refine ⟨pairwise_of_const_rank hb.phase_callbacks, ?_, ?_⟩
  · rw [List.pairwise_append]
    refine ⟨pairwise_of_const_rank hr.phase_callbacks,
      pairwise_of_const_rank ha.phase_callbacks, ?_⟩
    intro a ha' b hb'
    rw [hr.phase_callbacks a ha', ha.phase_callbacks b hb']
    decide
  · intro a ha' b hb'
    rw [hb.phase_callbacks a ha']
    exact Nat.zero_le _

theorem WalkTrace.no_call_after_remove {v : List (Option Nat)} {w : List Event} {status : Bool}
    (h : WalkTrace v w status) (hv : SlotsNodup v) : w.Pairwise NoCallAfterRemove := by
  obtain ⟨tb, tr, ta, v1, v2, v3, s2, hw, hb, hr, ha⟩ := h
  subst hw
  have hv1 : SlotsNodup v1 := hv.of_nulls hb.only_nulls
  have hv2 : SlotsNodup v2 := hv1.of_nulls hr.only_nulls
  rw [List.pairwise_append]
  refine ⟨hb.no_call_after_remove_run hv, ?_, ?_⟩
  · rw [List.pairwise_append]
    refine ⟨hr.no_call_after_remove_run hv1, ha.no_call_after_remove_run hv2, ?_⟩
    intro e he e' he' c hc cb hcb hcc
    obtain ⟨j, hj⟩ := ha.call_mem e' he' cb hcb
    rw [hcc] at hj
    exact hr.removed_gone hv1 e he c hc j hj
  · intro e he e' he' c hc cb hcb hcc
    rcases List.mem_append.1 he' with he' | he'
    · obtain ⟨j, hj⟩ := hr.call_mem e' he' cb hcb
      rw [hcc] at hj
      exact hb.removed_gone hv e he c hc j hj
    · obtain ⟨j, hj⟩ := ha.call_mem e' he' cb hcb
      rw [hcc] at hj
      exact hb.removed_gone hv e he c hc j (hr.only_nulls j c hj)

theorem WalkTrace.called {v : List (Option Nat)} {w : List Event} {status : Bool}
    (h : WalkTrace v w status) {i c : Nat} (hi : i ∈ List.range v.length)
    (hc : v[i]? = some (some c)) (hrem : ∀ e ∈ w, e.removed ≠ some c) :
    Event.before_reset c ∈ w ∧ (∃ d, Event.reset c d ∈ w) ∧
      (Event.reset_returned c false ∉ w → Event.after_reset c ∈ w) := by
  obtain ⟨tb, tr, ta, v1, v2, v3, s2, hw, hb, hr, ha⟩ := h
  subst hw
  have hremb : ∀ e ∈ tb, e.removed ≠ some c := fun e he => hrem e (by simp [he])
  have hremr : ∀ e ∈ tr, e.removed ≠ some c := fun e he => hrem e (by simp [he])
  have hrema : ∀ e ∈ ta, e.removed ≠ some c := fun e he => hrem e (by simp [he])
  have h1 : Event.before_reset c ∈ tb := by
    rcases hb.called_or_removed i (List.mem_reverse.2 hi) c hc with ⟨e, he, hcb⟩ | ⟨e, he, hr'⟩
    · rw [← Event.eq_of_callback_before hcb]
      exact he
    · exact absurd hr' (hremb e he)
  have hc1 : v1[i]? = some (some c) := by
    rcases hb.kept i c hc with h' | ⟨e, he, hr'⟩ | ⟨e, he, hf⟩
    · exact h'
    · exact absurd hr' (hremb e he)
    · rw [hb.failed_before e he] at hf
      cases hf
  have h2 : ∃ d, Event.reset c d ∈ tr := by
    rcases hr.called_or_removed i hi c hc1 with ⟨e, he, hcb⟩ | ⟨e, he, hr'⟩
    · obtain ⟨d, hd⟩ := Event.eq_of_callback_reset hcb
      exact ⟨d, hd ▸ he⟩
    · exact absurd hr' (hremr e he)
  refine ⟨by simp [h1], ?_, ?_⟩
  · obtain ⟨d, hd⟩ := h2
    exact ⟨d, by simp [hd]⟩
  · intro hnf
    have hc2 : v2[i]? = some (some c) := by
      rcases hr.kept i c hc1 with h' | ⟨e, he, hr'⟩ | ⟨e, he, hf⟩
      · exact h'
      · exact absurd hr' (hremr e he)
      · exfalso
        rcases Event.phase_of_failed hf with ⟨h3, _⟩ | ⟨_, h3⟩
        · apply hnf
          rw [← h3]
          simp [he]
        · rcases hr.phase_events e he with h4 | h4 <;> rw [h4] at h3 <;> cases h3
    rcases ha.called_or_removed i hi c hc2 with ⟨e, he, hcb⟩ | ⟨e, he, hr'⟩
    · rw [← Event.eq_of_callback_after hcb]
      simp [he]
    · exact absurd hr' (hrema e he)

theorem WalkTrace.status_iff {v : List (Option Nat)} {w : List Event} {status : Bool}
    (h : WalkTrace v w status) : status = true ↔ ∀ e ∈ w, e.failed = none := by
  obtain ⟨tb, tr, ta, v1, v2, v3, s2, hw, hb, hr, ha⟩ := h
  subst hw
  rw [ha.status, hr.status]
  constructor
  · rintro ⟨⟨_, h1⟩, h2⟩ e he
    simp only [List.mem_append] at he
    rcases he with he | he | he
    · exact hb.failed_before e he
    · exact h1 e he
    · exact h2 e he
  · intro h
    exact ⟨⟨rfl, fun e he => h e (by simp [he])⟩, fun e he => h e (by simp [he])⟩

theorem WalkTrace.quiet {l : List Nat} {w : List Event} {status : Bool}
    (h : WalkTrace (l.map some) w status) (hrem : ∀ e ∈ w, e.removed = none)
    (hfail : ∀ e ∈ w, e.failed = none) :
    callbacks w = l.reverse.map Callback.before_reset ++
      (l.map Callback.reset ++ l.map Callback.after_reset) := by
  obtain ⟨tb, tr, ta, v1, v2, v3, s2, hw, hb, hr, ha⟩ := h
  subst hw
  obtain ⟨e1, c1⟩ := hb.quiet_run (fun e he => hrem e (by simp [he])) (fun e he => hfail e (by simp [he]))
  subst e1
  obtain ⟨e2, c2⟩ := hr.quiet_run (fun e he => hrem e (by simp [he])) (fun e he => hfail e (by simp [he]))
  subst e2
  obtain ⟨_, c3⟩ := ha.quiet_run (fun e he => hrem e (by simp [he])) (fun e he => hfail e (by simp [he]))
  rw [callbacks_append, callbacks_append, c1, c2, c3, List.filterMap_reverse,
    filterMap_range_map_some, filterMap_range_map_some, filterMap_range_map_some,
    List.map_reverse]
  rfl

/-! ## The reset protocol -/

/-- C1: a `reset_device` call that recreates the device (`init_d3d(true)` returns true) and in
which no child is unregistered (no event records a removal) and no `reset` or `after_reset`
returns false (no event records a failure) calls
`before_reset` on the registered children in non-increasing order of reset priority, then
`reset` and then `after_reset` on them in non-decreasing order: there is an ordering `l` of
the registry, ascending in priority, such that the callback calls are `before_reset` along
`l` reversed, then `reset` along `l`, then `after_reset` along `l`. -/
theorem reset_device_callback_order (C : Nat → device_child_base) (fuel : Nat) (force : Bool)
    (g g' : Globals) (status : Bool) (t : List Event)
    (h : reset_device C fuel force g = .ok (status, g'))
    (ht : g'.trace = g.trace ++ t)
    (hinit : Event.init_d3d true true ∈ t)
    (hrem : ∀ e ∈ t, e.removed = none)
    (hfail : ∀ e ∈ t, e.failed = none) :
    ∃ l : List Nat, l.Perm g.device_children ∧
      (l.map g.device_child_reset_priority_).Sorted (· ≤ ·) ∧
      (l.reverse.map g.device_child_reset_priority_).Sorted (· ≥ ·) ∧
      callbacks t = l.reverse.map Callback.before_reset ++
        (l.map Callback.reset ++ l.map Callback.after_reset) := by
  rcases reset_device_trace C fuel force h ht with hno | ⟨pre, w, hw, hpre, hwalk⟩
  · exact absurd rfl (hno _ hinit).1
  · have hs := sorted_registry_sorted g
    refine ⟨sorted_registry g, sorted_registry_perm g, ?_, ?_, ?_⟩
    · exact List.pairwise_map.2 hs
    · rw [List.map_reverse]
      exact List.pairwise_reverse.2 (List.pairwise_map.2 hs)
    · subst hw
      rw [snapshot_eq] at hwalk
      have hq := hwalk.quiet (fun e he => hrem e (by simp [he]))
        (fun e he => hfail e (by simp [he]))
      rw [callbacks_append, callbacks_eq_nil (fun e he => (Event.init_ne_of_is_setup (hpre e he)).2)]
      show callbacks w = _
      exact hq

/-- C2: in the trace of a `reset_device` call, no callback call of a later phase comes before
one of an earlier phase (every `before_reset` precedes every `reset`, every `reset` precedes
every `after_reset`); and when the call recreates the device, every child of the registry
that is not unregistered during the call receives `before_reset`. -/
theorem reset_device_phases (C : Nat → device_child_base) (fuel : Nat) (force : Bool)
    (g g' : Globals) (status : Bool) (t : List Event)
    (h : reset_device C fuel force g = .ok (status, g'))
    (ht : g'.trace = g.trace ++ t) :
    (callbacks t).Pairwise (fun a b => a.phase.rank ≤ b.phase.rank) ∧
    (Event.init_d3d true true ∈ t → ∀ c ∈ g.device_children,
      Event.remove_device_child c ∉ t → Event.before_reset c ∈ t) := by
  rcases reset_device_trace C fuel force h ht with hno | ⟨pre, w, hw, hpre, hwalk⟩
  · refine ⟨?_, fun hinit => absurd rfl (hno _ hinit).1⟩
    rw [callbacks_eq_nil (fun e he => (hno e he).2)]
    exact List.Pairwise.nil
  · subst hw
    refine ⟨?_, ?_⟩
    · rw [callbacks_append, callbacks_eq_nil (fun e he => (Event.init_ne_of_is_setup (hpre e he)).2)]
      exact hwalk.phases
    · intro _ c hc hrem
      obtain ⟨i, hi, hci⟩ := mem_snapshot hc
      have := (hwalk.called hi hci (by
        intro e he hr
        apply hrem
        have : e = .remove_device_child c := by
          cases e <;> simp [Event.removed] at hr
          subst hr
          rfl
        rw [← this]
        simp [he])).1
      simp [this]

/-- C3: in the trace of a `reset_device` call on a registry without duplicates, once
`remove_device_child(c)` was called, no `before_reset`, `reset` or `after_reset` is called on
`c` any more. -/
theorem reset_device_removed_child_skipped (C : Nat → device_child_base) (fuel : Nat)
    (force : Bool) (g g' : Globals) (status : Bool) (t : List Event)
    (h : reset_device C fuel force g = .ok (status, g'))
    (ht : g'.trace = g.trace ++ t)
    (hnodup : g.device_children.Nodup) :
    t.Pairwise (fun e e' => ∀ c, e = Event.remove_device_child c →
      e' ≠ Event.before_reset c ∧ (∀ d, e' ≠ Event.reset c d) ∧ e' ≠ Event.after_reset c) := by
  have key : t.Pairwise NoCallAfterRemove := by
    rcases reset_device_trace C fuel force h ht with hno | ⟨pre, w, hw, hpre, hwalk⟩
    · refine List.Pairwise.imp_of_mem ?_
        (List.pairwise_of_forall (R := fun _ _ => True) (fun _ _ => trivial))
      intro e e' _ he' _ c _ cb hcb
      rw [(hno e' he').2] at hcb
      cases hcb
    · subst hw
      rw [List.pairwise_append]
      refine ⟨?_, ?_, ?_⟩
      · refine List.Pairwise.imp_of_mem ?_
          (List.pairwise_of_forall (R := fun _ _ => True) (fun _ _ => trivial))
        intro e e' he _ _ c hc
        rw [Event.removed_of_is_setup (hpre e he)] at hc
        cases hc
      · rw [List.pairwise_cons]
        refine ⟨?_, hwalk.no_call_after_remove (slotsNodup_snapshot hnodup)⟩
        intro e' _ c hc
        cases hc
      · intro e he e' _ c hc
        rw [Event.removed_of_is_setup (hpre e he)] at hc
        cases hc
  refine key.imp ?_
  intro e e' hee c hc
  subst hc
  refine ⟨?_, ?_, ?_⟩
  · intro h'
    subst h'
    exact hee c rfl (.before_reset c) rfl rfl
  · intro d h'
    subst h'
    exact hee c rfl (.reset c) rfl rfl
  · intro h'
    subst h'
    exact hee c rfl (.after_reset c) rfl rfl

/-- C4: in a `reset_device` call that recreates the device, whatever the callbacks of the
other children return, every child of the registry that is not unregistered during the call
receives `reset`, and receives `after_reset` too unless its own `reset` returned false. -/
theorem reset_device_continues_after_failure (C : Nat → device_child_base) (fuel : Nat)
    (force : Bool) (g g' : Globals) (status : Bool) (t : List Event)
    (h : reset_device C fuel force g = .ok (status, g'))
    (ht : g'.trace = g.trace ++ t)
    (hinit : Event.init_d3d true true ∈ t) :
    ∀ c ∈ g.device_children, Event.remove_device_child c ∉ t →
      (∃ d, Event.reset c d ∈ t) ∧
      (Event.reset_returned c false ∉ t → Event.after_reset c ∈ t) := by
  rcases reset_device_trace C fuel force h ht with hno | ⟨pre, w, hw, hpre, hwalk⟩
  · exact absurd rfl (hno _ hinit).1
  · subst hw
    intro c hc hrem
    obtain ⟨i, hi, hci⟩ := mem_snapshot hc
    obtain ⟨_, ⟨d, hd⟩, ha⟩ := hwalk.called hi hci (by
      intro e he hr
      apply hrem
      have : e = .remove_device_child c := by
        cases e <;> simp [Event.removed] at hr
        subst hr
        rfl
      rw [← this]
      simp [he])
    refine ⟨⟨d, by simp [hd]⟩, ?_⟩
    intro hnf
    have := ha (fun hmem => hnf (by simp [hmem]))
    simp [this]

/-- Witness of C1: children with priorities 10, 5, 20 get `before_reset` in the order 20, 10, 5
and `reset` and `after_reset` in the order 5, 10, 20.  The run is on the sample platform,
where no budget event is registered: the teardown closes no event handle. -/
theorem reset_device_callback_order_witness :
    (∃ l : List Nat, l.Perm three_children.device_children ∧
      (l.map three_children.device_child_reset_priority_).Sorted (· ≤ ·) ∧
      (l.reverse.map three_children.device_child_reset_priority_).Sorted (· ≥ ·) ∧
      callbacks quiet_run.2.trace = l.reverse.map Callback.before_reset ++
        (l.map Callback.reset ++ l.map Callback.after_reset)) ∧
    three_children.device_children.map three_children.device_child_reset_priority_
      = [10, 5, 20] ∧
    (callbacks quiet_run.2.trace).map
        (fun cb => (cb.phase, three_children.device_child_reset_priority_ cb.child))
      = [(.before, 20), (.before, 10), (.before, 5), (.reset, 5), (.reset, 10), (.reset, 20),
         (.after, 5), (.after, 10), (.after, 20)] ∧
    three_children.video_memory_change_event = none ∧
    reset_device (fun _ => quiet_child) 2 true three_children = .ok quiet_run :=
  ⟨reset_device_callback_order (fun _ => quiet_child) 2 true three_children quiet_run.2
      quiet_run.1 quiet_run.2.trace rfl rfl (by decide) (by decide) (by decide),
    by decide, by decide, rfl, rfl⟩

/-- Witness of C2, on the run in which child 1 unregisters child 2 from its `before_reset` and
child 3 unregisters itself from its `reset`: the phases are in order, and child 1, which stays
registered, receives `before_reset`.  No budget event is registered on the sample platform. -/
theorem reset_device_phases_witness :
    ((callbacks unregistering_run.2.trace).Pairwise (fun a b => a.phase.rank ≤ b.phase.rank) ∧
      (Event.init_d3d true true ∈ unregistering_run.2.trace →
        ∀ c ∈ three_children.device_children,
          Event.remove_device_child c ∉ unregistering_run.2.trace →
          Event.before_reset c ∈ unregistering_run.2.trace)) ∧
    callbacks unregistering_run.2.trace =
      [.before_reset 3, .before_reset 1, .reset 1, .reset 3, .after_reset 1] ∧
    three_children.video_memory_change_event = none ∧
    reset_device unregistering_children 2 true three_children = .ok unregistering_run ∧
    Event.init_d3d true true ∈ unregistering_run.2.trace :=
  ⟨reset_device_phases unregistering_children 2 true three_children unregistering_run.2
      unregistering_run.1 unregistering_run.2.trace rfl rfl, by decide, rfl, rfl, by decide⟩

/-- Witness of C3, on the run in which child 1 unregisters child 2 from its `before_reset` and
child 3 unregisters itself from its `reset`: child 2 receives no callback at all, and child 3
none after its `reset`.  No budget event is registered before the run or after it. -/
theorem reset_device_removed_child_skipped_witness :
    unregistering_run.2.trace.Pairwise (fun e e' => ∀ c, e = Event.remove_device_child c →
      e' ≠ Event.before_reset c ∧ (∀ d, e' ≠ Event.reset c d) ∧ e' ≠ Event.after_reset c) ∧
    three_children.device_children.Nodup ∧
    unregistering_run.2.trace.filter (fun e => e.removed.isSome || e.callback.isSome) =
      [.before_reset 3, .before_reset 1, .remove_device_child 2, .reset 1 1, .reset 3 1,
       .remove_device_child 3, .after_reset 1] ∧
    three_children.video_memory_change_event = none ∧
    unregistering_run.2.video_memory_change_event = none ∧
    Event.destroy_d3d true ∈ unregistering_run.2.trace :=
  ⟨reset_device_removed_child_skipped unregistering_children 2 true three_children
      unregistering_run.2 unregistering_run.1 unregistering_run.2.trace rfl rfl (by decide),
    by decide, by decide, rfl, rfl, by decide⟩

/-- Witness of C4, on the run in which the `reset` of child 2 and the `after_reset` of child 1
return false: children 1 and 3 still receive `reset`, and child 3 still receives
`after_reset`.  No budget event is registered on the sample platform. -/
theorem reset_device_continues_after_failure_witness :
    (∀ c ∈ three_children.device_children, Event.remove_device_child c ∉ failing_run.2.trace →
      (∃ d, Event.reset c d ∈ failing_run.2.trace) ∧
      (Event.reset_returned c false ∉ failing_run.2.trace →
        Event.after_reset c ∈ failing_run.2.trace)) ∧
    failing_run.1 = false ∧
    callbacks failing_run.2.trace =
      [.before_reset 3, .before_reset 1, .before_reset 2, .reset 2, .reset 1, .reset 3,
       .after_reset 1, .after_reset 3] ∧
    three_children.video_memory_change_event = none ∧
    three_children.env.create_event = none ∧
    reset_device failing_children 2 true three_children = .ok failing_run :=
  ⟨reset_device_continues_after_failure failing_children 2 true three_children failing_run.2
      failing_run.1 failing_run.2.trace rfl rfl (by decide), by decide, by decide, rfl, rfl,
    rfl⟩

/-! ## `reset_device` returns -/

theorem check_removed_walking (C : Nat → device_child_base)
    (nested : Bool → Globals → Except Fault (Bool × Globals)) (force : Bool) (g : Globals)
    (hg : Walking g) :
    ∃ b g', reset_device.check_removed C nested force g = .ok (b, g') ∧ Walking g' := by
  obtain ⟨hres, hdev, hfac⟩ := hg
  obtain ⟨device, hd⟩ := Option.isSome_iff_exists.1 hdev
  unfold reset_device.check_removed
  split
  · rw [forced_guarded C nested g hres]
    exact ⟨_, _, rfl, hres, hdev, hfac⟩
  · rw [hd]
    simp only []
    split
    · rw [forced_guarded C nested _ (by exact hres)]
      exact ⟨_, _, rfl, hres, hdev, hfac⟩
    · exact ⟨_, _, rfl, hres, hdev, hfac⟩

theorem nested_total_reset_device (C : Nat → device_child_base) (fuel : Nat) :
    NestedTotal (reset_device C (fuel + 1)) := by
  intro force g hg
  obtain ⟨hres, hdev, f, hf, husable⟩ := hg
  show ∃ b g', reset_device.body C (reset_device C fuel) force g = .ok (b, g') ∧ Walking g'
  unfold reset_device.body
  rw [hf]
  simp only []
  split
  · rename_i hstale
    have hcf : g.env.create_factory.isSome = true := by
      rcases husable with h | h
      · rw [h] at hstale
        cases hstale
      · exact h
    obtain ⟨f', hf'⟩ := Option.isSome_iff_exists.1 hcf
    rw [hf']
    simp only []
    split
    · exact check_removed_walking C _ true _ ⟨hres, hdev, f', rfl, Or.inr hcf⟩
    · exact check_removed_walking C _ force _ ⟨hres, hdev, f', rfl, Or.inr hcf⟩
  · exact check_removed_walking C _ force g ⟨hres, hdev, f, hf, husable⟩

theorem walking_before_reset_loop (C : Nat → device_child_base)
    {nested : Bool → Globals → Except Fault (Bool × Globals)} (hn : NestedTotal nested) :
    ∀ (is : List Nat) (g : Globals), Walking g →
      ∃ g', reset_device.before_reset_loop C nested is g = .ok g' ∧ Walking g'
  | [], g, hg => ⟨g, rfl, hg⟩
  | i :: more, g, hg => by
    unfold reset_device.before_reset_loop
    split
    · rename_i child rd hi
      simp only []
      obtain ⟨g2, h2, hw2⟩ := walking_run_actions hn
        ((C child).before_reset (g.emit (.before_reset child))).1
        (g.emit (.before_reset child)) hg
      rw [h2]
      exact walking_before_reset_loop C hn more _ hw2
    · exact walking_before_reset_loop C hn more g hg

theorem walking_reset_loop (C : Nat → device_child_base)
    {nested : Bool → Globals → Except Fault (Bool × Globals)} (hn : NestedTotal nested) :
    ∀ (is : List Nat) (s : Bool) (g : Globals), Walking g →
      ∃ s' g', reset_device.reset_loop C nested is s g = .ok (s', g') ∧ Walking g'
  | [], s, g, hg => ⟨s, g, rfl, hg⟩
  | i :: more, s, g, hg => by
    unfold reset_device.reset_loop
    split
    · rename_i child rd hi
      simp only []
      obtain ⟨g2, h2, hw2⟩ := walking_run_actions hn
        ((C child).reset rd (g.emit (.reset child rd))).1 (g.emit (.reset child rd)) hg
      rw [h2]
      simp only []
      apply walking_reset_loop C hn more
      split
      · exact hw2
      · exact hw2
    · exact walking_reset_loop C hn more s _ hg

theorem walking_after_reset_loop (C : Nat → device_child_base)
    {nested : Bool → Globals → Except Fault (Bool × Globals)} (hn : NestedTotal nested) :
    ∀ (is : List Nat) (s : Bool) (g : Globals), Walking g →
      ∃ s' g', reset_device.after_reset_loop C nested is s g = .ok (s', g') ∧ Walking g'
  | [], s, g, hg => ⟨s, g, rfl, hg⟩
  | i :: more, s, g, hg => by
    unfold reset_device.after_reset_loop
    split
    · rename_i child rd hi
      simp only []
      obtain ⟨g2, h2, hw2⟩ := walking_run_actions hn
        ((C child).after_reset (g.emit (.after_reset child))).1 (g.emit (.after_reset child)) hg
      rw [h2]
      simp only []
      apply walking_after_reset_loop C hn more
      split
      · exact hw2
      · exact hw2
    · exact walking_after_reset_loop C hn more s g hg

theorem walk_total (C : Nat → device_child_base)
    {nested : Bool → Globals → Except Fault (Bool × Globals)} (hn : NestedTotal nested)
    (g : Globals) (hg : Walking g) :
    ∃ s g', reset_device.walk C nested g = .ok (s, g') := by
  unfold reset_device.walk
  simp only []
  obtain ⟨g1, h1, hw1⟩ := walking_before_reset_loop C hn
    (List.range (stable_sort (device_child_t.lt g)
      (g.device_children.map (fun i => device_child_t.mk (some i) 0))).length).reverse
    { g with removed_device_child_signal := ((stable_sort (device_child_t.lt g)
      (g.device_children.map (fun i => device_child_t.mk (some i) 0))) ::
        g.removed_device_child_signal) } hg
  rw [h1]
  simp only []
  obtain ⟨s2, g2, h2, hw2⟩ := walking_reset_loop C hn
    (List.range (stable_sort (device_child_t.lt g)
      (g.device_children.map (fun i => device_child_t.mk (some i) 0))).length) true g1 hw1
  rw [h2]
  simp only []
  obtain ⟨s3, g3, h3, _⟩ := walking_after_reset_loop C hn
    (List.range (stable_sort (device_child_t.lt g)
      (g.device_children.map (fun i => device_child_t.mk (some i) 0))).length) s2 g2 hw2
  rw [h3]
  exact ⟨_, _, rfl⟩

theorem wait_for_idle_total (g : Globals) (hq : g.queues.isSome = true) :
    ∃ g', wait_for_idle g = .ok g' ∧
      g'.video_memory_change_event = g.video_memory_change_event ∧ g'.adapter = g.adapter := by
  obtain ⟨qs, hqs⟩ := Option.isSome_iff_exists.1 hq
  unfold wait_for_idle
  rw [hqs]
  exact ⟨_, rfl, rfl, rfl⟩

theorem destroy_d3d_total (for_reset : Bool) (g : Globals) (hq : g.queues.isSome = true)
    (hev : g.video_memory_change_event = none) :
    ∃ g', destroy_d3d for_reset g = .ok g' ∧ g'.video_memory_change_event = none := by
  have hq1 : (debug_assert (!g.frame_commands.isSome) (g.emit (.destroy_d3d for_reset))).queues.isSome
      = true := by
    unfold debug_assert
    split <;> exact hq
  have he1 : (debug_assert (!g.frame_commands.isSome)
      (g.emit (.destroy_d3d for_reset))).video_memory_change_event
      = g.video_memory_change_event := by
    unfold debug_assert
    split <;> rfl
  obtain ⟨g1, hw, h1, _⟩ := wait_for_idle_total _ hq1
  have e1 : (if (!for_reset) = true then destroy_d3d.reset_objects g1
      else g1).video_memory_change_event = none := by
    have : g1.video_memory_change_event = none := (h1.trans he1).trans hev
    split
    · exact this
    · exact this
  unfold destroy_d3d
  rw [hw]
  simp only []
  rw [unregister_total _ e1]
  exact ⟨_, rfl, e1⟩

theorem forced_total (C : Nat → device_child_base)
    {nested : Bool → Globals → Except Fault (Bool × Globals)} (hn : NestedTotal nested)
    (g : Globals) (f : Factory) (hf : g.factory = some f)
    (husable : f.is_current = true ∨ g.env.create_factory.isSome = true)
    (hq : g.queues.isSome = true)
    (hev : g.video_memory_change_event = none) (hce : g.env.create_event = none) :
    ∃ s g', reset_device.forced C nested g = .ok (s, g') := by
  unfold reset_device.forced
  split
  · exact ⟨_, _, rfl⟩
  · obtain ⟨g1, hd, hev1⟩ := destroy_d3d_total true
      { g.emit (.log .dx12 "Recreating DX12 device") with resetting := true } hq hev
    rw [hd]
    simp only []
    obtain ⟨d1, d2, d3, d4, d5, d6, _⟩ := grows_destroy_d3d hd
    have hf1 : g1.factory = some f := d6.trans hf
    have hce1 : g1.env.create_event = none := by
      rw [d5]
      exact hce
    obtain ⟨r, g2, hi⟩ := init_d3d_total true g1 (by rw [hf1]; rfl) hev1 hce1
    rw [hi]
    cases r with
    | false => exact ⟨_, _, rfl⟩
    | true =>
      simp only []
      obtain ⟨g3, ⟨i1, i2, i3, i4, i5, i6, _⟩, hg3, hdev, _⟩ := init_d3d_spec hi
      have hw : Walking g2 := by
        subst hg3
        refine ⟨i4.trans d4, hdev rfl, f, i6.trans hf1, ?_⟩
        have henv : (g3.emit (.init_d3d true true)).env = g.env := i5.trans d5
        rw [henv]
        exact husable
      obtain ⟨s, g4, h4⟩ := walk_total C hn g2 hw
      rw [h4]
      exact ⟨_, _, rfl⟩

theorem body_total (C : Nat → device_child_base)
    {nested : Bool → Globals → Except Fault (Bool × Globals)} (hn : NestedTotal nested)
    (g : Globals) (f : Factory) (hf : g.factory = some f)
    (husable : f.is_current = true ∨ g.env.create_factory.isSome = true)
    (hq : g.queues.isSome = true)
    (hev : g.video_memory_change_event = none) (hce : g.env.create_event = none) :
    ∃ s g', reset_device.body C nested true g = .ok (s, g') := by
  unfold reset_device.body
  rw [hf]
  simp only []
  split
  · rename_i hstale
    have hcf : g.env.create_factory.isSome = true := by
      rcases husable with h | h
      · rw [h] at hstale
        cases hstale
      · exact h
    obtain ⟨f', hf'⟩ := Option.isSome_iff_exists.1 hcf
    rw [hf']
    simp only [Bool.not_true, Bool.false_and, Bool.false_eq_true, if_false]
    unfold reset_device.check_removed
    rw [if_pos rfl]
    exact forced_total C hn _ f' rfl (Or.inr hcf) hq hev hce
  · unfold reset_device.check_removed
    rw [if_pos rfl]
    exact forced_total C hn g f hf husable hq hev hce

/-- The status of a returning `reset_device` call that recreated the device, read off its
trace. -/
theorem status_of_trace (C : Nat → device_child_base) (fuel : Nat) (force : Bool)
    {g g' : Globals} {status : Bool} {t : List Event}
    (h : reset_device C fuel force g = .ok (status, g')) (ht : g'.trace = g.trace ++ t)
    (hinit : Event.init_d3d true true ∈ t) :
    status = false ↔
      ∃ c, Event.reset_returned c false ∈ t ∨ Event.after_reset_returned c false ∈ t := by
  rcases reset_device_trace C fuel force h ht with hno | ⟨pre, w, hw, hpre, hwalk⟩
  · exact absurd rfl (hno _ hinit).1
  · subst hw
    have hs := hwalk.status_iff
    constructor
    · intro hfalse
      have : ¬ ∀ e ∈ w, e.failed = none := by
        intro hall
        rw [hs.2 hall] at hfalse
        cases hfalse
      push_neg at this
      obtain ⟨e, he, hfe⟩ := this
      cases hfc : e.failed with
      | none => exact absurd hfc hfe
      | some c =>
        refine ⟨c, ?_⟩
        rcases Event.phase_of_failed hfc with ⟨h1, _⟩ | ⟨h1, _⟩
        · left
          rw [← h1]
          simp [he]
        · right
          rw [← h1]
          simp [he]
    · rintro ⟨c, hc | hc⟩
      · cases hst : status with
        | false => rfl
        | true =>
          exfalso
          have hall := hs.1 hst
          simp only [List.mem_append, List.mem_cons] at hc
          rcases hc with hc | hc | hc
          · have := Event.failed_of_is_setup (hpre _ hc)
            cases this
          · cases hc
          · have := hall _ hc
            cases this
      · cases hst : status with
        | false => rfl
        | true =>
          exfalso
          have hall := hs.1 hst
          simp only [List.mem_append, List.mem_cons] at hc
          rcases hc with hc | hc | hc
          · have := Event.failed_of_is_setup (hpre _ hc)
            cases this
          · cases hc
          · have := hall _ hc
            cases this

/-- C5: every `reset_device` call that returns and in which `init_d3d(true)` returned true
returns false if and only if the `reset` or the `after_reset` of some child returned false.
A forced call does return when the factory is usable (current, or replaceable), the queues
are there, no budget event is registered and the platform creates none, so that neither the
teardown nor the recreation closes an event handle. -/
theorem reset_device_status (C : Nat → device_child_base) (fuel : Nat) (g : Globals)
    (f : Factory) (hfuel : 2 ≤ fuel) (hf : g.factory = some f)
    (husable : f.is_current = true ∨ g.env.create_factory.isSome = true)
    (hq : g.queues.isSome = true)
    (hev : g.video_memory_change_event = none) (hce : g.env.create_event = none) :
    (∀ (force : Bool) (g0 g' : Globals) (status : Bool) (t : List Event),
      reset_device C fuel force g0 = .ok (status, g') → g'.trace = g0.trace ++ t →
      Event.init_d3d true true ∈ t →
      (status = false ↔
        ∃ c, Event.reset_returned c false ∈ t ∨ Event.after_reset_returned c false ∈ t)) ∧
    ∃ status g' t, reset_device C fuel true g = .ok (status, g') ∧ g'.trace = g.trace ++ t ∧
      (Event.init_d3d true true ∈ t →
        (status = false ↔
          ∃ c, Event.reset_returned c false ∈ t ∨ Event.after_reset_returned c false ∈ t)) := by
  refine ⟨fun force g0 g' status t h ht hinit => status_of_trace C fuel force h ht hinit, ?_⟩
  obtain ⟨k, rfl⟩ : ∃ k, fuel = k + 2 := ⟨fuel - 2, by omega⟩
  obtain ⟨status, g', h⟩ := body_total C (nested_total_reset_device C k) g f hf husable hq hev hce
  have h' : reset_device C (k + 2) true g = .ok (status, g') := h
  obtain ⟨t, ht, _⟩ := body_trace C (nested_quiet_reset_device C (k + 1)) h
  exact ⟨status, g', t, h', ht, fun hinit => status_of_trace C (k + 2) true h' ht hinit⟩

/-- Witness of C5, on the run in which the `reset` of child 2 and the `after_reset` of child 1
return false: the call returns false.  No budget event is registered on the sample platform. -/
theorem reset_device_status_witness :
    ((∀ (force : Bool) (g0 g' : Globals) (status : Bool) (t : List Event),
      reset_device failing_children 2 force g0 = .ok (status, g') → g'.trace = g0.trace ++ t →
      Event.init_d3d true true ∈ t →
      (status = false ↔
        ∃ c, Event.reset_returned c false ∈ t ∨ Event.after_reset_returned c false ∈ t)) ∧
    ∃ status g' t, reset_device failing_children 2 true three_children = .ok (status, g') ∧
      g'.trace = three_children.trace ++ t ∧
      (Event.init_d3d true true ∈ t →
        (status = false ↔
          ∃ c, Event.reset_returned c false ∈ t ∨ Event.after_reset_returned c false ∈ t))) ∧
    three_children.video_memory_change_event = none ∧
    reset_device failing_children 2 true three_children = .ok (false, failing_run.2) ∧
    Event.init_d3d true true ∈ failing_run.2.trace ∧
    Event.reset_returned 2 false ∈ failing_run.2.trace ∧
    failing_run.2.video_memory_change_event = none ∧
    quiet_run.1 = true :=
  ⟨reset_device_status failing_children 2 three_children sample_factory (by decide) rfl
      (Or.inl rfl) rfl rfl rfl, rfl, rfl, by decide, by decide, rfl, by decide⟩

/-! ## The decision to reset -/

theorem check_removed_guarded_total (C : Nat → device_child_base)
    (nested : Bool → Globals → Except Fault (Bool × Globals)) (force : Bool) (g : Globals)
    (hg : g.resetting = true) (hd : g.device.isSome = true) :
    ∃ b t, reset_device.check_removed C nested force g =
        .ok (b, { g with trace := g.trace ++ t }) ∧ (∀ e ∈ t, e.is_note = true) ∧
      (b = true ↔ force = false ∧ device_removed g = false) := by
  obtain ⟨device, hdev⟩ := Option.isSome_iff_exists.1 hd
  unfold reset_device.check_removed
  split
  · rename_i hforce
    rw [forced_guarded C nested g hg]
    exact ⟨false, [.log .dx12 "Recreating DX12 device", .assert_failed],
      by simp [Globals.emit], by simp [Event.is_note], by simp [hforce]⟩
  · rename_i hforce
    split
    · rename_i hnone
      rw [hnone] at hdev
      cases hdev
    · rename_i device' hdev'
      have hrem : device_removed g = FAILED device'.removed_reason := by
        unfold device_removed
        rw [hdev']
      split
      · rename_i hfail
        rw [forced_guarded C nested _ (by exact hg)]
        exact ⟨false, [.log .dx12 "DX12 device was reset/removed",
          .log .dx12 "Recreating DX12 device", .assert_failed],
          by simp [Globals.emit], by simp [Event.is_note], by simp [hrem, hfail]⟩
      · rename_i hfail
        refine ⟨true, [], by simp, by simp, ?_⟩
        simp only [true_iff]
        exact ⟨by simpa using hforce, by rw [hrem]; simpa using hfail⟩

/-- C6, as amended: a call of `reset_device` made while another call is resetting returns,
leaves every global but the factory and the trace as it was (so the device is neither torn
down nor recreated), and puts only log lines and failed assertions on the trace (so no
callback is called); `reset_device(true)` returns false, and `reset_device(false)` returns
true exactly when the factory is usable (current, or replaceable), the topology did not
change and the device is not removed, and false otherwise. -/
theorem reentrant_reset_device (C : Nat → device_child_base) (fuel : Nat) (force : Bool)
    (g : Globals) (hres : g.resetting = true) (hf : g.factory.isSome = true)
    (hd : g.device.isSome = true) :
    ∃ b f t, reset_device C (fuel + 1) force g =
        .ok (b, { g with factory := f, trace := g.trace ++ t }) ∧
      (∀ e ∈ t, e.is_note = true) ∧ (force = true → b = false) ∧
      (b = true ↔ force = false ∧ factory_usable g = true ∧ topology_changed g = false ∧
        device_removed g = false) := by
  obtain ⟨factory, hfac⟩ := Option.isSome_iff_exists.1 hf
  show ∃ b f t, reset_device.body C (reset_device C fuel) force g = _ ∧ _
  unfold reset_device.body
  rw [hfac]
  simp only []
  split
  · rename_i hstale
    have hstale' : factory.is_current = false := by simpa using hstale
    cases hcf : g.env.create_factory with
    | none =>
      refine ⟨false, none, [.assert_failed], ?_, by simp [Event.is_note], fun _ => rfl, ?_⟩
      · simp [Globals.emit]
      · simp [factory_usable, hfac, hcf, hstale']
    | some new_factory =>
      have husable : factory_usable g = true := by
        simp [factory_usable, hfac, hcf]
      have htc : topology_changed g = (g.adapters_hash != new_factory.adapters_hash ||
          g.outputs_hash != new_factory.outputs_hash g.adapter) := by
        unfold topology_changed
        rw [hfac, hcf]
        simp only [hstale', Bool.not_false, Bool.true_and]
      simp only []
      split
      · rename_i hchanged
        obtain ⟨b, t, h, hn, hb⟩ := check_removed_guarded_total C (reset_device C fuel) true
          ({ g with factory := some new_factory }.emit
            (.log .dx12 "DXGI adapters or outputs changed")) hres hd
        have hbf : b = false := by
          cases hbb : b with
          | false => rfl
          | true =>
            have := (hb.1 hbb).1
            cases this
        have hch : topology_changed g = true := by
          rw [htc]
          simp only [Bool.and_eq_true] at hchanged
          exact hchanged.2
        refine ⟨b, some new_factory, .log .dx12 "DXGI adapters or outputs changed" :: t, ?_, ?_,
          fun _ => hbf, ?_⟩
        · rw [h]
          simp [Globals.emit]
        · intro e he
          rcases List.mem_cons.1 he with rfl | he
          · rfl
          · exact hn e he
        · rw [hbf, hch]
          simp
      · rename_i hchanged
        obtain ⟨b, t, h, hn, hb⟩ := check_removed_guarded_total C (reset_device C fuel)
          force { g with factory := some new_factory } hres hd
        have hrem' : device_removed { g with factory := some new_factory } = device_removed g :=
          rfl
        rw [hrem'] at hb
        refine ⟨b, some new_factory, t, h, hn, ?_, ?_⟩
        · intro hforce
          cases hbb : b with
          | false => rfl
          | true =>
            have := (hb.1 hbb).1
            rw [hforce] at this
            cases this
        · rw [hb, husable]
          constructor
          · rintro ⟨h1, h2⟩
            refine ⟨h1, rfl, ?_, h2⟩
            rw [htc]
            subst h1
            simpa using hchanged
          · rintro ⟨h1, _, _, h2⟩
            exact ⟨h1, h2⟩
  · rename_i hcurrent
    have hcur : factory.is_current = true := by simpa using hcurrent
    have husable : factory_usable g = true := by
      simp [factory_usable, hfac, hcur]
    have htc : topology_changed g = false := by
      unfold topology_changed
      rw [hfac]
      cases g.env.create_factory <;> simp [hcur]
    obtain ⟨b, t, h, hn, hb⟩ := check_removed_guarded_total C (reset_device C fuel)
      force g hres hd
    refine ⟨b, some factory, t, ?_, hn, ?_, ?_⟩
    · rw [h, ← hfac]
    · intro hforce
      cases hbb : b with
      | false => rfl
      | true =>
        have := (hb.1 hbb).1
        rw [hforce] at this
        cases this
    · rw [hb, husable, htc]
      simp

/-- Witness of C6 as amended, on the sample globals with a reset under way: a forced call
returns false; an unforced call returns true when the factory is current and false when the
factory is stale and cannot be replaced. -/
theorem reentrant_reset_device_witness :
    (∃ b f t, reset_device (fun _ => quiet_child) 1 true resetting_globals =
        .ok (b, { resetting_globals with factory := f, trace := resetting_globals.trace ++ t }) ∧
      (∀ e ∈ t, e.is_note = true) ∧ (true = true → b = false) ∧
      (b = true ↔ true = false ∧ factory_usable resetting_globals = true ∧
        topology_changed resetting_globals = false ∧
        device_removed resetting_globals = false)) ∧
    resetting_globals.resetting = true ∧
    reset_device (fun _ => quiet_child) 1 true resetting_globals =
      .ok (false, (resetting_globals.emit recreating).emit .assert_failed) ∧
    factory_usable { stale_globals with resetting := true } = false ∧
    reset_device (fun _ => quiet_child) 1 false { stale_globals with resetting := true } =
      .ok (false, { stale_globals with resetting := true, factory := none }.emit
        .assert_failed) :=
  ⟨reentrant_reset_device (fun _ => quiet_child) 0 true resetting_globals rfl rfl rfl, rfl, rfl,
    by decide, rfl⟩

/-- Counterexample to C6 as stated: on the sample globals with a reset under way, whose
factory is current and whose device is not removed, `reset_device(false)` returns true. -/
theorem reentrant_reset_device_counterexample :
    resetting_globals.resetting = true ∧
    reset_device (fun _ => quiet_child) 2 false resetting_globals = .ok (true, resetting_globals) :=
  ⟨rfl, rfl⟩

theorem forced_marker (C : Nat → device_child_base)
    {nested : Bool → Globals → Except Fault (Bool × Globals)} (hn : NestedQuiet nested)
    {g g' : Globals} {status : Bool}
    (h : reset_device.forced C nested g = .ok (status, g')) :
    ∃ t, g'.trace = g.trace ++ recreating :: t := by
  unfold reset_device.forced at h
  split at h
  · cases h
    exact ⟨[.assert_failed], by simp [Globals.emit, recreating]⟩
  · split at h
    · cases h
    · rename_i g1 hd
      obtain ⟨_, _, _, d4, _, _, td, htd, _⟩ := grows_destroy_d3d hd
      split at h
      · cases h
      · rename_i g2 hi
        cases h
        obtain ⟨g3, ⟨_, _, _, _, _, _, ti, hti, _⟩, hg3, _⟩ := init_d3d_spec hi
        subst hg3
        refine ⟨td ++ (ti ++ [.init_d3d true false, .assert_failed]), ?_⟩
        show g3.trace ++ [Event.init_d3d true false] ++ [Event.assert_failed] = _
        rw [hti, htd]
        simp [Globals.emit, recreating]
      · rename_i g2 hi
        obtain ⟨g3, ⟨_, _, _, i4, _, _, ti, hti, _⟩, hg3, _⟩ := init_d3d_spec hi
        subst hg3
        split at h
        · cases h
        · rename_i s4 g4 hw
          cases h
          have hres : (g3.emit (.init_d3d true true)).resetting = true := i4.trans d4
          obtain ⟨_, _, _, w, htw, _⟩ := walk_trace C hn hres hw
          refine ⟨td ++ (ti ++ (.init_d3d true true :: w)), ?_⟩
          show g4.trace = _
          rw [htw]
          show g3.trace ++ [Event.init_d3d true true] ++ w = _
          rw [hti, htd]
          simp [Globals.emit, recreating]

/-- What `reset_device(false)` does after the factory check, on globals with a device. -/
theorem check_removed_unforced (C : Nat → device_child_base)
    (nested : Bool → Globals → Except Fault (Bool × Globals)) (g : Globals) (d : Device)
    (hd : g.device = some d) :
    (device_removed g = true → reset_device.check_removed C nested false g =
      reset_device.forced C nested (g.emit (.log .dx12 "DX12 device was reset/removed"))) ∧
    (device_removed g = false → reset_device.check_removed C nested false g = .ok (true, g)) := by
  have hrem : device_removed g = FAILED d.removed_reason := by
    unfold device_removed
    rw [hd]
  unfold reset_device.check_removed
  rw [if_neg (by simp)]
  split
  · rename_i hnone
    rw [hnone] at hd
    cases hd
  · rename_i d' hd'
    have : d' = d := Option.some.inj (hd'.symm.trans hd)
    subst this
    rw [hrem]
    constructor
    · intro h
      rw [if_pos h]
    · intro h
      rw [if_neg (by simp [h])]

/-- C7, as amended: on globals with a factory and a device, where a stale factory can be
replaced, `reset_device(false)` takes the forced-reset path (on globals that differ from `g`
in the factory and in log lines only) when the topology changed or the device is removed, and
in every other case returns true and changes nothing but the factory; so a returning call
has written the forced path's opening log line exactly when the topology changed or the
device is removed. -/
theorem reset_device_unforced (C : Nat → device_child_base) (fuel : Nat) (g : Globals)
    (f : Factory) (d : Device) (hf : g.factory = some f) (hd : g.device = some d)
    (hnew : f.is_current = false → g.env.create_factory.isSome = true) :
    ((topology_changed g || device_removed g) = true →
      ∃ f' t, (∀ e ∈ t, e.is_note = true) ∧
        reset_device C (fuel + 1) false g = reset_device.forced C (reset_device C fuel)
          { g with factory := f', trace := g.trace ++ t }) ∧
    ((topology_changed g || device_removed g) = false →
      ∃ f', reset_device C (fuel + 1) false g = .ok (true, { g with factory := f' })) ∧
    (∀ status g', reset_device C (fuel + 1) false g = .ok (status, g') →
      (recreating ∈ g'.trace.drop g.trace.length ↔
        (topology_changed g || device_removed g) = true)) := by
  have key : (∃ f' t, (∀ e ∈ t, e.is_note = true) ∧
        (topology_changed g || device_removed g) = true ∧
        reset_device.body C (reset_device C fuel) false g =
          reset_device.forced C (reset_device C fuel)
            { g with factory := f', trace := g.trace ++ t }) ∨
      (∃ f', (topology_changed g || device_removed g) = false ∧
        reset_device.body C (reset_device C fuel) false g = .ok (true, { g with factory := f' })) := by
    unfold reset_device.body
    rw [hf]
    simp only []
    split
    · rename_i hstale
      have hstale' : f.is_current = false := by simpa using hstale
      obtain ⟨f', hf'⟩ := Option.isSome_iff_exists.1 (hnew hstale')
      rw [hf']
      simp only []
      have htc : topology_changed g = (g.adapters_hash != f'.adapters_hash ||
          g.outputs_hash != f'.outputs_hash g.adapter) := by
        unfold topology_changed
        rw [hf, hf']
        simp only [hstale', Bool.not_false, Bool.true_and]
      split
      · rename_i hchanged
        left
        refine ⟨some f', [.log .dx12 "DXGI adapters or outputs changed"], by simp [Event.is_note],
          ?_, ?_⟩
        · rw [htc]
          simp only [Bool.not_false, Bool.true_and] at hchanged
          rw [hchanged]
          rfl
        · unfold reset_device.check_removed
          rw [if_pos rfl]
          rfl
      · rename_i hchanged
        have htc' : topology_changed g = false := by
          rw [htc]
          simpa using hchanged
        have hrem' : device_removed { g with factory := some f' } = device_removed g := rfl
        obtain ⟨h1, h2⟩ := check_removed_unforced C (reset_device C fuel)
          { g with factory := some f' } d hd
        cases hdr : device_removed g with
        | true =>
          left
          refine ⟨some f', [.log .dx12 "DX12 device was reset/removed"], by simp [Event.is_note],
            by rw [htc']; rfl, ?_⟩
          rw [h1 (hrem'.trans hdr)]
          rfl
        | false =>
          right
          exact ⟨some f', by rw [htc']; rfl, h2 (hrem'.trans hdr)⟩
    · rename_i hcurrent
      have hcur : f.is_current = true := by simpa using hcurrent
      have htc' : topology_changed g = false := by
        unfold topology_changed
        rw [hf]
        cases g.env.create_factory <;> simp [hcur]
      obtain ⟨h1, h2⟩ := check_removed_unforced C (reset_device C fuel) g d hd
      cases hdr : device_removed g with
      | true =>
        left
        refine ⟨g.factory, [.log .dx12 "DX12 device was reset/removed"], by simp [Event.is_note],
          by rw [htc']; rfl, ?_⟩
        rw [h1 hdr]
        rfl
      | false =>
        right
        refine ⟨g.factory, by rw [htc']; rfl, ?_⟩
        rw [h2 hdr]
  have hbody : ∀ x, reset_device C (fuel + 1) false x
      = reset_device.body C (reset_device C fuel) false x := fun _ => rfl
  rcases key with ⟨f', t, hn, hc, he⟩ | ⟨f', hc, he⟩
  · refine ⟨fun _ => ⟨f', t, hn, (hbody g).trans he⟩, fun h => ?_, ?_⟩
    · rw [hc] at h
      cases h
    · intro status g' h
      rw [hbody, he] at h
      obtain ⟨t', ht'⟩ := forced_marker C (nested_quiet_reset_device C fuel) h
      refine ⟨fun _ => hc, fun _ => ?_⟩
      rw [ht']
      show recreating ∈ ((g.trace ++ t) ++ recreating :: t').drop g.trace.length
      rw [List.append_assoc, List.drop_left]
      simp
  · refine ⟨fun h => ?_, fun _ => ⟨f', (hbody g).trans he⟩, ?_⟩
    · rw [hc] at h
      cases h
    · intro status g' h
      rw [hbody, he] at h
      cases h
      constructor
      · intro hmem
        simp at hmem
      · intro h
        rw [hc] at h
        cases h

/-- Witness of C7 as amended, on the sample globals with a stale factory whose replacement
reports another adapters hash: the call takes the forced-reset path. -/
theorem reset_device_unforced_witness :
    (((topology_changed changed_globals || device_removed changed_globals) = true →
      ∃ f' t, (∀ e ∈ t, e.is_note = true) ∧
        reset_device (fun _ => quiet_child) (1 + 1) false changed_globals =
          reset_device.forced (fun _ => quiet_child) (reset_device (fun _ => quiet_child) 1)
            { changed_globals with factory := f', trace := changed_globals.trace ++ t }) ∧
    ((topology_changed changed_globals || device_removed changed_globals) = false →
      ∃ f', reset_device (fun _ => quiet_child) (1 + 1) false changed_globals =
        .ok (true, { changed_globals with factory := f' })) ∧
    (∀ status g', reset_device (fun _ => quiet_child) (1 + 1) false changed_globals
        = .ok (status, g') →
      (recreating ∈ g'.trace.drop changed_globals.trace.length ↔
        (topology_changed changed_globals || device_removed changed_globals) = true))) ∧
    topology_changed changed_globals = true ∧
    (topology_changed three_children || device_removed three_children) = false ∧
    reset_device (fun _ => quiet_child) 2 false three_children = .ok (true, three_children) :=
  ⟨reset_device_unforced (fun _ => quiet_child) 1 changed_globals
      { sample_factory with is_current := false } sample_device rfl rfl (fun _ => rfl),
    by decide, by decide, rfl⟩

/-- Counterexample to C7 as stated: on the sample globals with a stale factory that cannot be
replaced, the topology did not change and the device is not removed, and yet
`reset_device(false)` returns false (without taking the forced-reset path). -/
theorem reset_device_unforced_counterexample :
    (topology_changed stale_globals || device_removed stale_globals) = false ∧
    reset_device (fun _ => quiet_child) 2 false stale_globals =
      .ok (false, { stale_globals with factory := none }.emit .assert_failed) ∧
    recreating ∉ ({ stale_globals with factory := none }.emit .assert_failed).trace :=
  ⟨by decide, rfl, by decide⟩

/-! ## The keep-alive list -/

theorem released_append (t t' : List Event) : released (t ++ t') = released t ++ released t' := by
  induction t with
  | nil => rfl
  | cons e t ih =>
    cases e <;> simp [released, ih]

theorem released_early_append (t t' : List Event) :
    released_early (t ++ t') = released_early t ++ released_early t' := by
  induction t with
  | nil => rfl
  | cons e t ih =>
    cases e with
    | release r fv c => cases c <;> simp [released_early, ih]
    | _ => simp [released_early, ih]

theorem handed_cons (op : KeepAliveOp) (ops : List KeepAliveOp) :
    handed (op :: ops) = handed [op] ++ handed ops := by
  cases op <;> simp [handed]

theorem flush_keep_alive.released_popped (completed : Nat → Nat) :
    ∀ l : List (resource × fence_values),
      l = released (flush_keep_alive.popped completed l) ++ flush_keep_alive.loop completed l ∧
      released_early (flush_keep_alive.popped completed l) = []
  | [] => ⟨rfl, rfl⟩
  | entry :: rest => by
    unfold flush_keep_alive.popped flush_keep_alive.loop
    split
    · rename_i hc
      obtain ⟨h1, h2⟩ := flush_keep_alive.released_popped completed rest
      refine ⟨?_, ?_⟩
      · simp only [released, List.cons_append]
        rw [← h1]
      · rw [hc]
        simp only [released_early]
        exact h2
    · exact ⟨rfl, rfl⟩

/-- From `g` to `g'` the keep-alive list and the fence counters are the same, and the trace
grew by events that are no releases. -/
theorem keeps_debug_assert (cond : Bool) (g : Globals) :
    (debug_assert cond g).keep_alive_resources = g.keep_alive_resources ∧
    (debug_assert cond g).fence_completed = g.fence_completed ∧
    ∃ t, (debug_assert cond g).trace = g.trace ++ t ∧ released t = [] ∧ released_early t = [] := by
  unfold debug_assert
  split
  · exact ⟨rfl, rfl, [], by simp, rfl, rfl⟩
  · exact ⟨rfl, rfl, [.assert_failed], rfl, rfl, rfl⟩

theorem keeps_update_video_memory_info (g : Globals) :
    (update_video_memory_info g).keep_alive_resources = g.keep_alive_resources ∧
    (update_video_memory_info g).queues = g.queues ∧
    (update_video_memory_info g).host_functions = g.host_functions ∧
    ∃ t, (update_video_memory_info g).trace = g.trace ++ t ∧ released t = [] ∧
      released_early t = [] := by
  unfold update_video_memory_info
  split
  · simp only [Globals.emit]
    split
    · exact ⟨rfl, rfl, rfl, [_], rfl, rfl, rfl⟩
    · exact ⟨rfl, rfl, rfl, [_], rfl, rfl, rfl⟩
  · exact ⟨rfl, rfl, rfl, [], by simp, rfl, rfl⟩

/-- What one keep-alive call does: every release it records happened when the fence values
reported complete, and the resources it was handed or found in the list are those it
released or left in the list. -/
theorem KeepAliveOp.run_spec (op : KeepAliveOp) (g g' : Globals) (h : op.run g = .ok g') :
    ∃ t, g'.trace = g.trace ++ t ∧ released_early t = [] ∧
      (g.keep_alive_resources ++ handed [op]).Perm (released t ++ g'.keep_alive_resources) := by
  cases op with
  | keep_alive_resource r fv =>
    simp only [KeepAliveOp.run, Except.ok.injEq] at h
    subst h
    unfold ff.keep_alive_resource
    split
    · exact ⟨[], by simp, rfl, by simp [handed, released]⟩
    · rename_i hc
      have hc' : fv.complete g.fence_completed = true := by simpa using hc
      refine ⟨[.release r fv (fv.complete g.fence_completed)], rfl, ?_, ?_⟩
      · rw [hc']
        rfl
      · simp only [handed, released, Globals.emit, List.singleton_append]
        exact List.perm_append_comm
  | frame_started =>
    simp only [KeepAliveOp.run] at h
    unfold ff.frame_started at h
    simp only [] at h
    split at h
    · cases h
    · rename_i qs _
      split at h
      · cases h
      · cases h
        obtain ⟨a1, a2, ta, hta, ha1, ha2⟩ := keeps_debug_assert (!g.frame_commands.isSome) g
        obtain ⟨u1, _, _, tu, htu, hu1, hu2⟩ := keeps_update_video_memory_info
          (flush_keep_alive (debug_assert (!g.frame_commands.isSome) g))
        obtain ⟨p1, p2⟩ := flush_keep_alive.released_popped
          (debug_assert (!g.frame_commands.isSome) g).fence_completed
          (debug_assert (!g.frame_commands.isSome) g).keep_alive_resources
        refine ⟨ta ++ (flush_keep_alive.popped
          (debug_assert (!g.frame_commands.isSome) g).fence_completed
          (debug_assert (!g.frame_commands.isSome) g).keep_alive_resources ++
          (tu ++ [.begin_event, .on_frame_started qs.direct.new_commands])), ?_, ?_, ?_⟩
        · simp only [Globals.emit]
          rw [htu]
          show ((debug_assert (!g.frame_commands.isSome) g).trace ++ _) ++ tu ++ _ ++ _ = _
          rw [hta]
          simp
        · rw [released_early_append, released_early_append, released_early_append, ha2, p2, hu2]
          rfl
        · rw [released_append, released_append, released_append, ha1, hu1]
          simp only [Globals.emit, handed, List.append_nil, List.nil_append, released]
          rw [u1]
          have hl : (flush_keep_alive (debug_assert (!g.frame_commands.isSome) g)).keep_alive_resources
              = flush_keep_alive.loop (debug_assert (!g.frame_commands.isSome) g).fence_completed
                (debug_assert (!g.frame_commands.isSome) g).keep_alive_resources := rfl
          rw [hl, ← p1, a1]
  | wait_for_idle =>
    simp only [KeepAliveOp.run] at h
    unfold ff.wait_for_idle at h
    split at h
    · cases h
    · rename_i qs _
      cases h
      obtain ⟨p1, p2⟩ := flush_keep_alive.released_popped
        (qs.wait_for_idle g.fence_completed) g.keep_alive_resources
      refine ⟨flush_keep_alive.popped (qs.wait_for_idle g.fence_completed)
        g.keep_alive_resources, rfl, p2, ?_⟩
      simp only [handed, List.append_nil]
      have hl : ∀ x : Globals, (flush_keep_alive x).keep_alive_resources
          = flush_keep_alive.loop x.fence_completed x.keep_alive_resources := fun _ => rfl
      rw [hl, ← p1]
  | gpu_progress advance =>
    simp only [KeepAliveOp.run, Except.ok.injEq] at h
    subst h
    exact ⟨[], by simp, rfl, by simp [handed, released]⟩

theorem run_ops_spec : ∀ (ops : List KeepAliveOp) (g g' : Globals), run_ops ops g = .ok g' →
    ∃ t, g'.trace = g.trace ++ t ∧ released_early t = [] ∧
      (g.keep_alive_resources ++ handed ops).Perm (released t ++ g'.keep_alive_resources)
  | [], g, g', h => by
    simp only [run_ops, Except.ok.injEq] at h
    subst h
    exact ⟨[], by simp, rfl, by simp [handed, released]⟩
  | op :: more, g, g', h => by
    unfold run_ops at h
    split at h
    · cases h
    · rename_i g1 h1
      obtain ⟨t1, ht1, he1, hp1⟩ := op.run_spec g g1 h1
      obtain ⟨t2, ht2, he2, hp2⟩ := run_ops_spec more g1 g' h
      refine ⟨t1 ++ t2, ?_, ?_, ?_⟩
      · rw [ht2, ht1, List.append_assoc]
      · rw [released_early_append, he1, he2]
        rfl
      · rw [handed_cons, released_append, ← List.append_assoc, List.append_assoc (released t1)]
        refine (hp1.append_right _).trans ?_
        rw [List.append_assoc]
        exact hp2.append_left _

/-- C8: along every sequence of `keep_alive_resource`, `frame_started` and `wait_for_idle`
calls, with the GPU making progress in between, no release is recorded at a moment when the
resource's fence values did not report complete, and no resource gets lost: the resources
that were in the list or were handed in are those released and those still in the list. -/
theorem keep_alive_released_when_complete (ops : List KeepAliveOp) (g g' : Globals)
    (t : List Event) (h : run_ops ops g = .ok g') (ht : g'.trace = g.trace ++ t) :
    released_early t = [] ∧
    (g.keep_alive_resources ++ handed ops).Perm (released t ++ g'.keep_alive_resources) := by
  obtain ⟨t', ht', h1, h2⟩ := run_ops_spec ops g g' h
  have : t' = t := List.append_cancel_left (ht'.symm.trans ht)
  subst this
  exact ⟨h1, h2⟩

/-- Witness of C8, on `sample_ops`: resource 2 is released at the call, resource 1 by
`wait_for_idle` after the GPU's progress, and not by the `frame_started` before it. -/
theorem keep_alive_released_when_complete_witness :
    (released_early sample_ops_run.trace = [] ∧
      (sample_globals.keep_alive_resources ++ handed sample_ops).Perm
        (released sample_ops_run.trace ++ sample_ops_run.keep_alive_resources)) ∧
    released sample_ops_run.trace = [(2, ⟨[(0, 0)]⟩), (1, ⟨[(0, 5)]⟩)] ∧
    sample_ops_run.keep_alive_resources = [] ∧
    (match run_ops (sample_ops.take 3) sample_globals with
      | .ok g => g.keep_alive_resources
      | .error _ => []) = [(1, ⟨[(0, 5)]⟩)] :=
  ⟨keep_alive_released_when_complete sample_ops sample_globals sample_ops_run
      sample_ops_run.trace rfl rfl, by decide, by decide, by decide⟩

/-- C10: `flush_keep_alive` removes exactly the maximal prefix of complete entries: the list
it found is the removed entries, all complete, followed by the list it leaves, which is
empty or starts with an entry that is not complete; and the removed entries are those it
records as released. -/
theorem flush_keep_alive_maximal_prefix (g : Globals) :
    g.keep_alive_resources =
      g.keep_alive_resources.takeWhile (fun entry => entry.2.complete g.fence_completed) ++
        (flush_keep_alive g).keep_alive_resources ∧
    (∀ entry ∈ g.keep_alive_resources.takeWhile
        (fun entry => entry.2.complete g.fence_completed),
      entry.2.complete g.fence_completed = true) ∧
    ((flush_keep_alive g).keep_alive_resources.head?.map
      (fun entry => entry.2.complete g.fence_completed)) ≠ some true ∧
    (flush_keep_alive g).keep_alive_resources =
      g.keep_alive_resources.dropWhile (fun entry => entry.2.complete g.fence_completed) ∧
    (flush_keep_alive g).trace = g.trace ++
      (g.keep_alive_resources.takeWhile (fun entry => entry.2.complete g.fence_completed)).map
        (fun entry => Event.release entry.1 entry.2 true) := by
  have hloop : ∀ l : List (resource × fence_values),
      flush_keep_alive.loop g.fence_completed l =
        l.dropWhile (fun entry => entry.2.complete g.fence_completed) := by
    intro l
    induction l with
    | nil => rfl
    | cons entry rest ih =>
      unfold flush_keep_alive.loop
      cases hc : entry.2.complete g.fence_completed
      · simp [List.dropWhile, hc]
      · simp [List.dropWhile, hc, ih]
  have hpop : ∀ l : List (resource × fence_values),
      flush_keep_alive.popped g.fence_completed l =
        (l.takeWhile (fun entry => entry.2.complete g.fence_completed)).map
          (fun entry => Event.release entry.1 entry.2 true) := by
    intro l
    induction l with
    | nil => rfl
    | cons entry rest ih =>
      unfold flush_keep_alive.popped
      cases hc : entry.2.complete g.fence_completed
      · simp [List.takeWhile, hc]
      · simp [List.takeWhile, hc, ih]
  have hk : (flush_keep_alive g).keep_alive_resources =
      g.keep_alive_resources.dropWhile (fun entry => entry.2.complete g.fence_completed) :=
    hloop _
  refine ⟨?_, ?_, ?_, hk, ?_⟩
  · rw [hk, List.takeWhile_append_dropWhile]
  · intro entry he
    exact List.mem_takeWhile_imp
      (p := fun entry : resource × fence_values => entry.2.complete g.fence_completed) he
  · rw [hk]
    intro h
    cases hd : g.keep_alive_resources.dropWhile
        (fun entry => entry.2.complete g.fence_completed) with
    | nil =>
      rw [hd] at h
      cases h
    | cons entry rest =>
      rw [hd] at h
      simp only [List.head?_cons, Option.map_some', Option.some.injEq] at h
      have := List.head_dropWhile_not (fun entry : resource × fence_values =>
        entry.2.complete g.fence_completed) g.keep_alive_resources (by rw [hd]; simp)
      simp only [hd, List.head_cons] at this
      rw [h] at this
      cases this
  · show g.trace ++ flush_keep_alive.popped g.fence_completed g.keep_alive_resources = _
    rw [hpop]

/-! ## Globals that a reset leaves alone -/

theorem steady_debug_assert (cond : Bool) (g : Globals) :
    steady (debug_assert cond g) = steady g := by
  unfold debug_assert
  split <;> rfl

theorem steady_wait_for_idle {g g' : Globals} (h : wait_for_idle g = .ok g') :
    steady g' = steady g := by
  unfold wait_for_idle at h
  split at h
  · cases h
  · cases h
    rfl

theorem steady_unregister {g g' : Globals} (h : destroy_d3d.unregister g = .ok g') :
    steady g' = steady g := by
  rw [(unregister_ok h).1]

theorem steady_destroy_d3d {g g' : Globals} (h : destroy_d3d true g = .ok g') :
    steady g' = steady g := by
  unfold destroy_d3d at h
  split at h
  · cases h
  · rename_i g1 hw
    split at h
    · cases h
    · rename_i g2 hu
      cases h
      have e1 := steady_wait_for_idle hw
      have e2 := steady_unregister hu
      rw [steady_debug_assert] at e1
      exact (e2.trans e1)

theorem steady_adapter_name (a : Adapter) (g : Globals) :
    steady (adapter_name a g).2 = steady g := by
  unfold adapter_name
  split <;> rfl

theorem steady_enumerate : ∀ (l adapters : List Adapter) (found_warp : Bool) (g : Globals),
    steady (create_dx12_device.enumerate l adapters found_warp g).2.2 = steady g
  | [], _, _, _ => rfl
  | adapter :: more, adapters, found_warp, g => by
    unfold create_dx12_device.enumerate
    exact (steady_enumerate more _ _ _).trans (steady_adapter_name adapter g)

theorem steady_add_warp (factory : Factory) (found : List Adapter × Bool × Globals) :
    steady (create_dx12_device.add_warp factory found).2 = steady found.2.2 := by
  unfold create_dx12_device.add_warp
  split
  · split
    · exact steady_adapter_name _ _
    · rfl
  · rfl

theorem steady_create (feature_level : Nat) : ∀ (l : List Adapter) (i : Nat) (g : Globals),
    steady (create_dx12_device.create feature_level l i g).2 = steady g
  | [], _, _ => rfl
  | adapter :: more, i, g => by
    unfold create_dx12_device.create
    split
    · rfl
    · exact steady_create feature_level more (i + 1) g

theorem steady_create_dx12_device {g g' : Globals} {d : Option Device}
    (h : create_dx12_device g = .ok (d, g')) : steady g' = steady g := by
  unfold create_dx12_device at h
  split at h
  · cases h
  · simp only [Except.ok.injEq] at h
    have h2 := congrArg Prod.snd h
    simp only at h2
    rw [← h2]
    exact (steady_create _ _ _ _).trans ((steady_add_warp _ _).trans (steady_enumerate _ _ _ _))

theorem steady_update_video_memory_info (g : Globals) :
    steady (update_video_memory_info g) = steady g := by
  unfold update_video_memory_info
  split
  · simp only [steady, Globals.emit]
    split <;> rfl
  · rfl

theorem steady_video_memory {adapter : Adapter} {g g' : Globals} {b : Bool}
    (h : init_d3d.video_memory true adapter g = .ok (b, g')) :
    steady g' = steady g := by
  rcases video_memory_ok h with ⟨_, _, e⟩ | ⟨_, _, _, _, e⟩
  · rw [e]
    rfl
  · rw [e]
    exact steady_update_video_memory_info g

theorem steady_find_adapter {device : Device} {g g' : Globals} {r : Bool}
    (h : init_d3d.find_adapter true device g = .ok (r, g')) : steady g' = steady g := by
  unfold init_d3d.find_adapter at h
  split at h
  · cases h
  · split at h
    · cases h
      rfl
    · split at h
      · cases h
        exact steady_debug_assert _ _
      · rename_i adapter _
        rw [steady_video_memory h]
        exact (steady_adapter_name adapter _).trans (steady_debug_assert _ g)

theorem steady_init_d3d_body {g g' : Globals} {r : Bool}
    (h : init_d3d.body true g = .ok (r, g')) : steady g' = steady g := by
  unfold init_d3d.body at h
  split at h
  · cases h
  · rename_i g1 hc
    cases h
    exact (steady_create_dx12_device hc).trans (steady_debug_assert _ g)
  · rename_i device g1 hc
    exact (steady_find_adapter h).trans
      ((steady_create_dx12_device hc).trans (steady_debug_assert _ g))

theorem steady_init_d3d {g g' : Globals} {r : Bool}
    (h : init_d3d true g = .ok (r, g')) : steady g' = steady g := by
  unfold init_d3d at h
  split at h
  · cases h
  · rename_i r1 g1 hb
    simp only [Except.ok.injEq, Prod.mk.injEq] at h
    obtain ⟨h1, h2⟩ := h
    subst h1 h2
    have e := steady_init_d3d_body hb
    exact e

/-- What a call of `reset_device` from a callback is assumed to leave alone. -/
theorem steady_run_action {nested : Bool → Globals → Except Fault (Bool × Globals)}
    (hn : ∀ force g b g', nested force g = .ok (b, g') → steady g' = steady g)
    {a : Action} {g g' : Globals} (h : run_action nested a g = .ok g') :
    steady g' = steady g := by
  cases a with
  | add_device_child child reset_priority =>
    simp only [run_action] at h
    cases h
    rfl
  | remove_device_child child =>
    simp only [run_action] at h
    cases h
    rfl
  | reset_device force =>
    simp only [run_action] at h
    split at h
    · cases h
    · rename_i b g1 hr
      cases h
      exact hn _ _ _ _ hr

theorem steady_run_actions {nested : Bool → Globals → Except Fault (Bool × Globals)}
    (hn : ∀ force g b g', nested force g = .ok (b, g') → steady g' = steady g) :
    ∀ (l : List Action) {g g' : Globals}, run_actions nested l g = .ok g' →
      steady g' = steady g
  | [], g, g', h => by
    simp only [run_actions] at h
    cases h
    rfl
  | a :: more, g, g', h => by
    simp only [run_actions] at h
    split at h
    · cases h
    · rename_i g1 ha
      exact (steady_run_actions hn more h).trans (steady_run_action hn ha)

theorem steady_set_sorted_child (i : Nat) (f : device_child_t → device_child_t) (g : Globals) :
    steady (set_sorted_child i f g) = steady g := rfl

theorem steady_before_reset_loop {C : Nat → device_child_base}
    {nested : Bool → Globals → Except Fault (Bool × Globals)}
    (hn : ∀ force g b g', nested force g = .ok (b, g') → steady g' = steady g) :
    ∀ (l : List Nat) {g g' : Globals},
      reset_device.before_reset_loop C nested l g = .ok g' → steady g' = steady g
  | [], g, g', h => by
    simp only [reset_device.before_reset_loop] at h
    cases h
    rfl
  | i :: more, g, g', h => by
    unfold reset_device.before_reset_loop at h
    split at h
    · simp only [] at h
      split at h
      · cases h
      · rename_i g1 ha
        have ea := steady_run_actions hn _ ha
        have eb := steady_before_reset_loop hn more h
        exact eb.trans ea
    · have e := steady_before_reset_loop hn more h
      exact e

theorem steady_reset_loop {C : Nat → device_child_base}
    {nested : Bool → Globals → Except Fault (Bool × Globals)}
    (hn : ∀ force g b g', nested force g = .ok (b, g') → steady g' = steady g) :
    ∀ (l : List Nat) {status b : Bool} {g g' : Globals},
      reset_device.reset_loop C nested l status g = .ok (b, g') → steady g' = steady g
  | [], status, b, g, g', h => by
    simp only [reset_device.reset_loop] at h
    cases h
    rfl
  | i :: more, status, b, g, g', h => by
    unfold reset_device.reset_loop at h
    split at h
    · simp only [] at h
      split at h
      · cases h
      · rename_i g1 ha
        have ea := steady_run_actions hn _ ha
        rw [steady_reset_loop hn more h, steady_set_sorted_child]
        split
        · exact ea
        · exact ea
    · have e := steady_reset_loop hn more h
      exact e

theorem steady_after_reset_loop {C : Nat → device_child_base}
    {nested : Bool → Globals → Except Fault (Bool × Globals)}
    (hn : ∀ force g b g', nested force g = .ok (b, g') → steady g' = steady g) :
    ∀ (l : List Nat) {status b : Bool} {g g' : Globals},
      reset_device.after_reset_loop C nested l status g = .ok (b, g') → steady g' = steady g
  | [], status, b, g, g', h => by
    simp only [reset_device.after_reset_loop] at h
    cases h
    rfl
  | i :: more, status, b, g, g', h => by
    unfold reset_device.after_reset_loop at h
    split at h
    · simp only [] at h
      split at h
      · cases h
      · rename_i g1 ha
        have ea := steady_run_actions hn _ ha
        rw [steady_after_reset_loop hn more h]
        split
        · exact ea
        · exact ea
    · have e := steady_after_reset_loop hn more h
      exact e

theorem steady_walk {C : Nat → device_child_base}
    {nested : Bool → Globals → Except Fault (Bool × Globals)}
    (hn : ∀ force g b g', nested force g = .ok (b, g') → steady g' = steady g)
    {b : Bool} {g g' : Globals} (h : reset_device.walk C nested g = .ok (b, g')) :
    steady g' = steady g := by
  unfold reset_device.walk at h
  simp only [] at h
  split at h
  · cases h
  · rename_i g1 h1
    split at h
    · cases h
    · rename_i s2 g2 h2
      split at h
      · cases h
      · rename_i s3 g3 h3
        cases h
        have e1 := steady_before_reset_loop hn _ h1
        have e2 := steady_reset_loop hn _ h2
        have e3 := steady_after_reset_loop hn _ h3
        exact e3.trans (e2.trans e1)

theorem steady_forced {C : Nat → device_child_base}
    {nested : Bool → Globals → Except Fault (Bool × Globals)}
    (hn : ∀ force g b g', nested force g = .ok (b, g') → steady g' = steady g)
    {b : Bool} {g g' : Globals} (h : reset_device.forced C nested g = .ok (b, g')) :
    steady g' = steady g := by
  unfold reset_device.forced at h
  split at h
  · cases h
    rfl
  · split at h
    · cases h
    · rename_i g1 hd
      have e1 := steady_destroy_d3d hd
      split at h
      · cases h
      · rename_i g2 hi
        cases h
        have e2 := steady_init_d3d hi
        exact e2.trans e1
      · rename_i g2 hi
        split at h
        · cases h
        · rename_i s3 g3 hw
          cases h
          have e2 := steady_init_d3d hi
          have e3 := steady_walk hn hw
          exact e3.trans (e2.trans e1)

theorem steady_check_removed {C : Nat → device_child_base}
    {nested : Bool → Globals → Except Fault (Bool × Globals)}
    (hn : ∀ force g b g', nested force g = .ok (b, g') → steady g' = steady g)
    {force b : Bool} {g g' : Globals}
    (h : reset_device.check_removed C nested force g = .ok (b, g')) :
    steady g' = steady g := by
  unfold reset_device.check_removed at h
  split at h
  · exact steady_forced hn h
  · split at h
    · cases h
    · split at h
      · have e := steady_forced hn h
        exact e
      · cases h
        rfl

theorem steady_body {C : Nat → device_child_base}
    {nested : Bool → Globals → Except Fault (Bool × Globals)}
    (hn : ∀ force g b g', nested force g = .ok (b, g') → steady g' = steady g)
    {force b : Bool} {g g' : Globals}
    (h : reset_device.body C nested force g = .ok (b, g')) :
    steady g' = steady g := by
  unfold reset_device.body at h
  split at h
  · cases h
  · split at h
    · simp only [] at h
      split at h
      · cases h
        rfl
      · split at h
        · have e := steady_check_removed hn h
          exact e
        · have e := steady_check_removed hn h
          exact e
    · exact steady_check_removed hn h

theorem steady_reset_device (C : Nat → device_child_base) : ∀ (fuel : Nat) (force : Bool)
    (g : Globals) (b : Bool) (g' : Globals),
    reset_device C fuel force g = .ok (b, g') → steady g' = steady g
  | 0, _, _, _, _, h => by
    simp only [reset_device] at h
    cases h
  | fuel + 1, force, g, b, g', h => by
    simp only [reset_device] at h
    exact steady_body (steady_reset_device C fuel) h

/-! ## Values published on the frame-complete signal -/

theorem notified_append : ∀ (t t' : List Event),
    notified (t ++ t') = notified t ++ notified t'
  | [], _ => rfl
  | e :: t, t' => by
    cases e <;> simp [notified, notified_append t t']

theorem published_emit (g : Globals) (e : Event) (h : notified [e] = []) :
    published (g.emit e) = published g := by
  simp [published, Globals.emit, notified_append, h]

theorem published_debug_assert (cond : Bool) (g : Globals) :
    published (debug_assert cond g) = published g := by
  unfold debug_assert
  split
  · rfl
  · exact published_emit _ _ rfl

theorem notified_popped (completed : Nat → Nat) : ∀ l : List (resource × fence_values),
    notified (flush_keep_alive.popped completed l) = []
  | [] => rfl
  | entry :: rest => by
    unfold flush_keep_alive.popped
    split
    · simp [notified, notified_popped completed rest]
    · rfl

theorem published_flush_keep_alive (g : Globals) :
    published (flush_keep_alive g) = published g := by
  simp [published, flush_keep_alive, notified_append, notified_popped]

theorem published_wait_for_idle {g g' : Globals} (h : wait_for_idle g = .ok g') :
    published g' = published g := by
  unfold wait_for_idle at h
  split at h
  · cases h
  · cases h
    exact published_flush_keep_alive _

theorem published_unregister {g g' : Globals} (h : destroy_d3d.unregister g = .ok g') :
    published g' = published g := by
  rw [(unregister_ok h).1]

theorem published_destroy_d3d {for_reset : Bool} {g g' : Globals}
    (h : destroy_d3d for_reset g = .ok g') : published g' = published g := by
  unfold destroy_d3d at h
  split at h
  · cases h
  · rename_i g1 hw
    split at h
    · cases h
    · rename_i g2 hu
      cases h
      have e1 := published_wait_for_idle hw
      have e2 := published_unregister hu
      rw [published_debug_assert] at e1
      simp only [published_emit, notified] at e1
      have e3 : published (if (!for_reset) = true then destroy_d3d.reset_objects g1 else g1) =
          published g1 := by
        split <;> rfl
      exact (e2.trans e3).trans e1

theorem published_adapter_name (a : Adapter) (g : Globals) :
    published (adapter_name a g).2 = published g := by
  unfold adapter_name
  split
  · rfl
  · exact published_emit _ _ rfl

theorem published_adapter_name_log (a : Adapter) (g : Globals) (f : String → String) :
    published ((adapter_name a g).2.emit (.log .dx12 (f (adapter_name a g).1))) =
      published g := by
  simp only [published_emit, notified]
  exact published_adapter_name a g

theorem published_enumerate : ∀ (l adapters : List Adapter) (found_warp : Bool) (g : Globals),
    published (create_dx12_device.enumerate l adapters found_warp g).2.2 = published g
  | [], _, _, _ => rfl
  | adapter :: more, adapters, found_warp, g => by
    unfold create_dx12_device.enumerate
    exact (published_enumerate more _ _ _).trans (published_adapter_name_log adapter g _)

theorem published_add_warp (factory : Factory) (found : List Adapter × Bool × Globals) :
    published (create_dx12_device.add_warp factory found).2 = published found.2.2 := by
  unfold create_dx12_device.add_warp
  split
  · split
    · exact published_adapter_name_log _ _ _
    · rfl
  · rfl

theorem published_create (feature_level : Nat) : ∀ (l : List Adapter) (i : Nat) (g : Globals),
    published (create_dx12_device.create feature_level l i g).2 = published g
  | [], _, g =>
    (published_emit _ .assert_failed rfl).trans
      (published_emit g (.log .dx12 "D3D12CreateDevice failed") rfl)
  | adapter :: more, i, g => by
    unfold create_dx12_device.create
    split
    · exact published_emit _ _ rfl
    · exact published_create feature_level more (i + 1) g

theorem published_create_dx12_device {g g' : Globals} {d : Option Device}
    (h : create_dx12_device g = .ok (d, g')) : published g' = published g := by
  unfold create_dx12_device at h
  split at h
  · cases h
  · simp only [Except.ok.injEq] at h
    have h2 := congrArg Prod.snd h
    simp only at h2
    rw [← h2]
    exact (published_create _ _ _ _).trans
      ((published_add_warp _ _).trans (published_enumerate _ _ _ _))

theorem published_update_video_memory_info (g : Globals) :
    published (update_video_memory_info g) = published g := by
  unfold update_video_memory_info
  split
  · simp only []
    simp only [published_emit, notified]
    split <;> rfl
  · rfl

theorem published_video_memory {for_reset : Bool} {adapter : Adapter} {g g' : Globals}
    {b : Bool} (h : init_d3d.video_memory for_reset adapter g = .ok (b, g')) :
    published g' = published g := by
  rcases video_memory_ok h with ⟨_, _, e⟩ | ⟨_, _, _, _, e⟩
  · rw [e]
    exact published_emit _ _ rfl
  · rw [e]
    have e1 : ∀ g1 : Globals, published
        (if (!for_reset) = true then init_d3d.create_objects g1 else g1) = published g1 := by
      intro g1
      split <;> rfl
    rw [e1]
    exact published_update_video_memory_info g

theorem published_find_adapter {for_reset : Bool} {device : Device} {g g' : Globals} {r : Bool}
    (h : init_d3d.find_adapter for_reset device g = .ok (r, g')) :
    published g' = published g := by
  unfold init_d3d.find_adapter at h
  split at h
  · cases h
  · split at h
    · cases h
      exact published_emit _ _ rfl
    · split at h
      · cases h
        simp only [published_emit, notified]
        exact published_debug_assert _ _
      · rename_i adapter _
        rw [published_video_memory h, published_adapter_name_log adapter _
          (fun name => "Final adapter: " ++ name)]
        exact published_debug_assert _ g

theorem published_init_d3d_body {for_reset : Bool} {g g' : Globals} {r : Bool}
    (h : init_d3d.body for_reset g = .ok (r, g')) : published g' = published g := by
  unfold init_d3d.body at h
  split at h
  · cases h
  · rename_i g1 hc
    cases h
    have e1 := published_create_dx12_device hc
    rw [published_debug_assert] at e1
    simp only [published_emit, notified]
    exact e1
  · rename_i device g1 hc
    have e1 := published_create_dx12_device hc
    rw [published_debug_assert] at e1
    have e2 := published_find_adapter h
    exact e2.trans e1

theorem published_init_d3d {for_reset : Bool} {g g' : Globals} {r : Bool}
    (h : init_d3d for_reset g = .ok (r, g')) : published g' = published g := by
  unfold init_d3d at h
  split at h
  · cases h
  · rename_i r1 g1 hb
    simp only [Except.ok.injEq, Prod.mk.injEq] at h
    obtain ⟨h1, h2⟩ := h
    subst h1 h2
    have e := published_init_d3d_body hb
    simp only [published_emit, notified]
    exact e

theorem published_run_action {nested : Bool → Globals → Except Fault (Bool × Globals)}
    (hn : ∀ force g b g', nested force g = .ok (b, g') → published g' = published g)
    {a : Action} {g g' : Globals} (h : run_action nested a g = .ok g') :
    published g' = published g := by
  cases a with
  | add_device_child child reset_priority =>
    simp only [run_action] at h
    cases h
    exact published_emit g _ rfl
  | remove_device_child child =>
    simp only [run_action] at h
    cases h
    exact published_emit g _ rfl
  | reset_device force =>
    simp only [run_action] at h
    split at h
    · cases h
    · rename_i b g1 hr
      cases h
      exact hn _ _ _ _ hr

theorem published_run_actions {nested : Bool → Globals → Except Fault (Bool × Globals)}
    (hn : ∀ force g b g', nested force g = .ok (b, g') → published g' = published g) :
    ∀ (l : List Action) {g g' : Globals}, run_actions nested l g = .ok g' →
      published g' = published g
  | [], g, g', h => by
    simp only [run_actions] at h
    cases h
    rfl
  | a :: more, g, g', h => by
    simp only [run_actions] at h
    split at h
    · cases h
    · rename_i g1 ha
      exact (published_run_actions hn more h).trans (published_run_action hn ha)

theorem published_set_sorted_child (i : Nat) (f : device_child_t → device_child_t)
    (g : Globals) : published (set_sorted_child i f g) = published g := rfl

theorem published_before_reset_loop {C : Nat → device_child_base}
    {nested : Bool → Globals → Except Fault (Bool × Globals)}
    (hn : ∀ force g b g', nested force g = .ok (b, g') → published g' = published g) :
    ∀ (l : List Nat) {g g' : Globals},
      reset_device.before_reset_loop C nested l g = .ok g' → published g' = published g
  | [], g, g', h => by
    simp only [reset_device.before_reset_loop] at h
    cases h
    rfl
  | i :: more, g, g', h => by
    unfold reset_device.before_reset_loop at h
    split at h
    · simp only [] at h
      split at h
      · cases h
      · rename_i g1 ha
        have ea := published_run_actions hn _ ha
        have eb := published_before_reset_loop hn more h
        simp only [published_emit, notified] at ea
        rw [published_set_sorted_child] at eb
        exact eb.trans ea
    · have e := published_before_reset_loop hn more h
      exact e

theorem published_reset_loop {C : Nat → device_child_base}
    {nested : Bool → Globals → Except Fault (Bool × Globals)}
    (hn : ∀ force g b g', nested force g = .ok (b, g') → published g' = published g) :
    ∀ (l : List Nat) {status b : Bool} {g g' : Globals},
      reset_device.reset_loop C nested l status g = .ok (b, g') → published g' = published g
  | [], status, b, g, g', h => by
    simp only [reset_device.reset_loop] at h
    cases h
    rfl
  | i :: more, status, b, g, g', h => by
    unfold reset_device.reset_loop at h
    split at h
    · simp only [] at h
      split at h
      · cases h
      · rename_i g1 ha
        have ea := published_run_actions hn _ ha
        simp only [published_emit, notified] at ea
        rw [published_reset_loop hn more h, published_set_sorted_child]
        split
        · simp only [published_emit, notified]
          exact ea
        · rw [published_set_sorted_child]
          simp only [published_emit, notified]
          exact ea
    · have e := published_reset_loop hn more h
      exact e

theorem published_after_reset_loop {C : Nat → device_child_base}
    {nested : Bool → Globals → Except Fault (Bool × Globals)}
    (hn : ∀ force g b g', nested force g = .ok (b, g') → published g' = published g) :
    ∀ (l : List Nat) {status b : Bool} {g g' : Globals},
      reset_device.after_reset_loop C nested l status g = .ok (b, g') →
        published g' = published g
  | [], status, b, g, g', h => by
    simp only [reset_device.after_reset_loop] at h
    cases h
    rfl
  | i :: more, status, b, g, g', h => by
    unfold reset_device.after_reset_loop at h
    split at h
    · simp only [] at h
      split at h
      · cases h
      · rename_i g1 ha
        have ea := published_run_actions hn _ ha
        simp only [published_emit, notified] at ea
        rw [published_after_reset_loop hn more h]
        split
        · simp only [published_emit, notified]
          exact ea
        · rw [published_set_sorted_child]
          simp only [published_emit, notified]
          exact ea
    · have e := published_after_reset_loop hn more h
      exact e

theorem published_walk {C : Nat → device_child_base}
    {nested : Bool → Globals → Except Fault (Bool × Globals)}
    (hn : ∀ force g b g', nested force g = .ok (b, g') → published g' = published g)
    {b : Bool} {g g' : Globals} (h : reset_device.walk C nested g = .ok (b, g')) :
    published g' = published g := by
  unfold reset_device.walk at h
  simp only [] at h
  split at h
  · cases h
  · rename_i g1 h1
    split at h
    · cases h
    · rename_i s2 g2 h2
      split at h
      · cases h
      · rename_i s3 g3 h3
        cases h
        have e1 := published_before_reset_loop hn _ h1
        have e2 := published_reset_loop hn _ h2
        have e3 := published_after_reset_loop hn _ h3
        exact e3.trans (e2.trans e1)

theorem published_forced {C : Nat → device_child_base}
    {nested : Bool → Globals → Except Fault (Bool × Globals)}
    (hn : ∀ force g b g', nested force g = .ok (b, g') → published g' = published g)
    {b : Bool} {g g' : Globals} (h : reset_device.forced C nested g = .ok (b, g')) :
    published g' = published g := by
  unfold reset_device.forced at h
  split at h
  · cases h
    simp only [published_emit, notified]
  · split at h
    · cases h
    · rename_i g1 hd
      have e1 := published_destroy_d3d hd
      have e0 : published { g.emit (.log .dx12 "Recreating DX12 device") with resetting := true } =
          published g := published_emit g _ rfl
      split at h
      · cases h
      · rename_i g2 hi
        cases h
        have e2 := published_init_d3d hi
        exact (published_emit g2 .assert_failed rfl).trans (e2.trans (e1.trans e0))
      · rename_i g2 hi
        split at h
        · cases h
        · rename_i s3 g3 hw
          cases h
          have e2 := published_init_d3d hi
          have e3 := published_walk hn hw
          exact e3.trans (e2.trans (e1.trans e0))

theorem published_check_removed {C : Nat → device_child_base}
    {nested : Bool → Globals → Except Fault (Bool × Globals)}
    (hn : ∀ force g b g', nested force g = .ok (b, g') → published g' = published g)
    {force b : Bool} {g g' : Globals}
    (h : reset_device.check_removed C nested force g = .ok (b, g')) :
    published g' = published g := by
  unfold reset_device.check_removed at h
  split at h
  · exact published_forced hn h
  · split at h
    · cases h
    · split at h
      · have e := published_forced hn h
        exact e.trans (published_emit g _ rfl)
      · cases h
        rfl

theorem published_body {C : Nat → device_child_base}
    {nested : Bool → Globals → Except Fault (Bool × Globals)}
    (hn : ∀ force g b g', nested force g = .ok (b, g') → published g' = published g)
    {force b : Bool} {g g' : Globals}
    (h : reset_device.body C nested force g = .ok (b, g')) :
    published g' = published g := by
  unfold reset_device.body at h
  split at h
  · cases h
  · split at h
    · simp only [] at h
      split at h
      · cases h
        exact published_emit _ _ rfl
      · split at h
        · have e := published_check_removed hn h
          exact e.trans (published_emit _ _ rfl)
        · have e := published_check_removed hn h
          exact e
    · exact published_check_removed hn h

theorem published_reset_device (C : Nat → device_child_base) : ∀ (fuel : Nat) (force : Bool)
    (g : Globals) (b : Bool) (g' : Globals),
    reset_device C fuel force g = .ok (b, g') → published g' = published g
  | 0, _, _, _, _, h => by
    simp only [reset_device] at h
    cases h
  | fuel + 1, force, g, b, g', h => by
    simp only [reset_device] at h
    exact published_body (published_reset_device C fuel) h

/-! ## Frames -/

theorem steady_host_functions {g g' : Globals} (h : steady g' = steady g) :
    g'.host_functions = g.host_functions :=
  congrArg (fun s => s.1) h

theorem steady_frame_commands {g g' : Globals} (h : steady g' = steady g) :
    g'.frame_commands = g.frame_commands :=
  congrArg (fun s => s.2.2.2.1) h

theorem steady_frame_count {g g' : Globals} (h : steady g' = steady g) :
    g'.frame_count = g.frame_count :=
  congrArg (fun s => s.2.2.2.2.1) h

theorem steady_queues {g g' : Globals} (h : steady g' = steady g) :
    g'.queues = g.queues :=
  congrArg (fun s => s.2.2.2.2.2.2.2.2.1) h

theorem trace_update_video_memory_info (g : Globals) :
    ∃ t, (update_video_memory_info g).trace = g.trace ++ t ∧ Event.assert_failed ∉ t := by
  unfold update_video_memory_info
  split
  · simp only [Globals.emit]
    split <;> exact ⟨[_], rfl, by simp⟩
  · exact ⟨[], by simp, by simp⟩

theorem trace_flush_keep_alive (g : Globals) :
    ∃ t, (flush_keep_alive g).trace = g.trace ++ t ∧ Event.assert_failed ∉ t := by
  refine ⟨_, rfl, ?_⟩
  intro h
  obtain ⟨r, fv, h1, _⟩ := flush_keep_alive.popped_release _ _ _ h
  cases h1

theorem device_flush_keep_alive (g : Globals) : (flush_keep_alive g).device = g.device := rfl

/-- What `frame_started` does up to its first dereference. -/
theorem frame_started_prefix (g : Globals) :
    ∃ t, (update_video_memory_info (flush_keep_alive
        (debug_assert (!g.frame_commands.isSome) g))).trace =
      g.trace ++ ((if g.frame_commands.isSome then [Event.assert_failed] else []) ++ t) ∧
      Event.assert_failed ∉ t := by
  obtain ⟨t1, h1, n1⟩ := trace_update_video_memory_info
    (flush_keep_alive (debug_assert (!g.frame_commands.isSome) g))
  obtain ⟨t2, h2, n2⟩ := trace_flush_keep_alive (debug_assert (!g.frame_commands.isSome) g)
  refine ⟨t2 ++ t1, ?_, by simp [n1, n2]⟩
  rw [h1, h2]
  unfold debug_assert
  cases g.frame_commands <;> simp [Globals.emit]

theorem frame_started_total (g : Globals) (qs : queues) (hq : g.queues = some qs)
    (hh : g.host_functions.isSome = true) :
    ∃ g' t, frame_started g = .ok g' ∧ g'.frame_commands = some qs.direct.new_commands ∧
      g'.trace = g.trace ++
        ((if g.frame_commands.isSome then [Event.assert_failed] else []) ++ t) ∧
      Event.assert_failed ∉ t ∧ g'.queues = g.queues ∧ g'.host_functions = g.host_functions ∧
      g'.frame_count = g.frame_count ∧ g'.device = g.device ∧ published g' = published g := by
  have hs : steady (update_video_memory_info (flush_keep_alive
      (debug_assert (!g.frame_commands.isSome) g))) = steady g :=
    (steady_update_video_memory_info _).trans (steady_debug_assert _ g)
  have hp : published (update_video_memory_info (flush_keep_alive
      (debug_assert (!g.frame_commands.isSome) g))) = published g :=
    (published_update_video_memory_info _).trans
      ((published_flush_keep_alive _).trans (published_debug_assert _ g))
  have hd : (update_video_memory_info (flush_keep_alive
      (debug_assert (!g.frame_commands.isSome) g))).device = g.device :=
    (device_update_video_memory_info _).trans
      ((device_flush_keep_alive _).trans (device_debug_assert _ g))
  obtain ⟨t, ht, hn⟩ := frame_started_prefix g
  obtain ⟨host, hhost⟩ := Option.isSome_iff_exists.1 hh
  have hq0 := (steady_queues hs).trans hq
  have hh0 := (steady_host_functions hs).trans hhost
  have hrun : frame_started g = .ok (Globals.emit { (update_video_memory_info (flush_keep_alive
      (debug_assert (!g.frame_commands.isSome) g))).emit .begin_event with
        frame_commands := some qs.direct.new_commands }
      (.on_frame_started qs.direct.new_commands)) := by
    unfold frame_started
    simp only [hq0]
    simp only [Globals.emit, hh0]
  have hc := steady_frame_count hs
  refine ⟨_, t ++ [.begin_event, .on_frame_started qs.direct.new_commands], hrun, rfl, ?_,
    by simp [hn], hq0.trans hq.symm, hh0.trans hhost.symm, hc, hd, ?_⟩
  · show _ ++ [Event.begin_event] ++ [Event.on_frame_started _] = _
    rw [ht]
    simp
  · show notified (_ ++ [Event.begin_event] ++ [Event.on_frame_started _]) = _
    rw [notified_append, notified_append]
    simpa [notified] using hp

theorem frame_started_ok {g g' : Globals} (h : frame_started g = .ok g') :
    ∃ qs, g.queues = some qs ∧ g.host_functions.isSome = true := by
  have hs : steady (update_video_memory_info (flush_keep_alive
      (debug_assert (!g.frame_commands.isSome) g))) = steady g :=
    (steady_update_video_memory_info _).trans (steady_debug_assert _ g)
  unfold frame_started at h
  simp only [] at h
  split at h
  · cases h
  · rename_i qs hq0
    refine ⟨qs, (steady_queues hs).symm.trans hq0, ?_⟩
    split at h
    · cases h
    · rename_i host hh0
      have : g.host_functions = some host := (steady_host_functions hs).symm.trans hh0
      simp [this]

/-- The state that `frame_complete` reaches when the host's `on_frame_complete()` returned. -/
theorem frame_complete_notify_total (g : Globals) (hq : g.queues.isSome = true)
    (hh : g.host_functions.isSome = true) :
    frame_complete.notify g = .ok { g with
      frame_commands := none
      frame_count := (g.frame_count + 1) % 2 ^ 64
      trace := g.trace ++ ((if g.frame_commands.isSome then [] else [Event.assert_failed]) ++
        [.frame_complete_signal ((g.frame_count + 1) % 2 ^ 64), .end_event,
          .on_frame_complete]) } := by
  obtain ⟨qs, hq⟩ := Option.isSome_iff_exists.1 hq
  obtain ⟨host, hh⟩ := Option.isSome_iff_exists.1 hh
  unfold frame_complete.notify debug_assert
  cases hf : g.frame_commands <;> simp [Globals.emit, hq, hh]

theorem frame_complete_notify_ok {g g' : Globals} (h : frame_complete.notify g = .ok g') :
    g.queues.isSome = true ∧ g.host_functions.isSome = true := by
  unfold frame_complete.notify at h
  simp only [] at h
  split at h
  · cases h
  · rename_i qs hq0
    split at h
    · cases h
    · rename_i host hh0
      have e1 : (debug_assert g.frame_commands.isSome g).queues = g.queues :=
        steady_queues (steady_debug_assert _ g)
      have e2 : (debug_assert g.frame_commands.isSome g).host_functions = g.host_functions :=
        steady_host_functions (steady_debug_assert _ g)
      simp only [Globals.emit] at hq0 hh0
      rw [e1] at hq0
      rw [e2] at hh0
      simp [hq0, hh0]

theorem body_forced_marker (C : Nat → device_child_base)
    {nested : Bool → Globals → Except Fault (Bool × Globals)} (hn : NestedQuiet nested)
    {g g' : Globals} {status : Bool} (f : Factory) (hf : g.factory = some f)
    (husable : f.is_current = true ∨ g.env.create_factory.isSome = true)
    (h : reset_device.body C nested true g = .ok (status, g')) :
    ∃ t, g'.trace = g.trace ++ recreating :: t := by
  unfold reset_device.body at h
  rw [hf] at h
  simp only [] at h
  split at h
  · rename_i hstale
    have hcf : g.env.create_factory.isSome = true := by
      rcases husable with hu | hu
      · rw [hu] at hstale
        cases hstale
      · exact hu
    obtain ⟨f', hf'⟩ := Option.isSome_iff_exists.1 hcf
    simp only [hf', Bool.not_true, Bool.false_and, Bool.false_eq_true, if_false] at h
    unfold reset_device.check_removed at h
    rw [if_pos rfl] at h
    have e := forced_marker C hn h
    exact e
  · unfold reset_device.check_removed at h
    rw [if_pos rfl] at h
    exact forced_marker C hn h

theorem reset_device_grows (C : Nat → device_child_base) (fuel : Nat) (force : Bool)
    {g g' : Globals} {status : Bool} (h : reset_device C fuel force g = .ok (status, g')) :
    ∃ t, g'.trace = g.trace ++ t := by
  cases fuel with
  | zero => cases h
  | succ fuel =>
    obtain ⟨t, ht, _⟩ := body_trace C (nested_quiet_reset_device C fuel) h
    exact ⟨t, ht⟩

/-- What a returning `frame_complete` has done. -/
theorem frame_complete_spec (C : Nat → device_child_base) (fuel : Nat) {g g' : Globals}
    (h : frame_complete C fuel g = .ok g') :
    g'.frame_commands = none ∧ g'.frame_count = (g.frame_count + 1) % 2 ^ 64 ∧
    published g' = published g ++ [(g.frame_count + 1) % 2 ^ 64] ∧
    g'.queues = g.queues ∧ g'.host_functions = g.host_functions ∧
    ∃ t, g'.trace = g.trace ++ ((if g.frame_commands.isSome then [] else [Event.assert_failed]) ++
      Event.frame_complete_signal ((g.frame_count + 1) % 2 ^ 64) :: .end_event ::
        .on_frame_complete :: t) := by
  unfold frame_complete at h
  split at h
  · cases h
  · rename_i g1 hn
    obtain ⟨hq, hh⟩ := frame_complete_notify_ok hn
    rw [frame_complete_notify_total g hq hh] at hn
    have hp1 : published g1 = published g ++ [(g.frame_count + 1) % 2 ^ 64] := by
      cases hn
      show notified (_ ++ _) = _
      rw [notified_append]
      cases g.frame_commands <;> rfl
    have ht1 : g1.trace = g.trace ++ ((if g.frame_commands.isSome then [] else
        [Event.assert_failed]) ++ [Event.frame_complete_signal ((g.frame_count + 1) % 2 ^ 64),
          .end_event, .on_frame_complete]) := by
      cases hn
      rfl
    have hs1 : g1.frame_commands = none ∧ g1.frame_count = (g.frame_count + 1) % 2 ^ 64 ∧
        g1.queues = g.queues ∧ g1.host_functions = g.host_functions := by
      cases hn
      exact ⟨rfl, rfl, rfl, rfl⟩
    split at h
    · cases h
    · cases h
      exact ⟨hs1.1, hs1.2.1, hp1, hs1.2.2.1, hs1.2.2.2, [], by rw [ht1]⟩
    · split at h
      · cases h
      · rename_i r hr
        cases h
        obtain ⟨b, g2⟩ := r
        have hst := steady_reset_device C fuel true g1 b g2 hr
        have hpu := published_reset_device C fuel true g1 b g2 hr
        obtain ⟨t, ht⟩ := reset_device_grows C fuel true hr
        refine ⟨(steady_frame_commands hst).trans hs1.1, (steady_frame_count hst).trans hs1.2.1,
          hpu.trans hp1, (steady_queues hst).trans hs1.2.2.1,
          (steady_host_functions hst).trans hs1.2.2.2, t, ?_⟩
        show g2.trace = _
        rw [ht, ht1]
        simp

/-! ## `wait_for_idle` and the keep-alive list -/

theorem flush_keep_alive.loop_all (completed : Nat → Nat) :
    ∀ l : List (resource × fence_values),
      (∀ entry ∈ l, entry.2.complete completed = true) →
      flush_keep_alive.loop completed l = [] ∧
      flush_keep_alive.popped completed l =
        l.map (fun entry => Event.release entry.1 entry.2 true)
  | [], _ => ⟨rfl, rfl⟩
  | entry :: rest, h => by
    have he : entry.2.complete completed = true := h entry (List.mem_cons_self _ _)
    obtain ⟨h1, h2⟩ := flush_keep_alive.loop_all completed rest
      (fun e he => h e (List.mem_cons_of_mem _ he))
    unfold flush_keep_alive.loop flush_keep_alive.popped
    rw [if_pos he, if_pos he, h1, h2, he]
    exact ⟨rfl, rfl⟩

/-- C11: when every fence values snapshot in the keep-alive list reports complete once the
queues have drained, `wait_for_idle()` returns, the keep-alive list is empty afterwards, and
every resource that was in the list has been let go, in the order of the list. -/
theorem wait_for_idle_empties_keep_alive (g : Globals) (qs : queues) (hq : g.queues = some qs)
    (h : ∀ entry ∈ g.keep_alive_resources,
      entry.2.complete (qs.wait_for_idle g.fence_completed) = true) :
    ∃ g', wait_for_idle g = .ok g' ∧ g'.keep_alive_resources = [] ∧
      g'.trace = g.trace ++
        g.keep_alive_resources.map (fun entry => Event.release entry.1 entry.2 true) := by
  obtain ⟨h1, h2⟩ := flush_keep_alive.loop_all _ _ h
  refine ⟨flush_keep_alive { g with fence_completed := qs.wait_for_idle g.fence_completed },
    ?_, h1, ?_⟩
  · unfold wait_for_idle
    rw [hq]
  · show g.trace ++ flush_keep_alive.popped _ _ = _
    rw [h2]

/-- Witness of C11, on `busy_globals`: both resources wait for work that the queues have
submitted, and `wait_for_idle()` lets both go. -/
theorem wait_for_idle_empties_keep_alive_witness :
    (∃ g', wait_for_idle busy_globals = .ok g' ∧ g'.keep_alive_resources = [] ∧
      g'.trace = busy_globals.trace ++
        busy_globals.keep_alive_resources.map
          (fun entry => Event.release entry.1 entry.2 true)) ∧
    busy_globals.keep_alive_resources.length = 2 ∧
    (flush_keep_alive busy_globals).keep_alive_resources.length = 2 :=
  ⟨wait_for_idle_empties_keep_alive busy_globals ⟨⟨0, 5⟩, ⟨1, 3⟩, ⟨2, 0⟩⟩ rfl (by decide),
    by decide, by decide⟩

/-! ## One frame at a time -/

theorem frame_complete_total (C : Nat → device_child_base) (fuel : Nat) (g : Globals)
    (f : Factory) (hfuel : 2 ≤ fuel) (hq : g.queues.isSome = true)
    (hh : g.host_functions.isSome = true) (hd : g.device.isSome = true)
    (hf : g.factory = some f)
    (husable : f.is_current = true ∨ g.env.create_factory.isSome = true)
    (hev : g.video_memory_change_event = none) (hce : g.env.create_event = none) :
    ∃ g', frame_complete C fuel g = .ok g' := by
  obtain ⟨d, hd⟩ := Option.isSome_iff_exists.1 hd
  obtain ⟨k, rfl⟩ : ∃ k, fuel = k + 2 := ⟨fuel - 2, by omega⟩
  obtain ⟨g1, hn, e1, e2, e3, e4, e5⟩ : ∃ g1, frame_complete.notify g = .ok g1 ∧
      g1.device = g.device ∧ g1.factory = g.factory ∧ g1.env = g.env ∧ g1.queues = g.queues ∧
      g1.video_memory_change_event = g.video_memory_change_event :=
    ⟨_, frame_complete_notify_total g hq hh, rfl, rfl, rfl, rfl, rfl⟩
  unfold frame_complete
  rw [hn]
  simp only []
  unfold device_valid
  rw [e1, hd]
  simp only []
  by_cases hv : d.removed_reason = S_OK
  · rw [decide_eq_true hv]
    exact ⟨_, rfl⟩
  · rw [decide_eq_false hv]
    simp only []
    obtain ⟨s, g2, h2⟩ := body_total C (nested_total_reset_device C k) g1 f (e2.trans hf)
      (by rw [e3]; exact husable) (by rw [e4]; exact hq) (e5.trans hev) (by rw [e3]; exact hce)
    have h2' : reset_device C (k + 2) true g1 = .ok (s, g2) := h2
    rw [h2']
    exact ⟨_, rfl⟩

theorem frame_commands_destroy_d3d {for_reset : Bool} {g g' : Globals}
    (h : destroy_d3d for_reset g = .ok g') : g'.frame_commands = g.frame_commands := by
  unfold destroy_d3d at h
  split at h
  · cases h
  · rename_i g1 hw
    split at h
    · cases h
    · rename_i g2 hu
      cases h
      have e1 := steady_frame_commands (steady_wait_for_idle hw)
      rw [steady_frame_commands (steady_debug_assert _ _)] at e1
      have e2 := (unregister_ok hu).1
      show g2.frame_commands = g.frame_commands
      rw [e2]
      split
      · exact e1
      · exact e1

theorem frame_commands_video_memory {for_reset : Bool} {adapter : Adapter} {g g' : Globals}
    {b : Bool} (h : init_d3d.video_memory for_reset adapter g = .ok (b, g')) :
    g'.frame_commands = g.frame_commands := by
  rcases video_memory_ok h with ⟨_, _, e⟩ | ⟨_, _, _, _, e⟩
  · rw [e]
    rfl
  · rw [e]
    have e1 := steady_frame_commands (steady_update_video_memory_info g)
    split
    · exact e1
    · exact e1

theorem frame_commands_find_adapter {for_reset : Bool} {device : Device} {g g' : Globals}
    {r : Bool} (h : init_d3d.find_adapter for_reset device g = .ok (r, g')) :
    g'.frame_commands = g.frame_commands := by
  unfold init_d3d.find_adapter at h
  split at h
  · cases h
  · split at h
    · cases h
      rfl
    · split at h
      · cases h
        exact steady_frame_commands (steady_debug_assert _ _)
      · rename_i adapter _
        rw [frame_commands_video_memory h]
        show (adapter_name adapter _).2.frame_commands = _
        rw [steady_frame_commands (steady_adapter_name adapter _)]
        show (debug_assert (!g.adapter.isSome) g).frame_commands = g.frame_commands
        exact steady_frame_commands (steady_debug_assert _ g)

theorem frame_commands_init_d3d {for_reset : Bool} {g g' : Globals} {r : Bool}
    (h : init_d3d for_reset g = .ok (r, g')) : g'.frame_commands = g.frame_commands := by
  unfold init_d3d at h
  split at h
  · cases h
  · rename_i r1 g1 hb
    simp only [Except.ok.injEq, Prod.mk.injEq] at h
    obtain ⟨_, h2⟩ := h
    subst h2
    show g1.frame_commands = g.frame_commands
    unfold init_d3d.body at hb
    split at hb
    · cases hb
    · rename_i g2 hc
      cases hb
      obtain ⟨t, ht⟩ := logged_create_dx12_device hc
      show g2.frame_commands = _
      rw [ht]
      exact steady_frame_commands (steady_debug_assert _ g)
    · rename_i device g2 hc
      obtain ⟨t, ht⟩ := logged_create_dx12_device hc
      rw [frame_commands_find_adapter hb]
      show g2.frame_commands = _
      rw [ht]
      exact steady_frame_commands (steady_debug_assert _ g)

theorem frame_commands_init_globals {host_functions feature_level : Nat} {g g' : Globals}
    {r : Bool} (h : init_globals host_functions feature_level g = .ok (r, g')) :
    g'.frame_commands = g.frame_commands := by
  unfold init_globals init_dxgi at h
  simp only [] at h
  split at h
  · rename_i g1 hx
    cases h
    split at hx
    · cases hx
      rfl
    · cases hx
  · rename_i g1 hx
    have e1 : g1.frame_commands = g.frame_commands := by
      split at hx
      · cases hx
      · cases hx
        rfl
    split at h
    · cases h
    · rename_i g2 hi
      cases h
      exact (frame_commands_init_d3d hi).trans e1
    · rename_i g2 hi
      cases h
      exact (frame_commands_init_d3d hi).trans e1

theorem frame_commands_device_fatal_error {reason : String} {g g' : Globals}
    (h : device_fatal_error reason g = .ok g') : g'.frame_commands = g.frame_commands := by
  unfold device_fatal_error at h
  split at h
  · cases h
  · split at h
    · simp only [device_valid] at h
      split at h
      · cases h
      · cases h
        rfl
      · cases h
        rfl
    · cases h
      rfl

/-- No call other than `frame_complete()` closes an open frame. -/
theorem frame_open_after_call (C : Nat → device_child_base) (fuel : Nat) (c : Call)
    (hc : c ≠ .frame_complete) {g g' : Globals} (h : c.run C fuel g = .ok g')
    (ho : g.frame_commands.isSome = true) : g'.frame_commands.isSome = true := by
  cases c with
  | init_globals host_functions feature_level =>
    simp only [Call.run] at h
    split at h
    · cases h
    · rename_i r hr
      cases h
      obtain ⟨b, g1⟩ := r
      rw [frame_commands_init_globals hr]
      exact ho
  | destroy_globals =>
    simp only [Call.run, destroy_globals] at h
    split at h
    · cases h
    · rename_i g1 hd
      cases h
      show g1.frame_commands.isSome = true
      rw [frame_commands_destroy_d3d hd]
      exact ho
  | add_device_child child reset_priority =>
    simp only [Call.run, Except.ok.injEq] at h
    subst h
    exact ho
  | remove_device_child child =>
    simp only [Call.run, Except.ok.injEq] at h
    subst h
    exact ho
  | reset_device force =>
    simp only [Call.run] at h
    split at h
    · cases h
    · rename_i r hr
      cases h
      obtain ⟨b, g1⟩ := r
      rw [steady_frame_commands (steady_reset_device C fuel force g b g1 hr)]
      exact ho
  | device_fatal_error reason =>
    simp only [Call.run] at h
    rw [frame_commands_device_fatal_error h]
    exact ho
  | frame_started =>
    simp only [Call.run] at h
    obtain ⟨qs, hqs, hh⟩ := frame_started_ok h
    obtain ⟨g1, t, h1, hc1, _⟩ := frame_started_total g qs hqs hh
    rw [h] at h1
    cases h1
    rw [hc1]
    rfl
  | frame_complete => exact absurd rfl hc
  | wait_for_idle =>
    simp only [Call.run] at h
    rw [steady_frame_commands (steady_wait_for_idle h)]
    exact ho
  | keep_alive_resource r fv =>
    simp only [Call.run, Except.ok.injEq] at h
    subst h
    unfold keep_alive_resource
    split
    · exact ho
    · exact ho

theorem frame_open_after_calls (C : Nat → device_child_base) (fuel : Nat) :
    ∀ (calls : List Call) (g g' : Globals), Call.frame_complete ∉ calls →
      run_calls C fuel calls g = .ok g' → g.frame_commands.isSome = true →
      g'.frame_commands.isSome = true
  | [], g, g', _, h, ho => by
    simp only [run_calls, Except.ok.injEq] at h
    subst h
    exact ho
  | c :: more, g, g', hn, h, ho => by
    unfold run_calls at h
    split at h
    · cases h
    · rename_i g1 h1
      have hc : c ≠ .frame_complete := fun e => hn (by simp [e])
      exact frame_open_after_calls C fuel more g1 g' (fun hm => hn (List.mem_cons_of_mem _ hm)) h
        (frame_open_after_call C fuel c hc h1 ho)

/-- C12: `frame_started()` fails its assertion exactly when a frame is open at the call, and
leaves a frame open; no call of another function of `globals.cpp` than `frame_complete()`
closes the frame, so after any sequence of such calls a frame is still open, and a second
`frame_started()` fails its assertion.  `frame_complete()` fails its assertion exactly when no
frame is open at the call, and leaves none open.  `frame_started()` returns when the queues
and the host functions are there; `frame_complete()` returns when moreover the device and a
usable factory are there, no budget event is registered and the platform creates none. -/
theorem one_frame_open (C : Nat → device_child_base) (fuel : Nat) (g : Globals) (f : Factory)
    (hfuel : 2 ≤ fuel) (hq : g.queues.isSome = true) (hh : g.host_functions.isSome = true)
    (hd : g.device.isSome = true) (hf : g.factory = some f)
    (husable : f.is_current = true ∨ g.env.create_factory.isSome = true)
    (hev : g.video_memory_change_event = none) (hce : g.env.create_event = none) :
    (∃ g1 t, frame_started g = .ok g1 ∧ g1.frame_commands.isSome = true ∧
      g1.trace = g.trace ++
        ((if g.frame_commands.isSome then [Event.assert_failed] else []) ++ t) ∧
      Event.assert_failed ∉ t) ∧
    (∀ (g0 g1 g2 : Globals) (calls : List Call), frame_started g0 = .ok g1 →
      Call.frame_complete ∉ calls → run_calls C fuel calls g1 = .ok g2 →
      g2.frame_commands.isSome = true ∧
      ∀ g3, frame_started g2 = .ok g3 →
        ∃ t, g3.trace = g2.trace ++ Event.assert_failed :: t) ∧
    (∃ g1 t, frame_complete C fuel g = .ok g1 ∧ g1.frame_commands = none ∧
      g1.trace = g.trace ++
        ((if g.frame_commands.isSome then [] else [Event.assert_failed]) ++
          Event.frame_complete_signal (frame_count g1) :: t)) ∧
    (∀ g0 g1 : Globals, frame_complete C fuel g0 = .ok g1 → g1.frame_commands = none ∧
      ∃ t, g1.trace = g0.trace ++
        ((if g0.frame_commands.isSome then [] else [Event.assert_failed]) ++
          Event.frame_complete_signal (frame_count g1) :: t)) := by
  obtain ⟨qs, hqs⟩ := Option.isSome_iff_exists.1 hq
  have hfc : ∀ g0 g1 : Globals, frame_complete C fuel g0 = .ok g1 → g1.frame_commands = none ∧
      ∃ t, g1.trace = g0.trace ++
        ((if g0.frame_commands.isSome then [] else [Event.assert_failed]) ++
          Event.frame_complete_signal (frame_count g1) :: t) := by
    intro g0 g1 h1
    obtain ⟨hc, hn, _, _, _, t, ht⟩ := frame_complete_spec C fuel h1
    refine ⟨hc, .end_event :: .on_frame_complete :: t, ?_⟩
    rw [ht]
    show _ = g0.trace ++ (_ ++ Event.frame_complete_signal g1.frame_count :: _)
    rw [hn]
  refine ⟨?_, ?_, ?_, hfc⟩
  · obtain ⟨g1, t, h1, hc1, ht1, hn1, _⟩ := frame_started_total g qs hqs hh
    exact ⟨g1, t, h1, by rw [hc1]; rfl, ht1, hn1⟩
  · intro g0 g1 g2 calls h1 hn hr
    obtain ⟨qs0, hqs0, hh0⟩ := frame_started_ok h1
    obtain ⟨g1', t, h1', hc1, _⟩ := frame_started_total g0 qs0 hqs0 hh0
    rw [h1] at h1'
    cases h1'
    have ho : g2.frame_commands.isSome = true :=
      frame_open_after_calls C fuel calls g1 g2 hn hr (by rw [hc1]; rfl)
    refine ⟨ho, ?_⟩
    intro g3 h3
    obtain ⟨qs2, hqs2, hh2⟩ := frame_started_ok h3
    obtain ⟨g3', t3, h3', _, ht3, _⟩ := frame_started_total g2 qs2 hqs2 hh2
    rw [h3] at h3'
    cases h3'
    refine ⟨t3, ?_⟩
    rw [ht3, ho]
    rfl
  · obtain ⟨g1, h1⟩ := frame_complete_total C fuel g f hfuel hq hh hd hf husable hev hce
    obtain ⟨hc, t, ht⟩ := hfc g g1 h1
    exact ⟨g1, t, h1, hc, ht⟩

/-- Witness of C12, on the sample globals: no frame is open, so the first `frame_started()`
passes its assertion; after it and `sample_calls`, which tear the device down and recreate it,
a frame is still open and the second `frame_started()` fails its assertion; a
`frame_complete()` with no frame open fails its assertion. -/
theorem one_frame_open_witness :
    ((∃ g1 t, frame_started sample_globals = .ok g1 ∧ g1.frame_commands.isSome = true ∧
      g1.trace = sample_globals.trace ++
        ((if sample_globals.frame_commands.isSome then [Event.assert_failed] else []) ++ t) ∧
      Event.assert_failed ∉ t) ∧
    (∀ (g0 g1 g2 : Globals) (calls : List Call), frame_started g0 = .ok g1 →
      Call.frame_complete ∉ calls → run_calls (fun _ => quiet_child) 2 calls g1 = .ok g2 →
      g2.frame_commands.isSome = true ∧
      ∀ g3, frame_started g2 = .ok g3 →
        ∃ t, g3.trace = g2.trace ++ Event.assert_failed :: t) ∧
    (∃ g1 t, frame_complete (fun _ => quiet_child) 2 sample_globals = .ok g1 ∧
      g1.frame_commands = none ∧
      g1.trace = sample_globals.trace ++
        ((if sample_globals.frame_commands.isSome then [] else [Event.assert_failed]) ++
          Event.frame_complete_signal (frame_count g1) :: t)) ∧
    (∀ g0 g1 : Globals, frame_complete (fun _ => quiet_child) 2 g0 = .ok g1 →
      g1.frame_commands = none ∧
      ∃ t, g1.trace = g0.trace ++
        ((if g0.frame_commands.isSome then [] else [Event.assert_failed]) ++
          Event.frame_complete_signal (frame_count g1) :: t))) ∧
    sample_globals.frame_commands = none ∧
    sample_globals.video_memory_change_event = none ∧
    (match frame_started sample_globals with
      | .ok g => decide (Event.assert_failed ∈ g.trace)
      | .error _ => true) = false ∧
    (match frame_started sample_globals with
      | .ok g1 =>
        match run_calls (fun _ => quiet_child) 2 sample_calls g1 with
        | .ok g2 =>
          match frame_started { g2 with trace := [] } with
          | .ok g3 => g3.trace.head?
          | .error _ => none
        | .error _ => none
      | .error _ => none) = some .assert_failed ∧
    (match frame_complete (fun _ => quiet_child) 2 sample_globals with
      | .ok g => g.trace
      | .error _ => []) =
        [.assert_failed, .frame_complete_signal 1, .end_event, .on_frame_complete] :=
  ⟨one_frame_open (fun _ => quiet_child) 2 sample_globals sample_factory (by decide) rfl rfl rfl
    rfl (Or.inl rfl) rfl rfl, rfl, rfl, by decide, by decide, by decide⟩

/-! ## The frame counter -/

theorem frame_complete_valid (C : Nat → device_child_base) (fuel : Nat) (g : Globals)
    (d : Device) (hq : g.queues.isSome = true) (hh : g.host_functions.isSome = true)
    (hd : g.device = some d) (hv : d.removed_reason = S_OK) :
    frame_complete C fuel g = .ok { g with
      frame_commands := none
      frame_count := (g.frame_count + 1) % 2 ^ 64
      trace := g.trace ++ ((if g.frame_commands.isSome then [] else [Event.assert_failed]) ++
        [.frame_complete_signal ((g.frame_count + 1) % 2 ^ 64), .end_event,
          .on_frame_complete]) } := by
  unfold frame_complete
  rw [frame_complete_notify_total g hq hh]
  simp only [device_valid, hd, hv, decide_True]

theorem run_frames_total (C : Nat → device_child_base) (fuel : Nat) (d : Device)
    (hv : d.removed_reason = S_OK) : ∀ (n : Nat) (g : Globals), g.queues.isSome = true →
      g.host_functions.isSome = true → g.device = some d →
      ∃ g', run_frames C fuel n g = .ok g'
  | 0, g, _, _, _ => ⟨g, rfl⟩
  | n + 1, g, hq, hh, hd => by
    obtain ⟨qs, hqs⟩ := Option.isSome_iff_exists.1 hq
    obtain ⟨g1, t, h1, _, _, _, hq1, hh1, _, hd1, _⟩ := frame_started_total g qs hqs hh
    have hq1' : g1.queues.isSome = true := by rw [hq1]; exact hq
    have hh1' : g1.host_functions.isSome = true := by rw [hh1]; exact hh
    have h2 := frame_complete_valid C fuel g1 d hq1' hh1' (hd1.trans hd) hv
    unfold run_frames
    rw [h1]
    simp only []
    rw [h2]
    exact run_frames_total C fuel d hv n _ hq1' hh1' (hd1.trans hd)

theorem run_frames_spec (C : Nat → device_child_base) (fuel : Nat) :
    ∀ (n : Nat) (g g' : Globals), run_frames C fuel n g = .ok g' →
      g'.frame_count % 2 ^ 64 = (g.frame_count + n) % 2 ^ 64 ∧
      (0 < n → g'.frame_count < 2 ^ 64) ∧
      published g' = published g ++
        (List.range n).map (fun i => (g.frame_count + (i + 1)) % 2 ^ 64)
  | 0, g, g', h => by
    simp only [run_frames, Except.ok.injEq] at h
    subst h
    simp
  | n + 1, g, g', h => by
    unfold run_frames at h
    split at h
    · cases h
    · rename_i g1 h1
      split at h
      · cases h
      · rename_i g2 h2
        obtain ⟨qs, hqs, hh⟩ := frame_started_ok h1
        obtain ⟨g1', t, h1', _, _, _, _, _, hc1, _, hp1⟩ := frame_started_total g qs hqs hh
        rw [h1] at h1'
        cases h1'
        obtain ⟨_, hc2, hp2, _⟩ := frame_complete_spec C fuel h2
        obtain ⟨i1, i2, i3⟩ := run_frames_spec C fuel n g2 g' h
        rw [hc1] at hc2
        refine ⟨?_, ?_, ?_⟩
        · rw [i1, hc2]
          omega
        · intro _
          cases n with
          | zero =>
            simp only [run_frames, Except.ok.injEq] at h
            subst h
            rw [hc2]
            exact Nat.mod_lt _ (by decide)
          | succ n => exact i2 (Nat.succ_pos n)
        · rw [i3, hp2, hp1, hc2, List.range_succ_eq_map, List.map_cons, List.map_map,
            List.append_assoc]
          congr 1
          simp only [List.singleton_append, List.cons.injEq, Nat.zero_add]
          refine ⟨by rw [hc1], ?_⟩
          apply List.map_congr_left
          intro i _
          simp only [Function.comp]
          omega

/-- C13: a returning `frame_complete()` leaves `frame_count` at the old value plus one modulo
`2 ^ 64` and publishes exactly that value on the frame-complete signal; so after `n` frames
that start from a counter `c`, `frame_count()` is `c + n` modulo `2 ^ 64` and the values
published during the frames are `c + 1`, .., `c + n` modulo `2 ^ 64`, in this order: from a
zero counter the `i`-th notification carries `i`.  With the queues, the host functions and
a valid device in place, the `n` frames do run. -/
theorem frame_count_counts (C : Nat → device_child_base) (fuel : Nat) (n : Nat) (g : Globals)
    (h0 : frame_count g < 2 ^ 64) :
    (∀ g', frame_complete C fuel g = .ok g' →
      frame_count g' = (frame_count g + 1) % 2 ^ 64 ∧
      published g' = published g ++ [frame_count g']) ∧
    (∀ g', run_frames C fuel n g = .ok g' →
      frame_count g' = (frame_count g + n) % 2 ^ 64 ∧
      published g' = published g ++
        (List.range n).map (fun i => (frame_count g + (i + 1)) % 2 ^ 64)) ∧
    (g.queues.isSome = true → g.host_functions.isSome = true →
      (∃ d, g.device = some d ∧ d.removed_reason = S_OK) →
      ∃ g', run_frames C fuel n g = .ok g') := by
  refine ⟨?_, ?_, ?_⟩
  · intro g' h
    obtain ⟨_, hc, hp, _⟩ := frame_complete_spec C fuel h
    refine ⟨hc, ?_⟩
    rw [hp]
    show _ = _ ++ [g'.frame_count]
    rw [hc]
  · intro g' h
    obtain ⟨i1, i2, i3⟩ := run_frames_spec C fuel n g g' h
    refine ⟨?_, i3⟩
    show g'.frame_count = _
    cases n with
    | zero =>
      simp only [run_frames, Except.ok.injEq] at h
      subst h
      exact (Nat.mod_eq_of_lt h0).symm
    | succ n =>
      show _ = (g.frame_count + (n + 1)) % 2 ^ 64
      rw [← i1]
      exact (Nat.mod_eq_of_lt (i2 (Nat.succ_pos n))).symm
  · intro hq hh ⟨d, hd, hv⟩
    exact run_frames_total C fuel d hv n g hq hh hd

/-- Witness of C13, on three frames of the sample globals, whose counter is zero: the counter
ends at 3 and the signal carried 1, 2, 3. -/
theorem frame_count_counts_witness :
    ((∀ g', frame_complete (fun _ => quiet_child) 2 sample_globals = .ok g' →
      frame_count g' = (frame_count sample_globals + 1) % 2 ^ 64 ∧
      published g' = published sample_globals ++ [frame_count g']) ∧
    (∀ g', run_frames (fun _ => quiet_child) 2 3 sample_globals = .ok g' →
      frame_count g' = (frame_count sample_globals + 3) % 2 ^ 64 ∧
      published g' = published sample_globals ++
        (List.range 3).map (fun i => (frame_count sample_globals + (i + 1)) % 2 ^ 64)) ∧
    (sample_globals.queues.isSome = true → sample_globals.host_functions.isSome = true →
      (∃ d, sample_globals.device = some d ∧ d.removed_reason = S_OK) →
      ∃ g', run_frames (fun _ => quiet_child) 2 3 sample_globals = .ok g')) ∧
    frame_count sample_globals = 0 ∧
    run_frames (fun _ => quiet_child) 2 3 sample_globals = .ok three_frames ∧
    frame_count three_frames = 3 ∧ published three_frames = [1, 2, 3] :=
  ⟨frame_count_counts (fun _ => quiet_child) 2 3 sample_globals (by decide), rfl, rfl,
    by decide, by decide⟩

/-! ## The reset at the end of a frame -/

theorem run_host_action_total (a : HostAction) (g : Globals) (hd : g.device.isSome = true) :
    ∃ g', run_host_action a g = .ok g' ∧ HostKeeps g g' := by
  obtain ⟨d, hd'⟩ := Option.isSome_iff_exists.1 hd
  cases a with
  | device_fatal_error reason =>
    show ∃ g', device_fatal_error reason g = .ok g' ∧ HostKeeps g g'
    unfold device_fatal_error
    rw [hd']
    simp only []
    split
    · simp only [device_valid, Globals.emit, hd']
      by_cases hv : d.removed_reason = S_OK
      · rw [decide_eq_true hv]
        exact ⟨_, rfl, rfl, rfl, rfl, rfl, rfl,
          [.log .dx12 ("Removing DX12 device after fatal error: " ++ reason), .remove_device],
          by simp⟩
      · rw [decide_eq_false hv]
        exact ⟨_, rfl, by simp [hd'], rfl, rfl, rfl, rfl, [_], rfl⟩
    · exact ⟨_, rfl, by simp [Globals.emit, hd'], rfl, rfl, rfl, rfl,
        [.log .dx12 ("DX12 device does not support removal" ++ reason), .assert_failed],
        by simp [Globals.emit]⟩
  | keep_alive_resource r fv =>
    refine ⟨keep_alive_resource r fv g, rfl, ?_⟩
    unfold keep_alive_resource
    split
    · exact ⟨hd, rfl, rfl, rfl, rfl, [], by simp⟩
    · exact ⟨hd, rfl, rfl, rfl, rfl, [_], rfl⟩

theorem run_host_actions_total : ∀ (l : List HostAction) (g : Globals),
    g.device.isSome = true → ∃ g', run_host_actions l g = .ok g' ∧ HostKeeps g g'
  | [], g, hd => ⟨g, rfl, hd, rfl, rfl, rfl, rfl, [], by simp⟩
  | a :: more, g, hd => by
    obtain ⟨g1, h1, k1, k2, k3, k4, k5, t1, ht1⟩ := run_host_action_total a g hd
    obtain ⟨g2, h2, j1, j2, j3, j4, j5, t2, ht2⟩ := run_host_actions_total more g1 k1
    unfold run_host_actions
    rw [h1]
    exact ⟨g2, h2, j1, j2.trans k2, j3.trans k3, j4.trans k4, j5.trans k5, t1 ++ t2,
      by rw [ht2, ht1, List.append_assoc]⟩

/-- C14: `frame_complete()` calls the host's `on_frame_complete()`, whose code runs, and then
asks the device that the callback left behind: when the removed reason of that device is
`S_OK` the function returns right there, with no teardown and no callback of a device child,
and when it is not `S_OK` the rest of the call is `reset_device(true)`, which returns and
writes the opening log line of the forced reset when the factory is usable, no budget event
is registered and the platform creates none.  For a host whose callback does nothing, this
is `frame_complete`. -/
theorem frame_complete_resets (host : dxgi.host_functions) (C : Nat → device_child_base)
    (fuel : Nat) (g : Globals) (d : Device) (hq : g.queues.isSome = true)
    (hh : g.host_functions.isSome = true) (hd : g.device = some d) :
    ∃ g1 g2 d2 t, frame_complete.notify g = .ok g1 ∧ g1.device = some d ∧
      g1.trace = g.trace ++ ((if g.frame_commands.isSome then [] else [Event.assert_failed]) ++
        [.frame_complete_signal (frame_count g1), .end_event, .on_frame_complete]) ∧
      run_host_actions (host.on_frame_complete g1) g1 = .ok g2 ∧ g2.device = some d2 ∧
      g2.trace = g1.trace ++ t ∧
      (d2.removed_reason = S_OK → frame_complete.hosted host C fuel g = .ok g2) ∧
      (d2.removed_reason ≠ S_OK →
        frame_complete.hosted host C fuel g =
          (match reset_device C fuel true g2 with
            | .error e => .error e
            | .ok r => .ok r.2) ∧
        ∀ f, 2 ≤ fuel → g.factory = some f →
          (f.is_current = true ∨ g.env.create_factory.isSome = true) →
          g.video_memory_change_event = none → g.env.create_event = none →
          ∃ g' t', frame_complete.hosted host C fuel g = .ok g' ∧
            g'.trace = g2.trace ++ recreating :: t') ∧
      (host.on_frame_complete g1 = [] →
        g2 = g1 ∧ frame_complete.hosted host C fuel g = frame_complete C fuel g) := by
  obtain ⟨g1, hn, e1, e2, e3, e4, e5, e7⟩ : ∃ g1, frame_complete.notify g = .ok g1 ∧
      g1.device = g.device ∧ g1.factory = g.factory ∧ g1.env = g.env ∧ g1.queues = g.queues ∧
      g1.video_memory_change_event = g.video_memory_change_event ∧
      g1.trace = g.trace ++ ((if g.frame_commands.isSome then [] else [Event.assert_failed]) ++
        [.frame_complete_signal (frame_count g1), .end_event, .on_frame_complete]) :=
    ⟨_, frame_complete_notify_total g hq hh, rfl, rfl, rfl, rfl, rfl, rfl⟩
  obtain ⟨g2, hr, k1, k2, k3, k4, k5, t, ht⟩ := run_host_actions_total
    (host.on_frame_complete g1) g1 (by rw [e1, hd]; rfl)
  obtain ⟨d2, hd2⟩ := Option.isSome_iff_exists.1 k1
  have hdv : ∀ b, decide (d2.removed_reason = S_OK) = b →
      frame_complete.hosted host C fuel g =
      (match b with
        | true => .ok g2
        | false =>
          match reset_device C fuel true g2 with
          | .error e => .error e
          | .ok r => .ok r.2) := by
    intro b hb
    unfold frame_complete.hosted
    rw [hn]
    simp only []
    rw [hr]
    simp only []
    unfold device_valid
    rw [hd2]
    simp only []
    rw [hb]
    cases b <;> rfl
  refine ⟨g1, g2, d2, t, hn, e1.trans hd, e7, hr, hd2, ht, ?_, ?_, ?_⟩
  · intro hv
    exact hdv true (decide_eq_true hv)
  · intro hv
    have hfc := hdv false (decide_eq_false hv)
    refine ⟨hfc, ?_⟩
    intro f hfuel hf husable hev hce
    obtain ⟨k, rfl⟩ : ∃ k, fuel = k + 2 := ⟨fuel - 2, by omega⟩
    have hf2 : g2.factory = some f := k2.trans (e2.trans hf)
    have hu2 : f.is_current = true ∨ g2.env.create_factory.isSome = true := by
      rw [k3, e3]
      exact husable
    obtain ⟨s, g3, h3⟩ := body_total C (nested_total_reset_device C k) g2 f hf2 hu2
      (by rw [k4, e4]; exact hq) (k5.trans (e5.trans hev)) (by rw [k3, e3]; exact hce)
    obtain ⟨t', ht'⟩ := body_forced_marker C (nested_quiet_reset_device C (k + 1)) f hf2 hu2 h3
    have h3' : reset_device C (k + 2) true g2 = .ok (s, g3) := h3
    refine ⟨g3, t', ?_, ht'⟩
    rw [hfc, h3']
  · intro hnil
    rw [hnil] at hr
    simp only [run_host_actions, Except.ok.injEq] at hr
    refine ⟨hr.symm, ?_⟩
    unfold frame_complete.hosted frame_complete
    rw [hn]
    simp only []
    rw [hnil]
    rfl

/-- Witness of C14: on `open_globals`, whose device is valid, a host that reports a fatal
error from `on_frame_complete()` has the device removed, and `frame_complete()` then recreates
the device and calls the children back, although the device was valid until the callback; with
a host that does nothing the trace ends with the call of the host's callback. -/
theorem frame_complete_resets_witness :
    (∃ g1 g2 d2 t, frame_complete.notify open_globals = .ok g1 ∧
      g1.device = some sample_device ∧
      g1.trace = open_globals.trace ++
        ((if open_globals.frame_commands.isSome then [] else [Event.assert_failed]) ++
          [.frame_complete_signal (frame_count g1), .end_event, .on_frame_complete]) ∧
      run_host_actions (fatal_host.on_frame_complete g1) g1 = .ok g2 ∧ g2.device = some d2 ∧
      g2.trace = g1.trace ++ t ∧
      (d2.removed_reason = S_OK →
        frame_complete.hosted fatal_host (fun _ => quiet_child) 2 open_globals = .ok g2) ∧
      (d2.removed_reason ≠ S_OK →
        frame_complete.hosted fatal_host (fun _ => quiet_child) 2 open_globals =
          (match reset_device (fun _ => quiet_child) 2 true g2 with
            | .error e => .error e
            | .ok r => .ok r.2) ∧
        ∀ f, 2 ≤ 2 → open_globals.factory = some f →
          (f.is_current = true ∨ open_globals.env.create_factory.isSome = true) →
          open_globals.video_memory_change_event = none →
          open_globals.env.create_event = none →
          ∃ g' t', frame_complete.hosted fatal_host (fun _ => quiet_child) 2 open_globals
              = .ok g' ∧
            g'.trace = g2.trace ++ recreating :: t') ∧
      (fatal_host.on_frame_complete g1 = [] →
        g2 = g1 ∧ frame_complete.hosted fatal_host (fun _ => quiet_child) 2 open_globals =
          frame_complete (fun _ => quiet_child) 2 open_globals)) ∧
    sample_device.removed_reason = S_OK ∧
    open_globals.video_memory_change_event = none ∧
    frame_complete.hosted fatal_host (fun _ => quiet_child) 2 open_globals = .ok fatal_run ∧
    fatal_run.trace.take 7 = [.frame_complete_signal 1, .end_event, .on_frame_complete,
      .log .dx12 "Removing DX12 device after fatal error: lost", .remove_device,
      recreating, .destroy_d3d true] ∧
    Event.before_reset 1 ∈ fatal_run.trace ∧
    (match frame_complete.hosted quiet_host (fun _ => quiet_child) 2 open_globals with
      | .ok g => g.trace
      | .error _ => []) = [.frame_complete_signal 1, .end_event, .on_frame_complete] ∧
    frame_complete (fun _ => quiet_child) 2 removed_globals = .ok removed_run ∧
    removed_run.trace.take 5 = [.frame_complete_signal 1, .end_event, .on_frame_complete,
      recreating, .destroy_d3d true] :=
  ⟨frame_complete_resets fatal_host (fun _ => quiet_child) 2 open_globals sample_device
    rfl rfl rfl, rfl, rfl, rfl, by decide, by decide, by decide, rfl, by decide⟩

/-! ## The candidates of `create_dx12_device` -/

theorem enumerate_adapters : ∀ (l adapters : List Adapter) (found_warp : Bool) (g : Globals),
    (create_dx12_device.enumerate l adapters found_warp g).1 = adapters ++ l ∧
    (create_dx12_device.enumerate l adapters found_warp g).2.1 =
      (found_warp || l.any Adapter.is_warp)
  | [], _, _, _ => by simp [create_dx12_device.enumerate]
  | adapter :: more, adapters, found_warp, g => by
    unfold create_dx12_device.enumerate
    simp only []
    obtain ⟨h1, h2⟩ := enumerate_adapters more (adapters ++ [adapter])
      (match adapter.desc with
        | some desc => if desc.VendorId = 0x1414 ∧ desc.DeviceId = 0x008c then true else found_warp
        | none => found_warp)
      ((adapter_name adapter g).2.emit (.log .dx12 ("Adapter[" ++ toString adapters.length ++
        "] = " ++ (adapter_name adapter g).1)))
    have hfw : (match adapter.desc with
        | some desc => if desc.VendorId = 0x1414 ∧ desc.DeviceId = 0x008c then true else found_warp
        | none => found_warp) = (found_warp || adapter.is_warp) := by
      unfold Adapter.is_warp
      cases adapter.desc with
      | none => simp
      | some desc =>
        by_cases hw : desc.VendorId = 0x1414 ∧ desc.DeviceId = 0x008c
        · simp [hw]
        · simp [hw]
    rw [h1, h2, hfw]
    exact ⟨by simp, by simp [Bool.or_assoc]⟩

/-- The enumeration that `create_dx12_device` walks: by GPU preference on an
`IDXGIFactory6`, and in the order of `EnumAdapters` otherwise. -/
theorem candidates_eq (factory : Factory) (g : Globals) :
    create_dx12_device.candidates factory g =
      (if factory.factory6 then factory.adapters_by_gpu_preference else factory.adapters) ++
        (if ((if factory.factory6 then factory.adapters_by_gpu_preference
              else factory.adapters).any Adapter.is_warp) = false ∧ factory.factory6 = true
          then factory.warp_adapter.toList else []) := by
  unfold create_dx12_device.candidates create_dx12_device.add_warp
  obtain ⟨h1, h2⟩ := enumerate_adapters
    (if factory.factory6 then factory.adapters_by_gpu_preference else factory.adapters)
    [] false g
  rw [h1, h2]
  simp only [List.nil_append, Bool.false_or]
  cases hany : (if factory.factory6 then factory.adapters_by_gpu_preference
    else factory.adapters).any Adapter.is_warp
  · cases h6 : factory.factory6
    · simp [h6] at hany ⊢
    · cases hw : factory.warp_adapter <;> simp [h6] at hany ⊢
  · simp

theorem create_first (feature_level : Nat) : ∀ (l : List Adapter) (i : Nat) (g : Globals),
    ((create_dx12_device.create feature_level l i g).1 = none ↔
      ∀ a ∈ l, a.create_device feature_level = none) ∧
    ∀ d, (create_dx12_device.create feature_level l i g).1 = some d →
      ∃ pre a post, l = pre ++ a :: post ∧ a.create_device feature_level = some d ∧
        ∀ b ∈ pre, b.create_device feature_level = none
  | [], _, _ => by simp [create_dx12_device.create]
  | adapter :: more, i, g => by
    unfold create_dx12_device.create
    obtain ⟨h1, h2⟩ := create_first feature_level more (i + 1) g
    split
    · rename_i device hc
      constructor
      · simp [hc]
      · intro d hd
        simp only [Option.some.injEq] at hd
        subst hd
        exact ⟨[], adapter, more, rfl, hc, by simp⟩
    · rename_i hc
      constructor
      · rw [h1]
        simp [hc]
      · intro d hd
        obtain ⟨pre, a, post, e1, e2, e3⟩ := h2 d hd
        refine ⟨adapter :: pre, a, post, by rw [e1]; rfl, e2, ?_⟩
        intro b hb
        rcases List.mem_cons.1 hb with rfl | hb
        · exact hc
        · exact e3 b hb

/-- What `create_dx12_device` returns: the outcome of the creation loop on the candidates,
and globals that differ in the trace only. -/
theorem create_dx12_device_eq (g : Globals) (factory : Factory) (hf : g.factory = some factory) :
    ∃ t, create_dx12_device g = .ok
      ((create_dx12_device.create g.feature_level (create_dx12_device.candidates factory g) 0
        (create_dx12_device.add_warp factory (create_dx12_device.enumerate
          (if factory.factory6 then factory.adapters_by_gpu_preference else factory.adapters)
          [] false g)).2).1, g.logged t) := by
  obtain ⟨t1, h1⟩ := logged_enumerate
    (if factory.factory6 then factory.adapters_by_gpu_preference else factory.adapters)
    [] false g
  obtain ⟨t2, h2⟩ := logged_add_warp factory (create_dx12_device.enumerate
    (if factory.factory6 then factory.adapters_by_gpu_preference else factory.adapters)
    [] false g)
  obtain ⟨t3, h3⟩ := logged_create g.feature_level (create_dx12_device.candidates factory g) 0
    (create_dx12_device.add_warp factory (create_dx12_device.enumerate
      (if factory.factory6 then factory.adapters_by_gpu_preference else factory.adapters)
      [] false g)).2
  refine ⟨t1 ++ t2 ++ t3, ?_⟩
  rw [← Globals.logged_logged, ← Globals.logged_logged, ← h1, ← h2, ← h3]
  unfold create_dx12_device
  rw [hf]
  rfl

/-! ## Initialisation without a usable adapter -/

theorem init_d3d_no_device (fl : Nat) (factory : Factory) (g0 : Globals)
    (hall : ∀ a ∈ create_dx12_device.candidates factory g0, a.create_device fl = none)
    (g : Globals) (hf : g.factory = some factory) (hl : g.feature_level = fl) :
    ∃ t, init_d3d false g = .ok (false, { g with device := none, trace := g.trace ++ t }) := by
  obtain ⟨ta, hta⟩ := logged_debug_assert (!g.device.isSome) g
  obtain ⟨t, ht⟩ := create_dx12_device_eq (g.logged ta) factory hf
  have hnone := ((create_first (g.logged ta).feature_level
    (create_dx12_device.candidates factory (g.logged ta)) 0
    (create_dx12_device.add_warp factory (create_dx12_device.enumerate
      (if factory.factory6 then factory.adapters_by_gpu_preference else factory.adapters)
      [] false (g.logged ta))).2).1).2 (by
        intro a ha
        rw [candidates_eq] at ha
        have hl' : (g.logged ta).feature_level = fl := hl
        rw [hl']
        apply hall
        rw [candidates_eq]
        exact ha)
  rw [hnone] at ht
  refine ⟨ta ++ t ++ [.assert_failed, .init_d3d false false], ?_⟩
  unfold init_d3d init_d3d.body
  rw [hta, ht]
  simp [Globals.logged, Globals.emit, List.append_assoc]

theorem init_globals_no_device (host fl : Nat) (factory : Factory) (g0 : Globals)
    (he : g0.env.create_factory = some factory)
    (hall : ∀ a ∈ create_dx12_device.candidates factory g0, a.create_device fl = none) :
    ∃ t, init_globals host fl g0 = .ok (false, { g0 with
      host_functions := some host
      feature_level := fl
      factory := some factory
      adapters_hash := factory.adapters_hash
      device := none
      trace := g0.trace ++ t }) := by
  obtain ⟨t, ht⟩ := init_d3d_no_device fl factory g0 hall
    { g0 with
      host_functions := some host
      feature_level := fl
      factory := some factory
      adapters_hash := factory.adapters_hash } rfl rfl
  refine ⟨t ++ [.assert_failed], ?_⟩
  unfold init_globals init_dxgi
  simp only [he]
  rw [ht]
  simp [Globals.emit, List.append_assoc]

/-- C15: with a factory in place `create_dx12_device` returns, and what it returns is null
exactly when `D3D12CreateDevice` fails on every candidate adapter (so also when there is no
candidate); and on a platform on which it fails on every candidate, `init_globals` returns
false. -/
theorem create_dx12_device_null (g : Globals) (factory : Factory)
    (hf : g.factory = some factory) :
    (∃ d g', create_dx12_device g = .ok (d, g') ∧
      (d = none ↔ ∀ a ∈ create_dx12_device.candidates factory g,
        a.create_device g.feature_level = none)) ∧
    (∀ (host fl : Nat) (g0 : Globals), g0.env.create_factory = some factory →
      (∀ a ∈ create_dx12_device.candidates factory g0, a.create_device fl = none) →
      ∃ g', init_globals host fl g0 = .ok (false, g')) := by
  constructor
  · obtain ⟨t, ht⟩ := create_dx12_device_eq g factory hf
    exact ⟨_, _, ht, (create_first _ _ _ _).1⟩
  · intro host fl g0 he hall
    obtain ⟨t, ht⟩ := init_globals_no_device host fl factory g0 he hall
    exact ⟨_, ht⟩

/-- Witness of C15, on a factory without adapters: `create_dx12_device` returns null and
`init_globals` returns false; on the sample platform `init_globals` returns true. -/
theorem create_dx12_device_null_witness :
    ((∃ d g', create_dx12_device no_adapter_globals = .ok (d, g') ∧
      (d = none ↔ ∀ a ∈ create_dx12_device.candidates no_adapter_factory no_adapter_globals,
        a.create_device no_adapter_globals.feature_level = none)) ∧
    (∀ (host fl : Nat) (g0 : Globals), g0.env.create_factory = some no_adapter_factory →
      (∀ a ∈ create_dx12_device.candidates no_adapter_factory g0, a.create_device fl = none) →
      ∃ g', init_globals host fl g0 = .ok (false, g'))) ∧
    create_dx12_device.candidates no_adapter_factory no_adapter_globals = [] ∧
    (match create_dx12_device no_adapter_globals with
      | .ok r => r.1.isSome
      | .error _ => true) = false ∧
    (match init_globals 1 0xc000 (zero_globals no_adapter_env) with
      | .ok r => r.1
      | .error _ => true) = false ∧
    (match init_globals 1 0xc000 (zero_globals sample_env) with
      | .ok r => r.1
      | .error _ => false) = true :=
  ⟨create_dx12_device_null no_adapter_globals no_adapter_factory rfl, rfl, rfl, rfl, rfl⟩

/-- C16, as amended: when `init_globals` returns false because `D3D12CreateDevice` fails on
every candidate adapter, the device is null and the adapter, the allocators, the queues, the
caches and every other global are as they were before the call, except that the factory stays
the one that `init_dxgi` created, the adapters hash is the one of that factory, the
host-functions pointer and the feature level stay set, and the trace has grown. -/
theorem init_globals_failure_state (host fl : Nat) (factory : Factory) (g0 : Globals)
    (he : g0.env.create_factory = some factory)
    (hall : ∀ a ∈ create_dx12_device.candidates factory g0, a.create_device fl = none) :
    ∃ t, init_globals host fl g0 = .ok (false, { g0 with
      host_functions := some host
      feature_level := fl
      factory := some factory
      adapters_hash := factory.adapters_hash
      device := none
      trace := g0.trace ++ t }) :=
  init_globals_no_device host fl factory g0 he hall

/-- Witness of C16, as amended, on the platform without adapters. -/
theorem init_globals_failure_state_witness :
    ∃ t, init_globals 1 0xc000 (zero_globals no_adapter_env) = .ok (false,
      { zero_globals no_adapter_env with
        host_functions := some 1
        feature_level := 0xc000
        factory := some no_adapter_factory
        adapters_hash := no_adapter_factory.adapters_hash
        device := none
        trace := (zero_globals no_adapter_env).trace ++ t }) :=
  init_globals_failure_state 1 0xc000 no_adapter_factory (zero_globals no_adapter_env) rfl
    (by intro a ha; cases ha)

/-- Counterexample to C16 as stated: on the platform without adapters, started from globals
that are all null, `init_globals` returns false and leaves the factory and the host-functions
pointer non-null (the device, the adapter and the queues are null). -/
theorem init_globals_failure_state_counterexample :
    (match init_globals 1 0xc000 (zero_globals no_adapter_env) with
      | .ok r => (r.1, r.2.factory.isSome, r.2.host_functions, r.2.device.isSome,
          r.2.adapter.isSome, r.2.queues.isSome)
      | .error _ => (true, false, none, false, false, false)) =
      (false, true, some 1, false, false, false) :=
  rfl

/-! ## The adapter that `create_dx12_device` picks -/

/-- C17, as amended: with a factory in place `create_dx12_device` returns, and a device it
returns was created on the first candidate, in the order of the enumeration, on which
`D3D12CreateDevice` succeeds; that candidate is an enumerated adapter, or else
`D3D12CreateDevice` failed on every enumerated adapter (and the candidate is the WARP adapter
that the function added after them). -/
theorem create_dx12_device_first_success (g : Globals) (factory : Factory)
    (hf : g.factory = some factory) :
    ∃ r g', create_dx12_device g = .ok (r, g') ∧ ∀ d, r = some d →
      ∃ pre a post, create_dx12_device.candidates factory g = pre ++ a :: post ∧
        a.create_device g.feature_level = some d ∧
        (∀ b ∈ pre, b.create_device g.feature_level = none) ∧
        (a ∈ (if factory.factory6 then factory.adapters_by_gpu_preference
            else factory.adapters) ∨
          ∀ b ∈ (if factory.factory6 then factory.adapters_by_gpu_preference
            else factory.adapters), b.create_device g.feature_level = none) := by
  obtain ⟨t, ht⟩ := create_dx12_device_eq g factory hf
  refine ⟨_, _, ht, ?_⟩
  intro d hd
  obtain ⟨pre, a, post, e1, e2, e3⟩ := (create_first _ _ _ _).2 d hd
  refine ⟨pre, a, post, e1, e2, e3, ?_⟩
  rw [candidates_eq] at e1
  rcases List.append_eq_append_iff.1 e1 with ⟨a', h1, h2⟩ | ⟨c', h1, h2⟩
  · right
    intro b hb
    exact e3 b (by rw [h1]; exact List.mem_append_left _ hb)
  · cases c' with
    | nil =>
      right
      intro b hb
      rw [List.append_nil] at h1
      exact e3 b (by rw [← h1]; exact hb)
    | cons x rest =>
      left
      simp only [List.cons_append, List.cons.injEq] at h2
      rw [h1, h2.1]
      simp

/-- Witness of C17, as amended, on a factory that lists the WARP adapter first: the device is
the one of the WARP adapter, the first candidate. -/
theorem create_dx12_device_first_success_witness :
    (∃ r g', create_dx12_device warp_first_globals = .ok (r, g') ∧ ∀ d, r = some d →
      ∃ pre a post, create_dx12_device.candidates warp_first_factory warp_first_globals =
          pre ++ a :: post ∧
        a.create_device warp_first_globals.feature_level = some d ∧
        (∀ b ∈ pre, b.create_device warp_first_globals.feature_level = none) ∧
        (a ∈ (if warp_first_factory.factory6 then warp_first_factory.adapters_by_gpu_preference
            else warp_first_factory.adapters) ∨
          ∀ b ∈ (if warp_first_factory.factory6
            then warp_first_factory.adapters_by_gpu_preference
            else warp_first_factory.adapters),
              b.create_device warp_first_globals.feature_level = none)) ∧
    (match create_dx12_device sample_globals with
      | .ok r => r.1
      | .error _ => none) = some sample_device :=
  ⟨create_dx12_device_first_success warp_first_globals warp_first_factory rfl, rfl⟩

/-- Counterexample to C17 as stated: the enumeration lists the WARP adapter before a hardware
adapter, on both `D3D12CreateDevice` succeeds, and `create_dx12_device` returns the device of
the WARP adapter. -/
theorem create_dx12_device_first_success_counterexample :
    create_dx12_device.candidates warp_first_factory warp_first_globals =
      [sample_warp, sample_adapter] ∧
    sample_warp.is_warp = true ∧ sample_adapter.is_warp = false ∧
    sample_adapter.create_device warp_first_globals.feature_level = some sample_device ∧
    sample_warp.create_device warp_first_globals.feature_level = some sample_warp_device ∧
    (match create_dx12_device warp_first_globals with
      | .ok r => r.1
      | .error _ => none) = some sample_warp_device :=
  ⟨rfl, rfl, rfl, rfl, rfl, rfl⟩

/-! ## `device_fatal_error` -/

/-- C18, as amended: with a device in place `device_fatal_error` returns; it removes the
device exactly when the device supports `ID3D12Device5` and is valid; when the device does not
support `ID3D12Device5` it logs that the device does not support removal, as a debug failure;
and when the device supports it but is no longer valid it does neither: it writes the
"Removing DX12 device" line only. -/
theorem device_fatal_error_removes (reason : String) (g : Globals) (d : Device)
    (hd : g.device = some d) :
    device_fatal_error reason g = .ok
      (if d.device5 then
        if d.removed_reason = S_OK then
          { g with
            device := some d.RemoveDevice
            trace := g.trace ++
              [.log .dx12 ("Removing DX12 device after fatal error: " ++ reason),
                .remove_device] }
        else g.logged [.log .dx12 ("Removing DX12 device after fatal error: " ++ reason)]
      else g.logged [.log .dx12 ("DX12 device does not support removal" ++ reason),
        .assert_failed]) := by
  unfold device_fatal_error
  rw [hd]
  simp only []
  cases h5 : d.device5
  · simp [Globals.logged, Globals.emit]
  · have hdv : device_valid (g.emit (.log .dx12
        ("Removing DX12 device after fatal error: " ++ reason))) =
        .ok (decide (d.removed_reason = S_OK)) := by
      unfold device_valid
      have : (g.emit (.log .dx12
        ("Removing DX12 device after fatal error: " ++ reason))).device = some d := hd
      rw [this]
    simp only [if_true, hdv]
    by_cases hv : d.removed_reason = S_OK
    · rw [decide_eq_true hv, if_pos hv]
      simp [Globals.emit]
    · rw [decide_eq_false hv, if_neg hv]
      rfl

/-- Witness of C18, as amended, on the sample globals, whose device supports
`ID3D12Device5` and is valid: the device is removed. -/
theorem device_fatal_error_removes_witness :
    device_fatal_error "hang" sample_globals = .ok
      (if sample_device.device5 then
        if sample_device.removed_reason = S_OK then
          { sample_globals with
            device := some sample_device.RemoveDevice
            trace := sample_globals.trace ++
              [.log .dx12 ("Removing DX12 device after fatal error: " ++ "hang"),
                .remove_device] }
        else sample_globals.logged
          [.log .dx12 ("Removing DX12 device after fatal error: " ++ "hang")]
      else sample_globals.logged
        [.log .dx12 ("DX12 device does not support removal" ++ "hang"), .assert_failed]) ∧
    (match device_fatal_error "hang" sample_globals with
      | .ok g => (g.trace, g.device.map (fun d => d.removed_reason))
      | .error _ => ([], none)) =
      ([.log .dx12 "Removing DX12 device after fatal error: hang", .remove_device],
        some DXGI_ERROR_DEVICE_REMOVED) :=
  ⟨device_fatal_error_removes "hang" sample_globals sample_device rfl, by decide⟩

/-- Counterexample to C18 as stated: the device of `lost_globals` supports `ID3D12Device5` but
is no longer valid; `device_fatal_error` does not remove it and does not log that it cannot:
all it writes is the "Removing DX12 device" line. -/
theorem device_fatal_error_removes_counterexample :
    sample_device.RemoveDevice.device5 = true ∧
    sample_device.RemoveDevice.removed_reason ≠ S_OK ∧
    lost_globals.device = some sample_device.RemoveDevice ∧
    (match device_fatal_error "hang" lost_globals with
      | .ok g => g.trace
      | .error _ => []) = [.log .dx12 "Removing DX12 device after fatal error: hang"] :=
  ⟨rfl, by decide, rfl, by decide⟩

/-! ## What a reset cycle keeps -/

theorem device_objects_of_steady {g g' : Globals} (h : steady g' = steady g) :
    device_objects g' = device_objects g := by
  simp only [steady, Prod.mk.injEq] at h
  obtain ⟨_, _, _, _, _, h6, h7, h8, h9, h10, h11, h12, h13, h14, h15, h16, h17, _⟩ := h
  simp only [device_objects, h6, h7, h8, h9, h10, h11, h12, h13, h14, h15, h16, h17]

theorem registry_of_grows {P : Event → Bool} {g g' : Globals} (h : Grows P g g') :
    registry g' = registry g := by
  obtain ⟨h1, h2, h3, h4, _, h6, _⟩ := h
  simp only [registry, h1, h2, h3, h4, h6]

theorem destroy_d3d_event {for_reset : Bool} {g g' : Globals}
    (h : destroy_d3d for_reset g = .ok g') :
    g.video_memory_change_event = none ∧ g'.video_memory_change_event = none := by
  unfold destroy_d3d at h
  split at h
  · cases h
  · rename_i g1 hw
    split at h
    · cases h
    · rename_i g2 hu
      cases h
      obtain ⟨e2, he2⟩ := unregister_ok hu
      have he1 : g1.video_memory_change_event = none := by
        have : (if (!for_reset) = true then destroy_d3d.reset_objects g1
            else g1).video_memory_change_event = g1.video_memory_change_event := by
          split <;> rfl
        rw [← this]
        exact he2
      have hw1 : g1.video_memory_change_event = g.video_memory_change_event := by
        unfold wait_for_idle at hw
        split at hw
        · cases hw
        · cases hw
          show (debug_assert (!g.frame_commands.isSome)
            (g.emit (.destroy_d3d for_reset))).video_memory_change_event = _
          unfold debug_assert
          split <;> rfl
      refine ⟨hw1.symm.trans he1, ?_⟩
      show g2.video_memory_change_event = none
      rw [e2]
      exact he2

theorem init_d3d_event {for_reset : Bool} {g g' : Globals}
    (h : init_d3d for_reset g = .ok (true, g')) :
    g'.video_memory_change_event = g.env.create_event := by
  obtain ⟨g3, hg3, he3, _⟩ := init_d3d_spec h
  have henv : g'.env = g.env := by
    rw [he3]
    exact hg3.2.2.2.2.1
  rw [← henv]
  unfold init_d3d at h
  split at h
  · cases h
  · rename_i r1 g1 hb
    simp only [Except.ok.injEq, Prod.mk.injEq] at h
    obtain ⟨hr, h2⟩ := h
    subst hr h2
    show g1.video_memory_change_event = g1.env.create_event
    unfold init_d3d.body at hb
    split at hb
    · cases hb
    · cases hb
    · unfold init_d3d.find_adapter at hb
      split at hb
      · cases hb
      · split at hb
        · cases hb
        · split at hb
          · cases hb
          · rcases video_memory_ok hb with ⟨_, hf, _⟩ | ⟨_, _, _, _, e⟩
            · cases hf
            · rw [e]
              split <;> rfl

/-- C19, as amended: a reset cycle `destroy_d3d(true)`, then a successful `init_d3d(true)`,
leaves the memory allocators, the descriptor allocators, the queues, the object cache, the
draw device and the residency fence as they were, and also the host functions, the feature
level, the adapters hash, the frame data, the factory and the registry of device children:
the only globals it can change are the device, the adapter, the outputs hash, the video-memory
info, event and cookie, and the keep-alive list, which `wait_for_idle` flushes.  (The cycle
returns only when no budget event is registered before it; the event after it is the one the
platform creates.)
`destroy_d3d(false)` leaves all of the allocators, queues, object cache, draw device and
residency fence null, and the device and the adapter too. -/
theorem reset_cycle_keeps (g g1 g2 : Globals) (h1 : destroy_d3d true g = .ok g1)
    (h2 : init_d3d true g1 = .ok (true, g2)) :
    device_objects g2 = device_objects g ∧ steady g2 = steady g ∧ registry g2 = registry g ∧
    g.video_memory_change_event = none ∧ g2.video_memory_change_event = g.env.create_event ∧
    (∀ g', destroy_d3d false g = .ok g' →
      device_objects g' = (none, fun _ => none, fun _ => none, none, none, none, none, none,
        none, none, none, none) ∧
      g'.device = none ∧ g'.adapter = none ∧ g'.outputs_hash = 0) := by
  have hs : steady g2 = steady g := (steady_init_d3d h2).trans (steady_destroy_d3d h1)
  obtain ⟨g3, hg3, he3, _⟩ := init_d3d_spec h2
  have hr : registry g2 = registry g := by
    rw [he3]
    exact (registry_of_grows hg3).trans (registry_of_grows (grows_destroy_d3d h1))
  have hev : g2.video_memory_change_event = g.env.create_event := by
    rw [init_d3d_event h2, (grows_destroy_d3d h1).2.2.2.2.1]
  refine ⟨device_objects_of_steady hs, hs, hr, (destroy_d3d_event h1).1, hev, ?_⟩
  intro g' h
  unfold destroy_d3d at h
  split at h
  · cases h
  · rename_i gw hw
    split at h
    · cases h
    · rename_i gu hu
      cases h
      have e := device_objects_of_steady (steady_unregister hu)
      exact ⟨e, rfl, rfl, rfl⟩

/-- Witness of C19, as amended, on `busy_globals`, where no budget event is registered: the
cycle returns, and the queues are the ones of before. -/
theorem reset_cycle_keeps_witness :
    (device_objects cycle_done = device_objects busy_globals ∧
      steady cycle_done = steady busy_globals ∧ registry cycle_done = registry busy_globals ∧
      busy_globals.video_memory_change_event = none ∧
      cycle_done.video_memory_change_event = busy_globals.env.create_event ∧
      (∀ g', destroy_d3d false busy_globals = .ok g' →
        device_objects g' = (none, fun _ => none, fun _ => none, none, none, none, none, none,
          none, none, none, none) ∧
        g'.device = none ∧ g'.adapter = none ∧ g'.outputs_hash = 0)) ∧
    destroy_d3d true busy_globals = .ok cycle_torn ∧
    init_d3d true cycle_torn = .ok (true, cycle_done) ∧
    cycle_done.queues = some ⟨⟨0, 5⟩, ⟨1, 3⟩, ⟨2, 0⟩⟩ ∧
    (match destroy_d3d false busy_globals with
      | .ok g => g.queues.isSome
      | .error _ => true) = false :=
  ⟨reset_cycle_keeps busy_globals cycle_torn cycle_done rfl rfl, rfl, rfl, rfl, rfl⟩

/-- Counterexample to C19 as stated: `busy_globals` keeps two resources alive and has no
budget event registered; after `destroy_d3d(true)` and a successful `init_d3d(true)` the
keep-alive list is empty, so the cycle changed a global that is not among the ones the claim
lists. -/
theorem reset_cycle_keeps_counterexample :
    busy_globals.video_memory_change_event = none ∧
    destroy_d3d true busy_globals = .ok cycle_torn ∧
    init_d3d true cycle_torn = .ok (true, cycle_done) ∧
    busy_globals.keep_alive_resources = [(7, ⟨[(0, 5)]⟩), (8, ⟨[(0, 4), (1, 3)]⟩)] ∧
    cycle_done.keep_alive_resources = [] :=
  ⟨rfl, rfl, rfl, rfl, rfl⟩

/-! ## The registry of device children -/

theorem run_registry_ops_spec : ∀ (ops : List RegistryOp) (g : Globals),
    g.device_children.Nodup → well_formed g.device_children ops = true →
    (run_registry_ops ops g).device_children = live_children g.device_children ops ∧
    (run_registry_ops ops g).device_children.Nodup ∧
    ∀ c, (run_registry_ops ops g).device_child_reset_priority_ c =
      given_priority c (g.device_child_reset_priority_ c) ops
  | [], g, hnd, _ => ⟨rfl, hnd, fun _ => rfl⟩
  | .add_device_child child reset_priority :: more, g, hnd, hwf => by
    simp only [well_formed, Bool.and_eq_true, Bool.not_eq_true', List.contains_eq_any_beq,
      List.any_eq_false, beq_iff_eq] at hwf
    have hnot : child ∉ g.device_children := fun hc => hwf.1 child hc rfl
    have hc : (add_device_child child reset_priority g).device_children =
        g.device_children ++ [child] := rfl
    have hp : (add_device_child child reset_priority g).device_child_reset_priority_ =
        Function.update g.device_child_reset_priority_ child reset_priority := rfl
    obtain ⟨i1, i2, i3⟩ := run_registry_ops_spec more (add_device_child child reset_priority g)
      (by rw [hc]; exact List.Nodup.append hnd (List.nodup_singleton _) (by simpa using hnot))
      (by rw [hc]; exact hwf.2)
    rw [hc] at i1
    refine ⟨i1, i2, ?_⟩
    intro c
    have := i3 c
    rw [hp] at this
    show (run_registry_ops more (add_device_child child reset_priority g)).device_child_reset_priority_ c =
      given_priority c (if child = c then reset_priority
        else g.device_child_reset_priority_ c) more
    rw [this]
    by_cases hcc : child = c
    · subst hcc
      simp
    · rw [if_neg hcc, Function.update_noteq (Ne.symm hcc)]
  | .remove_device_child child :: more, g, hnd, hwf => by
    simp only [well_formed, Bool.and_eq_true] at hwf
    have hc : (remove_device_child child g).device_children =
        g.device_children.filter (fun c => c != child) := by
      show g.device_children.erase child = _
      rw [List.Nodup.erase_eq_filter hnd]
    have hp : (remove_device_child child g).device_child_reset_priority_ =
        g.device_child_reset_priority_ := rfl
    obtain ⟨i1, i2, i3⟩ := run_registry_ops_spec more (remove_device_child child g)
      (by rw [hc]; exact hnd.filter _) (by rw [hc]; exact hwf.2)
    rw [hc] at i1
    refine ⟨i1, i2, ?_⟩
    intro c
    have := i3 c
    rw [hp] at this
    exact this

/-- C20: along every sequence of `add_device_child` and `remove_device_child` calls in which
a child is added only while it is not registered and removed only while it is, started from a
registry without duplicates, the registry holds exactly the live children, each once, in the
order of their registration, and the reset priority of each child is the one given at its
latest registration. -/
theorem registry_holds_live_children (ops : List RegistryOp) (g : Globals)
    (hnd : g.device_children.Nodup) (hwf : well_formed g.device_children ops = true) :
    (run_registry_ops ops g).device_children = live_children g.device_children ops ∧
    (run_registry_ops ops g).device_children.Nodup ∧
    ∀ c, (run_registry_ops ops g).device_child_reset_priority_ c =
      given_priority c (g.device_child_reset_priority_ c) ops :=
  run_registry_ops_spec ops g hnd hwf

/-- Witness of C20, on `sample_registry_ops`: the registry ends as 2, 3, 1, and child 1 has
the priority of its second registration. -/
theorem registry_holds_live_children_witness :
    ((run_registry_ops sample_registry_ops sample_globals).device_children =
        live_children sample_globals.device_children sample_registry_ops ∧
      (run_registry_ops sample_registry_ops sample_globals).device_children.Nodup ∧
      ∀ c, (run_registry_ops sample_registry_ops sample_globals).device_child_reset_priority_ c =
        given_priority c (sample_globals.device_child_reset_priority_ c) sample_registry_ops) ∧
    (run_registry_ops sample_registry_ops sample_globals).device_children = [2, 3, 1] ∧
    (run_registry_ops sample_registry_ops sample_globals).device_child_reset_priority_ 1 = 7 :=
  ⟨registry_holds_live_children sample_registry_ops sample_globals (by decide) (by decide),
    by decide, by decide⟩

/-! ## `update_video_memory_info` -/

/-- C23: `update_video_memory_info` reads the video memory info from the adapter, and writes
its log line, exactly when the budget-change event is absent or signaled; it then resets the
event if there is one; in every other case it leaves the globals, and so the cached video
memory info, as they are. -/
theorem update_video_memory_info_requeries (g : Globals) :
    update_video_memory_info g =
      (if g.video_memory_change_event = none ∨ g.video_memory_change_event = some ⟨true⟩ then
        { g with
          video_memory_info :=
            (match g.adapter with
              | some a => a.video_memory_info
              | none => ⟨0, 0⟩)
          video_memory_change_event := g.video_memory_change_event.map (fun _ => ⟨false⟩)
          trace := g.trace ++ [.log .dx12_residency ("Video memory budget:" ++
            toString (match g.adapter with
              | some a => a.video_memory_info
              | none => ⟨0, 0⟩ : DXGI_QUERY_VIDEO_MEMORY_INFO).Budget ++ " bytes, Usage:" ++
            toString (match g.adapter with
              | some a => a.video_memory_info
              | none => ⟨0, 0⟩ : DXGI_QUERY_VIDEO_MEMORY_INFO).CurrentUsage ++ " bytes")] }
      else g) := by
  unfold update_video_memory_info
  cases he : g.video_memory_change_event with
  | none => simp [Globals.emit, he]
  | some event =>
    by_cases hs : event = ⟨true⟩
    · simp [Globals.emit, hs]
    · simp [Globals.emit, hs]

/-! ## Rectangles of a rotated window -/

/-- C24, as the code has it: `physical_to_logical_rect` undoes `logical_to_physical_rect` for
the rotations `DMDO_DEFAULT` and `DMDO_180` (and any value that is none of the four); for
`DMDO_90` the rectangle comes back moved by `size.y - size.x` along x, and for `DMDO_270`
moved by `size.x - size.y` along y, so the round trip is the identity there only for a square
window.  On a 4 by 2 window rotated by `DMDO_90` the rectangle (0, 0, 1, 1) comes back as
(-2, 0, -1, 1). -/
theorem rect_round_trip (this : window_size) (r : rect_t) :
    this.physical_to_logical_rect (this.logical_to_physical_rect r) =
      (if this.rotation = DMDO_90 then
        ⟨r.left + (this.logical_pixel_size.y - this.logical_pixel_size.x), r.top,
          r.right + (this.logical_pixel_size.y - this.logical_pixel_size.x), r.bottom⟩
      else if this.rotation = DMDO_270 then
        ⟨r.left, r.top + (this.logical_pixel_size.x - this.logical_pixel_size.y),
          r.right, r.bottom + (this.logical_pixel_size.x - this.logical_pixel_size.y)⟩
      else r) ∧
    window_size.physical_to_logical_rect ⟨⟨4, 2⟩, DMDO_90⟩
      (window_size.logical_to_physical_rect ⟨⟨4, 2⟩, DMDO_90⟩ ⟨0, 0, 1, 1⟩) = ⟨-2, 0, -1, 1⟩ := by
  refine ⟨?_, by decide⟩
  obtain ⟨⟨sx, sy⟩, rot⟩ := this
  obtain ⟨l, t, rr, b⟩ := r
  simp only [window_size.physical_to_logical_rect, window_size.logical_to_physical_rect,
    DMDO_90, DMDO_180, DMDO_270]
  by_cases h1 : rot = 1
  · subst h1
    simp only [if_true, rect_t.mk.injEq, true_and, and_true]
    constructor <;> omega
  · by_cases h2 : rot = 2
    · subst h2
      simp only [if_true, rect_t.mk.injEq, show ¬ ((2 : Int) = 1) by decide,
        show ¬ ((2 : Int) = 3) by decide, if_false]
      refine ⟨?_, ?_, ?_, ?_⟩ <;> omega
    · by_cases h3 : rot = 3
      · subst h3
        simp only [if_true, rect_t.mk.injEq, show ¬ ((3 : Int) = 1) by decide,
          show ¬ ((3 : Int) = 2) by decide, if_false, true_and, and_true]
        constructor <;> omega
      · simp only [h1, h2, h3, if_false]

/-! ## The cached adapters hash -/

/-- C27, as the code has it: no `reset_device` call assigns the cached adapters hash; it stays
what `init_dxgi` made it, whatever factory the call puts in use. -/
theorem reset_device_keeps_adapters_hash (C : Nat → device_child_base) (fuel : Nat)
    (force : Bool) (g g' : Globals) (status : Bool)
    (h : reset_device C fuel force g = .ok (status, g')) :
    g'.adapters_hash = g.adapters_hash :=
  congrArg (fun s => s.2.2.1) (steady_reset_device C fuel force g status g' h)

/-- Witness of C27: on `changed_globals` the stale factory is replaced by one with adapters
hash 12, and when the call has returned the cached hash is still 11; later, with the factory
in use stale again and the platform's factory reporting the very same hashes as the one in
use, `reset_device(false)` reports a change and recreates the device.  No budget event is
registered before either call. -/
theorem reset_device_keeps_adapters_hash_witness :
    changed_run.2.adapters_hash = changed_globals.adapters_hash ∧
    reset_device (fun _ => quiet_child) 2 false changed_globals = .ok changed_run ∧
    changed_run.1 = true ∧
    changed_run.2.adapters_hash = 11 ∧
    changed_run.2.factory.map (fun f => f.adapters_hash) = some 12 ∧
    changed_later.adapters_hash = 11 ∧
    changed_later.env.create_factory.map (fun f => f.adapters_hash) =
      changed_run.2.factory.map (fun f => f.adapters_hash) ∧
    changed_later.env.create_factory.map (fun f => f.outputs_hash changed_later.adapter) =
      some changed_later.outputs_hash ∧
    reset_device (fun _ => quiet_child) 2 false changed_later = .ok changed_later_run ∧
    changed_later_run.2.trace.take 3 = [.log .dx12 "DXGI adapters or outputs changed",
      recreating, .destroy_d3d true] ∧
    changed_globals.video_memory_change_event = none ∧
    changed_later.video_memory_change_event = none :=
  ⟨reset_device_keeps_adapters_hash (fun _ => quiet_child) 2 false changed_globals changed_run.2
    changed_run.1 rfl, rfl, rfl, rfl, rfl, rfl, rfl, rfl, rfl, by decide, rfl, rfl⟩

/-! ## Closing an event handle -/

/-- No function of win_handle.cpp gives a handle its first entry in `dupe_event_count`: on
statics whose map and pool are empty, `create_event`, `duplicate` and `close` leave both empty
where they return, and `close` returns only for a handle that is null or not of type
`event`.  This is why `video_memory_change_event.close` has `find` yield `end()`. -/
theorem win_handle.map_stays_empty (s : win_handle.statics)
    (hmap : s.dupe_event_count = []) (hpool : s.event_pool = []) :
    (∀ created, win_handle.create_event created s =
      .ok (win_handle.members.new created .event, s)) ∧
    (∀ handle duplicated, (win_handle.duplicate handle duplicated s).2 = s ∧
      (win_handle.duplicate handle duplicated s).1.type = .unknown) ∧
    (∀ this r, win_handle.close this s = .ok r →
      r.2.dupe_event_count = [] ∧ r.2.event_pool = [] ∧
      (this.handle = 0 ∨ this.type ≠ .event)) := by
  refine ⟨?_, ?_, ?_⟩
  · intro created
    unfold win_handle.create_event
    rw [hpool]
    rfl
  · intro handle duplicated
    unfold win_handle.duplicate
    simp only [hmap, List.lookup]
    split
    · split <;> exact ⟨rfl, rfl⟩
    · split <;> exact ⟨rfl, rfl⟩
  · intro this r h
    unfold win_handle.close at h
    split at h
    · rw [hmap] at h
      cases h
    · rename_i hne
      cases h
      refine ⟨?_, ?_, ?_⟩
      · show (win_handle.close_handle this.handle s).2.dupe_event_count = []
        unfold win_handle.close_handle
        split <;> exact hmap
      · show (win_handle.close_handle this.handle s).2.event_pool = []
        unfold win_handle.close_handle
        split <;> exact hpool
      · by_cases h0 : this.handle = 0
        · exact Or.inl h0
        · exact Or.inr (fun ht => hne ⟨h0, ht⟩)

/-- C28, as the code has it: `create_event` with an empty pool returns an event-type handle
without giving it an entry in `dupe_event_count`, and `duplicate` adds an entry for the new
handle only when the old one has one, so a map that is empty stays empty; `close()` on the
fresh handle then looks it up in vain and dereferences `end()`. -/
theorem close_fresh_event (s : win_handle.statics) (created : Nat)
    (hpool : s.event_pool = []) (hmap : s.dupe_event_count.lookup created = none)
    (hc : created ≠ 0) (hi : created ≠ INVALID_HANDLE_VALUE) :
    win_handle.create_event created s = .ok (⟨created, .event⟩, s) ∧
    win_handle.close ⟨created, .event⟩ s = .error .end_deref ∧
    (∀ handle duplicated, s.dupe_event_count = [] →
      (win_handle.duplicate handle duplicated s).2.dupe_event_count = []) := by
  refine ⟨?_, ?_, ?_⟩
  · unfold win_handle.create_event
    rw [hpool]
    simp [win_handle.members.new, hi]
  · unfold win_handle.close
    simp [hc, hmap]
  · intro handle duplicated hempty
    unfold win_handle.duplicate
    simp only [hempty, List.lookup]
    split <;> split <;> exact hempty

/-- Witness of C28, on the statics of a program that starts: the event that `create_event`
creates cannot be closed. -/
theorem close_fresh_event_witness :
    (win_handle.create_event 100 win_handle.statics.initial =
        .ok (⟨100, .event⟩, win_handle.statics.initial) ∧
      win_handle.close ⟨100, .event⟩ win_handle.statics.initial = .error .end_deref ∧
      (∀ handle duplicated, win_handle.statics.initial.dupe_event_count = [] →
        (win_handle.duplicate handle duplicated
          win_handle.statics.initial).2.dupe_event_count = [])) ∧
    (match win_handle.create_event 100 win_handle.statics.initial with
      | .ok r =>
        (match win_handle.close r.1 r.2 with
          | .ok _ => none
          | .error e => some e)
      | .error e => some e) = some Fault.end_deref :=
  ⟨close_fresh_event win_handle.statics.initial 100 rfl rfl (by decide) (by decide), by decide⟩

/-! ## Vertex layouts -/

/-- C30, as the code has it: the line, triangle and sprite layouts are packed from offset 0
on, each element starting where the one before it ends; the circle layout is not: `RADIUS`
is an `R32G32_FLOAT` of 8 bytes at offset 44 and `THICK`, also an `R32G32_FLOAT`, starts at
48, and `MATRIX` starts at 52, so `RADIUS` overlaps `THICK` and `THICK` overlaps `MATRIX`. -/
theorem layouts_packed :
    packed 0 dx12.vertex.line_geometry.layout = true ∧
    packed 0 dx12.vertex.triangle_geometry.layout = true ∧
    packed 0 dx12.vertex.sprite_geometry.layout = true ∧
    packed 0 dx12.vertex.circle_geometry.layout = false ∧
    packed 0 (dx12.vertex.circle_geometry.layout.take 4) = true ∧
    overlaps dx12.vertex.circle_geometry.layout = [("RADIUS", "THICK"), ("THICK", "MATRIX")] ∧
    overlaps dx12.vertex.line_geometry.layout = [] ∧
    overlaps dx12.vertex.triangle_geometry.layout = [] ∧
    overlaps dx12.vertex.sprite_geometry.layout = [] := by
  decide

/-! ## Signal connections -/

theorem signal_connection.connect_entry (this : Nat) (entry : Option Nat) (h : signal_heap) :
    (signal_connection.connect this entry h).entry = Function.update h.entry this entry := by
  unfold signal_connection.connect
  cases h.entry this <;> cases entry <;> simp

theorem signal_connection.connect_connection (this : Nat) (entry : Option Nat)
    (h : signal_heap) (x : Nat) :
    (signal_connection.connect this entry h).connection x =
      (if entry = some x then some this
       else if h.entry this = some x then none else h.connection x) := by
  unfold signal_connection.connect
  cases ho : h.entry this <;> cases entry <;>
    simp [Function.update_apply, eq_comm]

theorem signal_connection.connect_consistent (h : signal_heap) (hc : h.consistent)
    (this : Nat) (entry : Option Nat)
    (hfree : ∀ e, entry = some e → h.connection e = none ∨ h.connection e = some this) :
    (signal_connection.connect this entry h).consistent := by
  intro c x
  rw [signal_connection.connect_entry, signal_connection.connect_connection]
  by_cases hct : c = this
  · subst hct
    rw [Function.update_same]
    by_cases he : entry = some x
    · simp [he]
    · simp only [he, if_false, false_iff]
      by_cases ho : h.entry c = some x
      · simp [ho]
      · simp only [ho, if_false]
        intro hx
        exact ho ((hc c x).2 hx)
  · rw [Function.update_noteq hct]
    by_cases he : entry = some x
    · simp only [he, if_true, Option.some.injEq]
      constructor
      · intro hcx
        have := (hc c x).1 hcx
        rcases hfree x he with h1 | h1
        · rw [h1] at this
          cases this
        · rw [h1] at this
          cases this
          exact absurd rfl hct
      · intro ht
        exact absurd ht.symm hct
    · simp only [he, if_false]
      by_cases ho : h.entry this = some x
      · have h1 := (hc this x).1 ho
        simp only [ho, if_true]
        constructor
        · intro hcx
          have h2 := (hc c x).1 hcx
          rw [h1] at h2
          cases h2
          exact absurd rfl hct
        · intro hn
          cases hn
      · simp only [ho, if_false]
        exact hc c x

theorem signal_connection.assign_consistent (h : signal_heap) (hc : h.consistent)
    (this other : Nat) : (signal_connection.assign this other h).consistent := by
  unfold signal_connection.assign
  by_cases hto : this = other
  · simp only [hto, ne_eq, not_true_eq_false, if_false]
    exact hc
  · simp only [ne_eq, hto, not_false_eq_true, if_true]
    intro c x
    show Function.update (signal_connection.connect this (h.entry other) h).entry other none c
      = some x ↔ (signal_connection.connect this (h.entry other) h).connection x = some c
    rw [signal_connection.connect_entry, signal_connection.connect_connection]
    by_cases hco : c = other
    · subst hco
      rw [Function.update_same]
      constructor
      · intro hn
        cases hn
      · intro hx
        exfalso
        by_cases he : h.entry c = some x
        · rw [if_pos he] at hx
          cases hx
          exact hto rfl
        · rw [if_neg he] at hx
          by_cases ho : h.entry this = some x
          · rw [if_pos ho] at hx
            cases hx
          · rw [if_neg ho] at hx
            exact he ((hc c x).2 hx)
    · rw [Function.update_noteq hco]
      by_cases hct : c = this
      · subst hct
        rw [Function.update_same]
        by_cases he : h.entry other = some x
        · simp [he]
        · simp only [he, if_false, false_iff]
          by_cases ho : h.entry c = some x
          · simp [ho]
          · simp only [ho, if_false]
            intro hx
            exact ho ((hc c x).2 hx)
      · rw [Function.update_noteq hct]
        by_cases he : h.entry other = some x
        · simp only [he, if_true, Option.some.injEq]
          constructor
          · intro hcx
            have h1 := (hc c x).1 hcx
            have h2 := (hc other x).1 he
            rw [h1] at h2
            cases h2
            exact absurd rfl hco
          · intro ht
            exact absurd ht.symm hct
        · simp only [he, if_false]
          by_cases ho : h.entry this = some x
          · have h1 := (hc this x).1 ho
            simp only [ho, if_true]
            constructor
            · intro hcx
              have h2 := (hc c x).1 hcx
              rw [h1] at h2
              cases h2
              exact absurd rfl hct
            · intro hn
              cases hn
          · simp only [ho, if_false]
            exact hc c x

/-- C29: on a heap in which every connection holds an entry exactly when the entry's
connection pointer refers to it, `connect` to null or to an entry that no other connection
holds, `disconnect()` and the move assignment keep it so; `connect` makes the connection hold
the new entry and clears the connection pointer of the old one; after `disconnect()` the
connection is empty; and after a move from another connection the other one is empty and the
moved-to connection holds the entry, whose connection pointer refers to it. -/
theorem signal_connection_consistent (h : signal_heap) (hc : h.consistent)
    (this other : Nat) (entry : Option Nat)
    (hfree : ∀ e, entry = some e → h.connection e = none ∨ h.connection e = some this) :
    ((signal_connection.connect this entry h).consistent ∧
      (signal_connection.connect this entry h).entry this = entry ∧
      (∀ old, h.entry this = some old → entry ≠ some old →
        (signal_connection.connect this entry h).connection old = none)) ∧
    ((signal_connection.disconnect this h).consistent ∧
      signal_connection.to_bool this (signal_connection.disconnect this h) = false) ∧
    ((signal_connection.assign this other h).consistent ∧
      (this ≠ other →
        signal_connection.to_bool other (signal_connection.assign this other h) = false ∧
        (signal_connection.assign this other h).entry this = h.entry other ∧
        ∀ e, h.entry other = some e →
          (signal_connection.assign this other h).connection e = some this)) := by
  refine ⟨⟨signal_connection.connect_consistent h hc this entry hfree, ?_, ?_⟩,
    ⟨signal_connection.connect_consistent h hc this none (by intro e he; cases he), ?_⟩,
    ⟨signal_connection.assign_consistent h hc this other, ?_⟩⟩
  · rw [signal_connection.connect_entry, Function.update_same]
  · intro old ho hne
    rw [signal_connection.connect_connection]
    simp [hne, ho]
  · unfold signal_connection.to_bool signal_connection.disconnect
    rw [signal_connection.connect_entry, Function.update_same]
    rfl
  · intro hto
    unfold signal_connection.assign signal_connection.to_bool
    simp only [ne_eq, hto, not_false_eq_true, if_true, Function.update_same, Option.isSome_none,
      true_and]
    refine ⟨?_, ?_⟩
    · rw [Function.update_noteq hto, signal_connection.connect_entry, Function.update_same]
    · intro e he
      rw [signal_connection.connect_connection]
      simp [he]

/-- Witness of C29, on a heap with connection 1 on entry 10 and connection 2 on entry 20:
connection 1 connects to the free entry 30, and connection 3 is move-assigned from
connection 2. -/
theorem signal_connection_consistent_witness :
    (((signal_connection.connect 1 (some 30) sample_signal_heap).consistent ∧
      (signal_connection.connect 1 (some 30) sample_signal_heap).entry 1 = some 30 ∧
      (∀ old, sample_signal_heap.entry 1 = some old → some 30 ≠ some old →
        (signal_connection.connect 1 (some 30) sample_signal_heap).connection old = none)) ∧
    ((signal_connection.disconnect 1 sample_signal_heap).consistent ∧
      signal_connection.to_bool 1 (signal_connection.disconnect 1 sample_signal_heap) = false) ∧
    ((signal_connection.assign 1 2 sample_signal_heap).consistent ∧
      (1 ≠ 2 →
        signal_connection.to_bool 2 (signal_connection.assign 1 2 sample_signal_heap) = false ∧
        (signal_connection.assign 1 2 sample_signal_heap).entry 1 = sample_signal_heap.entry 2 ∧
        ∀ e, sample_signal_heap.entry 2 = some e →
          (signal_connection.assign 1 2 sample_signal_heap).connection e = some 1))) ∧
    (signal_connection.connect 1 (some 30) sample_signal_heap).connection 10 = none ∧
    (signal_connection.connect 1 (some 30) sample_signal_heap).connection 30 = some 1 ∧
    (signal_connection.assign 3 2 sample_signal_heap).entry 3 = some 20 ∧
    (signal_connection.assign 3 2 sample_signal_heap).connection 20 = some 3 ∧
    (signal_connection.assign 3 2 sample_signal_heap).entry 2 = none :=
  ⟨signal_connection_consistent sample_signal_heap
    (by
      intro c e
      unfold sample_signal_heap
      simp only []
      constructor
      · intro hce
        split at hce
        · cases hce
          simp [*]
        · split at hce
          · cases hce
            simp [*]
          · cases hce
      · intro hec
        split at hec
        · cases hec
          simp [*]
        · split at hec
          · cases hec
            simp [*]
          · cases hec)
    1 2 (some 30) (by
      intro e he
      cases he
      left
      rfl),
    by decide, by decide, by decide, by decide, by decide⟩

/-! ## The re-entrancy flag -/

theorem destroy_d3d_trace {for_reset : Bool} {g g' : Globals}
    (h : destroy_d3d for_reset g = .ok g') :
    ∃ t, g'.trace = g.trace ++ Event.destroy_d3d for_reset :: t := by
  unfold destroy_d3d at h
  split at h
  · cases h
  · rename_i g1 hw
    split at h
    · cases h
    · rename_i g2 hu
      cases h
      have e2 := grows_debug_assert (!g.frame_commands.isSome) (g.emit (.destroy_d3d for_reset))
      have e3 := grows_wait_for_idle hw
      have e4 : Grows Event.is_setup g1
          (if (!for_reset) = true then destroy_d3d.reset_objects g1 else g1) := by
        split
        · exact Grows.same rfl rfl rfl rfl rfl rfl rfl
        · exact Grows.refl_grows _ _
      have e5 := grows_unregister hu
      obtain ⟨_, _, _, _, _, _, t, ht, _⟩ := e2.then_grows (e3.then_grows (e4.then_grows e5))
      refine ⟨t, ?_⟩
      show g2.trace = _
      rw [ht]
      simp [Globals.emit]

theorem forced_passes (C : Nat → device_child_base)
    {nested : Bool → Globals → Except Fault (Bool × Globals)} (hn : NestedQuiet nested)
    {g g' : Globals} {status : Bool} (hg : g.resetting = false)
    (h : reset_device.forced C nested g = .ok (status, g')) :
    g'.resetting = false ∧
    ∃ t, g'.trace = g.trace ++ recreating :: Event.destroy_d3d true :: t := by
  unfold reset_device.forced at h
  split at h
  · rename_i hr
    have : (g.emit (.log .dx12 "Recreating DX12 device")).resetting = g.resetting := rfl
    rw [this, hg] at hr
    cases hr
  · split at h
    · cases h
    · rename_i g1 hd
      obtain ⟨_, _, _, d4, _, _, _⟩ := grows_destroy_d3d hd
      obtain ⟨td, htd⟩ := destroy_d3d_trace hd
      split at h
      · cases h
      · rename_i g2 hi
        cases h
        obtain ⟨g3, ⟨_, _, _, _, _, _, ti, hti, _⟩, hg3, _⟩ := init_d3d_spec hi
        subst hg3
        refine ⟨rfl, td ++ (ti ++ [.init_d3d true false, .assert_failed]), ?_⟩
        show g3.trace ++ [Event.init_d3d true false] ++ [Event.assert_failed] = _
        rw [hti, htd]
        simp [Globals.emit, recreating]
      · rename_i g2 hi
        obtain ⟨g3, ⟨_, _, _, i4, _, _, ti, hti, _⟩, hg3, _⟩ := init_d3d_spec hi
        subst hg3
        split at h
        · cases h
        · rename_i s4 g4 hw
          cases h
          have hres : (g3.emit (.init_d3d true true)).resetting = true := i4.trans d4
          obtain ⟨_, _, _, w, htw, _⟩ := walk_trace C hn hres hw
          refine ⟨rfl, td ++ (ti ++ (.init_d3d true true :: w)), ?_⟩
          show g4.trace = _
          rw [htw]
          show g3.trace ++ [Event.init_d3d true true] ++ w = _
          rw [hti, htd]
          simp [Globals.emit, recreating]

theorem check_removed_released (C : Nat → device_child_base)
    {nested : Bool → Globals → Except Fault (Bool × Globals)} (hn : NestedQuiet nested)
    {force : Bool} {g g' : Globals} {status : Bool} (hg : g.resetting = false)
    (h : reset_device.check_removed C nested force g = .ok (status, g')) :
    g'.resetting = false := by
  unfold reset_device.check_removed at h
  split at h
  · exact (forced_passes C hn hg h).1
  · split at h
    · cases h
    · split at h
      · have e := forced_passes C hn (g := g.emit (.log .dx12 "DX12 device was reset/removed"))
          hg h
        exact e.1
      · cases h
        exact hg

theorem body_released (C : Nat → device_child_base)
    {nested : Bool → Globals → Except Fault (Bool × Globals)} (hn : NestedQuiet nested)
    {force : Bool} {g g' : Globals} {status : Bool} (hg : g.resetting = false)
    (h : reset_device.body C nested force g = .ok (status, g')) :
    g'.resetting = false := by
  unfold reset_device.body at h
  split at h
  · cases h
  · split at h
    · simp only [] at h
      split at h
      · cases h
        exact hg
      · split at h
        · have e := check_removed_released C hn
            (g := Globals.emit { g with factory := g.env.create_factory }
              (.log .dx12 "DXGI adapters or outputs changed")) hg h
          exact e
        · have e := check_removed_released C hn
            (g := { g with factory := g.env.create_factory }) hg h
          exact e
    · exact check_removed_released C hn hg h

theorem body_forced_passes (C : Nat → device_child_base)
    {nested : Bool → Globals → Except Fault (Bool × Globals)} (hn : NestedQuiet nested)
    {g g' : Globals} {status : Bool} (f : Factory) (hf : g.factory = some f)
    (husable : f.is_current = true ∨ g.env.create_factory.isSome = true)
    (hg : g.resetting = false)
    (h : reset_device.body C nested true g = .ok (status, g')) :
    ∃ t, g'.trace = g.trace ++ recreating :: Event.destroy_d3d true :: t := by
  unfold reset_device.body at h
  rw [hf] at h
  simp only [] at h
  split at h
  · rename_i hstale
    have hcf : g.env.create_factory.isSome = true := by
      rcases husable with hu | hu
      · rw [hu] at hstale
        cases hstale
      · exact hu
    obtain ⟨f', hf'⟩ := Option.isSome_iff_exists.1 hcf
    simp only [hf', Bool.not_true, Bool.false_and, Bool.false_eq_true, if_false] at h
    unfold reset_device.check_removed at h
    rw [if_pos rfl] at h
    have e := forced_passes C hn (g := { g with factory := some f' }) hg h
    exact e.2
  · unfold reset_device.check_removed at h
    rw [if_pos rfl] at h
    exact (forced_passes C hn hg h).2

theorem body_guarded_forced (C : Nat → device_child_base)
    (nested : Bool → Globals → Except Fault (Bool × Globals)) (g : Globals)
    (hg : g.resetting = true) (b : Bool) (g' : Globals)
    (h : reset_device.body C nested true g = .ok (b, g')) : b = false := by
  have key : ∀ x : Globals, x.resetting = true →
      reset_device.check_removed C nested true x = .ok (b, g') → b = false := by
    intro x hx hc
    obtain ⟨t, _, _, hb⟩ := check_removed_guarded C nested true x hx b g' hc
    cases hbb : b with
    | false => rfl
    | true =>
      have := (hb hbb).1
      cases this
  unfold reset_device.body at h
  split at h
  · cases h
  · split at h
    · simp only [] at h
      split at h
      · cases h
        rfl
      · split at h
        · exact key _ (by exact hg) h
        · exact key _ (by exact hg) h
    · exact key g hg h

/-- C26, as amended: a returning `reset_device` call leaves the re-entrancy flag as it found
it.  A call that starts while no reset is under way leaves it clear on every way out, the one
after a failed `init_d3d(true)` among them, so a `reset_device(true)` call that follows it,
with a usable factory, gets past the guard: it writes the opening log line and tears the
device down.  A call that starts while a reset is under way (one made from a callback of a
device child) returns with the flag still set, and a `reset_device(true)` call that follows it
is rejected: it returns false and puts only log lines and failed assertions on the trace. -/
theorem resetting_released (C : Nat → device_child_base) (fuel : Nat) (force : Bool)
    (g g' : Globals) (status : Bool)
    (h : reset_device C fuel force g = .ok (status, g')) :
    g'.resetting = g.resetting ∧
    (g.resetting = false →
      ∀ (fuel2 : Nat) (status2 : Bool) (g2 : Globals) (f : Factory),
        g'.factory = some f → (f.is_current = true ∨ g'.env.create_factory.isSome = true) →
        reset_device C fuel2 true g' = .ok (status2, g2) →
        ∃ t, g2.trace = g'.trace ++ recreating :: Event.destroy_d3d true :: t) ∧
    (g.resetting = true →
      ∀ (fuel2 : Nat) (status2 : Bool) (g2 : Globals),
        reset_device C fuel2 true g' = .ok (status2, g2) →
        status2 = false ∧ g2.resetting = true ∧
        ∃ t, g2.trace = g'.trace ++ t ∧ ∀ e ∈ t, e.is_note = true) := by
  have hres : g'.resetting = g.resetting := by
    cases hg : g.resetting with
    | false =>
      cases fuel with
      | zero => cases h
      | succ fuel => exact body_released C (nested_quiet_reset_device C fuel) hg h
    | true => exact (nested_quiet_reset_device C fuel force g status g' hg h).1
  refine ⟨hres, ?_, ?_⟩
  · intro hg fuel2 status2 g2 f hf husable h2
    cases fuel2 with
    | zero => cases h2
    | succ fuel2 =>
      exact body_forced_passes C (nested_quiet_reset_device C fuel2) f hf husable
        (hres.trans hg) h2
  · intro hg fuel2 status2 g2 h2
    have hg' : g'.resetting = true := hres.trans hg
    obtain ⟨q1, _, _, _, t, ht, hn⟩ := nested_quiet_reset_device C fuel2 true g' status2 g2 hg' h2
    refine ⟨?_, q1, t, ht, hn⟩
    cases fuel2 with
    | zero => cases h2
    | succ fuel2 => exact body_guarded_forced C (reset_device C fuel2) g' hg' status2 g2 h2

/-- Witness of C26, as amended, on `unlucky_globals`, where no reset is under way:
`init_d3d(true)` fails in the first call, which returns false with the flag clear, and the
second `reset_device(true)` tears the device down again.  No budget event is registered. -/
theorem resetting_released_witness :
    (unlucky_run.2.resetting = unlucky_globals.resetting ∧
      (unlucky_globals.resetting = false →
        ∀ (fuel2 : Nat) (status2 : Bool) (g2 : Globals) (f : Factory),
          unlucky_run.2.factory = some f →
          (f.is_current = true ∨ unlucky_run.2.env.create_factory.isSome = true) →
          reset_device (fun _ => quiet_child) fuel2 true unlucky_run.2 = .ok (status2, g2) →
          ∃ t, g2.trace = unlucky_run.2.trace ++ recreating :: Event.destroy_d3d true :: t) ∧
      (unlucky_globals.resetting = true →
        ∀ (fuel2 : Nat) (status2 : Bool) (g2 : Globals),
          reset_device (fun _ => quiet_child) fuel2 true unlucky_run.2 = .ok (status2, g2) →
          status2 = false ∧ g2.resetting = true ∧
          ∃ t, g2.trace = unlucky_run.2.trace ++ t ∧ ∀ e ∈ t, e.is_note = true)) ∧
    unlucky_globals.resetting = false ∧
    unlucky_globals.video_memory_change_event = none ∧
    unlucky_run.1 = false ∧
    unlucky_run.2.resetting = false ∧
    Event.init_d3d true false ∈ unlucky_run.2.trace ∧
    unlucky_run.2.video_memory_change_event = none ∧
    reset_device (fun _ => quiet_child) 2 true unlucky_run.2 = .ok unlucky_rerun ∧
    (unlucky_rerun.2.trace.drop unlucky_run.2.trace.length).take 2 =
      [recreating, .destroy_d3d true] :=
  ⟨resetting_released (fun _ => quiet_child) 2 true unlucky_globals unlucky_run.2 unlucky_run.1
    rfl, rfl, rfl, rfl, rfl, by decide, rfl, rfl, by decide⟩

/-- Counterexample to C26 as stated: child 1 calls `reset_device(false)` and then
`reset_device(true)` from its `reset`, while the outer `reset_device(true)` is resetting.  The
first of these calls returns true with the flag still set, and the second one is rejected by
the guard: it writes the opening log line, fails the assertion on the flag and returns. -/
theorem resetting_released_counterexample :
    resetting_globals.resetting = true ∧
    reset_device reentrant_children 2 false resetting_globals = .ok (true, resetting_globals) ∧
    reset_device reentrant_children 2 true resetting_globals =
      .ok (false, (resetting_globals.emit recreating).emit .assert_failed) ∧
    three_children.resetting = false ∧
    reset_device reentrant_children 3 true three_children = .ok reentrant_run ∧
    (reentrant_run.2.trace.drop 12).take 4 =
      [.reset 1 1, recreating, .assert_failed, .reset_returned 1 true] ∧
    Event.destroy_d3d true ∉ reentrant_run.2.trace.drop 12 :=
  ⟨rfl, rfl, rfl, rfl, rfl, by decide, by decide⟩

/-! ## The registry along a reset -/

theorem replay_append : ∀ (t t' : List Event) (l : List Nat),
    replay (t ++ t') l = replay t' (replay t l)
  | [], _, _ => rfl
  | e :: t, t', l => by
    cases e <;> simp only [List.cons_append, replay] <;> exact replay_append t t' _

theorem replay_quiet : ∀ (t : List Event) (l : List Nat),
    (∀ e ∈ t, e.is_registry = false) → replay t l = l
  | [], _, _ => rfl
  | e :: t, l, h => by
    have he := h e (List.mem_cons_self _ _)
    have ht := replay_quiet t l (fun e' he' => h e' (List.mem_cons_of_mem _ he'))
    cases e <;> simp only [Event.is_registry] at he <;> first | exact ht | cases he

theorem mem_replay (c : Nat) : ∀ (t : List Event) (l : List Nat), c ∈ l →
    Event.remove_device_child c ∉ t → c ∈ replay t l
  | [], _, hc, _ => hc
  | e :: t, l, hc, hr => by
    have hr' : Event.remove_device_child c ∉ t := fun h => hr (List.mem_cons_of_mem _ h)
    cases e with
    | add_device_child child p =>
      exact mem_replay c t _ (List.mem_append_left _ hc) hr'
    | remove_device_child child =>
      have hne : c ≠ child := by
        intro h
        apply hr
        rw [h]
        exact List.mem_cons_self _ _
      exact mem_replay c t _ ((List.mem_erase_of_ne hne).2 hc) hr'
    | _ => exact mem_replay c t l hc hr'

theorem Replays.refl_replays (g : Globals) : Replays g g :=
  ⟨[], by simp, rfl⟩

theorem Replays.then_replays {g g' g'' : Globals} (h : Replays g g') (h' : Replays g' g'') :
    Replays g g'' := by
  obtain ⟨t, ht, hc⟩ := h
  obtain ⟨t', ht', hc'⟩ := h'
  exact ⟨t ++ t', by rw [ht', ht, List.append_assoc], by rw [hc', hc, replay_append]⟩

theorem Replays.emit_replays (g : Globals) (e : Event) (he : e.is_registry = false) :
    Replays g (g.emit e) :=
  ⟨[e], rfl, (replay_quiet [e] _ (by simpa using he)).symm⟩

theorem Replays.same_replays {g g' : Globals} (h1 : g'.trace = g.trace)
    (h2 : g'.device_children = g.device_children) : Replays g g' :=
  ⟨[], by simpa using h1, h2⟩

theorem Event.not_registry_of_is_setup {e : Event} (h : e.is_setup = true) :
    e.is_registry = false := by
  cases e <;> simp [Event.is_setup] at h <;> rfl

theorem Replays.of_grows {g g' : Globals} (h : Grows Event.is_setup g g') : Replays g g' := by
  obtain ⟨h1, _, _, _, _, _, t, ht, hs⟩ := h
  exact ⟨t, ht, by
    rw [replay_quiet t _ (fun e he => Event.not_registry_of_is_setup (hs e he))]
    exact h1⟩

theorem replays_run_action {nested : Bool → Globals → Except Fault (Bool × Globals)}
    (hn : ∀ force g b g', nested force g = .ok (b, g') → Replays g g')
    {a : Action} {g g' : Globals} (h : run_action nested a g = .ok g') : Replays g g' := by
  cases a with
  | add_device_child child reset_priority =>
    simp only [run_action] at h
    cases h
    exact ⟨[.add_device_child child reset_priority], rfl, rfl⟩
  | remove_device_child child =>
    simp only [run_action] at h
    cases h
    exact ⟨[.remove_device_child child], rfl, rfl⟩
  | reset_device force =>
    simp only [run_action] at h
    split at h
    · cases h
    · rename_i b g1 hr
      cases h
      exact hn _ _ _ _ hr

theorem replays_run_actions {nested : Bool → Globals → Except Fault (Bool × Globals)}
    (hn : ∀ force g b g', nested force g = .ok (b, g') → Replays g g') :
    ∀ (l : List Action) {g g' : Globals}, run_actions nested l g = .ok g' → Replays g g'
  | [], g, g', h => by
    simp only [run_actions] at h
    cases h
    exact Replays.refl_replays _
  | a :: more, g, g', h => by
    simp only [run_actions] at h
    split at h
    · cases h
    · rename_i g1 ha
      exact (replays_run_action hn ha).then_replays (replays_run_actions hn more h)

theorem replays_set_sorted_child (i : Nat) (f : device_child_t → device_child_t)
    (g : Globals) : Replays g (set_sorted_child i f g) :=
  Replays.same_replays rfl rfl

theorem replays_before_reset_loop {C : Nat → device_child_base}
    {nested : Bool → Globals → Except Fault (Bool × Globals)}
    (hn : ∀ force g b g', nested force g = .ok (b, g') → Replays g g') :
    ∀ (l : List Nat) {g g' : Globals},
      reset_device.before_reset_loop C nested l g = .ok g' → Replays g g'
  | [], g, g', h => by
    simp only [reset_device.before_reset_loop] at h
    cases h
    exact Replays.refl_replays _
  | i :: more, g, g', h => by
    unfold reset_device.before_reset_loop at h
    split at h
    · rename_i child _ _
      simp only [] at h
      split at h
      · cases h
      · rename_i g1 ha
        have e0 := Replays.emit_replays g (.before_reset child) rfl
        have ea := replays_run_actions hn _ ha
        have eb := replays_before_reset_loop hn more h
        exact e0.then_replays (ea.then_replays ((replays_set_sorted_child _ _ _).then_replays eb))
    · exact replays_before_reset_loop hn more h

theorem replays_reset_loop {C : Nat → device_child_base}
    {nested : Bool → Globals → Except Fault (Bool × Globals)}
    (hn : ∀ force g b g', nested force g = .ok (b, g') → Replays g g') :
    ∀ (l : List Nat) {status b : Bool} {g g' : Globals},
      reset_device.reset_loop C nested l status g = .ok (b, g') → Replays g g'
  | [], status, b, g, g', h => by
    simp only [reset_device.reset_loop] at h
    cases h
    exact Replays.refl_replays _
  | i :: more, status, b, g, g', h => by
    unfold reset_device.reset_loop at h
    split at h
    · rename_i child rd _
      simp only [] at h
      split at h
      · cases h
      · rename_i g1 ha
        have e0 := Replays.emit_replays g (.reset child rd) rfl
        have ea := replays_run_actions hn _ ha
        have eb := replays_reset_loop hn more h
        refine e0.then_replays (ea.then_replays (Replays.then_replays ?_ eb))
        refine Replays.then_replays ?_ (replays_set_sorted_child _ _ _)
        split
        · exact Replays.emit_replays _ (.reset_returned _ _) rfl
        · exact (Replays.emit_replays _ (.reset_returned _ _) rfl).then_replays
            ((Replays.emit_replays _ .assert_failed rfl).then_replays
              (replays_set_sorted_child _ _ _))
    · have eb := replays_reset_loop hn more h
      exact (replays_set_sorted_child _ _ _).then_replays eb

theorem replays_after_reset_loop {C : Nat → device_child_base}
    {nested : Bool → Globals → Except Fault (Bool × Globals)}
    (hn : ∀ force g b g', nested force g = .ok (b, g') → Replays g g') :
    ∀ (l : List Nat) {status b : Bool} {g g' : Globals},
      reset_device.after_reset_loop C nested l status g = .ok (b, g') → Replays g g'
  | [], status, b, g, g', h => by
    simp only [reset_device.after_reset_loop] at h
    cases h
    exact Replays.refl_replays _
  | i :: more, status, b, g, g', h => by
    unfold reset_device.after_reset_loop at h
    split at h
    · rename_i child _ _
      simp only [] at h
      split at h
      · cases h
      · rename_i g1 ha
        have e0 := Replays.emit_replays g (.after_reset child) rfl
        have ea := replays_run_actions hn _ ha
        have eb := replays_after_reset_loop hn more h
        refine e0.then_replays (ea.then_replays (Replays.then_replays ?_ eb))
        split
        · exact Replays.emit_replays _ (.after_reset_returned _ _) rfl
        · exact (Replays.emit_replays _ (.after_reset_returned _ _) rfl).then_replays
            ((Replays.emit_replays _ .assert_failed rfl).then_replays
              (replays_set_sorted_child _ _ _))
    · exact replays_after_reset_loop hn more h

theorem replays_walk {C : Nat → device_child_base}
    {nested : Bool → Globals → Except Fault (Bool × Globals)}
    (hn : ∀ force g b g', nested force g = .ok (b, g') → Replays g g')
    {b : Bool} {g g' : Globals} (h : reset_device.walk C nested g = .ok (b, g')) :
    Replays g g' := by
  unfold reset_device.walk at h
  simp only [] at h
  split at h
  · cases h
  · rename_i g1 h1
    split at h
    · cases h
    · rename_i s2 g2 h2
      split at h
      · cases h
      · rename_i s3 g3 h3
        cases h
        have e1 := replays_before_reset_loop hn _ h1
        have e2 := replays_reset_loop hn _ h2
        have e3 := replays_after_reset_loop hn _ h3
        exact (Replays.then_replays (Replays.same_replays rfl rfl)
          (e1.then_replays (e2.then_replays e3))).then_replays (Replays.same_replays rfl rfl)

theorem replays_forced {C : Nat → device_child_base}
    {nested : Bool → Globals → Except Fault (Bool × Globals)}
    (hn : ∀ force g b g', nested force g = .ok (b, g') → Replays g g')
    {b : Bool} {g g' : Globals} (h : reset_device.forced C nested g = .ok (b, g')) :
    Replays g g' := by
  have e0 : Replays g { g.emit (.log .dx12 "Recreating DX12 device") with resetting := true } :=
    (Replays.emit_replays g (.log _ _) rfl).then_replays (Replays.same_replays rfl rfl)
  unfold reset_device.forced at h
  split at h
  · cases h
    exact (Replays.emit_replays g (.log _ _) rfl).then_replays
      (Replays.emit_replays _ .assert_failed rfl)
  · split at h
    · cases h
    · rename_i g1 hd
      have e1 := Replays.of_grows (grows_destroy_d3d hd)
      split at h
      · cases h
      · rename_i g2 hi
        cases h
        obtain ⟨g3, hg3, he3, _⟩ := init_d3d_spec hi
        subst he3
        exact e0.then_replays (e1.then_replays ((Replays.of_grows hg3).then_replays
          ((Replays.emit_replays _ (.init_d3d _ _) rfl).then_replays
            ((Replays.emit_replays _ .assert_failed rfl).then_replays
              (Replays.same_replays rfl rfl)))))
      · rename_i g2 hi
        obtain ⟨g3, hg3, he3, _⟩ := init_d3d_spec hi
        subst he3
        split at h
        · cases h
        · rename_i s3 g4 hw
          cases h
          have e3 := replays_walk hn hw
          exact e0.then_replays (e1.then_replays ((Replays.of_grows hg3).then_replays
            ((Replays.emit_replays _ (.init_d3d _ _) rfl).then_replays
              (e3.then_replays (Replays.same_replays rfl rfl)))))

theorem replays_check_removed {C : Nat → device_child_base}
    {nested : Bool → Globals → Except Fault (Bool × Globals)}
    (hn : ∀ force g b g', nested force g = .ok (b, g') → Replays g g')
    {force b : Bool} {g g' : Globals}
    (h : reset_device.check_removed C nested force g = .ok (b, g')) : Replays g g' := by
  unfold reset_device.check_removed at h
  split at h
  · exact replays_forced hn h
  · split at h
    · cases h
    · split at h
      · have e := replays_forced hn h
        exact (Replays.emit_replays g (.log _ _) rfl).then_replays e
      · cases h
        exact Replays.refl_replays _

theorem replays_body {C : Nat → device_child_base}
    {nested : Bool → Globals → Except Fault (Bool × Globals)}
    (hn : ∀ force g b g', nested force g = .ok (b, g') → Replays g g')
    {force b : Bool} {g g' : Globals}
    (h : reset_device.body C nested force g = .ok (b, g')) : Replays g g' := by
  have e0 : Replays g { g with factory := g.env.create_factory } :=
    Replays.same_replays rfl rfl
  unfold reset_device.body at h
  split at h
  · cases h
  · split at h
    · simp only [] at h
      split at h
      · cases h
        exact e0.then_replays (Replays.emit_replays _ .assert_failed rfl)
      · split at h
        · have e := replays_check_removed hn h
          exact e0.then_replays ((Replays.emit_replays _ (.log _ _) rfl).then_replays e)
        · have e := replays_check_removed hn h
          exact e0.then_replays e
    · exact replays_check_removed hn h

theorem replays_reset_device (C : Nat → device_child_base) : ∀ (fuel : Nat) (force : Bool)
    (g : Globals) (b : Bool) (g' : Globals),
    reset_device C fuel force g = .ok (b, g') → Replays g g'
  | 0, _, _, _, _, h => by
    simp only [reset_device] at h
    cases h
  | fuel + 1, force, g, b, g', h => by
    simp only [reset_device] at h
    exact replays_body (replays_reset_device C fuel) h

/-! ## Each child is called once in a phase -/

theorem Event.subject_of_is_action {e : Event} (h : e.is_action = true) : e.subject = none := by
  cases e <;> simp [Event.is_action] at h <;> rfl

theorem Event.subject_of_failed {e : Event} {c : Nat} (h : e.failed = some c) :
    e.subject = some c := by
  cases e with
  | reset_returned c' b =>
    cases b
    · simp only [Event.failed, Option.some.injEq] at h
      subst h
      rfl
    · simp [Event.failed] at h
  | after_reset_returned c' b =>
    cases b
    · simp only [Event.failed, Option.some.injEq] at h
      subst h
      rfl
    · simp [Event.failed] at h
  | _ => simp [Event.failed] at h

theorem Phase.subject_call (ph : Phase) (c d : Nat) : (ph.call c d).subject = some c := by
  cases ph <;> rfl

theorem Phase.subject_returned (ph : Phase) (c : Nat) (b : Bool) :
    ∀ e ∈ ph.returned c b, e.subject = none ∨ e.subject = some c := by
  intro e he
  cases ph <;> cases b <;> simp [Phase.returned] at he <;>
    (try rcases he with rfl | rfl) <;> simp [Event.subject]

theorem Run.subject_index {ph : Phase} {is : List Nat} {v v' : List (Option Nat)}
    {s s' : Bool} {t : List Event} (h : Run ph is v s t v' s') :
    ∀ e ∈ t, ∀ c, e.subject = some c → ∃ j ∈ is, v[j]? = some (some c) := by
  induction h with
  | nil v s => intro e he; simp at he
  | skip i is v s t v' s' _ _ ih =>
    intro e he c hc
    obtain ⟨j, hj, hv⟩ := ih e he c hc
    exact ⟨j, List.mem_cons_of_mem _ hj, hv⟩
  | call i is v s c0 d a b t v' s' hi ha hb _ ih =>
    intro e he c hc
    simp only [List.mem_cons, List.mem_append] at he
    rcases he with rfl | he | he | he
    · rw [ph.subject_call] at hc
      cases hc
      exact ⟨i, List.mem_cons_self _ _, hi⟩
    · rw [Event.subject_of_is_action (ha e he)] at hc
      cases hc
    · rcases ph.subject_returned c0 b e he with h1 | h1
      · rw [h1] at hc
        cases hc
      · rw [h1] at hc
        cases hc
        exact ⟨i, List.mem_cons_self _ _, hi⟩
    · obtain ⟨j, hj, hv⟩ := ih e he c hc
      refine ⟨j, List.mem_cons_of_mem _ hj, ?_⟩
      split at hv
      · exact nulls_apply_removals a v j _ hv
      · exact nulls_apply_removals a v j _ (nulls_set_none _ i j _ hv)

theorem ne_of_getElem?_set_none {v : List (Option Nat)} {i j c : Nat}
    (h : (v.set i none)[j]? = some (some c)) : i ≠ j := by
  intro hij
  subst hij
  rw [List.getElem?_set] at h
  simp only [if_true] at h
  split at h <;> cases h

theorem Run.failed_gone {ph : Phase} {is : List Nat} {v v' : List (Option Nat)} {s s' : Bool}
    {t : List Event} (h : Run ph is v s t v' s') (hv : SlotsNodup v) :
    ∀ e ∈ t, ∀ c, e.failed = some c → ∀ j : Nat, v'[j]? ≠ some (some c) := by
  induction h with
  | nil v s => intro e he; simp at he
  | skip i is v s t v' s' _ _ ih => exact ih hv
  | call i is v s c0 d a b t v' s' hi ha hb hrun ih =>
    intro e he c hc j hj
    have hmid : Nulls v (if b then apply_removals a v else (apply_removals a v).set i none) := by
      split
      · exact nulls_apply_removals a v
      · exact (nulls_apply_removals a v).then_nulls (nulls_set_none _ i)
    simp only [List.mem_cons, List.mem_append] at he
    rcases he with rfl | he | he | he
    · rw [ph.failed_call] at hc
      cases hc
    · rw [Event.failed_of_is_action (ha e he)] at hc
      cases hc
    · cases hbb : b with
      | true =>
        rw [hbb] at he
        rw [(ph.returned_spec c0 true e he).2.2.2 rfl] at hc
        cases hc
      | false =>
        rw [hbb] at he
        have hcc : c = c0 := by
          have hs := Event.subject_of_failed hc
          rcases ph.subject_returned c0 false e he with h1 | h1
          · rw [h1] at hs
            cases hs
          · rw [h1] at hs
            cases hs
            rfl
        subst hcc
        have h1 := hrun.only_nulls j c hj
        rw [hbb] at h1
        simp only [Bool.false_eq_true, if_false] at h1
        have hne := ne_of_getElem?_set_none h1
        have h2 := nulls_apply_removals a v j _ (nulls_set_none _ i j _ h1)
        exact hne (hv i j c hi h2)
    · exact ih (hv.of_nulls hmid) e he c hc j hj

theorem Run.count_call {ph : Phase} {is : List Nat} {v v' : List (Option Nat)} {s s' : Bool}
    {t : List Event} (h : Run ph is v s t v' s') (hv : SlotsNodup v) (his : is.Nodup)
    (e : Event) (cb : Callback) (he : e.callback = some cb) : t.count e ≤ 1 := by
  induction h with
  | nil v s => simp
  | skip i is v s t v' s' _ _ ih => exact ih hv (List.nodup_cons.1 his).2
  | call i is v s c0 d a b t v' s' hi ha hb hrun ih =>
    have hmid : Nulls v (if b then apply_removals a v else (apply_removals a v).set i none) := by
      split
      · exact nulls_apply_removals a v
      · exact (nulls_apply_removals a v).then_nulls (nulls_set_none _ i)
    have hrest := ih (hv.of_nulls hmid) (List.nodup_cons.1 his).2
    have ha0 : a.count e = 0 := by
      rw [List.count_eq_zero]
      intro hea
      rw [Event.callback_of_is_action (ha e hea)] at he
      cases he
    have hr0 : (ph.returned c0 b).count e = 0 := by
      rw [List.count_eq_zero]
      intro her
      rw [(ph.returned_spec c0 b e her).1] at he
      cases he
    rw [List.count_cons, List.count_append, List.count_append, ha0, hr0]
    by_cases hhead : ph.call c0 d = e
    · have ht0 : t.count e = 0 := by
        rw [List.count_eq_zero]
        intro het
        have hsub : e.subject = some c0 := by
          rw [← hhead]
          exact ph.subject_call c0 d
        obtain ⟨j, hj, hvj⟩ := hrun.subject_index e het c0 hsub
        have hvj' : v[j]? = some (some c0) := hmid j c0 hvj
        have : i = j := hv i j c0 hi hvj'
        subst this
        exact (List.nodup_cons.1 his).1 hj
      simp [ht0, hhead]
    · have : (ph.call c0 d == e) = false := by simpa using hhead
      simp only [this, Bool.false_eq_true, if_false, Nat.zero_add, Nat.add_zero]
      exact hrest

theorem Run.returned_true {is : List Nat} {v v' : List (Option Nat)} {s s' : Bool}
    {t : List Event} (h : Run .reset is v s t v' s') (hv : SlotsNodup v) (his : is.Nodup)
    (c : Nat) (hc : Event.reset_returned c true ∈ t) :
    (∃ i ∈ is, v[i]? = some (some c)) ∧ Event.reset_returned c false ∉ t := by
  refine ⟨h.subject_index _ hc c rfl, ?_⟩
  induction h with
  | nil v s => simp
  | skip i is v s t v' s' _ _ ih => exact ih hv (List.nodup_cons.1 his).2 hc
  | call i is v s c0 d a b t v' s' hi ha hb hrun ih =>
    have hmid : Nulls v (if b then apply_removals a v else (apply_removals a v).set i none) := by
      split
      · exact nulls_apply_removals a v
      · exact (nulls_apply_removals a v).then_nulls (nulls_set_none _ i)
    have hnot : ∀ b' : Bool, Event.reset_returned c0 b' ∉ t := by
      intro b' hb'
      obtain ⟨j, hj, hvj⟩ := hrun.subject_index _ hb' c0 rfl
      have : i = j := hv i j c0 hi (hmid j c0 hvj)
      subst this
      exact (List.nodup_cons.1 his).1 hj
    simp only [List.mem_cons, List.mem_append] at hc
    intro hf
    simp only [List.mem_cons, List.mem_append] at hf
    have hfa : Event.reset_returned c false ∉ a := fun h' => by
      have := ha _ h'
      simp [Event.is_action] at this
    have hta : Event.reset_returned c true ∉ a := fun h' => by
      have := ha _ h'
      simp [Event.is_action] at this
    rcases hc with hc | hc | hc | hc
    · simp [Phase.call] at hc
    · exact hta hc
    · cases b with
      | true =>
        simp only [Phase.returned, List.mem_singleton, Event.reset_returned.injEq] at hc
        obtain ⟨hcc, _⟩ := hc
        subst hcc
        rcases hf with hf | hf | hf | hf
        · simp [Phase.call] at hf
        · exact hfa hf
        · simp [Phase.returned] at hf
        · exact hnot false hf
      | false =>
        simp [Phase.returned] at hc
    · rcases hf with hf | hf | hf | hf
      · simp [Phase.call] at hf
      · exact hfa hf
      · cases b with
        | true => simp [Phase.returned] at hf
        | false =>
          have hcc : c = c0 := by
            simp only [Phase.returned, List.mem_cons, List.mem_singleton, List.not_mem_nil,
              or_false] at hf
            rcases hf with hf | hf
            · injection hf
            · cases hf
          subst hcc
          exact hnot true hc
      · exact ih (hv.of_nulls hmid) (List.nodup_cons.1 his).2 hc hf

theorem WalkTrace.after_calls {v : List (Option Nat)} {w : List Event} {status : Bool}
    (h : WalkTrace v w status) (hv : SlotsNodup v) (c : Nat) :
    (Event.reset_returned c false ∈ w → Event.after_reset c ∉ w) ∧
    (Event.reset_returned c true ∈ w → (∀ e ∈ w, e.removed ≠ some c) →
      w.count (Event.after_reset c) = 1) := by
  obtain ⟨tb, tr, ta, v1, v2, v3, s2, hw, hb, hr, ha⟩ := h
  subst hw
  have hv1 : SlotsNodup v1 := hv.of_nulls hb.only_nulls
  have hv2 : SlotsNodup v2 := hv1.of_nulls hr.only_nulls
  have hret : ∀ b, Event.reset_returned c b ∈ tb ++ (tr ++ ta) → Event.reset_returned c b ∈ tr := by
    intro b hm
    simp only [List.mem_append] at hm
    rcases hm with hm | hm | hm
    · rcases hb.phase_events _ hm with h1 | h1 <;> cases h1
    · exact hm
    · rcases ha.phase_events _ hm with h1 | h1 <;> cases h1
  have hnb : Event.after_reset c ∉ tb := fun hm => by
    rcases hb.phase_events _ hm with h1 | h1 <;> cases h1
  have hnr : Event.after_reset c ∉ tr := fun hm => by
    rcases hr.phase_events _ hm with h1 | h1 <;> cases h1
  constructor
  · intro hf hcall
    have hf' := hret false hf
    have hcall' : Event.after_reset c ∈ ta := by
      simp only [List.mem_append] at hcall
      rcases hcall with hm | hm | hm
      · exact absurd hm hnb
      · exact absurd hm hnr
      · exact hm
    obtain ⟨j, hj⟩ := ha.call_mem _ hcall' (.after_reset c) rfl
    exact hr.failed_gone hv1 _ hf' c rfl j hj
  · intro ht hrem
    have ht' := hret true ht
    obtain ⟨⟨i, hi, hvi⟩, hnf⟩ := hr.returned_true hv1 (List.nodup_range _) c ht'
    have hc2 : v2[i]? = some (some c) := by
      rcases hr.kept i c hvi with h' | ⟨e, he, hr'⟩ | ⟨e, he, hf⟩
      · exact h'
      · exact absurd hr' (hrem e (by simp [he]))
      · exfalso
        rcases Event.phase_of_failed hf with ⟨h3, _⟩ | ⟨_, h3⟩
        · apply hnf
          rw [← h3]
          exact he
        · rcases hr.phase_events e he with h4 | h4 <;> rw [h4] at h3 <;> cases h3
    have hmem : Event.after_reset c ∈ ta := by
      rcases ha.called_or_removed i hi c hc2 with ⟨e, he, hcb⟩ | ⟨e, he, hr'⟩
      · rw [← Event.eq_of_callback_after hcb]
        exact he
      · exact absurd hr' (hrem e (by simp [he]))
    have hle := ha.count_call hv2 (List.nodup_range _) (.after_reset c) (.after_reset c) rfl
    have hge : 1 ≤ ta.count (Event.after_reset c) := List.count_pos_iff.2 hmem
    rw [List.count_append, List.count_append, List.count_eq_zero.2 hnb,
      List.count_eq_zero.2 hnr]
    omega

/-- C22: in a `reset_device` call on a registry without duplicates, a child whose `reset`
returned false gets no `after_reset`; and when the call recreated the device, a child whose
`reset` returned true and which is not unregistered during the call gets `after_reset`
exactly once. -/
theorem after_reset_once (C : Nat → device_child_base) (fuel : Nat) (force : Bool)
    (g g' : Globals) (status : Bool) (t : List Event)
    (h : reset_device C fuel force g = .ok (status, g')) (ht : g'.trace = g.trace ++ t)
    (hnd : g.device_children.Nodup) (c : Nat) :
    (Event.reset_returned c false ∈ t → Event.after_reset c ∉ t) ∧
    (Event.init_d3d true true ∈ t → Event.reset_returned c true ∈ t →
      Event.remove_device_child c ∉ t → t.count (Event.after_reset c) = 1) := by
  rcases reset_device_trace C fuel force h ht with hno | ⟨pre, w, hw, hpre, hwalk⟩
  · refine ⟨?_, fun hinit => absurd rfl (hno _ hinit).1⟩
    intro _ hcall
    have := (hno _ hcall).2
    cases this
  · subst hw
    obtain ⟨h1, h2⟩ := hwalk.after_calls (slotsNodup_snapshot hnd) c
    have hpre_ret : ∀ b, Event.reset_returned c b ∈ pre ++ Event.init_d3d true true :: w →
        Event.reset_returned c b ∈ w := by
      intro b hm
      simp only [List.mem_append, List.mem_cons] at hm
      rcases hm with hm | hm | hm
      · have := hpre _ hm
        simp [Event.is_setup] at this
      · cases hm
      · exact hm
    have hpre_call : Event.after_reset c ∉ pre := fun hm => by
      have := hpre _ hm
      simp [Event.is_setup] at this
    constructor
    · intro hf hcall
      apply h1 (hpre_ret false hf)
      simp only [List.mem_append, List.mem_cons] at hcall
      rcases hcall with hm | hm | hm
      · exact absurd hm hpre_call
      · cases hm
      · exact hm
    · intro _ hret hrem
      have hc := h2 (hpre_ret true hret) (by
        intro e he hr
        apply hrem
        have : e = .remove_device_child c := by
          cases e <;> simp [Event.removed] at hr
          subst hr
          rfl
        rw [← this]
        simp [he])
      rw [List.count_append, List.count_cons, List.count_eq_zero.2 hpre_call, hc]
      simp

/-- Witness of C22, on the run in which the `reset` of child 2 and the `after_reset` of child
1 return false: child 2 gets no `after_reset`, children 1 and 3 get one each.  No budget
event is registered on the sample platform. -/
theorem after_reset_once_witness :
    ((Event.reset_returned 3 false ∈ failing_run.2.trace →
        Event.after_reset 3 ∉ failing_run.2.trace) ∧
      (Event.init_d3d true true ∈ failing_run.2.trace →
        Event.reset_returned 3 true ∈ failing_run.2.trace →
        Event.remove_device_child 3 ∉ failing_run.2.trace →
        failing_run.2.trace.count (Event.after_reset 3) = 1)) ∧
    Event.reset_returned 2 false ∈ failing_run.2.trace ∧
    failing_run.2.trace.count (Event.after_reset 2) = 0 ∧
    Event.reset_returned 3 true ∈ failing_run.2.trace ∧
    failing_run.2.trace.count (Event.after_reset 3) = 1 ∧
    failing_run.2.trace.count (Event.after_reset 1) = 1 ∧
    three_children.video_memory_change_event = none ∧
    reset_device failing_children 2 true three_children = .ok failing_run :=
  ⟨after_reset_once failing_children 2 true three_children failing_run.2 failing_run.1
    failing_run.2.trace rfl rfl (by decide) 3, by decide, by decide, by decide, by decide,
    by decide, rfl, rfl⟩

/-! ## A child that failed to reset -/

theorem before_reset_of_registered (C : Nat → device_child_base) (fuel : Nat) (force : Bool)
    {g g' : Globals} {status : Bool} {t : List Event}
    (h : reset_device C fuel force g = .ok (status, g')) (ht : g'.trace = g.trace ++ t)
    (hinit : Event.init_d3d true true ∈ t) :
    ∀ c ∈ g.device_children, Event.remove_device_child c ∉ t → Event.before_reset c ∈ t := by
  rcases reset_device_trace C fuel force h ht with hno | ⟨pre, w, hw, hpre, hwalk⟩
  · exact absurd rfl (hno _ hinit).1
  · subst hw
    intro c hc hrem
    obtain ⟨i, hi, hci⟩ := mem_snapshot hc
    have := (hwalk.called hi hci (by
      intro e he hr
      apply hrem
      have : e = .remove_device_child c := by
        cases e <;> simp [Event.removed] at hr
        subst hr
        rfl
      rw [← this]
      simp [he])).1
    simp [this]

theorem Run.no_call_after_failure_run {ph : Phase} {is : List Nat} {v v' : List (Option Nat)}
    {s s' : Bool} {t : List Event} (h : Run ph is v s t v' s') (hv : SlotsNodup v) :
    t.Pairwise NoCallAfterFailure := by
  induction h with
  | nil v s => exact List.Pairwise.nil
  | skip i is v s t v' s' _ _ ih => exact ih hv
  | call i is v s c d a b t v' s' hi ha hb hrun ih =>
    have hmid : Nulls v (if b then apply_removals a v else (apply_removals a v).set i none) := by
      split
      · exact nulls_apply_removals a v
      · exact (nulls_apply_removals a v).then_nulls (nulls_set_none _ i)
    rw [List.pairwise_cons]
    refine ⟨?_, ?_⟩
    · intro e' _ c' hc'
      rw [ph.failed_call] at hc'
      cases hc'
    · rw [List.pairwise_append]
      refine ⟨?_, ?_, ?_⟩
      · refine List.Pairwise.imp_of_mem ?_
          (List.pairwise_of_forall (R := fun _ _ => True) (fun _ _ => trivial))
        intro e e' he _ _ c' hc'
        rw [Event.failed_of_is_action (ha e he)] at hc'
        cases hc'
      · rw [List.pairwise_append]
        refine ⟨?_, ih (hv.of_nulls hmid), ?_⟩
        · refine List.Pairwise.imp_of_mem ?_
            (List.pairwise_of_forall (R := fun _ _ => True) (fun _ _ => trivial))
          intro e e' _ he' _ c' _ cb hcb
          rw [(ph.returned_spec c b e' he').1] at hcb
          cases hcb
        · intro e he e' he' c' hc' cb hcb hcc
          cases hbb : b with
          | true =>
            rw [hbb] at he
            rw [(ph.returned_spec c true e he).2.2.2 rfl] at hc'
            cases hc'
          | false =>
            rw [hbb] at he
            have hcc' : c' = c := by
              have hs := Event.subject_of_failed hc'
              rcases ph.subject_returned c false e he with h1 | h1
              · rw [h1] at hs
                cases hs
              · rw [h1] at hs
                cases hs
                rfl
            subst hcc'
            obtain ⟨j, hj⟩ := hrun.call_mem e' he' cb hcb
            rw [hcc, hbb] at hj
            simp only [Bool.false_eq_true, if_false] at hj
            have hne := ne_of_getElem?_set_none hj
            have h2 := nulls_apply_removals a v j _ (nulls_set_none _ i j _ hj)
            exact hne (hv i j c' hi h2)
      · intro e he e' _ c' hc'
        rw [Event.failed_of_is_action (ha e he)] at hc'
        cases hc'

theorem WalkTrace.quiet_after_failure {v : List (Option Nat)} {w : List Event}
    {status : Bool} (h : WalkTrace v w status) (hv : SlotsNodup v) :
    w.Pairwise NoCallAfterFailure := by
  obtain ⟨tb, tr, ta, v1, v2, v3, s2, hw, hb, hr, ha⟩ := h
  subst hw
  have hv1 : SlotsNodup v1 := hv.of_nulls hb.only_nulls
  have hv2 : SlotsNodup v2 := hv1.of_nulls hr.only_nulls
  rw [List.pairwise_append]
  refine ⟨hb.no_call_after_failure_run hv, ?_, ?_⟩
  · rw [List.pairwise_append]
    refine ⟨hr.no_call_after_failure_run hv1, ha.no_call_after_failure_run hv2, ?_⟩
    intro e he e' he' c hc cb hcb hcc
    obtain ⟨j, hj⟩ := ha.call_mem e' he' cb hcb
    rw [hcc] at hj
    exact hr.failed_gone hv1 e he c hc j hj
  · intro e he e' he' c hc cb hcb hcc
    rcases List.mem_append.1 he' with he' | he'
    · obtain ⟨j, hj⟩ := hr.call_mem e' he' cb hcb
      rw [hcc] at hj
      exact hb.failed_gone hv e he c hc j hj
    · obtain ⟨j, hj⟩ := ha.call_mem e' he' cb hcb
      rw [hcc] at hj
      exact hb.failed_gone hv e he c hc j (hr.only_nulls j c hj)

theorem reset_quiet_after_failure (C : Nat → device_child_base) (fuel : Nat) (force : Bool)
    {g g' : Globals} {status : Bool} {t : List Event}
    (h : reset_device C fuel force g = .ok (status, g')) (ht : g'.trace = g.trace ++ t)
    (hnodup : g.device_children.Nodup) : t.Pairwise NoCallAfterFailure := by
  rcases reset_device_trace C fuel force h ht with hno | ⟨pre, w, hw, hpre, hwalk⟩
  · refine List.Pairwise.imp_of_mem ?_
      (List.pairwise_of_forall (R := fun _ _ => True) (fun _ _ => trivial))
    intro e e' _ he' _ c _ cb hcb
    rw [(hno e' he').2] at hcb
    cases hcb
  · subst hw
    rw [List.pairwise_append]
    refine ⟨?_, ?_, ?_⟩
    · refine List.Pairwise.imp_of_mem ?_
        (List.pairwise_of_forall (R := fun _ _ => True) (fun _ _ => trivial))
      intro e e' he _ _ c hc
      rw [Event.failed_of_is_setup (hpre e he)] at hc
      cases hc
    · rw [List.pairwise_cons]
      refine ⟨?_, hwalk.quiet_after_failure (slotsNodup_snapshot hnodup)⟩
      intro e' _ c hc
      cases hc
    · intro e he e' _ c hc
      rw [Event.failed_of_is_setup (hpre e he)] at hc
      cases hc

/-- C21, as amended: a child whose `reset` or `after_reset` returns false in a `reset_device`
call on a registry without duplicates receives no further callback in that call, and the call
returns false; but `reset_device` never takes a child out of the registry: when it returns,
the registry is the one of before with the `add_device_child` and `remove_device_child` calls
of the callbacks replayed, so a child that was not unregistered during the call is still
registered, whether its `reset` or `after_reset` failed or not; and a later
`reset_device(true)` that recreates the device calls `before_reset` on every registered child
that is not unregistered during that call. -/
theorem failed_child_stays_registered (C : Nat → device_child_base) (fuel : Nat)
    (force : Bool) (g g' : Globals) (status : Bool) (t : List Event)
    (h : reset_device C fuel force g = .ok (status, g')) (ht : g'.trace = g.trace ++ t) :
    (g.device_children.Nodup →
      t.Pairwise (fun e e' => ∀ c,
        e = Event.reset_returned c false ∨ e = Event.after_reset_returned c false →
        e' ≠ Event.before_reset c ∧ (∀ d, e' ≠ Event.reset c d) ∧ e' ≠ Event.after_reset c)) ∧
    (∀ c, Event.reset_returned c false ∈ t ∨ Event.after_reset_returned c false ∈ t →
      status = false) ∧
    g'.device_children = replay t g.device_children ∧
    (∀ c ∈ g.device_children, Event.remove_device_child c ∉ t → c ∈ g'.device_children) ∧
    (∀ (fuel2 : Nat) (status2 : Bool) (g2 : Globals) (t2 : List Event),
      reset_device C fuel2 true g' = .ok (status2, g2) → g2.trace = g'.trace ++ t2 →
      Event.init_d3d true true ∈ t2 →
      ∀ c ∈ g'.device_children, Event.remove_device_child c ∉ t2 →
        Event.before_reset c ∈ t2) := by
  obtain ⟨t', ht', hc⟩ := replays_reset_device C fuel force g status g' h
  have : t' = t := List.append_cancel_left (ht'.symm.trans ht)
  subst this
  refine ⟨?_, ?_, hc, ?_, ?_⟩
  · intro hnodup
    refine (reset_quiet_after_failure C fuel force h ht hnodup).imp ?_
    intro e e' hee c hcase
    have hf : e.failed = some c := by
      rcases hcase with rfl | rfl <;> rfl
    refine ⟨?_, ?_, ?_⟩
    · intro h'
      subst h'
      exact hee c hf (.before_reset c) rfl rfl
    · intro d h'
      subst h'
      exact hee c hf (.reset c) rfl rfl
    · intro h'
      subst h'
      exact hee c hf (.after_reset c) rfl rfl
  · intro c hfail
    have hinit : Event.init_d3d true true ∈ t' := by
      rcases hfail with hm | hm
      · exact init_of_failed C fuel force h ht _ hm c rfl
      · exact init_of_failed C fuel force h ht _ hm c rfl
    exact (status_of_trace C fuel force h ht hinit).2 ⟨c, hfail⟩
  · intro c hcg hrem
    rw [hc]
    exact mem_replay c t' _ hcg hrem
  · intro fuel2 status2 g2 t2 h2 ht2 hinit
    exact before_reset_of_registered C fuel2 true h2 ht2 hinit

/-- Witness of C21, as amended, on the run in which the `reset` of child 2 and the
`after_reset` of child 1 return false: the call returns false, and the registry is the same
after the call.  No budget event is registered on the sample platform. -/
theorem failed_child_stays_registered_witness :
    ((three_children.device_children.Nodup →
      failing_run.2.trace.Pairwise (fun e e' => ∀ c,
        e = Event.reset_returned c false ∨ e = Event.after_reset_returned c false →
        e' ≠ Event.before_reset c ∧ (∀ d, e' ≠ Event.reset c d) ∧ e' ≠ Event.after_reset c)) ∧
      (∀ c, Event.reset_returned c false ∈ failing_run.2.trace ∨
          Event.after_reset_returned c false ∈ failing_run.2.trace →
        failing_run.1 = false) ∧
      failing_run.2.device_children =
        replay failing_run.2.trace three_children.device_children ∧
      (∀ c ∈ three_children.device_children,
        Event.remove_device_child c ∉ failing_run.2.trace → c ∈ failing_run.2.device_children) ∧
      (∀ (fuel2 : Nat) (status2 : Bool) (g2 : Globals) (t2 : List Event),
        reset_device failing_children fuel2 true failing_run.2 = .ok (status2, g2) →
        g2.trace = failing_run.2.trace ++ t2 → Event.init_d3d true true ∈ t2 →
        ∀ c ∈ failing_run.2.device_children, Event.remove_device_child c ∉ t2 →
          Event.before_reset c ∈ t2)) ∧
    three_children.video_memory_change_event = none ∧
    three_children.device_children = [1, 2, 3] ∧
    failing_run.1 = false ∧
    failing_run.2.device_children = [1, 2, 3] ∧
    callbacks failing_run.2.trace =
      [.before_reset 3, .before_reset 1, .before_reset 2, .reset 2, .reset 1, .reset 3,
       .after_reset 1, .after_reset 3] :=
  ⟨failed_child_stays_registered failing_children 2 true three_children failing_run.2
    failing_run.1 failing_run.2.trace rfl rfl, rfl, rfl, rfl, rfl, by decide⟩

/-- Counterexample to C21 as stated: the `reset` of child 2 fails in the first forced reset;
when that call has returned child 2 is still registered, and the second forced reset calls
`before_reset`, `reset` and (its `reset` failing again) no `after_reset` on it.  No budget
event is registered before either call. -/
theorem failed_child_stays_registered_counterexample :
    three_children.video_memory_change_event = none ∧
    reset_device failing_children 2 true three_children = .ok failing_run ∧
    Event.reset_returned 2 false ∈ failing_run.2.trace ∧
    2 ∈ failing_run.2.device_children ∧
    failing_run.2.video_memory_change_event = none ∧
    reset_device failing_children 2 true failing_run.2 = .ok failing_rerun ∧
    Event.before_reset 2 ∈ failing_rerun.2.trace.drop failing_run.2.trace.length ∧
    Event.reset 2 1 ∈ failing_rerun.2.trace.drop failing_run.2.trace.length :=
  ⟨rfl, rfl, by decide, by decide, rfl, rfl, by decide, by decide⟩

/-! ## The order of the callbacks -/

theorem filterMap_nulls (f : Nat → Callback) {v v' : List (Option Nat)} (h : Nulls v v') :
    ∀ is : List Nat, (is.filterMap (fun i => (v'[i]?.getD none).map f)).Sublist
      (is.filterMap (fun i => (v[i]?.getD none).map f))
  | [] => List.Sublist.slnil
  | i :: is => by
    have ih := filterMap_nulls f h is
    rw [List.filterMap_cons, List.filterMap_cons]
    rcases hv' : v'[i]? with _ | _ | c
    · simp only [Option.getD_none, Option.map_none']
      split
      · exact ih
      · exact List.Sublist.cons _ ih
    · simp only [Option.getD_some, Option.map_none']
      split
      · exact ih
      · exact List.Sublist.cons _ ih
    · have hv : v[i]? = some (some c) := h i c hv'
      simp only [hv, Option.getD_some, Option.map_some']
      exact List.Sublist.cons₂ _ ih

theorem Run.callbacks_sublist {ph : Phase} {is : List Nat} {v v' : List (Option Nat)}
    {s s' : Bool} {t : List Event} (h : Run ph is v s t v' s') :
    (callbacks t).Sublist (is.filterMap (fun i => (v[i]?.getD none).map ph.callback)) := by
  induction h with
  | nil v s => exact List.Sublist.slnil
  | skip i0 is v s t v' s' hskip _ ih =>
    have : (v[i0]?.getD none).map ph.callback = none := by
      rcases hv : v[i0]? with _ | _ | c
      · rfl
      · rfl
      · exact absurd hv (hskip c)
    rw [List.filterMap_cons]
    simp only [this]
    exact ih
  | call i0 is v s c0 d a b t v' s' hi0 ha hb hrun ih =>
    have hmid : Nulls v (if b then apply_removals a v else (apply_removals a v).set i0 none) := by
      split
      · exact nulls_apply_removals a v
      · exact (nulls_apply_removals a v).then_nulls (nulls_set_none _ i0)
    have hca : callbacks a = [] :=
      callbacks_eq_nil (fun e he => Event.callback_of_is_action (ha e he))
    have hcr : callbacks (ph.returned c0 b) = [] :=
      callbacks_eq_nil (fun e he => (ph.returned_spec c0 b e he).1)
    have hhead : callbacks (ph.call c0 d :: (a ++ (ph.returned c0 b ++ t))) =
        ph.callback c0 :: callbacks t := by
      show callbacks ([ph.call c0 d] ++ (a ++ (ph.returned c0 b ++ t))) = _
      rw [callbacks_append, callbacks_append, callbacks_append, hca, hcr]
      simp [callbacks, ph.callback_call]
    rw [hhead, List.filterMap_cons]
    simp only [hi0, Option.getD_some, Option.map_some']
    exact List.Sublist.cons₂ _ (ih.trans (filterMap_nulls ph.callback hmid is))

theorem WalkTrace.walk_sublist {l : List Nat} {w : List Event} {status : Bool}
    (h : WalkTrace (l.map some) w status) : (callbacks w).Sublist (full_walk l) := by
  obtain ⟨tb, tr, ta, v1, v2, v3, s2, hw, hb, hr, ha⟩ := h
  subst hw
  have c1 := hb.callbacks_sublist
  have c2 := hr.callbacks_sublist.trans (filterMap_nulls Phase.reset.callback hb.only_nulls _)
  have c3 := ha.callbacks_sublist.trans (filterMap_nulls Phase.after.callback
    (hb.only_nulls.then_nulls hr.only_nulls) _)
  rw [List.filterMap_reverse, filterMap_range_map_some] at c1
  rw [filterMap_range_map_some] at c2 c3
  rw [callbacks_append, callbacks_append]
  unfold full_walk
  rw [List.map_reverse]
  exact List.Sublist.append c1 (List.Sublist.append c2 c3)

/-- C25: the callbacks of a `reset_device` call are called in the order of a full walk over
the registry sorted by priority (`before_reset` from last to first, then `reset` and
`after_reset` from first to last), some possibly left out; and the sort is stable: the
children of one priority stand in the sorted registry in the order of their registration.  So
among children of equal priority `reset` and `after_reset` go in registration order and
`before_reset` in the reverse of it. -/
theorem equal_priority_order (C : Nat → device_child_base) (fuel : Nat) (force : Bool)
    (g g' : Globals) (status : Bool) (t : List Event)
    (h : reset_device C fuel force g = .ok (status, g')) (ht : g'.trace = g.trace ++ t) :
    (callbacks t).Sublist (full_walk (sorted_registry g)) ∧
    (∀ p : Int, (g.device_children.filter
      (fun c => decide (g.device_child_reset_priority_ c = p))).Sublist (sorted_registry g)) ∧
    (∀ a b, [a, b].Sublist g.device_children →
      g.device_child_reset_priority_ a = g.device_child_reset_priority_ b →
      [a, b].Sublist (sorted_registry g)) := by
  refine ⟨?_, ?_, ?_⟩
  · rcases reset_device_trace C fuel force h ht with hno | ⟨pre, w, hw, hpre, hwalk⟩
    · rw [callbacks_eq_nil (fun e he => (hno e he).2)]
      exact List.nil_sublist _
    · subst hw
      rw [snapshot_eq] at hwalk
      rw [callbacks_append, callbacks_eq_nil
        (fun e he => (Event.init_ne_of_is_setup (hpre e he)).2)]
      show (callbacks w).Sublist _
      exact hwalk.walk_sublist
  · intro p
    apply List.sublist_insertionSort
    · rw [List.pairwise_filter]
      apply List.pairwise_of_forall
      intro a b ha hb
      have ha' : g.device_child_reset_priority_ a = p := by simpa using ha
      have hb' : g.device_child_reset_priority_ b = p := by simpa using hb
      rw [ha', hb']
    · exact List.filter_sublist _
  · intro a b hab hp
    exact List.pair_sublist_insertionSort (le_of_eq hp) hab

/-- Witness of C25, on children 1, 2, 3, 4 with priorities 5, 7, 5, 5: the children of
priority 5 get `reset` and `after_reset` in the order 1, 3, 4 and `before_reset` in the order
4, 3, 1.  No budget event is registered on the sample platform. -/
theorem equal_priority_order_witness :
    ((callbacks four_run.2.trace).Sublist (full_walk (sorted_registry four_children)) ∧
      (∀ p : Int, (four_children.device_children.filter
        (fun c => decide (four_children.device_child_reset_priority_ c = p))).Sublist
          (sorted_registry four_children)) ∧
      (∀ a b, [a, b].Sublist four_children.device_children →
        four_children.device_child_reset_priority_ a =
          four_children.device_child_reset_priority_ b →
        [a, b].Sublist (sorted_registry four_children))) ∧
    four_children.device_children = [1, 2, 3, 4] ∧
    sorted_registry four_children = [1, 3, 4, 2] ∧
    callbacks four_run.2.trace =
      [.before_reset 2, .before_reset 4, .before_reset 3, .before_reset 1,
       .reset 1, .reset 3, .reset 4, .reset 2,
       .after_reset 1, .after_reset 3, .after_reset 4, .after_reset 2] ∧
    four_children.video_memory_change_event = none ∧
    reset_device (fun _ => quiet_child) 2 true four_children = .ok four_run :=
  ⟨equal_priority_order (fun _ => quiet_child) 2 true four_children four_run.2 four_run.1
    four_run.2.trace rfl rfl, rfl, by decide, by decide, rfl, rfl⟩

end ff
